import Mathlib

/-!
# Paging unit of the Bochs x86 emulator (`cpu/paging.cc`)

A shallow embedding of `BX_CPU_C::translate_linear`, `BX_CPU_C::page_fault`,
`BX_CPU_C::TLB_init`, `BX_CPU_C::TLB_invlpg`, `BX_CPU_C::TLB_flush`,
`BX_CPU_C::INVLPG`, `BX_CPU_C::access_linear`, `BX_CPU_C::dbg_xlate_linear2phy`
and the control-register hooks, followed by what is proved about them.

Build configuration embedded here: `BX_CPU_LEVEL >= 4`, `BX_USE_TLB`,
`BX_SUPPORT_PAE`, `BX_SUPPORT_X86_64`, `BX_SUPPORT_LARGE_PAGES`,
`BX_SUPPORT_GLOBAL_PAGES`, `BX_SupportGuest2HostTLB`, `BX_LITTLE_ENDIAN`,
`InstrumentTLB = 0`, `BX_X86_DEBUGGER = 0`, and one of `BX_DEBUGGER`, `BX_DISASM`,
`BX_INSTRUMENTATION`, `BX_GDBSTUB` (for `dbg_xlate_linear2phy`).

Machine integers are natural numbers.  In `translate_linear` the casts to
`bx_phy_address` of the source are the identity on every value that reaches
them: a table entry with one of the bits 51..32 set stops the walk
(`BX_PANIC`) before its frame is used, and the remaining operands are masked
constants.  Where the source adds to a linear address (`INVLPG`,
`access_linear`) or casts one to `bx_phy_address` (`access_linear` with paging
off), the reduction modulo 2^64 or 2^32 is written out, as it is for the
`bx_phy_address` arithmetic of `dbg_xlate_linear2phy`, which has no such check.
-/

namespace Bochs

/-! ## Constants of `paging.cc` -/

/-- Line 288: `#define BX_INVALID_TLB_ENTRY 0xffffffff`. -/
def BX_INVALID_TLB_ENTRY : Nat := 0xffffffff

/-- Lines 290-294: `BX_PRIV_CHECK_SIZE` for `BX_CPU_LEVEL >= 4`. -/
def BX_PRIV_CHECK_SIZE : Nat := 32

def TLB_WriteUserOK : Nat := 0x8000
def TLB_WriteSysOK : Nat := 0x7000
def TLB_ReadUserOK : Nat := 0x0800
def TLB_ReadSysOK : Nat := 0x0700
def TLB_WriteUserPtrOK : Nat := 0x0080
def TLB_WriteSysPtrOK : Nat := 0x0070
def TLB_ReadUserPtrOK : Nat := 0x0008
def TLB_ReadSysPtrOK : Nat := 0x0007
def TLB_GlobalPage : Nat := 0x80000000

def ERROR_NOT_PRESENT : Nat := 0x00
def ERROR_PROTECTION : Nat := 0x01
def ERROR_RESERVED : Nat := 0x08
def ERROR_CODE_ACCESS : Nat := 0x10

def PAGING_PML4_RESERVED_BITS : Nat := 0x00000180
def PAGING_PDPE_RESERVED_BITS : Nat := 0x00000180
def PAGE_DIRECTORY_NX_BIT : Nat := 0x8000000000000000

/-! ## Declarations that live outside `paging.cc` -/

/-- Modelled from the spec: the access kinds `read`, `write`, `rw` of section 4.1
(`BX_READ`, `BX_WRITE`, `BX_RW` are declared in a header that is not part of the
sources); line 630 tests `rw >= BX_WRITE` for "write or r-m-w". -/
def BX_READ : Nat := 0

/-- Modelled from the spec: the access kind `write` (see `BX_READ`). -/
def BX_WRITE : Nat := 1

/-- Modelled from the spec: the access kind `rw`, read-modify-write (see `BX_READ`). -/
def BX_RW : Nat := 2

/-- Modelled from the spec: the access purpose `{data, code}` of section 4.1
(`CODE_ACCESS` and `DATA_ACCESS` are declared in a header that is not part of the
sources; only their being different is used). -/
inductive AccessType where
  | CODE_ACCESS
  | DATA_ACCESS
deriving DecidableEq, Repr

/-- Modelled from the spec: section 6, "`#PF` vector is architectural 14". -/
def BX_PF_EXCEPTION : Nat := 14

/-- Modelled from the spec: section 6, "`#GP` is 13". -/
def BX_GP_EXCEPTION : Nat := 13

/-- Modelled from the spec: section 4.3, the TLB size "is implementation-defined
but fixed" (`BX_TLB_SIZE` is declared in a header that is not part of the
sources). -/
def BX_TLB_SIZE : Nat := 1024

/-- Modelled from the spec: glossary, "linear page frame (lpf): linear address
with the low 12 bits cleared" (the macro `LPFOf` is declared elsewhere). -/
def LPFOf (laddr : Nat) : Nat := laddr - laddr % 4096

/-- Modelled from the spec: section 4.3, the TLB is "direct-mapped by the low bits
of the linear page frame" (the macro `BX_TLB_INDEX_OF` is declared elsewhere). -/
def BX_TLB_INDEX_OF (lpf len : Nat) : Nat := ((lpf + len) / 4096) % BX_TLB_SIZE

/-- Modelled from the spec: section 4.5, `page_offset = laddr & 0xFFF`. -/
def PAGE_OFFSET (laddr : Nat) : Nat := laddr &&& 0xfff

/-! ## Guest physical memory (the memory collaborator) -/

/-- One byte of guest memory. -/
abbrev Byte := Fin 256

/-- The byte holding the low eight bits of `x`. -/
def byteOf (x : Nat) : Byte := ⟨x % 256, Nat.mod_lt x (by decide)⟩

/-- Guest physical memory: one byte per physical address. -/
abbrev Mem := Nat → Byte

/-- Little-endian value of the `len` bytes at `addr`. -/
def readLE (m : Mem) (addr : Nat) : Nat → Nat
  | 0 => 0
  | len + 1 => (m addr).val + 256 * readLE m (addr + 1) len

/-- Memory after storing the low `len` bytes of `val` at `addr`, little-endian. -/
def writeLE (m : Mem) (addr len val : Nat) : Mem :=
  fun a => if addr ≤ a ∧ a < addr + len then byteOf (val / 256 ^ (a - addr)) else m a

/-- A call received by the memory collaborator. -/
inductive MemOp where
  | read (addr len : Nat)
  | write (addr len val : Nat)
deriving DecidableEq, Repr

/-! ## CPU state -/

/-- One TLB slot (lines 313-377). -/
structure bx_TLB_entry where
  lpf : Nat
  ppf : Nat
  hostPageAddr : Nat
  accessBits : Nat
deriving DecidableEq, Repr

/-- The part of `BX_CPU_C` (and of its collaborators) that `paging.cc` reads or
writes.  The control-register flags are the results of the accessors
`cr0.get_PG()`, `cr0.get_WP()`, `cr4.get_PSE()`, `cr4.get_PAE()`, `cr4.get_PGE()`,
`efer.nxe`, `long_mode()`, `real_mode()` and `CPL`. -/
structure BX_CPU_C where
  cr0_PG : Bool
  cr0_WP : Bool
  cr4_PSE : Bool
  cr4_PAE : Bool
  cr4_PGE : Bool
  efer_nxe : Bool
  long_mode : Bool
  real_mode : Bool
  CPL : Nat
  cr2 : Nat
  cr3 : Nat
  cr3_masked : Nat
  TLB : Nat → bx_TLB_entry
  /-- Guest physical memory behind `mem->readPhysicalPage` / `writePhysicalPage`. -/
  mem : Mem
  /-- Calls made to the memory collaborator so far, oldest first. -/
  trace : List MemOp
  /-- Result of `mem->getHostMemAddr(cpu, paddr, rw, access_type)`; 0 is `NULL`. -/
  getHostMemAddr : Nat → Nat → AccessType → Nat
  /-- Mask applied by the macro `A20ADDR`. -/
  a20_mask : Nat

/-- The macro `A20ADDR`, applied to the argument of `getHostMemAddr`. -/
def A20ADDR (s : BX_CPU_C) (x : Nat) : Nat := x &&& s.a20_mask

/-- The call `mem->readPhysicalPage(cpu, addr, len, &v)`. -/
def readPhysicalPage (s : BX_CPU_C) (addr len : Nat) : Nat × BX_CPU_C :=
  (readLE s.mem addr len, { s with trace := s.trace ++ [MemOp.read addr len] })

/-- The call `mem->writePhysicalPage(cpu, addr, len, &v)`. -/
def writePhysicalPage (s : BX_CPU_C) (addr len val : Nat) : BX_CPU_C :=
  { s with mem := writeLE s.mem addr len val,
           trace := s.trace ++ [MemOp.write addr len val] }

/-- How a call into the paging unit ends: it returns a value, it delivers an
exception through `exception(vector, error_code, 0)` (which does not return), or
it stops in `BX_PANIC`. -/
inductive Outcome (α : Type) where
  | ok (val : α)
  | exception (vector error_code : Nat)
  | panic
deriving DecidableEq, Repr

/-! ## `TLB_init` and the privilege check matrix (lines 483-523) -/

/-- Body of the loop at lines 495-522: the value stored into `priv_check[i]`. -/
def priv_check_entry (i : Nat) : Nat :=
  let wp := (i &&& 0x10) >>> 4
  let us_current := (i &&& 0x08) >>> 3
  let us_combined := (i &&& 0x04) >>> 2
  let rw_combined := (i &&& 0x02) >>> 1
  let rw_current := (i &&& 0x01) >>> 0
  if wp ≠ 0 then
    if us_current > us_combined then 0
    else if rw_current > rw_combined then 0
    else 1
  else
    if us_current = 0 then 1
    else
      if us_combined = 0 then 0
      else if rw_current > rw_combined then 0
      else 1

/-- The static array `priv_check` as `TLB_init` leaves it: the loop of lines
495-522 run for `i = 0 .. BX_PRIV_CHECK_SIZE - 1`. -/
def priv_check_table : List Nat := (List.range BX_PRIV_CHECK_SIZE).map priv_check_entry

/-- The read `priv_check[i]`.  The array is written by `TLB_init` only, which runs
at start-up, so every translation reads the table built there. -/
def priv_check (i : Nat) : Nat := priv_check_table.getD i 0

/-- The function `TLB_init`, lines 487-490: every TLB slot is marked invalid (the privilege
check matrix it builds is `priv_check_table`). -/
def TLB_init (s : BX_CPU_C) : BX_CPU_C :=
  { s with TLB := fun i =>
      if i < BX_TLB_SIZE then { (s.TLB i) with lpf := BX_INVALID_TLB_ENTRY } else s.TLB i }

/-- The function `TLB_invlpg`, lines 552-559. -/
def TLB_invlpg (s : BX_CPU_C) (laddr : Nat) : BX_CPU_C :=
  let TLB_index := BX_TLB_INDEX_OF laddr 0
  let tlbEntry : bx_TLB_entry := { (s.TLB TLB_index) with lpf := BX_INVALID_TLB_ENTRY }
  { s with TLB := Function.update s.TLB TLB_index tlbEntry }

/-- The function `page_fault`, lines 593-614: builds the error code, stores CR2, invalidates
the TLB slot of `laddr` and delivers `#PF`. -/
def page_fault (s : BX_CPU_C) (fault laddr user rw : Nat)
    (access_type : AccessType) : Outcome Nat × BX_CPU_C :=
  let error_code := fault ||| ((user <<< 2) ||| (rw <<< 1))
  let error_code :=
    if s.efer_nxe ∧ access_type = AccessType.CODE_ACCESS then error_code ||| ERROR_CODE_ACCESS
    else error_code
  let s := { s with cr2 := laddr }
  let s := TLB_invlpg s laddr
  (Outcome.exception BX_PF_EXCEPTION error_code, s)

/-! ## TLB flushes and control-register hooks (lines 429-550) -/

/-- Lines 538-547: the body of the loop of `TLB_flush` on one slot. -/
def TLB_flush_entry (invalidateGlobal : Nat) (tlbEntry : bx_TLB_entry) : bx_TLB_entry :=
  if tlbEntry.lpf ≠ BX_INVALID_TLB_ENTRY then
    if invalidateGlobal ≠ 0 ∨ (tlbEntry.accessBits &&& TLB_GlobalPage) = 0 then
      { tlbEntry with lpf := BX_INVALID_TLB_ENTRY }
    else tlbEntry
  else tlbEntry

/-- Lines 535-548: the loop of `TLB_flush` after its first `n` iterations
(`i = 0 .. n - 1`). -/
def TLB_flush_loop (invalidateGlobal : Nat) : Nat → (Nat → bx_TLB_entry) → (Nat → bx_TLB_entry)
  | 0, tlb => tlb
  | n + 1, tlb =>
    let tlb1 := TLB_flush_loop invalidateGlobal n tlb
    Function.update tlb1 n (TLB_flush_entry invalidateGlobal (tlb1 n))

/-- The function `TLB_flush`, lines 525-550. -/
def TLB_flush (s : BX_CPU_C) (invalidateGlobal : Nat) : BX_CPU_C :=
  { s with TLB := TLB_flush_loop invalidateGlobal BX_TLB_SIZE s.TLB }

/-- Lines 454-457 and 474-478: `cr3_masked` for the CR3 value `value`. -/
def cr3_mask_of (s : BX_CPU_C) (value : Nat) : Nat :=
  if s.cr4_PAE = true ∧ s.long_mode = false then value &&& 0xffffffe0
  else value &&& 0x000ffffffffff000

/-- The function `CR3_change`, lines 462-479. -/
def CR3_change (s : BX_CPU_C) (value : Nat) : BX_CPU_C :=
  let s := TLB_flush s 0
  let s := { s with cr3 := value }
  { s with cr3_masked := cr3_mask_of s value }

/-- The function `pagingCR4Changed`, lines 442-460. -/
def pagingCR4Changed (s : BX_CPU_C) (oldCR4 newCR4 : Nat) : BX_CPU_C :=
  let s := if (oldCR4 &&& 0x000000b0) ≠ (newCR4 &&& 0x000000b0) then TLB_flush s 1 else s
  if (oldCR4 &&& 0x00000020) ≠ (newCR4 &&& 0x00000020) then
    { s with cr3_masked := cr3_mask_of s s.cr3 }
  else s

/-- The function `pagingCR0Changed`, lines 429-440. -/
def pagingCR0Changed (s : BX_CPU_C) (oldCR0 newCR0 : Nat) : BX_CPU_C :=
  if (oldCR0 &&& 0x80010001) ≠ (newCR0 &&& 0x80010001) then TLB_flush s 1 else s

/-! ## `translate_linear` (lines 622-1038)

The function is split at its branch points; each piece names the lines it
embeds.  `pl` and `isWrite` are the locals of lines 630-632 (0 or 1), `rw` and
`access_type` the arguments.  A call of `page_fault` ends the translation, since
`exception` does not return. -/

/-- Lines 984-1037: the physical address, the TLB fill and the return. -/
def tlb_fill (s : BX_CPU_C) (laddr ppf combined_access rw isWrite : Nat)
    (access_type : AccessType) : Outcome Nat × BX_CPU_C :=
  let poffset := laddr &&& 0x00000fff
  let lpf := LPFOf laddr
  let TLB_index := BX_TLB_INDEX_OF lpf 0
  let paddress := ppf ||| poffset
  let accessBits :=
    if combined_access &&& 4 ≠ 0 then
      if isWrite ≠ 0 then
        if combined_access &&& 2 ≠ 0 then
          (TLB_ReadUserOK ||| TLB_ReadSysOK) ||| (TLB_WriteUserOK ||| TLB_WriteSysOK)
        else
          (TLB_ReadUserOK ||| TLB_ReadSysOK) ||| TLB_WriteSysOK
      else
        TLB_ReadUserOK ||| TLB_ReadSysOK
    else
      if isWrite ≠ 0 then TLB_ReadSysOK ||| TLB_WriteSysOK else TLB_ReadSysOK
  let accessBits := accessBits ||| (combined_access &&& TLB_GlobalPage)
  let hostPageAddr := s.getHostMemAddr (A20ADDR s ppf) rw access_type
  let accessBits :=
    if hostPageAddr ≠ 0 then accessBits ||| ((accessBits &&& 0xff00) >>> 8) else accessBits
  let tlbEntry : bx_TLB_entry :=
    { lpf := lpf, ppf := ppf, hostPageAddr := hostPageAddr, accessBits := accessBits }
  (Outcome.ok paddress, { s with TLB := Function.update s.TLB TLB_index tlbEntry })

/-- The index into `priv_check` (lines 784-790, 849-855, 911-917, 959-965). -/
def priv_index (s : BX_CPU_C) (pl combined_access isWrite : Nat) : Nat :=
  ((s.cr0_WP.toNat <<< 4) ||| (pl <<< 3)) ||| (combined_access &&& 0x06) ||| isWrite

/-- Lines 796-799, 861-870 and 971-974: "Update A bit if needed" of an entry of
`len` bytes read as `e` from `addr`. -/
def update_A (s : BX_CPU_C) (addr len e : Nat) : BX_CPU_C :=
  if (e &&& 0x20) = 0 then writePhysicalPage s addr len (e ||| 0x20) else s

/-- Lines 802-805, 873-876, 923-926 and 977-980: "Update A/D bits if needed" of
the leaf entry of `len` bytes read as `e` from `addr`. -/
def update_AD (s : BX_CPU_C) (addr len e isWrite : Nat) : BX_CPU_C :=
  if (e &&& 0x20) = 0 ∨ (isWrite ≠ 0 ∧ (e &&& 0x40) = 0) then
    writePhysicalPage s addr len (e ||| (0x20 ||| (isWrite <<< 6)))
  else s

/-- Lines 896-927: non-PAE 4M page, entered with a present PDE that has PS set
while CR4.PSE is on. -/
def legacy_4m (s : BX_CPU_C) (laddr pl isWrite rw : Nat) (access_type : AccessType)
    (pde_addr pde : Nat) : Outcome Nat × BX_CPU_C :=
  let combined_access := pde &&& 0x06
  let ppf := (pde &&& 0xffc00000) ||| (laddr &&& 0x003ff000)
  let combined_access :=
    if s.cr4_PGE then combined_access ||| (pde &&& TLB_GlobalPage) else combined_access
  if priv_check (priv_index s pl combined_access isWrite) = 0 then
    page_fault s ERROR_PROTECTION laddr pl isWrite access_type
  else
    let s := update_AD s pde_addr 4 pde isWrite
    tlb_fill s laddr ppf combined_access rw isWrite access_type

/-- Lines 941-981: non-PAE 4K page, entered with a present PDE and a present
PTE. -/
def legacy_4k_finish (s : BX_CPU_C) (laddr pl isWrite rw : Nat) (access_type : AccessType)
    (pde_addr pde pte_addr pte : Nat) : Outcome Nat × BX_CPU_C :=
  let combined_access := (pde &&& pte) &&& 0x06
  let ppf := pte &&& 0xfffff000
  let combined_access :=
    if s.cr4_PGE then combined_access ||| (pte &&& TLB_GlobalPage) else combined_access
  if priv_check (priv_index s pl combined_access isWrite) = 0 then
    page_fault s ERROR_PROTECTION laddr pl isWrite access_type
  else
    let s := update_A s pde_addr 4 pde
    let s := update_AD s pte_addr 4 pte isWrite
    tlb_fill s laddr ppf combined_access rw isWrite access_type

/-- Lines 930-981: non-PAE 4K page, entered with a present PDE. -/
def legacy_4k (s : BX_CPU_C) (laddr pl isWrite rw : Nat) (access_type : AccessType)
    (pde_addr pde : Nat) : Outcome Nat × BX_CPU_C :=
  let pte_addr := (pde &&& 0xfffff000) ||| ((laddr &&& 0x003ff000) >>> 10)
  let r := readPhysicalPage s pte_addr 4
  let pte := r.1
  let s := r.2
  if (pte &&& 0x01) = 0 then
    page_fault s ERROR_NOT_PRESENT laddr pl isWrite access_type
  else
    legacy_4k_finish s laddr pl isWrite rw access_type pde_addr pde pte_addr pte

/-- Lines 883-981: the walk with CR4.PAE = 0. -/
def legacy_walk (s : BX_CPU_C) (laddr pl isWrite rw : Nat) (access_type : AccessType) :
    Outcome Nat × BX_CPU_C :=
  let pde_addr := s.cr3_masked ||| ((laddr &&& 0xffc00000) >>> 20)
  let r := readPhysicalPage s pde_addr 4
  let pde := r.1
  let s := r.2
  if (pde &&& 0x01) = 0 then
    page_fault s ERROR_NOT_PRESENT laddr pl isWrite access_type
  else if (pde &&& 0x80) ≠ 0 ∧ s.cr4_PSE then
    legacy_4m s laddr pl isWrite rw access_type pde_addr pde
  else
    legacy_4k s laddr pl isWrite rw access_type pde_addr pde

/-- Lines 687-696, 726-735, 751-760, 819-828: `nx_fault` after an entry whose NX
bit is legal has been examined. -/
def nx_upd (e : Nat) (access_type : AccessType) (nx_fault : Nat) : Nat :=
  if (e &&& PAGE_DIRECTORY_NX_BIT) ≠ 0 ∧ access_type = AccessType.CODE_ACCESS then 1
  else nx_fault

/-- Lines 767-806: PAE or long mode 2M page, entered with a checked PDE that has
PS set.  `pml4` is read only in long mode. -/
def pae_2m (s : BX_CPU_C) (laddr pl isWrite rw : Nat) (access_type : AccessType)
    (pml4 pdpe_addr pdpe pde_addr pde nx_fault : Nat) : Outcome Nat × BX_CPU_C :=
  let combined_access := pde &&& 0x06
  let combined_access :=
    if s.long_mode then combined_access &&& ((pml4 &&& pdpe) &&& 0x06) else combined_access
  let ppf := (pde &&& 0x000fffffffe00000) ||| (laddr &&& 0x001ff000)
  let combined_access :=
    if s.cr4_PGE then combined_access ||| (pde &&& TLB_GlobalPage) else combined_access
  if priv_check (priv_index s pl combined_access isWrite) = 0 ∨ nx_fault ≠ 0 then
    page_fault s ERROR_PROTECTION laddr pl isWrite access_type
  else
    let s := update_A s pdpe_addr 8 pdpe
    let s := update_AD s pde_addr 8 pde isWrite
    tlb_fill s laddr ppf combined_access rw isWrite access_type

/-- Lines 834-877: PAE or long mode 4K page, entered with a checked PDE that has
PS clear and a checked PTE.  `pml4` is read only in long mode. -/
def pae_4k_finish (s : BX_CPU_C) (laddr pl isWrite rw : Nat) (access_type : AccessType)
    (pml4 pdpe_addr pdpe pde_addr pde pte_addr pte nx_fault : Nat) : Outcome Nat × BX_CPU_C :=
  let combined_access := (pde &&& pte) &&& 0x06
  let combined_access :=
    if s.long_mode then combined_access &&& ((pml4 &&& pdpe) &&& 0x06) else combined_access
  let ppf := pte &&& 0x000ffffffffff000
  let combined_access :=
    if s.cr4_PGE then combined_access ||| (pte &&& TLB_GlobalPage) else combined_access
  if priv_check (priv_index s pl combined_access isWrite) = 0 ∨ nx_fault ≠ 0 then
    page_fault s ERROR_PROTECTION laddr pl isWrite access_type
  else
    let s := update_A s pdpe_addr 8 pdpe
    let s := update_A s pde_addr 8 pde
    let s := update_AD s pte_addr 8 pte isWrite
    tlb_fill s laddr ppf combined_access rw isWrite access_type

/-- Lines 807-877: PAE or long mode 4K page, entered with a checked PDE that has
PS clear.  `pml4` is read only in long mode. -/
def pae_4k (s : BX_CPU_C) (laddr pl isWrite rw : Nat) (access_type : AccessType)
    (pml4 pdpe_addr pdpe pde_addr pde nx_fault : Nat) : Outcome Nat × BX_CPU_C :=
  let pte_addr := (pde &&& 0x000ffffffffff000) ||| ((laddr &&& 0x001ff000) >>> 9)
  let r := readPhysicalPage s pte_addr 8
  let pte := r.1
  let s := r.2
  if (pte &&& 0x01) = 0 then
    page_fault s ERROR_NOT_PRESENT laddr pl isWrite access_type
  else if (pte &&& PAGE_DIRECTORY_NX_BIT) ≠ 0 ∧ s.efer_nxe = false then
    page_fault s (ERROR_RESERVED ||| ERROR_PROTECTION) laddr pl isWrite access_type
  else
    let nx_fault := nx_upd pte access_type nx_fault
    if (pte &&& 0x000fffff00000000) ≠ 0 then (Outcome.panic, s)
    else
      pae_4k_finish s laddr pl isWrite rw access_type pml4 pdpe_addr pdpe pde_addr pde
        pte_addr pte nx_fault

/-- Lines 741-877: the PDE level of a PAE or long mode walk, entered with a
checked PDPE. -/
def pae_pde (s : BX_CPU_C) (laddr pl isWrite rw : Nat) (access_type : AccessType)
    (pml4 pdpe_addr pdpe nx_fault : Nat) : Outcome Nat × BX_CPU_C :=
  let pde_addr := (pdpe &&& 0x000ffffffffff000) ||| ((laddr &&& 0x3fe00000) >>> 18)
  let r := readPhysicalPage s pde_addr 8
  let pde := r.1
  let s := r.2
  if (pde &&& 0x01) = 0 then
    page_fault s ERROR_NOT_PRESENT laddr pl isWrite access_type
  else if (pde &&& PAGE_DIRECTORY_NX_BIT) ≠ 0 ∧ s.efer_nxe = false then
    page_fault s (ERROR_RESERVED ||| ERROR_PROTECTION) laddr pl isWrite access_type
  else
    let nx_fault := nx_upd pde access_type nx_fault
    if (pde &&& 0x000fffff00000000) ≠ 0 then (Outcome.panic, s)
    else if (pde &&& 0x80) ≠ 0 then
      pae_2m s laddr pl isWrite rw access_type pml4 pdpe_addr pdpe pde_addr pde nx_fault
    else
      pae_4k s laddr pl isWrite rw access_type pml4 pdpe_addr pdpe pde_addr pde nx_fault

/-- Lines 715-877: the PDPE level of a PAE or long mode walk. -/
def pae_pdpe (s : BX_CPU_C) (laddr pl isWrite rw : Nat) (access_type : AccessType)
    (pml4 pdpe_addr nx_fault : Nat) : Outcome Nat × BX_CPU_C :=
  let r := readPhysicalPage s pdpe_addr 8
  let pdpe := r.1
  let s := r.2
  if (pdpe &&& 0x01) = 0 then
    page_fault s ERROR_NOT_PRESENT laddr pl isWrite access_type
  else if (pdpe &&& PAGING_PDPE_RESERVED_BITS) ≠ 0 then
    page_fault s (ERROR_RESERVED ||| ERROR_PROTECTION) laddr pl isWrite access_type
  else if (pdpe &&& PAGE_DIRECTORY_NX_BIT) ≠ 0 ∧ s.efer_nxe = false then
    page_fault s (ERROR_RESERVED ||| ERROR_PROTECTION) laddr pl isWrite access_type
  else
    let nx_fault := nx_upd pdpe access_type nx_fault
    if (pdpe &&& 0x000fffff00000000) ≠ 0 then (Outcome.panic, s)
    else pae_pde s laddr pl isWrite rw access_type pml4 pdpe_addr pdpe nx_fault

/-- Lines 672-708 and on: the PML4 level of a long mode walk. -/
def long_pml4 (s : BX_CPU_C) (laddr pl isWrite rw : Nat) (access_type : AccessType) :
    Outcome Nat × BX_CPU_C :=
  let pml4_addr := s.cr3_masked ||| ((laddr &&& 0x0000ff8000000000) >>> 36)
  let r := readPhysicalPage s pml4_addr 8
  let pml4 := r.1
  let s := r.2
  if (pml4 &&& 0x01) = 0 then
    page_fault s ERROR_NOT_PRESENT laddr pl isWrite access_type
  else if (pml4 &&& PAGING_PML4_RESERVED_BITS) ≠ 0 then
    page_fault s (ERROR_RESERVED ||| ERROR_PROTECTION) laddr pl isWrite access_type
  else if (pml4 &&& PAGE_DIRECTORY_NX_BIT) ≠ 0 ∧ s.efer_nxe = false then
    page_fault s (ERROR_RESERVED ||| ERROR_PROTECTION) laddr pl isWrite access_type
  else
    let nx_fault := nx_upd pml4 access_type 0
    if (pml4 &&& 0x000fffff00000000) ≠ 0 then (Outcome.panic, s)
    else
      let pml4w := if (pml4 &&& 0x20) = 0 then pml4 ||| 0x20 else pml4
      let s := if (pml4 &&& 0x20) = 0 then writePhysicalPage s pml4_addr 8 pml4w else s
      let pdpe_addr := (pml4w &&& 0x000ffffffffff000) ||| ((laddr &&& 0x0000007fc0000000) >>> 27)
      pae_pdpe s laddr pl isWrite rw access_type pml4w pdpe_addr nx_fault

/-- Lines 662-878: the walk with CR4.PAE = 1.  Outside long mode `pml4` is never
read (its uses are under `long_mode()`); 0 stands for it. -/
def pae_walk (s : BX_CPU_C) (laddr pl isWrite rw : Nat) (access_type : AccessType) :
    Outcome Nat × BX_CPU_C :=
  if s.long_mode then long_pml4 s laddr pl isWrite rw access_type
  else
    let pdpe_addr := s.cr3_masked ||| ((laddr &&& 0xc0000000) >>> 27)
    pae_pdpe s laddr pl isWrite rw access_type 0 pdpe_addr 0

/-- Line 630: `isWrite = (rw >= BX_WRITE)`, write or read-modify-write. -/
def isWrite_of (rw : Nat) : Nat := if rw ≥ BX_WRITE then 1 else 0

/-- Line 632: `pl = (curr_pl == 3)`. -/
def pl_of (curr_pl : Nat) : Nat := if curr_pl = 3 then 1 else 0

/-- The TLB fast test of lines 644-650: slot `TLB_index` caches `lpf` and its
`accessBits` grant the access. -/
def tlb_hit (s : BX_CPU_C) (laddr curr_pl isWrite : Nat) : Prop :=
  let lpf := LPFOf laddr
  let tlbEntry := s.TLB (BX_TLB_INDEX_OF lpf 0)
  tlbEntry.lpf = lpf ∧
    (tlbEntry.accessBits &&& (0x0100 <<< ((isWrite <<< 2) ||| curr_pl))) ≠ 0

instance (s : BX_CPU_C) (laddr curr_pl isWrite : Nat) : Decidable (tlb_hit s laddr curr_pl isWrite) := by
  unfold tlb_hit; exact inferInstance

/-- The function `translate_linear`, lines 622-1038. -/
def translate_linear (s : BX_CPU_C) (laddr curr_pl rw : Nat) (access_type : AccessType) :
    Outcome Nat × BX_CPU_C :=
  let isWrite := isWrite_of rw
  let pl := pl_of curr_pl
  let poffset := laddr &&& 0x00000fff
  let lpf := LPFOf laddr
  let TLB_index := BX_TLB_INDEX_OF lpf 0
  let tlbEntry := s.TLB TLB_index
  if tlb_hit s laddr curr_pl isWrite then
    (Outcome.ok (tlbEntry.ppf ||| poffset), s)
  else if s.cr4_PAE then
    pae_walk s laddr pl isWrite rw access_type
  else
    legacy_walk s laddr pl isWrite rw access_type

/-! ## The entries a walk reads

The values of the locals `pml4`, `pdpe`, `pde`, `pte` of `translate_linear` and
the addresses they are read from, as functions of the state in which the walk
starts.  They are used to state hypotheses on a walk. -/

/-- Lines 675-676: `pml4_addr`. -/
def pml4_addr (s : BX_CPU_C) (laddr : Nat) : Nat :=
  s.cr3_masked ||| ((laddr &&& 0x0000ff8000000000) >>> 36)

/-- Line 677: `pml4` as read. -/
def pml4_entry (s : BX_CPU_C) (laddr : Nat) : Nat :=
  readLE s.mem (pml4_addr s laddr) 8

/-- Lines 701-704: `pml4` after its A bit has been set. -/
def pml4_acc (s : BX_CPU_C) (laddr : Nat) : Nat :=
  if (pml4_entry s laddr &&& 0x20) = 0 then pml4_entry s laddr ||| 0x20 else pml4_entry s laddr

/-- Lines 677-704: the state after the PML4 level of a long mode walk whose PML4
entry passed its checks (the entry has been read and, if its A bit was clear,
written back with A set). -/
def pml4_state (s : BX_CPU_C) (laddr : Nat) : BX_CPU_C :=
  let s1 := (readPhysicalPage s (pml4_addr s laddr) 8).2
  if (pml4_entry s laddr &&& 0x20) = 0 then
    writePhysicalPage s1 (pml4_addr s laddr) 8 (pml4_acc s laddr)
  else s1

/-- The state in which a PAE or long mode walk reads its PDPE. -/
def pdpe_state (s : BX_CPU_C) (laddr : Nat) : BX_CPU_C :=
  if s.long_mode then pml4_state s laddr else s

/-- Lines 706-707 and 712: `pdpe_addr`. -/
def pdpe_addr (s : BX_CPU_C) (laddr : Nat) : Nat :=
  if s.long_mode then
    (pml4_acc s laddr &&& 0x000ffffffffff000) ||| ((laddr &&& 0x0000007fc0000000) >>> 27)
  else
    s.cr3_masked ||| ((laddr &&& 0xc0000000) >>> 27)

/-- Line 715: `pdpe` as read. -/
def pdpe_entry (s : BX_CPU_C) (laddr : Nat) : Nat :=
  readLE (pdpe_state s laddr).mem (pdpe_addr s laddr) 8

/-- Lines 741-742: `pde_addr` of a PAE or long mode walk. -/
def pae_pde_addr (s : BX_CPU_C) (laddr : Nat) : Nat :=
  (pdpe_entry s laddr &&& 0x000ffffffffff000) ||| ((laddr &&& 0x3fe00000) >>> 18)

/-- Line 744: `pde` as read in a PAE or long mode walk. -/
def pae_pde_entry (s : BX_CPU_C) (laddr : Nat) : Nat :=
  readLE (pdpe_state s laddr).mem (pae_pde_addr s laddr) 8

/-- Lines 809-810: `pte_addr` of a PAE or long mode walk. -/
def pae_pte_addr (s : BX_CPU_C) (laddr : Nat) : Nat :=
  (pae_pde_entry s laddr &&& 0x000ffffffffff000) ||| ((laddr &&& 0x001ff000) >>> 9)

/-- Line 812: `pte` as read in a PAE or long mode walk. -/
def pae_pte_entry (s : BX_CPU_C) (laddr : Nat) : Nat :=
  readLE (pdpe_state s laddr).mem (pae_pte_addr s laddr) 8

/-- Lines 885-886: `pde_addr` of a non-PAE walk. -/
def pde_addr (s : BX_CPU_C) (laddr : Nat) : Nat :=
  s.cr3_masked ||| ((laddr &&& 0xffc00000) >>> 20)

/-- Line 888: `pde` as read in a non-PAE walk. -/
def pde_entry (s : BX_CPU_C) (laddr : Nat) : Nat :=
  readLE s.mem (pde_addr s laddr) 4

/-- Line 932: `pte_addr` of a non-PAE walk. -/
def pte_addr (s : BX_CPU_C) (laddr : Nat) : Nat :=
  (pde_entry s laddr &&& 0xfffff000) ||| ((laddr &&& 0x003ff000) >>> 10)

/-- Line 934: `pte` as read in a non-PAE walk. -/
def pte_entry (s : BX_CPU_C) (laddr : Nat) : Nat :=
  readLE s.mem (pte_addr s laddr) 4

/-- The checks made on a PML4 entry or a PDPE (lines 679-699, 717-739) pass:
present, bits 7 and 8 clear, NX only with EFER.NXE, bits 51..32 clear. -/
def upper_ok (s : BX_CPU_C) (e : Nat) : Prop :=
  (e &&& 0x01) ≠ 0 ∧ (e &&& 0x180) = 0 ∧
    ((e &&& PAGE_DIRECTORY_NX_BIT) ≠ 0 → s.efer_nxe = true) ∧
    (e &&& 0x000fffff00000000) = 0

/-- The checks made on a PAE PDE or PTE (lines 746-764, 814-832) pass: present,
NX only with EFER.NXE, bits 51..32 clear. -/
def lower_ok (s : BX_CPU_C) (e : Nat) : Prop :=
  (e &&& 0x01) ≠ 0 ∧
    ((e &&& PAGE_DIRECTORY_NX_BIT) ≠ 0 → s.efer_nxe = true) ∧
    (e &&& 0x000fffff00000000) = 0

instance (s : BX_CPU_C) (e : Nat) : Decidable (upper_ok s e) := by
  unfold upper_ok; exact inferInstance

instance (s : BX_CPU_C) (e : Nat) : Decidable (lower_ok s e) := by
  unfold lower_ok; exact inferInstance

/-- The leaf of the walk of `laddr` is the PDE: PS is set, and outside PAE
CR4.PSE is on (lines 767 and 896). -/
def walk_large (s : BX_CPU_C) (laddr : Nat) : Prop :=
  if s.cr4_PAE then (pae_pde_entry s laddr &&& 0x80) ≠ 0
  else (pde_entry s laddr &&& 0x80) ≠ 0 ∧ s.cr4_PSE = true

instance (s : BX_CPU_C) (laddr : Nat) : Decidable (walk_large s laddr) := by
  unfold walk_large; exact inferInstance

/-- Every entry the walk of `laddr` traverses passes the checks the source makes
on it before the permission check. -/
def walk_valid (s : BX_CPU_C) (laddr : Nat) : Prop :=
  if s.cr4_PAE then
    (s.long_mode = true → upper_ok s (pml4_entry s laddr)) ∧
    upper_ok s (pdpe_entry s laddr) ∧
    lower_ok s (pae_pde_entry s laddr) ∧
    ((pae_pde_entry s laddr &&& 0x80) = 0 → lower_ok s (pae_pte_entry s laddr))
  else
    (pde_entry s laddr &&& 0x01) ≠ 0 ∧
    (¬ walk_large s laddr → (pte_entry s laddr &&& 0x01) ≠ 0)

instance (s : BX_CPU_C) (laddr : Nat) : Decidable (walk_valid s laddr) := by
  unfold walk_valid; exact inferInstance

/-- The U/S and R/W bits of `combined_access` as the walk of `laddr` computes
them (lines 769-773, 834-838, 902 and 947). -/
def walk_combined (s : BX_CPU_C) (laddr : Nat) : Nat :=
  if s.cr4_PAE then
    let c :=
      if (pae_pde_entry s laddr &&& 0x80) ≠ 0 then pae_pde_entry s laddr &&& 0x06
      else (pae_pde_entry s laddr &&& pae_pte_entry s laddr) &&& 0x06
    if s.long_mode then c &&& ((pml4_acc s laddr &&& pdpe_entry s laddr) &&& 0x06) else c
  else if (pde_entry s laddr &&& 0x80) ≠ 0 ∧ s.cr4_PSE = true then pde_entry s laddr &&& 0x06
  else (pde_entry s laddr &&& pte_entry s laddr) &&& 0x06

/-- The walk of `laddr` reaches an entry whose P bit is clear, every entry before
it having passed its checks. -/
def walk_not_present (s : BX_CPU_C) (laddr : Nat) : Prop :=
  if s.cr4_PAE then
    (s.long_mode = true ∧ (pml4_entry s laddr &&& 0x01) = 0) ∨
    ((s.long_mode = true → upper_ok s (pml4_entry s laddr)) ∧
      ((pdpe_entry s laddr &&& 0x01) = 0 ∨
        (upper_ok s (pdpe_entry s laddr) ∧
          ((pae_pde_entry s laddr &&& 0x01) = 0 ∨
            (lower_ok s (pae_pde_entry s laddr) ∧ (pae_pde_entry s laddr &&& 0x80) = 0 ∧
              (pae_pte_entry s laddr &&& 0x01) = 0)))))
  else
    (pde_entry s laddr &&& 0x01) = 0 ∨
    ((pde_entry s laddr &&& 0x01) ≠ 0 ∧ ¬ walk_large s laddr ∧
      (pte_entry s laddr &&& 0x01) = 0)

instance (s : BX_CPU_C) (laddr : Nat) : Decidable (walk_not_present s laddr) := by
  unfold walk_not_present; exact inferInstance

/-- The walk of `laddr` reaches a present PML4 entry (long mode) or a present
PDPE that has bit 7 or bit 8 set, every entry before it having passed its
checks. -/
def walk_reserved (s : BX_CPU_C) (laddr : Nat) : Prop :=
  (s.long_mode = true ∧ (pml4_entry s laddr &&& 0x01) ≠ 0 ∧
    ((pml4_entry s laddr).testBit 7 = true ∨ (pml4_entry s laddr).testBit 8 = true)) ∨
  ((s.long_mode = true → upper_ok s (pml4_entry s laddr)) ∧
    (pdpe_entry s laddr &&& 0x01) ≠ 0 ∧
    ((pdpe_entry s laddr).testBit 7 = true ∨ (pdpe_entry s laddr).testBit 8 = true))

instance (s : BX_CPU_C) (laddr : Nat) : Decidable (walk_reserved s laddr) := by
  unfold walk_reserved; exact inferInstance

/-- The error code `page_fault` delivers (lines 595-601). -/
def pf_error_code (s : BX_CPU_C) (fault user rw : Nat) (access_type : AccessType) : Nat :=
  (fault ||| ((user <<< 2) ||| (rw <<< 1))) |||
    (if s.efer_nxe = true ∧ access_type = AccessType.CODE_ACCESS then ERROR_CODE_ACCESS else 0)

/-- The state in which a PAE or long mode walk reads its PDE (after line 715). -/
def pde_state (s : BX_CPU_C) (laddr : Nat) : BX_CPU_C :=
  (readPhysicalPage (pdpe_state s laddr) (pdpe_addr s laddr) 8).2

/-- The state of a PAE or long mode walk after its PDE has been read (line 744). -/
def pte_state (s : BX_CPU_C) (laddr : Nat) : BX_CPU_C :=
  (readPhysicalPage (pde_state s laddr) (pae_pde_addr s laddr) 8).2

/-- The state of a PAE or long mode 4K walk after its PTE has been read (line 812). -/
def pae_leaf_state (s : BX_CPU_C) (laddr : Nat) : BX_CPU_C :=
  (readPhysicalPage (pte_state s laddr) (pae_pte_addr s laddr) 8).2

/-- The state of a non-PAE walk after its PDE has been read (line 888). -/
def legacy_pte_state (s : BX_CPU_C) (laddr : Nat) : BX_CPU_C :=
  (readPhysicalPage s (pde_addr s laddr) 4).2

/-- The state of a non-PAE 4K walk after its PTE has been read (line 934). -/
def legacy_leaf_state (s : BX_CPU_C) (laddr : Nat) : BX_CPU_C :=
  (readPhysicalPage (legacy_pte_state s laddr) (pte_addr s laddr) 4).2

/-- The value of the local `pml4` below the PML4 level; outside long mode it is
never read and 0 stands for it. -/
def pml4_val (s : BX_CPU_C) (laddr : Nat) : Nat :=
  if s.long_mode then pml4_acc s laddr else 0

/-- The local `nx_fault` when the PDPE is read. -/
def nx_pml4 (s : BX_CPU_C) (laddr : Nat) (access_type : AccessType) : Nat :=
  if s.long_mode then nx_upd (pml4_entry s laddr) access_type 0 else 0

/-- The local `nx_fault` when the PDE is read. -/
def nx_pdpe (s : BX_CPU_C) (laddr : Nat) (access_type : AccessType) : Nat :=
  nx_upd (pdpe_entry s laddr) access_type (nx_pml4 s laddr access_type)

/-- The local `nx_fault` after the PDE has been examined. -/
def nx_pde (s : BX_CPU_C) (laddr : Nat) (access_type : AccessType) : Nat :=
  nx_upd (pae_pde_entry s laddr) access_type (nx_pdpe s laddr access_type)

/-- The local `nx_fault` after the PTE has been examined. -/
def nx_pte (s : BX_CPU_C) (laddr : Nat) (access_type : AccessType) : Nat :=
  nx_upd (pae_pte_entry s laddr) access_type (nx_pde s laddr access_type)

/-- The state of the walk of `laddr` when its permission check is made: every
entry has been read (lines 792, 857, 919, 967). -/
def walk_check_state (s : BX_CPU_C) (laddr : Nat) : BX_CPU_C :=
  if s.cr4_PAE then
    if (pae_pde_entry s laddr &&& 0x80) ≠ 0 then pte_state s laddr else pae_leaf_state s laddr
  else
    if (pde_entry s laddr &&& 0x80) ≠ 0 ∧ s.cr4_PSE = true then legacy_pte_state s laddr
    else legacy_leaf_state s laddr

/-- The local `nx_fault` when the permission check is made (outside PAE there is
none; 0 stands for it). -/
def walk_nx (s : BX_CPU_C) (laddr : Nat) (access_type : AccessType) : Nat :=
  if s.cr4_PAE then
    if (pae_pde_entry s laddr &&& 0x80) ≠ 0 then nx_pde s laddr access_type
    else nx_pte s laddr access_type
  else 0

/-- The permission check of lines 792, 857, 919 and 967 lets the access pass. -/
def walk_permitted (s : BX_CPU_C) (laddr curr_pl rw : Nat) (access_type : AccessType) : Prop :=
  priv_check (priv_index s (pl_of curr_pl) (walk_combined s laddr) (isWrite_of rw)) ≠ 0 ∧
    walk_nx s laddr access_type = 0

instance (s : BX_CPU_C) (laddr curr_pl rw : Nat) (access_type : AccessType) :
    Decidable (walk_permitted s laddr curr_pl rw access_type) := by
  unfold walk_permitted; exact inferInstance

/-- The leaf entry of the walk of `laddr`: the PDE of a large page, the PTE
otherwise. -/
def walk_leaf (s : BX_CPU_C) (laddr : Nat) : Nat :=
  if s.cr4_PAE then
    if (pae_pde_entry s laddr &&& 0x80) ≠ 0 then pae_pde_entry s laddr else pae_pte_entry s laddr
  else
    if (pde_entry s laddr &&& 0x80) ≠ 0 ∧ s.cr4_PSE = true then pde_entry s laddr
    else pte_entry s laddr

/-- The local `ppf` of the walk of `laddr` (lines 777, 842, 904, 951). -/
def walk_ppf (s : BX_CPU_C) (laddr : Nat) : Nat :=
  if s.cr4_PAE then
    if (pae_pde_entry s laddr &&& 0x80) ≠ 0 then
      (pae_pde_entry s laddr &&& 0x000fffffffe00000) ||| (laddr &&& 0x001ff000)
    else pae_pte_entry s laddr &&& 0x000ffffffffff000
  else
    if (pde_entry s laddr &&& 0x80) ≠ 0 ∧ s.cr4_PSE = true then
      (pde_entry s laddr &&& 0xffc00000) ||| (laddr &&& 0x003ff000)
    else pte_entry s laddr &&& 0xfffff000

/-- The local `combined_access` of the walk of `laddr` when the TLB is filled:
U/S, R/W and, with CR4.PGE, what lines 781, 846, 908 and 955 add. -/
def walk_access (s : BX_CPU_C) (laddr : Nat) : Nat :=
  if s.cr4_PGE then walk_combined s laddr ||| (walk_leaf s laddr &&& TLB_GlobalPage)
  else walk_combined s laddr

/-- The state of the walk of `laddr` after the A and D write-backs that follow a
passed permission check (lines 795-805, 860-876, 922-926, 970-980). -/
def walk_final_state (s : BX_CPU_C) (laddr isWrite : Nat) : BX_CPU_C :=
  if s.cr4_PAE then
    if (pae_pde_entry s laddr &&& 0x80) ≠ 0 then
      update_AD (update_A (pte_state s laddr) (pdpe_addr s laddr) 8 (pdpe_entry s laddr))
        (pae_pde_addr s laddr) 8 (pae_pde_entry s laddr) isWrite
    else
      update_AD
        (update_A (update_A (pae_leaf_state s laddr) (pdpe_addr s laddr) 8 (pdpe_entry s laddr))
          (pae_pde_addr s laddr) 8 (pae_pde_entry s laddr))
        (pae_pte_addr s laddr) 8 (pae_pte_entry s laddr) isWrite
  else
    if (pde_entry s laddr &&& 0x80) ≠ 0 ∧ s.cr4_PSE = true then
      update_AD (legacy_pte_state s laddr) (pde_addr s laddr) 4 (pde_entry s laddr) isWrite
    else
      update_AD (update_A (legacy_leaf_state s laddr) (pde_addr s laddr) 4 (pde_entry s laddr))
        (pte_addr s laddr) 4 (pte_entry s laddr) isWrite

/-- The address the leaf entry of the walk of `laddr` is read from. -/
def walk_leaf_addr (s : BX_CPU_C) (laddr : Nat) : Nat :=
  if s.cr4_PAE then
    if (pae_pde_entry s laddr &&& 0x80) ≠ 0 then pae_pde_addr s laddr else pae_pte_addr s laddr
  else
    if (pde_entry s laddr &&& 0x80) ≠ 0 ∧ s.cr4_PSE = true then pde_addr s laddr
    else pte_addr s laddr

/-- The size in bytes of a page-table entry: 8 with CR4.PAE, 4 without (the `len`
argument of the reads at lines 677-812 and 888-934). -/
def walk_entry_len (s : BX_CPU_C) : Nat := if s.cr4_PAE then 8 else 4

/-- No bit that is set in `m` is clear in `m2`. -/
def mem_le (m m2 : Mem) : Prop :=
  ∀ x i, (m x).val.testBit i = true → (m2 x).val.testBit i = true

/-- The reads among the calls received by the memory collaborator, as pairs
(address, length), oldest first. -/
def reads_of : List MemOp → List (Nat × Nat)
  | [] => []
  | MemOp.read a n :: t => (a, n) :: reads_of t
  | MemOp.write _ _ _ :: t => reads_of t

/-- Two states agree on everything but guest memory and the call trace. -/
def same_regs (s1 s2 : BX_CPU_C) : Prop :=
  s1.cr0_PG = s2.cr0_PG ∧ s1.cr0_WP = s2.cr0_WP ∧ s1.cr4_PSE = s2.cr4_PSE ∧
  s1.cr4_PAE = s2.cr4_PAE ∧ s1.cr4_PGE = s2.cr4_PGE ∧ s1.efer_nxe = s2.efer_nxe ∧
  s1.long_mode = s2.long_mode ∧ s1.real_mode = s2.real_mode ∧ s1.CPL = s2.CPL ∧
  s1.cr2 = s2.cr2 ∧ s1.cr3 = s2.cr3 ∧ s1.cr3_masked = s2.cr3_masked ∧ s1.TLB = s2.TLB ∧
  s1.getHostMemAddr = s2.getHostMemAddr ∧ s1.a20_mask = s2.a20_mask

/-- What every page fault raised by a translation of `laddr` satisfies. -/
def FaultOK (laddr : Nat) (r : Outcome Nat × BX_CPU_C) : Prop :=
  ∀ v ec, r.1 = Outcome.exception v ec →
    v = BX_PF_EXCEPTION ∧ r.2.cr2 = laddr ∧
      (r.2.TLB (BX_TLB_INDEX_OF laddr 0)).lpf = BX_INVALID_TLB_ENTRY

/-- A concrete non-PAE state: the page directory at 0x1000 maps linear page 0
through the page table at 0x2000 to the frame 0x34000 (supervisor, writable);
the TLB is empty. -/
def demo_legacy : BX_CPU_C :=
  { cr0_PG := true, cr0_WP := false, cr4_PSE := false, cr4_PAE := false, cr4_PGE := false,
    efer_nxe := false, long_mode := false, real_mode := false, CPL := 0, cr2 := 0x77,
    cr3 := 0x1000, cr3_masked := 0x1000,
    TLB := fun _ => ⟨BX_INVALID_TLB_ENTRY, 0, 0, 0⟩,
    mem := writeLE (writeLE (fun _ => 0) 0x1000 4 0x2023) 0x2000 4 0x34023,
    trace := [], getHostMemAddr := fun _ _ _ => 0, a20_mask := 0xffffffff }

/-- A concrete non-PAE state with CR0.WP = `wp` and CR4.PSE = `pse`: the page
directory at 0x1000 holds `pde` in its first slot and the page table at 0x2000
holds `pte`; the TLB is empty. -/
def demo_legacy_with (wp pse : Bool) (pde pte : Nat) : BX_CPU_C :=
  { cr0_PG := true, cr0_WP := wp, cr4_PSE := pse, cr4_PAE := false, cr4_PGE := false,
    efer_nxe := false, long_mode := false, real_mode := false, CPL := 0, cr2 := 0x77,
    cr3 := 0x1000, cr3_masked := 0x1000,
    TLB := fun _ => ⟨BX_INVALID_TLB_ENTRY, 0, 0, 0⟩,
    mem := writeLE (writeLE (fun _ => 0) 0x1000 4 pde) 0x2000 4 pte,
    trace := [], getHostMemAddr := fun _ _ _ => 0, a20_mask := 0xffffffff }

/-- A concrete PAE state outside long mode: the PDPT at 0x1000 holds `pdpe` in
its first slot, the page directory at 0x2000 holds `pde`, the page table at
0x3000 holds `pte`; the TLB is empty. -/
def demo_pae (pdpe pde pte : Nat) : BX_CPU_C :=
  { cr0_PG := true, cr0_WP := false, cr4_PSE := false, cr4_PAE := true, cr4_PGE := false,
    efer_nxe := false, long_mode := false, real_mode := false, CPL := 0, cr2 := 0x77,
    cr3 := 0x1000, cr3_masked := 0x1000,
    TLB := fun _ => ⟨BX_INVALID_TLB_ENTRY, 0, 0, 0⟩,
    mem := writeLE (writeLE (writeLE (fun _ => 0) 0x1000 8 pdpe) 0x2000 8 pde) 0x3000 8 pte,
    trace := [], getHostMemAddr := fun _ _ _ => 0, a20_mask := 0xffffffff }

/-- A concrete long mode state: the PML4 at 0x1000 holds `pml4` in its first
slot, the PDPT at 0x2000 holds `pdpe`, the page directory at 0x3000 holds `pde`,
the page table at 0x4000 holds `pte`; the TLB is empty. -/
def demo_long (pml4 pdpe pde pte : Nat) : BX_CPU_C :=
  { cr0_PG := true, cr0_WP := false, cr4_PSE := false, cr4_PAE := true, cr4_PGE := false,
    efer_nxe := false, long_mode := true, real_mode := false, CPL := 0, cr2 := 0x77,
    cr3 := 0x1000, cr3_masked := 0x1000,
    TLB := fun _ => ⟨BX_INVALID_TLB_ENTRY, 0, 0, 0⟩,
    mem := writeLE (writeLE (writeLE (writeLE (fun _ => 0) 0x1000 8 pml4) 0x2000 8 pdpe)
      0x3000 8 pde) 0x4000 8 pte,
    trace := [], getHostMemAddr := fun _ _ _ => 0, a20_mask := 0xffffffff }

/-- A concrete long mode state whose four tables sit at 0x1000, 0x2000, 0x3000
and 0x4000: `pml4` is stored at 0x1000, `pdpe` at 0x2000, `pde` at `pde_at` and
`pte` at `pte_at`; the TLB is empty. -/
def demo_long_at (pml4 pdpe pde_at pde pte_at pte : Nat) : BX_CPU_C :=
  { cr0_PG := true, cr0_WP := false, cr4_PSE := false, cr4_PAE := true, cr4_PGE := false,
    efer_nxe := false, long_mode := true, real_mode := false, CPL := 0, cr2 := 0x77,
    cr3 := 0x1000, cr3_masked := 0x1000,
    TLB := fun _ => ⟨BX_INVALID_TLB_ENTRY, 0, 0, 0⟩,
    mem := writeLE (writeLE (writeLE (writeLE (fun _ => 0) 0x1000 8 pml4) 0x2000 8 pdpe)
      pde_at 8 pde) pte_at 8 pte,
    trace := [], getHostMemAddr := fun _ _ _ => 0, a20_mask := 0xffffffff }

/-- A concrete state whose TLB holds a non-global entry for linear page 0x5000 in
slot 5, a global entry for linear page 0x7000 in slot 7 and nothing else. -/
def demo_tlb : BX_CPU_C :=
  { demo_legacy with
    TLB := fun i =>
      if i = 5 then ⟨0x5000, 0x15000, 0, 0x0f00⟩
      else if i = 7 then ⟨0x7000, 0x17000, 0, 0x80000f00⟩
      else ⟨BX_INVALID_TLB_ENTRY, 0, 0, 0⟩ }

/-- The walk of `laddr` (PAE or long mode) reaches a present entry that has bit 63
set, every entry before it having passed its checks. -/
def walk_nx_entry (s : BX_CPU_C) (laddr : Nat) : Prop :=
  (s.long_mode = true ∧ (pml4_entry s laddr &&& 0x01) ≠ 0 ∧
    (pml4_entry s laddr).testBit 63 = true) ∨
  ((s.long_mode = true → upper_ok s (pml4_entry s laddr)) ∧
    (((pdpe_entry s laddr &&& 0x01) ≠ 0 ∧ (pdpe_entry s laddr).testBit 63 = true) ∨
      (upper_ok s (pdpe_entry s laddr) ∧
        (((pae_pde_entry s laddr &&& 0x01) ≠ 0 ∧ (pae_pde_entry s laddr).testBit 63 = true) ∨
          (lower_ok s (pae_pde_entry s laddr) ∧ (pae_pde_entry s laddr &&& 0x80) = 0 ∧
            (pae_pte_entry s laddr &&& 0x01) ≠ 0 ∧
            (pae_pte_entry s laddr).testBit 63 = true)))))

instance (s : BX_CPU_C) (laddr : Nat) : Decidable (walk_nx_entry s laddr) := by
  unfold walk_nx_entry; exact inferInstance

/-- Some entry the walk of `laddr` (PAE or long mode) traverses has bit 63 (NX)
set: the PML4E (long mode), the PDPE, the PDE or, for a 4K page, the PTE. -/
def walk_has_nx (s : BX_CPU_C) (laddr : Nat) : Prop :=
  (s.long_mode = true ∧ (pml4_entry s laddr).testBit 63 = true) ∨
  (pdpe_entry s laddr).testBit 63 = true ∨
  (pae_pde_entry s laddr).testBit 63 = true ∨
  ((pae_pde_entry s laddr &&& 0x80) = 0 ∧ (pae_pte_entry s laddr).testBit 63 = true)

instance (s : BX_CPU_C) (laddr : Nat) : Decidable (walk_has_nx s laddr) := by
  unfold walk_has_nx; exact inferInstance

/-- A concrete PAE state outside long mode with EFER.NXE = `nxe`, laid out as
`demo_pae`. -/
def demo_pae_nxe (nxe : Bool) (pdpe pde pte : Nat) : BX_CPU_C :=
  { demo_pae pdpe pde pte with efer_nxe := nxe }

/-- The entries whose U/S and R/W bits the walk of `laddr` combines (lines 769-773,
834-838, 902 and 947): the PDE and, for a 4K page, the PTE, preceded in long
mode by the PML4E and the PDPE. -/
def walk_entries (s : BX_CPU_C) (laddr : Nat) : List Nat :=
  if s.cr4_PAE then
    (if s.long_mode then [pml4_entry s laddr, pdpe_entry s laddr] else []) ++
      [pae_pde_entry s laddr] ++
      (if (pae_pde_entry s laddr &&& 0x80) ≠ 0 then [] else [pae_pte_entry s laddr])
  else
    [pde_entry s laddr] ++
      (if (pde_entry s laddr &&& 0x80) ≠ 0 ∧ s.cr4_PSE = true then [] else [pte_entry s laddr])

/-- A concrete non-PAE state with CR4.PGE = 1 (CR0.WP = 0, CR4.PSE = 0), laid out
as `demo_legacy_with`. -/
def demo_legacy_pge (pde pte : Nat) : BX_CPU_C :=
  { demo_legacy_with false false pde pte with cr4_PGE := true }

/-- Every page fault that `r` may be leaves `m` as the guest memory. -/
def KeepsMem (m : Mem) (r : Outcome Nat × BX_CPU_C) : Prop :=
  ∀ v ec, r.1 = Outcome.exception v ec → r.2.mem = m

/-- The addresses of the page-table entries the walk of `laddr` traverses, in the
order they are read: the PML4 entry (long mode), the PDPE (PAE and long mode),
the PDE and, for a 4K page, the PTE. -/
def walk_addrs (s : BX_CPU_C) (laddr : Nat) : List Nat :=
  if s.cr4_PAE then
    (if s.long_mode then [pml4_addr s laddr] else []) ++
      [pdpe_addr s laddr, pae_pde_addr s laddr] ++
      (if (pae_pde_entry s laddr &&& 0x80) ≠ 0 then [] else [pae_pte_addr s laddr])
  else
    [pde_addr s laddr] ++
      (if (pde_entry s laddr &&& 0x80) ≠ 0 ∧ s.cr4_PSE = true then [] else [pte_addr s laddr])

/-- The result `r` is not a return: it is an exception or a stop in `BX_PANIC`. -/
def NotOk (r : Outcome Nat × BX_CPU_C) : Prop := ∀ pa, r.1 ≠ Outcome.ok pa

/-- The function `INVLPG`, lines 561-585 (the branch `BX_CPU_LEVEL >= 4`, with
`BX_USE_TLB`).  `seg_base` is `get_segment_base(i->seg())` and `rm_addr` is
`RMAddr(i)` once `ResolveModrm` has run; their sum is a `bx_address` (64 bits).
The prefetch queue and the instrumentation hooks lie outside the paging state. -/
def INVLPG (s : BX_CPU_C) (seg_base rm_addr : Nat) : Outcome Unit × BX_CPU_C :=
  if s.real_mode = false ∧ s.CPL ≠ 0 then
    (Outcome.exception BX_GP_EXCEPTION 0, s)
  else
    let laddr := (seg_base + rm_addr) % 2 ^ 64
    (Outcome.ok (), TLB_invlpg s laddr)

/-- The state `demo_tlb` running at CPL 3 in protected mode. -/
def demo_tlb_user : BX_CPU_C := { demo_tlb with CPL := 3 }

/-- The state `demo_tlb` with CR4.PAE = 1 outside long mode and CR3 = 0x12345678. -/
def demo_tlb_pae : BX_CPU_C := { demo_tlb with cr4_PAE := true, cr3 := 0x12345678 }

/-- Lines 996-1015: `accessBits` as the U/S and R/W bits of `combined_access` and
`isWrite` give it, before the global bit and the pointer bits are added. -/
def fill_perm_bits (combined_access isWrite : Nat) : Nat :=
  if combined_access &&& 4 ≠ 0 then
    if isWrite ≠ 0 then
      if combined_access &&& 2 ≠ 0 then
        (TLB_ReadUserOK ||| TLB_ReadSysOK) ||| (TLB_WriteUserOK ||| TLB_WriteSysOK)
      else
        (TLB_ReadUserOK ||| TLB_ReadSysOK) ||| TLB_WriteSysOK
    else
      TLB_ReadUserOK ||| TLB_ReadSysOK
  else
    if isWrite ≠ 0 then TLB_ReadSysOK ||| TLB_WriteSysOK else TLB_ReadSysOK

/-- Lines 996-1034: the `accessBits` stored into the TLB entry by the fill of
`translate_linear`, for the host pointer `hostPageAddr` that `getHostMemAddr`
returned. -/
def fill_accessBits (combined_access isWrite hostPageAddr : Nat) : Nat :=
  let accessBits := fill_perm_bits combined_access isWrite
  let accessBits := accessBits ||| (combined_access &&& TLB_GlobalPage)
  if hostPageAddr ≠ 0 then accessBits ||| ((accessBits &&& 0xff00) >>> 8) else accessBits

/-- Section 3 of the spec, invariant of `accessBits`: each of the bits 0..7 that is
set has its partner among the bits 8..15 set. -/
def accessBits_ok (b : Nat) : Prop :=
  ∀ n, n < 8 → b.testBit n = true → b.testBit (n + 8) = true

/-- Every valid TLB slot holds a page-aligned `ppf`. -/
def TLB_ppf_aligned (s : BX_CPU_C) : Prop :=
  ∀ i, i < BX_TLB_SIZE → (s.TLB i).lpf ≠ BX_INVALID_TLB_ENTRY → (s.TLB i).ppf % 4096 = 0

/-! ## `access_linear` (lines 1115-1376)

Build configuration: `BX_LITTLE_ENDIAN`, `BX_X86_DEBUGGER = 0`; the
instrumentation hook `BX_INSTR_LIN_ACCESS` lies outside the paging state. -/

/-- Modelled from the spec: section 1, physical addresses wider than 32 bits are
a non-goal (line 627: "we assume physical memory < 4gig"); the cast
`(bx_phy_address) x` of a linear address keeps its low 32 bits (the type is
declared in a header that is not part of the sources). -/
def bx_phy_address_of (x : Nat) : Nat := x % 2 ^ 32

/-- The fields of `BX_CPU_THIS_PTR address_xlation` that `access_linear` writes. -/
structure address_xlation_t where
  paddress1 : Nat
  paddress2 : Nat
  len1 : Nat
  len2 : Nat
  pages : Nat
deriving DecidableEq, Repr

/-- What `access_linear` works on: the paging state `cpu`; `address_xlation`, a
member of `BX_CPU_C` that only `access_linear` writes; the caller's buffer
`data`, indexed from 0; and `xlations`, the calls of `dtranslate_linear` made so
far as triples (laddr, curr_pl, rw), oldest first. -/
structure access_state where
  cpu : BX_CPU_C
  address_xlation : address_xlation_t
  data : Mem
  xlations : List (Nat × Nat × Nat)

/-- Modelled from the spec: section 4.5, the accesses of `access_linear` are data
accesses; `dtranslate_linear(laddr, pl, rw)` stands for
`translate_linear(laddr, pl, rw, DATA_ACCESS)` (the macro is declared in a header
that is not part of the sources).  The call is recorded in `xlations`. -/
def dtranslate_linear (a : access_state) (laddr curr_pl rw : Nat) : Outcome Nat × access_state :=
  let r := translate_linear a.cpu laddr curr_pl rw AccessType.DATA_ACCESS
  (r.1, { a with cpu := r.2, xlations := a.xlations ++ [(laddr, curr_pl, rw)] })

/-- The call `mem->readPhysicalPage(cpu, addr, len, ((Bit8u*)data) + off)`: the
`len` bytes at `addr` are copied to the buffer from index `off` on. -/
def read_to_buffer (a : access_state) (addr len off : Nat) : access_state :=
  let r := readPhysicalPage a.cpu addr len
  { a with cpu := r.2, data := writeLE a.data off len r.1 }

/-- The call `mem->writePhysicalPage(cpu, addr, len, ((Bit8u*)data) + off)`: the
`len` bytes of the buffer from index `off` on are stored at `addr`. -/
def write_from_buffer (a : access_state) (addr len off : Nat) : access_state :=
  { a with cpu := writePhysicalPage a.cpu addr len (readLE a.data off len) }

/-- Lines 1129-1144: paging on, access within a single page.  `rw` is the local
after line 1125, `xlate_rw` the argument. -/
def access_paged_single (a : access_state) (laddr len curr_pl rw xlate_rw : Nat) :
    Outcome Unit × access_state :=
  let r := dtranslate_linear a laddr curr_pl xlate_rw
  match r.1 with
  | Outcome.ok paddress1 =>
    let a := r.2
    let xl := a.address_xlation
    let a := { a with address_xlation := { xl with paddress1 := paddress1, pages := 1 } }
    if rw = BX_READ then (Outcome.ok (), read_to_buffer a paddress1 len 0)
    else (Outcome.ok (), write_from_buffer a paddress1 len 0)
  | Outcome.exception v ec => (Outcome.exception v ec, r.2)
  | Outcome.panic => (Outcome.panic, r.2)

/-- Lines 1146-1184 (`BX_LITTLE_ENDIAN`): paging on, access across two pages. -/
def access_paged_cross (a : access_state) (laddr len curr_pl rw xlate_rw pageOffset : Nat) :
    Outcome Unit × access_state :=
  let r1 := dtranslate_linear a laddr curr_pl xlate_rw
  match r1.1 with
  | Outcome.ok paddress1 =>
    let a := r1.2
    let len1 := 4096 - pageOffset
    let len2 := len - len1
    let xl := a.address_xlation
    let a := { a with address_xlation :=
      { xl with paddress1 := paddress1, len1 := len1, len2 := len2, pages := 2 } }
    let r2 := dtranslate_linear a ((laddr + len1) % 2 ^ 64) curr_pl xlate_rw
    match r2.1 with
    | Outcome.ok paddress2 =>
      let a := r2.2
      let xl := a.address_xlation
      let a := { a with address_xlation := { xl with paddress2 := paddress2 } }
      if rw = BX_READ then
        (Outcome.ok (), read_to_buffer (read_to_buffer a paddress1 len1 0) paddress2 len2 len1)
      else
        (Outcome.ok (), write_from_buffer (write_from_buffer a paddress1 len1 0) paddress2 len2 len1)
    | Outcome.exception v ec => (Outcome.exception v ec, r2.2)
    | Outcome.panic => (Outcome.panic, r2.2)
  | Outcome.exception v ec => (Outcome.exception v ec, r1.2)
  | Outcome.panic => (Outcome.panic, r1.2)

/-- Lines 1240-1255: the flat TLB entry of a read with paging off, installed when
the slot of `laddr` does not hold its page. -/
def flat_entry_read (s : BX_CPU_C) (laddr : Nat) : bx_TLB_entry :=
  let lpf := LPFOf laddr
  let hostPageAddr := s.getHostMemAddr (A20ADDR s lpf) BX_WRITE AccessType.DATA_ACCESS
  if hostPageAddr = 0 then
    let hostPageAddr := s.getHostMemAddr (A20ADDR s lpf) BX_READ AccessType.DATA_ACCESS
    if hostPageAddr ≠ 0 then
      { lpf := lpf, ppf := bx_phy_address_of lpf, hostPageAddr := hostPageAddr,
        accessBits := TLB_ReadSysOK ||| TLB_ReadUserOK ||| TLB_ReadSysPtrOK |||
          TLB_ReadUserPtrOK }
    else
      { lpf := lpf, ppf := bx_phy_address_of lpf, hostPageAddr := hostPageAddr, accessBits := 0 }
  else
    { lpf := lpf, ppf := bx_phy_address_of lpf, hostPageAddr := hostPageAddr,
      accessBits := TLB_ReadSysOK ||| TLB_ReadUserOK ||| TLB_WriteSysOK ||| TLB_WriteUserOK |||
        TLB_ReadSysPtrOK ||| TLB_ReadUserPtrOK ||| TLB_WriteSysPtrOK ||| TLB_WriteUserPtrOK }

/-- Lines 1275-1288: the flat TLB entry of a write with paging off. -/
def flat_entry_write (s : BX_CPU_C) (laddr : Nat) : bx_TLB_entry :=
  let lpf := LPFOf laddr
  let hostPageAddr := s.getHostMemAddr (A20ADDR s lpf) BX_WRITE AccessType.DATA_ACCESS
  if hostPageAddr ≠ 0 then
    { lpf := lpf, ppf := bx_phy_address_of lpf, hostPageAddr := hostPageAddr,
      accessBits := TLB_ReadSysOK ||| TLB_ReadUserOK ||| TLB_WriteSysOK ||| TLB_WriteUserOK |||
        TLB_ReadSysPtrOK ||| TLB_ReadUserPtrOK ||| TLB_WriteSysPtrOK ||| TLB_WriteUserPtrOK }
  else
    { lpf := lpf, ppf := bx_phy_address_of lpf, hostPageAddr := hostPageAddr, accessBits := 0 }

/-- Lines 1220-1292: paging off, access within a single page. -/
def access_flat_single (a : access_state) (laddr len rw : Nat) : Outcome Unit × access_state :=
  let xl := a.address_xlation
  let a := { a with address_xlation :=
    { xl with paddress1 := bx_phy_address_of laddr, pages := 1 } }
  let tlbIndex := BX_TLB_INDEX_OF laddr 0
  let lpf := LPFOf laddr
  if rw = BX_READ then
    if (a.cpu.TLB tlbIndex).lpf = lpf then
      (Outcome.ok (), read_to_buffer a (bx_phy_address_of laddr) len 0)
    else
      let cpu := a.cpu
      let a := { a with cpu :=
        { cpu with TLB := Function.update cpu.TLB tlbIndex (flat_entry_read cpu laddr) } }
      (Outcome.ok (), read_to_buffer a (bx_phy_address_of laddr) len 0)
  else
    if (a.cpu.TLB tlbIndex).lpf = lpf then
      (Outcome.ok (), write_from_buffer a (bx_phy_address_of laddr) len 0)
    else
      let cpu := a.cpu
      let a := { a with cpu :=
        { cpu with TLB := Function.update cpu.TLB tlbIndex (flat_entry_write cpu laddr) } }
      (Outcome.ok (), write_from_buffer a (bx_phy_address_of laddr) len 0)

/-- Lines 1293-1336 (`BX_LITTLE_ENDIAN`): paging off, access across two pages. -/
def access_flat_cross (a : access_state) (laddr len rw pageOffset : Nat) :
    Outcome Unit × access_state :=
  let paddress1 := bx_phy_address_of laddr
  let len1 := 4096 - pageOffset
  let len2 := len - len1
  let paddress2 := bx_phy_address_of ((laddr + len1) % 2 ^ 64)
  let a := { a with address_xlation :=
    { paddress1 := paddress1, paddress2 := paddress2, len1 := len1, len2 := len2, pages := 2 } }
  if rw = BX_READ then
    (Outcome.ok (), read_to_buffer (read_to_buffer a paddress1 len1 0) paddress2 len2 len1)
  else
    (Outcome.ok (), write_from_buffer (write_from_buffer a paddress1 len1 0) paddress2 len2 len1)

/-- The function `access_linear`, lines 1115-1376.  `pageOffset` is a `Bit32u` and
`len` an `unsigned`, so their sum is taken modulo 2^32. -/
def access_linear (a : access_state) (laddr len curr_pl rw : Nat) :
    Outcome Unit × access_state :=
  let pageOffset := PAGE_OFFSET laddr
  let xlate_rw := rw
  let rw := if rw = BX_RW then BX_READ else rw
  if a.cpu.cr0_PG then
    if (pageOffset + len) % 2 ^ 32 ≤ 4096 then
      access_paged_single a laddr len curr_pl rw xlate_rw
    else
      access_paged_cross a laddr len curr_pl rw xlate_rw pageOffset
  else
    if (pageOffset + len) % 2 ^ 32 ≤ 4096 then access_flat_single a laddr len rw
    else access_flat_cross a laddr len rw pageOffset

/-- A TLB entry as a fill leaves it: its `accessBits` satisfy the invariant of
section 3 and its `ppf` is page aligned. -/
def TLB_entry_ok (e : bx_TLB_entry) : Prop :=
  accessBits_ok e.accessBits ∧ e.ppf % 4096 = 0

/-- Every valid TLB slot holds an entry as a fill leaves it. -/
def TLB_ok (s : BX_CPU_C) : Prop :=
  ∀ i, i < BX_TLB_SIZE → (s.TLB i).lpf ≠ BX_INVALID_TLB_ENTRY → TLB_entry_ok (s.TLB i)

/-- From the TLB `T` to the TLB `T2`, every slot is kept, or is invalid, or holds
an entry as a fill leaves it. -/
def TLB_step (T T2 : Nat → bx_TLB_entry) : Prop :=
  ∀ i, T2 i = T i ∨ (T2 i).lpf = BX_INVALID_TLB_ENTRY ∨ TLB_entry_ok (T2 i)

/-- The result `r` of a piece of `translate_linear` started with the TLB `T`. -/
def StepOK (T : Nat → bx_TLB_entry) (r : Outcome Nat × BX_CPU_C) : Prop :=
  TLB_step T r.2.TLB

/-- The states the paging unit can be in: `TLB_init` has run at start-up, then any
of the functions of `paging.cc` embedded here, and any change made by the rest of
the CPU, which leaves the TLB alone. -/
inductive Reachable : BX_CPU_C → Prop
  | init (s : BX_CPU_C) : Reachable (TLB_init s)
  | translate (s : BX_CPU_C) (laddr curr_pl rw : Nat) (access_type : AccessType) :
      Reachable s → Reachable (translate_linear s laddr curr_pl rw access_type).2
  | access (a : access_state) (laddr len curr_pl rw : Nat) :
      Reachable a.cpu → Reachable (access_linear a laddr len curr_pl rw).2.cpu
  | invlpg_insn (s : BX_CPU_C) (seg_base rm_addr : Nat) :
      Reachable s → Reachable (INVLPG s seg_base rm_addr).2
  | invlpg (s : BX_CPU_C) (laddr : Nat) : Reachable s → Reachable (TLB_invlpg s laddr)
  | flush (s : BX_CPU_C) (g : Nat) : Reachable s → Reachable (TLB_flush s g)
  | cr0 (s : BX_CPU_C) (oldCR0 newCR0 : Nat) :
      Reachable s → Reachable (pagingCR0Changed s oldCR0 newCR0)
  | cr4 (s : BX_CPU_C) (oldCR4 newCR4 : Nat) :
      Reachable s → Reachable (pagingCR4Changed s oldCR4 newCR4)
  | cr3 (s : BX_CPU_C) (value : Nat) : Reachable s → Reachable (CR3_change s value)
  | other (s s2 : BX_CPU_C) : Reachable s → s2.TLB = s.TLB → Reachable s2

/-- The state `demo_legacy` with a memory collaborator that grants a host pointer
to every page. -/
def demo_legacy_host : BX_CPU_C := { demo_legacy with getHostMemAddr := fun _ _ _ => 0x1000 }

/-- A buffer of eight bytes 0xa0..0xa7 followed by zeros. -/
def demo_buffer : Mem := writeLE (fun _ => 0) 0 8 0xa7a6a5a4a3a2a1a0

/-- An `access_linear` state on CPU state `s` with the buffer `demo_buffer`, no
translation made so far. -/
def demo_access (s : BX_CPU_C) : access_state :=
  { cpu := s, address_xlation := ⟨0, 0, 0, 0, 0⟩, data := demo_buffer, xlations := [] }

/-- A concrete non-PAE state whose page table at 0x2000 maps linear page 0 to the
frame 0x34000 and linear page 1 by the entry `pte1`; the bytes 0x34ffc..0x34fff
hold 0x11, 0x22, 0x33, 0x44 and the bytes 0x56000..0x56003 hold 0x55, 0x66, 0x77,
0x88; the TLB is empty. -/
def demo_two_pages (pte1 : Nat) : BX_CPU_C :=
  { demo_legacy with
    mem := writeLE (writeLE (writeLE (writeLE (writeLE (fun _ => 0) 0x1000 4 0x2023)
      0x2000 4 0x34023) 0x2004 4 pte1) 0x34ffc 4 0x44332211) 0x56000 4 0x88776655 }

/-- A concrete state with paging off: `demo_two_pages 0` with CR0.PG = 0, the
memory collaborator granting a host pointer to every page. -/
def demo_flat : BX_CPU_C :=
  { demo_two_pages 0 with cr0_PG := false, getHostMemAddr := fun _ _ _ => 0x1000 }

/-! ## Agreement of translations and the W bit of a fault -/

/-- Lines 1081-1092: the loop of the PAE branch with `n` iterations left, that is
from `level = n - 1` down to 0.  The result is `pt_address` and `offset_mask`
when the loop is left, or `none` for `goto page_fault`. -/
def dbg_pae_loop (laddr : Nat) : Nat → BX_CPU_C → Nat → Nat → Option (Nat × Nat) × BX_CPU_C
  | 0, s, pt_address, offset_mask => (some (pt_address, offset_mask), s)
  | level + 1, s, pt_address, offset_mask =>
    let pt_address :=
      bx_phy_address_of (pt_address + 8 * ((laddr >>> (12 + 9 * level)) &&& 511))
    let r := readPhysicalPage s pt_address 8
    let pte := r.1
    let s := r.2
    if (pte &&& 1) = 0 then (none, s)
    else
      let pt_address := bx_phy_address_of (pte &&& 0x000ffffffffff000)
      if level = 1 ∧ (pte &&& 0x80) ≠ 0 then (some (pt_address, 0x1fffff), s)
      else dbg_pae_loop laddr level s pt_address offset_mask

/-- Lines 1098-1109: the loop of the non-PAE branch with `n` iterations left, that
is from `level = n - 1` down to 0. -/
def dbg_legacy_loop (laddr : Nat) : Nat → BX_CPU_C → Nat → Nat → Option (Nat × Nat) × BX_CPU_C
  | 0, s, pt_address, offset_mask => (some (pt_address, offset_mask), s)
  | level + 1, s, pt_address, offset_mask =>
    let pt_address :=
      bx_phy_address_of (pt_address + 4 * ((laddr >>> (12 + 10 * level)) &&& 1023))
    let r := readPhysicalPage s pt_address 4
    let pte := r.1
    let s := r.2
    if (pte &&& 1) = 0 then (none, s)
    else
      let pt_address := pte &&& 0xfffff000
      if level = 1 ∧ (pte &&& 0x80) ≠ 0 then (some (pt_address, 0x3fffff), s)
      else dbg_legacy_loop laddr level s pt_address offset_mask

/-- The function `dbg_xlate_linear2phy`, lines 1042-1113: the pair is the value
returned and the value stored into `*phy`. -/
def dbg_xlate_linear2phy (s : BX_CPU_C) (laddr : Nat) : (Nat × Nat) × BX_CPU_C :=
  if s.cr0_PG = false then ((1, bx_phy_address_of laddr), s)
  else
    let lpf := LPFOf laddr
    let poffset := bx_phy_address_of (laddr &&& 0x00000fff)
    let TLB_index := BX_TLB_INDEX_OF lpf 0
    let tlbEntry := s.TLB TLB_index
    if tlbEntry.lpf = lpf then ((1, tlbEntry.ppf ||| poffset), s)
    else
      let pt_address := s.cr3_masked
      let offset_mask := 0xfff
      if s.cr4_PAE then
        let levels := if s.long_mode then 4 else 3
        let r := dbg_pae_loop laddr levels s pt_address offset_mask
        match r.1 with
        | some (pt_address, offset_mask) =>
          ((1, bx_phy_address_of (pt_address + bx_phy_address_of (laddr &&& offset_mask))), r.2)
        | none => ((0, 0), r.2)
      else
        let r := dbg_legacy_loop laddr 2 s pt_address offset_mask
        match r.1 with
        | some (pt_address, offset_mask) =>
          ((1, bx_phy_address_of (pt_address + bx_phy_address_of (laddr &&& offset_mask))), r.2)
        | none => ((0, 0), r.2)

/-- The state `s2` is `s` with reads appended to the trace of the memory
collaborator: nothing else differs. -/
def ReadsOnly (s s2 : BX_CPU_C) : Prop :=
  ∃ l : List (Nat × Nat), s2 = { s with trace := s.trace ++ l.map (fun p => MemOp.read p.1 p.2) }

end Bochs

namespace Bochs

/-! ## Basic facts -/

theorem isWrite_of_le (rw : Nat) : isWrite_of rw = 0 ∨ isWrite_of rw = 1 := by
  unfold isWrite_of; split <;> simp

theorem pl_of_le (curr_pl : Nat) : pl_of curr_pl = 0 ∨ pl_of curr_pl = 1 := by
  unfold pl_of; split <;> simp

theorem LPFOf_mod (laddr : Nat) : LPFOf laddr % 4096 = 0 := by
  unfold LPFOf; omega

theorem LPFOf_ne_invalid (laddr : Nat) : BX_INVALID_TLB_ENTRY ≠ LPFOf laddr := by
  intro h
  have h1 := LPFOf_mod laddr
  rw [← h] at h1
  revert h1
  decide

theorem TLB_index_LPFOf (laddr : Nat) :
    BX_TLB_INDEX_OF (LPFOf laddr) 0 = BX_TLB_INDEX_OF laddr 0 := by
  unfold BX_TLB_INDEX_OF LPFOf
  congr 1
  omega

/-- The state `page_fault` leaves: CR2 holds `laddr` and the slot of `laddr` is
invalid. -/
theorem page_fault_state (s : BX_CPU_C) (fault laddr user rw : Nat)
    (access_type : AccessType) :
    (page_fault s fault laddr user rw access_type).2.cr2 = laddr ∧
    ((page_fault s fault laddr user rw access_type).2.TLB
        (BX_TLB_INDEX_OF laddr 0)).lpf = BX_INVALID_TLB_ENTRY ∧
    (page_fault s fault laddr user rw access_type).2.mem = s.mem ∧
    (page_fault s fault laddr user rw access_type).2.trace = s.trace := by
  simp [page_fault, TLB_invlpg]

theorem page_fault_outcome (s : BX_CPU_C) (fault laddr user rw : Nat)
    (access_type : AccessType) :
    (page_fault s fault laddr user rw access_type).1 =
      Outcome.exception BX_PF_EXCEPTION (pf_error_code s fault user rw access_type) := by
  unfold page_fault pf_error_code
  by_cases h : s.efer_nxe = true ∧ access_type = AccessType.CODE_ACCESS
  · simp [h]
  · simp only [h, if_false, Nat.or_zero]

theorem FaultOK_page_fault (s : BX_CPU_C) (fault laddr user rw : Nat)
    (access_type : AccessType) :
    FaultOK laddr (page_fault s fault laddr user rw access_type) := by
  intro v ec h
  have hs := page_fault_state s fault laddr user rw access_type
  rw [page_fault_outcome] at h
  injection h with h1 h2
  exact ⟨h1.symm, hs.1, hs.2.1⟩

theorem FaultOK_tlb_fill (s : BX_CPU_C) (laddr ppf ca rw w : Nat) (access_type : AccessType) :
    FaultOK laddr (tlb_fill s laddr ppf ca rw w access_type) := by
  intro v ec h
  simp [tlb_fill] at h

theorem FaultOK_panic (s : BX_CPU_C) (laddr : Nat) :
    FaultOK laddr ((Outcome.panic : Outcome Nat), s) := by
  intro v ec h
  simp at h

theorem FaultOK_ite (laddr : Nat) (c : Prop) [Decidable c] (a b : Outcome Nat × BX_CPU_C)
    (ha : FaultOK laddr a) (hb : FaultOK laddr b) : FaultOK laddr (if c then a else b) := by
  split <;> assumption

theorem FaultOK_legacy_4k_finish (s : BX_CPU_C) (laddr pl w rw : Nat)
    (access_type : AccessType) (a1 e1 a2 e2 : Nat) :
    FaultOK laddr (legacy_4k_finish s laddr pl w rw access_type a1 e1 a2 e2) := by
  unfold legacy_4k_finish
  dsimp only
  repeat' first
    | with_reducible exact FaultOK_page_fault _ _ _ _ _ _
    | with_reducible exact FaultOK_tlb_fill _ _ _ _ _ _ _
    | with_reducible apply FaultOK_ite

theorem FaultOK_legacy_walk (s : BX_CPU_C) (laddr pl w rw : Nat) (access_type : AccessType) :
    FaultOK laddr (legacy_walk s laddr pl w rw access_type) := by
  unfold legacy_walk legacy_4m legacy_4k
  dsimp only
  repeat' first
    | with_reducible exact FaultOK_page_fault _ _ _ _ _ _
    | with_reducible exact FaultOK_tlb_fill _ _ _ _ _ _ _
    | with_reducible exact FaultOK_legacy_4k_finish _ _ _ _ _ _ _ _ _ _
    | with_reducible apply FaultOK_ite

theorem FaultOK_pae_4k_finish (s : BX_CPU_C) (laddr pl w rw : Nat)
    (access_type : AccessType) (p a1 e1 a2 e2 a3 e3 nx : Nat) :
    FaultOK laddr (pae_4k_finish s laddr pl w rw access_type p a1 e1 a2 e2 a3 e3 nx) := by
  unfold pae_4k_finish
  dsimp only
  repeat' first
    | with_reducible exact FaultOK_page_fault _ _ _ _ _ _
    | with_reducible exact FaultOK_tlb_fill _ _ _ _ _ _ _
    | with_reducible apply FaultOK_ite

theorem FaultOK_pae_pde (s : BX_CPU_C) (laddr pl w rw : Nat) (access_type : AccessType)
    (pml4 pdpe_addr pdpe nx : Nat) :
    FaultOK laddr (pae_pde s laddr pl w rw access_type pml4 pdpe_addr pdpe nx) := by
  unfold pae_pde pae_2m pae_4k
  dsimp only
  repeat' first
    | with_reducible exact FaultOK_page_fault _ _ _ _ _ _
    | with_reducible exact FaultOK_tlb_fill _ _ _ _ _ _ _
    | with_reducible exact FaultOK_pae_4k_finish _ _ _ _ _ _ _ _ _ _ _ _ _ _
    | with_reducible exact FaultOK_panic _ _
    | with_reducible apply FaultOK_ite

theorem FaultOK_pae_pdpe (s : BX_CPU_C) (laddr pl w rw : Nat) (access_type : AccessType)
    (pml4 pdpe_addr nx : Nat) :
    FaultOK laddr (pae_pdpe s laddr pl w rw access_type pml4 pdpe_addr nx) := by
  unfold pae_pdpe
  dsimp only
  repeat' first
    | with_reducible exact FaultOK_page_fault _ _ _ _ _ _
    | with_reducible exact FaultOK_pae_pde _ _ _ _ _ _ _ _ _ _
    | with_reducible exact FaultOK_panic _ _
    | with_reducible apply FaultOK_ite

theorem FaultOK_pae_walk (s : BX_CPU_C) (laddr pl w rw : Nat) (access_type : AccessType) :
    FaultOK laddr (pae_walk s laddr pl w rw access_type) := by
  unfold pae_walk long_pml4
  dsimp only
  repeat' first
    | with_reducible exact FaultOK_page_fault _ _ _ _ _ _
    | with_reducible exact FaultOK_pae_pdpe _ _ _ _ _ _ _ _ _
    | with_reducible exact FaultOK_panic _ _
    | with_reducible apply FaultOK_ite

theorem FaultOK_translate_linear (s : BX_CPU_C) (laddr curr_pl rw : Nat)
    (access_type : AccessType) :
    FaultOK laddr (translate_linear s laddr curr_pl rw access_type) := by
  unfold translate_linear
  dsimp only
  repeat' first
    | with_reducible exact FaultOK_pae_walk _ _ _ _ _ _
    | with_reducible exact FaultOK_legacy_walk _ _ _ _ _ _
    | with_reducible apply FaultOK_ite
  intro v ec h
  simp at h

/-! ## The walk, level by level -/

theorem translate_linear_miss (s : BX_CPU_C) (laddr curr_pl rw : Nat) (access_type : AccessType)
    (h : ¬ tlb_hit s laddr curr_pl (isWrite_of rw)) :
    translate_linear s laddr curr_pl rw access_type =
      if s.cr4_PAE then pae_walk s laddr (pl_of curr_pl) (isWrite_of rw) rw access_type
      else legacy_walk s laddr (pl_of curr_pl) (isWrite_of rw) rw access_type := by
  unfold translate_linear
  simp only [h, if_false]

theorem readPhysicalPage_fst (s : BX_CPU_C) (a n : Nat) :
    (readPhysicalPage s a n).1 = readLE s.mem a n := rfl

theorem readPhysicalPage_mem (s : BX_CPU_C) (a n : Nat) :
    (readPhysicalPage s a n).2.mem = s.mem := rfl

theorem readPhysicalPage_trace (s : BX_CPU_C) (a n : Nat) :
    (readPhysicalPage s a n).2.trace = s.trace ++ [MemOp.read a n] := rfl

theorem same_regs_refl (s : BX_CPU_C) : same_regs s s := by
  simp [same_regs]

theorem same_regs_trans {s1 s2 s3 : BX_CPU_C} (h1 : same_regs s1 s2) (h2 : same_regs s2 s3) :
    same_regs s1 s3 := by
  unfold same_regs at *
  obtain ⟨a1, a2, a3, a4, a5, a6, a7, a8, a9, a10, a11, a12, a13, a14, a15⟩ := h1
  obtain ⟨b1, b2, b3, b4, b5, b6, b7, b8, b9, b10, b11, b12, b13, b14, b15⟩ := h2
  exact ⟨a1.trans b1, a2.trans b2, a3.trans b3, a4.trans b4, a5.trans b5, a6.trans b6,
    a7.trans b7, a8.trans b8, a9.trans b9, a10.trans b10, a11.trans b11, a12.trans b12,
    a13.trans b13, a14.trans b14, a15.trans b15⟩

theorem same_regs_read (s : BX_CPU_C) (a n : Nat) : same_regs (readPhysicalPage s a n).2 s := by
  simp [same_regs, readPhysicalPage]

theorem same_regs_write (s : BX_CPU_C) (a n v : Nat) : same_regs (writePhysicalPage s a n v) s := by
  simp [same_regs, writePhysicalPage]

theorem same_regs_pml4_state (s : BX_CPU_C) (laddr : Nat) : same_regs (pml4_state s laddr) s := by
  unfold pml4_state
  dsimp only
  split
  · simp [same_regs, writePhysicalPage, readPhysicalPage]
  · simp [same_regs, readPhysicalPage]

theorem same_regs_pdpe_state (s : BX_CPU_C) (laddr : Nat) : same_regs (pdpe_state s laddr) s := by
  unfold pdpe_state
  split
  · exact same_regs_pml4_state s laddr
  · exact same_regs_refl s

theorem same_regs_pde_state (s : BX_CPU_C) (laddr : Nat) : same_regs (pde_state s laddr) s :=
  same_regs_trans (same_regs_read _ _ _) (same_regs_pdpe_state s laddr)

theorem same_regs_pte_state (s : BX_CPU_C) (laddr : Nat) : same_regs (pte_state s laddr) s :=
  same_regs_trans (same_regs_read _ _ _) (same_regs_pde_state s laddr)

theorem same_regs_pae_leaf_state (s : BX_CPU_C) (laddr : Nat) :
    same_regs (pae_leaf_state s laddr) s :=
  same_regs_trans (same_regs_read _ _ _) (same_regs_pte_state s laddr)

theorem same_regs_legacy_pte_state (s : BX_CPU_C) (laddr : Nat) :
    same_regs (legacy_pte_state s laddr) s := same_regs_read _ _ _

theorem same_regs_legacy_leaf_state (s : BX_CPU_C) (laddr : Nat) :
    same_regs (legacy_leaf_state s laddr) s :=
  same_regs_trans (same_regs_read _ _ _) (same_regs_legacy_pte_state s laddr)

theorem pde_state_mem (s : BX_CPU_C) (laddr : Nat) :
    (pde_state s laddr).mem = (pdpe_state s laddr).mem := rfl

theorem pte_state_mem (s : BX_CPU_C) (laddr : Nat) :
    (pte_state s laddr).mem = (pdpe_state s laddr).mem := rfl

theorem pae_leaf_state_mem (s : BX_CPU_C) (laddr : Nat) :
    (pae_leaf_state s laddr).mem = (pdpe_state s laddr).mem := rfl

theorem legacy_pte_state_mem (s : BX_CPU_C) (laddr : Nat) :
    (legacy_pte_state s laddr).mem = s.mem := rfl

theorem legacy_leaf_state_mem (s : BX_CPU_C) (laddr : Nat) :
    (legacy_leaf_state s laddr).mem = s.mem := rfl

theorem pf_error_code_congr {s1 s2 : BX_CPU_C} (h : same_regs s1 s2) (f u w : Nat)
    (access_type : AccessType) :
    pf_error_code s1 f u w access_type = pf_error_code s2 f u w access_type := by
  unfold pf_error_code
  rw [h.2.2.2.2.2.1]

theorem priv_index_congr {s1 s2 : BX_CPU_C} (h : same_regs s1 s2) (pl ca w : Nat) :
    priv_index s1 pl ca w = priv_index s2 pl ca w := by
  unfold priv_index
  rw [h.2.1]

/-- The outcome of a page fault raised in a state that has the registers of `s`. -/
theorem page_fault_fst {s1 s : BX_CPU_C} (h : same_regs s1 s) (f laddr u w : Nat)
    (access_type : AccessType) :
    (page_fault s1 f laddr u w access_type).1 =
      Outcome.exception BX_PF_EXCEPTION (pf_error_code s f u w access_type) := by
  rw [page_fault_outcome, pf_error_code_congr h]

theorem nx_legal {s : BX_CPU_C} {e : Nat}
    (h : (e &&& PAGE_DIRECTORY_NX_BIT) ≠ 0 → s.efer_nxe = true) :
    ¬ ((e &&& PAGE_DIRECTORY_NX_BIT) ≠ 0 ∧ s.efer_nxe = false) := by
  intro hc
  have := h hc.1
  simp [hc.2] at this

/-! ### Long mode: the PML4 level -/

theorem long_pml4_not_present (s : BX_CPU_C) (laddr pl w rw : Nat) (access_type : AccessType)
    (h : (pml4_entry s laddr &&& 0x01) = 0) :
    long_pml4 s laddr pl w rw access_type =
      page_fault (readPhysicalPage s (pml4_addr s laddr) 8).2 ERROR_NOT_PRESENT laddr pl w
        access_type := by
  unfold long_pml4
  unfold pml4_entry at h
  unfold pml4_addr at *
  simp only [readPhysicalPage_fst, h, if_true]

theorem long_pml4_reserved (s : BX_CPU_C) (laddr pl w rw : Nat) (access_type : AccessType)
    (h : (pml4_entry s laddr &&& 0x01) ≠ 0) (hr : (pml4_entry s laddr &&& 0x180) ≠ 0) :
    long_pml4 s laddr pl w rw access_type =
      page_fault (readPhysicalPage s (pml4_addr s laddr) 8).2 (ERROR_RESERVED ||| ERROR_PROTECTION)
        laddr pl w access_type := by
  unfold long_pml4
  unfold pml4_entry at h hr
  unfold pml4_addr at *
  simp only [readPhysicalPage_fst, PAGING_PML4_RESERVED_BITS, h, hr, if_false, if_true, ne_eq,
    not_false_eq_true]

theorem long_pml4_step (s : BX_CPU_C) (laddr pl w rw : Nat) (access_type : AccessType)
    (h : upper_ok s (pml4_entry s laddr)) :
    long_pml4 s laddr pl w rw access_type =
      pae_pdpe (pml4_state s laddr) laddr pl w rw access_type (pml4_acc s laddr)
        ((pml4_acc s laddr &&& 0x000ffffffffff000) ||| ((laddr &&& 0x0000007fc0000000) >>> 27))
        (nx_upd (pml4_entry s laddr) access_type 0) := by
  obtain ⟨h1, h2, h3, h4⟩ := h
  have h3' := nx_legal h3
  unfold long_pml4 pml4_state pml4_acc
  unfold pml4_entry pml4_addr at *
  simp only [readPhysicalPage, PAGING_PML4_RESERVED_BITS, h1, h2, h3', h4, if_false, ne_eq,
    not_true_eq_false]

theorem pae_walk_eq (s : BX_CPU_C) (laddr pl w rw : Nat) (access_type : AccessType)
    (h : s.long_mode = true → upper_ok s (pml4_entry s laddr)) :
    pae_walk s laddr pl w rw access_type =
      pae_pdpe (pdpe_state s laddr) laddr pl w rw access_type (pml4_val s laddr)
        (pdpe_addr s laddr) (nx_pml4 s laddr access_type) := by
  unfold pae_walk pdpe_state pml4_val pdpe_addr nx_pml4
  by_cases hl : s.long_mode = true
  · simp only [hl, if_true]
    exact long_pml4_step s laddr pl w rw access_type (h hl)
  · have hf : s.long_mode = false := by simpa using hl
    simp [hf]

/-! ### PAE and long mode: the PDPE level -/

theorem pae_pdpe_not_present (s : BX_CPU_C) (laddr pl w rw : Nat) (access_type : AccessType)
    (p nx : Nat) (h : (pdpe_entry s laddr &&& 0x01) = 0) :
    pae_pdpe (pdpe_state s laddr) laddr pl w rw access_type p (pdpe_addr s laddr) nx =
      page_fault (pde_state s laddr) ERROR_NOT_PRESENT laddr pl w access_type := by
  unfold pae_pdpe pde_state
  unfold pdpe_entry at h
  simp only [readPhysicalPage_fst, h, if_true]

theorem pae_pdpe_reserved (s : BX_CPU_C) (laddr pl w rw : Nat) (access_type : AccessType)
    (p nx : Nat) (h : (pdpe_entry s laddr &&& 0x01) ≠ 0)
    (hr : (pdpe_entry s laddr &&& 0x180) ≠ 0) :
    pae_pdpe (pdpe_state s laddr) laddr pl w rw access_type p (pdpe_addr s laddr) nx =
      page_fault (pde_state s laddr) (ERROR_RESERVED ||| ERROR_PROTECTION) laddr pl w
        access_type := by
  unfold pae_pdpe pde_state
  unfold pdpe_entry at h hr
  simp only [readPhysicalPage_fst, PAGING_PDPE_RESERVED_BITS, h, hr, if_false, if_true, ne_eq,
    not_false_eq_true]

theorem pae_pdpe_eq (s : BX_CPU_C) (laddr pl w rw : Nat) (access_type : AccessType)
    (p nx : Nat) (h : upper_ok s (pdpe_entry s laddr)) :
    pae_pdpe (pdpe_state s laddr) laddr pl w rw access_type p (pdpe_addr s laddr) nx =
      pae_pde (pde_state s laddr) laddr pl w rw access_type p (pdpe_addr s laddr)
        (pdpe_entry s laddr) (nx_upd (pdpe_entry s laddr) access_type nx) := by
  obtain ⟨h1, h2, h3, h4⟩ := h
  have h3' := nx_legal h3
  rw [← (same_regs_pde_state s laddr).2.2.2.2.2.1] at h3'
  unfold pae_pdpe
  unfold pde_state at *
  unfold pdpe_entry at *
  simp only [readPhysicalPage_fst, PAGING_PDPE_RESERVED_BITS, h1, h2, h3', h4, if_false, ne_eq,
    not_true_eq_false]

/-! ### PAE and long mode: the PDE level -/

theorem pae_pde_not_present (s : BX_CPU_C) (laddr pl w rw : Nat) (access_type : AccessType)
    (p a nx : Nat) (h : (pae_pde_entry s laddr &&& 0x01) = 0) :
    pae_pde (pde_state s laddr) laddr pl w rw access_type p a (pdpe_entry s laddr) nx =
      page_fault (pte_state s laddr) ERROR_NOT_PRESENT laddr pl w access_type := by
  unfold pae_pde pte_state
  unfold pae_pde_entry at h
  unfold pae_pde_addr at *
  rw [← pde_state_mem] at h
  simp only [readPhysicalPage_fst, h, if_true]

theorem pae_pde_eq (s : BX_CPU_C) (laddr pl w rw : Nat) (access_type : AccessType)
    (p a nx : Nat) (h : lower_ok s (pae_pde_entry s laddr)) :
    pae_pde (pde_state s laddr) laddr pl w rw access_type p a (pdpe_entry s laddr) nx =
      if (pae_pde_entry s laddr &&& 0x80) ≠ 0 then
        pae_2m (pte_state s laddr) laddr pl w rw access_type p a (pdpe_entry s laddr)
          (pae_pde_addr s laddr) (pae_pde_entry s laddr)
          (nx_upd (pae_pde_entry s laddr) access_type nx)
      else
        pae_4k (pte_state s laddr) laddr pl w rw access_type p a (pdpe_entry s laddr)
          (pae_pde_addr s laddr) (pae_pde_entry s laddr)
          (nx_upd (pae_pde_entry s laddr) access_type nx) := by
  obtain ⟨h1, h3, h4⟩ := h
  have h3' := nx_legal h3
  rw [← (same_regs_pte_state s laddr).2.2.2.2.2.1] at h3'
  unfold pae_pde
  unfold pte_state at *
  unfold pae_pde_entry at *
  unfold pae_pde_addr at *
  rw [← pde_state_mem] at *
  simp only [readPhysicalPage_fst, h1, h3', h4, if_false, ne_eq, not_true_eq_false]

/-! ### PAE and long mode: the PTE level -/

theorem pae_4k_not_present (s : BX_CPU_C) (laddr pl w rw : Nat) (access_type : AccessType)
    (p a1 e1 nx : Nat) (h : (pae_pte_entry s laddr &&& 0x01) = 0) :
    pae_4k (pte_state s laddr) laddr pl w rw access_type p a1 e1 (pae_pde_addr s laddr)
        (pae_pde_entry s laddr) nx =
      page_fault (pae_leaf_state s laddr) ERROR_NOT_PRESENT laddr pl w access_type := by
  unfold pae_4k pae_leaf_state
  unfold pae_pte_entry at h
  unfold pae_pte_addr at *
  rw [← pte_state_mem] at h
  simp only [readPhysicalPage_fst, h, if_true]

theorem pae_4k_eq (s : BX_CPU_C) (laddr pl w rw : Nat) (access_type : AccessType)
    (p a1 e1 nx : Nat) (h : lower_ok s (pae_pte_entry s laddr)) :
    pae_4k (pte_state s laddr) laddr pl w rw access_type p a1 e1 (pae_pde_addr s laddr)
        (pae_pde_entry s laddr) nx =
      pae_4k_finish (pae_leaf_state s laddr) laddr pl w rw access_type p a1 e1
        (pae_pde_addr s laddr) (pae_pde_entry s laddr) (pae_pte_addr s laddr)
        (pae_pte_entry s laddr) (nx_upd (pae_pte_entry s laddr) access_type nx) := by
  obtain ⟨h1, h3, h4⟩ := h
  have h3' := nx_legal h3
  rw [← (same_regs_pae_leaf_state s laddr).2.2.2.2.2.1] at h3'
  unfold pae_4k
  unfold pae_leaf_state at *
  unfold pae_pte_entry at *
  unfold pae_pte_addr at *
  rw [← pte_state_mem] at *
  simp only [readPhysicalPage_fst, h1, h3', h4, if_false, ne_eq, not_true_eq_false]

/-! ### Non-PAE walk -/

theorem legacy_walk_not_present (s : BX_CPU_C) (laddr pl w rw : Nat) (access_type : AccessType)
    (h : (pde_entry s laddr &&& 0x01) = 0) :
    legacy_walk s laddr pl w rw access_type =
      page_fault (legacy_pte_state s laddr) ERROR_NOT_PRESENT laddr pl w access_type := by
  unfold legacy_walk legacy_pte_state
  unfold pde_entry at h
  unfold pde_addr at *
  simp only [readPhysicalPage_fst, h, if_true]

theorem legacy_walk_4m (s : BX_CPU_C) (laddr pl w rw : Nat) (access_type : AccessType)
    (h : (pde_entry s laddr &&& 0x01) ≠ 0)
    (hl : (pde_entry s laddr &&& 0x80) ≠ 0 ∧ s.cr4_PSE = true) :
    legacy_walk s laddr pl w rw access_type =
      legacy_4m (legacy_pte_state s laddr) laddr pl w rw access_type (pde_addr s laddr)
        (pde_entry s laddr) := by
  have hl' : (pde_entry s laddr &&& 0x80) ≠ 0 ∧ (legacy_pte_state s laddr).cr4_PSE = true := by
    rw [(same_regs_legacy_pte_state s laddr).2.2.1]
    exact hl
  unfold legacy_walk
  unfold legacy_pte_state at *
  unfold pde_entry at *
  unfold pde_addr at *
  simp only [readPhysicalPage_fst, h, if_false]
  rw [if_pos hl']

theorem legacy_walk_4k (s : BX_CPU_C) (laddr pl w rw : Nat) (access_type : AccessType)
    (h : (pde_entry s laddr &&& 0x01) ≠ 0)
    (hl : ¬ ((pde_entry s laddr &&& 0x80) ≠ 0 ∧ s.cr4_PSE = true)) :
    legacy_walk s laddr pl w rw access_type =
      legacy_4k (legacy_pte_state s laddr) laddr pl w rw access_type (pde_addr s laddr)
        (pde_entry s laddr) := by
  have hl' : ¬ ((pde_entry s laddr &&& 0x80) ≠ 0 ∧ (legacy_pte_state s laddr).cr4_PSE = true) := by
    rw [(same_regs_legacy_pte_state s laddr).2.2.1]
    exact hl
  unfold legacy_walk
  unfold legacy_pte_state at *
  unfold pde_entry at *
  unfold pde_addr at *
  simp only [readPhysicalPage_fst, h, if_false]
  rw [if_neg hl']

theorem legacy_4k_not_present (s : BX_CPU_C) (laddr pl w rw : Nat) (access_type : AccessType)
    (h : (pte_entry s laddr &&& 0x01) = 0) :
    legacy_4k (legacy_pte_state s laddr) laddr pl w rw access_type (pde_addr s laddr)
        (pde_entry s laddr) =
      page_fault (legacy_leaf_state s laddr) ERROR_NOT_PRESENT laddr pl w access_type := by
  unfold legacy_4k legacy_leaf_state
  unfold pte_entry at h
  unfold pte_addr at *
  rw [← legacy_pte_state_mem s laddr] at h
  simp only [readPhysicalPage_fst, h, if_true]

theorem legacy_4k_eq (s : BX_CPU_C) (laddr pl w rw : Nat) (access_type : AccessType)
    (h : (pte_entry s laddr &&& 0x01) ≠ 0) :
    legacy_4k (legacy_pte_state s laddr) laddr pl w rw access_type (pde_addr s laddr)
        (pde_entry s laddr) =
      legacy_4k_finish (legacy_leaf_state s laddr) laddr pl w rw access_type (pde_addr s laddr)
        (pde_entry s laddr) (pte_addr s laddr) (pte_entry s laddr) := by
  unfold legacy_4k legacy_leaf_state
  unfold pte_entry at *
  unfold pte_addr at *
  rw [← legacy_pte_state_mem s laddr] at *
  simp only [readPhysicalPage_fst, h, if_false]

/-! ## Bits of entries and of error codes -/

theorem and_ne_zero_iff (e m : Nat) :
    (e &&& m) ≠ 0 ↔ ∃ i, e.testBit i = true ∧ m.testBit i = true := by
  constructor
  · intro h
    obtain ⟨i, hi⟩ := Nat.ne_zero_implies_bit_true h
    rw [Nat.testBit_and, Bool.and_eq_true] at hi
    exact ⟨i, hi⟩
  · rintro ⟨i, h1, h2⟩ h0
    have : (e &&& m).testBit i = true := by
      rw [Nat.testBit_and, h1, h2]; rfl
    rw [h0, Nat.zero_testBit] at this
    exact Bool.noConfusion this

theorem and_pow_ne_zero_iff (e k : Nat) : (e &&& 2 ^ k) ≠ 0 ↔ e.testBit k = true := by
  rw [and_ne_zero_iff]
  constructor
  · rintro ⟨i, h1, h2⟩
    rw [Nat.testBit_two_pow, decide_eq_true_eq] at h2
    rw [h2]; exact h1
  · intro h
    exact ⟨k, h, Nat.testBit_two_pow_self⟩

theorem and_pow_eq_zero_iff (e k : Nat) : (e &&& 2 ^ k) = 0 ↔ e.testBit k = false := by
  have h := and_pow_ne_zero_iff e k
  constructor
  · intro h0
    cases hb : e.testBit k
    · rfl
    · exact absurd h0 (h.mpr hb)
  · intro hb
    by_contra hne
    rw [h.mp hne] at hb
    exact Bool.noConfusion hb

/-- Bits 7 and 8 are the bits of the mask `0x180`. -/
theorem reserved_bits_iff (e : Nat) :
    (e &&& 0x180) ≠ 0 ↔ (e.testBit 7 = true ∨ e.testBit 8 = true) := by
  rw [and_ne_zero_iff]
  constructor
  · rintro ⟨i, h1, h2⟩
    have hi : i < 9 := by
      by_contra hge
      have hlt : (0x180 : Nat) < 2 ^ i :=
        Nat.lt_of_lt_of_le (by decide : (0x180 : Nat) < 2 ^ 9)
          (Nat.pow_le_pow_right (by decide) (Nat.le_of_not_lt hge))
      rw [Nat.testBit_lt_two_pow hlt] at h2
      exact Bool.noConfusion h2
    interval_cases i <;> first
      | exact Or.inl h1
      | exact Or.inr h1
      | exact absurd h2 (by decide)
  · rintro (h | h)
    · exact ⟨7, h, by decide⟩
    · exact ⟨8, h, by decide⟩

theorem and6_cases (x : Nat) :
    x &&& 6 = 0 ∨ x &&& 6 = 2 ∨ x &&& 6 = 4 ∨ x &&& 6 = 6 := by
  have h1 : x &&& 6 ≤ 6 := Nat.and_le_right
  have h2 : (x &&& 6) % 2 = 0 := by
    rw [← Nat.and_one_is_mod, Nat.and_assoc]
    simp
  omega

theorem and6_and4 (x : Nat) : (x &&& 6) &&& 4 = x &&& 4 := by
  rw [Nat.and_assoc]; rfl

theorem and6_and2 (x : Nat) : (x &&& 6) &&& 2 = x &&& 2 := by
  rw [Nat.and_assoc]; rfl

/-- A user access to a page whose combined U/S bit is clear is refused, whatever
CR0.WP, the R/W bit and the kind of access are. -/
theorem priv_check_user_supervisor (s : BX_CPU_C) (ca w : Nat) (hw : w = 0 ∨ w = 1)
    (h : ca &&& 4 = 0) : priv_check (priv_index s 1 ca w) = 0 := by
  unfold priv_index
  have h4 := and6_and4 ca
  rw [h] at h4
  rcases and6_cases ca with h6 | h6 | h6 | h6 <;> rw [h6] at h4 ⊢ <;>
    first
    | exact absurd h4 (by decide)
    | (rcases hw with hw | hw <;> rw [hw] <;> cases s.cr0_WP <;> decide)

/-- A supervisor write: with CR0.WP = 1 it is refused exactly when the combined
R/W bit is clear, with CR0.WP = 0 it is never refused. -/
theorem priv_check_supervisor_write (s : BX_CPU_C) (ca : Nat) :
    (s.cr0_WP = false → priv_check (priv_index s 0 ca 1) = 1) ∧
    (s.cr0_WP = true → ca &&& 2 = 0 → priv_check (priv_index s 0 ca 1) = 0) := by
  unfold priv_index
  have h2 := and6_and2 ca
  constructor
  · intro hwp
    rw [hwp]
    rcases and6_cases ca with h6 | h6 | h6 | h6 <;> rw [h6] <;> decide
  · intro hwp hrw
    rw [hwp]
    rw [hrw] at h2
    rcases and6_cases ca with h6 | h6 | h6 | h6 <;> rw [h6] at h2 ⊢ <;>
      first
      | exact absurd h2 (by decide)
      | decide

/-- The bits of a page-fault error code built from `fault`, a user flag and a
write flag that are 0 or 1. -/
theorem pf_error_code_bits (s : BX_CPU_C) (f u w : Nat) (access_type : AccessType)
    (hu : u = 0 ∨ u = 1) (hw : w = 0 ∨ w = 1) (hf : f = 0 ∨ f = 1 ∨ f = 9) :
    ((pf_error_code s f u w access_type).testBit 0 = f.testBit 0) ∧
    ((pf_error_code s f u w access_type).testBit 1 = decide (w = 1)) ∧
    ((pf_error_code s f u w access_type).testBit 2 = decide (u = 1)) ∧
    ((pf_error_code s f u w access_type).testBit 3 = f.testBit 3) ∧
    ((pf_error_code s f u w access_type).testBit 4 =
      decide (s.efer_nxe = true ∧ access_type = AccessType.CODE_ACCESS)) := by
  unfold pf_error_code ERROR_CODE_ACCESS
  by_cases hc : s.efer_nxe = true ∧ access_type = AccessType.CODE_ACCESS
  · simp only [hc, and_self, if_true, decide_True]
    rcases hu with hu | hu <;> rcases hw with hw | hw <;> rcases hf with hf | hf | hf <;>
      rw [hu, hw, hf] <;> decide
  · simp only [hc, if_false, decide_False]
    rcases hu with hu | hu <;> rcases hw with hw | hw <;> rcases hf with hf | hf | hf <;>
      rw [hu, hw, hf] <;> decide

theorem pf_error_code_data (s : BX_CPU_C) (f u w : Nat) :
    pf_error_code s f u w AccessType.DATA_ACCESS = f ||| ((u <<< 2) ||| (w <<< 1)) := by
  unfold pf_error_code
  simp

theorem or_div_two_pow (x y j : Nat) : (x ||| y) / 2 ^ j = x / 2 ^ j ||| y / 2 ^ j := by
  apply Nat.eq_of_testBit_eq
  intro i
  simp only [← Nat.shiftRight_eq_div_pow, Nat.testBit_shiftRight, Nat.testBit_or]

theorem or_mod_two_pow (x y j : Nat) : (x ||| y) % 2 ^ j = x % 2 ^ j ||| y % 2 ^ j := by
  apply Nat.eq_of_testBit_eq
  intro i
  simp only [Nat.testBit_mod_two_pow, Nat.testBit_or, Bool.and_or_distrib_left]

theorem and_mod_two_pow (x y j : Nat) : (x &&& y) % 2 ^ j = x % 2 ^ j &&& y % 2 ^ j := by
  apply Nat.eq_of_testBit_eq
  intro i
  simp only [Nat.testBit_mod_two_pow, Nat.testBit_and]
  cases decide (i < j) <;> simp

/-- A bit field of `x`, masked in place and shifted down: the `k` bits from bit
`j` on, moved to bit `j - sh`. -/
theorem bit_field (x j k sh : Nat) (h : sh ≤ j) :
    (x &&& ((2 ^ k - 1) <<< j)) >>> sh = (x / 2 ^ j % 2 ^ k) * 2 ^ (j - sh) := by
  apply Nat.eq_of_testBit_eq
  intro i
  rw [← Nat.shiftLeft_eq, ← Nat.shiftRight_eq_div_pow]
  simp only [Nat.testBit_shiftRight, Nat.testBit_and, Nat.testBit_shiftLeft,
    Nat.testBit_two_pow_sub_one, Nat.testBit_mod_two_pow]
  by_cases h1 : j - sh ≤ i
  · have h2 : j ≤ sh + i := by omega
    have h3 : sh + i - j = i - (j - sh) := by omega
    have h4 : j + (i - (j - sh)) = sh + i := by omega
    simp [h1, h2, h3, h4, Bool.and_comm]
  · have h2 : ¬ j ≤ sh + i := by omega
    simp [h1, h2]

theorem pml4_index (laddr : Nat) :
    (laddr &&& 0x0000ff8000000000) >>> 36 = (laddr / 2 ^ 39 % 512) * 8 :=
  bit_field laddr 39 9 36 (by decide)

theorem pdpe_index (laddr : Nat) :
    (laddr &&& 0x0000007fc0000000) >>> 27 = (laddr / 2 ^ 30 % 512) * 8 :=
  bit_field laddr 30 9 27 (by decide)

theorem pae_pde_index (laddr : Nat) :
    (laddr &&& 0x3fe00000) >>> 18 = (laddr / 2 ^ 21 % 512) * 8 :=
  bit_field laddr 21 9 18 (by decide)

theorem pae_pte_index (laddr : Nat) :
    (laddr &&& 0x001ff000) >>> 9 = (laddr / 2 ^ 12 % 512) * 8 :=
  bit_field laddr 12 9 9 (by decide)

theorem pde_index (laddr : Nat) :
    (laddr &&& 0xffc00000) >>> 20 = (laddr / 2 ^ 22 % 1024) * 4 :=
  bit_field laddr 22 10 20 (by decide)

theorem pte_index (laddr : Nat) :
    (laddr &&& 0x003ff000) >>> 10 = (laddr / 2 ^ 12 % 1024) * 4 :=
  bit_field laddr 12 10 10 (by decide)

/-! ## Guest memory -/

theorem byteOf_val (x : Nat) : (byteOf x).val = x % 256 := rfl

theorem readLE_lt (m : Mem) (a n : Nat) : readLE m a n < 256 ^ n := by
  induction n generalizing a with
  | zero => simp [readLE]
  | succ n ih =>
    have h1 := ih (a + 1)
    have h2 := (m a).isLt
    rw [readLE, Nat.pow_succ]
    omega

theorem readLE_succ_mod (m : Mem) (a n : Nat) : readLE m a (n + 1) % 256 = (m a).val := by
  have h2 := (m a).isLt
  rw [readLE]
  omega

theorem readLE_succ_div (m : Mem) (a n : Nat) :
    readLE m a (n + 1) / 256 = readLE m (a + 1) n := by
  have h2 := (m a).isLt
  rw [readLE]
  omega

/-- Byte `k` of a little-endian read is the byte at `a + k`. -/
theorem readLE_byte (m : Mem) (a n k : Nat) (h : k < n) :
    readLE m a n / 256 ^ k % 256 = (m (a + k)).val := by
  induction k generalizing a n with
  | zero =>
    obtain ⟨n', rfl⟩ : ∃ n', n = n' + 1 := ⟨n - 1, by omega⟩
    simpa using readLE_succ_mod m a n'
  | succ k ih =>
    obtain ⟨n', rfl⟩ : ∃ n', n = n' + 1 := ⟨n - 1, by omega⟩
    rw [Nat.pow_succ, Nat.mul_comm, ← Nat.div_div_eq_div_mul, readLE_succ_div,
      ih (a + 1) n' (by omega)]
    congr 2
    omega

/-- A little-endian read is determined by its bytes. -/
theorem readLE_of_bytes (m : Mem) (a n v : Nat)
    (h : ∀ k, k < n → (m (a + k)).val = v / 256 ^ k % 256) :
    readLE m a n = v % 256 ^ n := by
  induction n generalizing a v with
  | zero => simp [readLE, Nat.mod_one]
  | succ n ih =>
    have h0 := h 0 (by omega)
    simp only [Nat.add_zero, Nat.pow_zero, Nat.div_one] at h0
    have h1 : readLE m (a + 1) n = (v / 256) % 256 ^ n := by
      apply ih
      intro k hk
      have := h (k + 1) (by omega)
      rw [Nat.div_div_eq_div_mul, ← Nat.pow_succ']
      rw [← this]
      congr 2
      omega
    rw [readLE, h0, h1, Nat.pow_succ, Nat.mul_comm (256 ^ n), Nat.mod_mul]

theorem readLE_congr (m m' : Mem) (a n : Nat) (h : ∀ k, k < n → m (a + k) = m' (a + k)) :
    readLE m a n = readLE m' a n := by
  induction n generalizing a with
  | zero => rfl
  | succ n ih =>
    rw [readLE, readLE]
    have h0 := h 0 (by omega)
    rw [Nat.add_zero] at h0
    rw [h0, ih (a + 1)]
    intro k hk
    have := h (k + 1) (by omega)
    rw [show a + 1 + k = a + (k + 1) by omega]
    exact this

theorem writeLE_outside (m : Mem) (a n v x : Nat) (h : x < a ∨ a + n ≤ x) :
    writeLE m a n v x = m x := by
  unfold writeLE
  rw [if_neg]
  omega

theorem writeLE_inside (m : Mem) (a n v k : Nat) (h : k < n) :
    writeLE m a n v (a + k) = byteOf (v / 256 ^ k) := by
  unfold writeLE
  rw [if_pos ⟨by omega, by omega⟩, Nat.add_sub_cancel_left]

/-- Reading back what was just written. -/
theorem readLE_writeLE_same (m : Mem) (a n v : Nat) :
    readLE (writeLE m a n v) a n = v % 256 ^ n := by
  apply readLE_of_bytes
  intro k hk
  rw [writeLE_inside m a n v k hk, byteOf_val]

/-- A write does not change what is read from a disjoint range. -/
theorem readLE_writeLE_disjoint (m : Mem) (a n v b k : Nat) (h : b + k ≤ a ∨ a + n ≤ b) :
    readLE (writeLE m a n v) b k = readLE m b k := by
  apply readLE_congr
  intro j hj
  apply writeLE_outside
  omega

/-- The low eight bits of an entry are the bits of its first byte. -/
theorem readLE_testBit_low (m : Mem) (a n i : Nat) (hn : 0 < n) (hi : i < 8) :
    (readLE m a n).testBit i = (m a).val.testBit i := by
  obtain ⟨n', rfl⟩ : ∃ n', n = n' + 1 := ⟨n - 1, by omega⟩
  rw [← readLE_succ_mod m a n', show (256 : Nat) = 2 ^ 8 from rfl, Nat.testBit_mod_two_pow]
  simp [hi]

/-- Byte 0 of the write-back of an entry with more of its low eight bits set. -/
theorem writeback_byte_zero (cur M : Mem) (a n b : Nat) (hn : 0 < n) (hb : b < 256) :
    (writeLE cur a n (readLE M a n ||| b) a).val = (M a).val ||| b := by
  have h := writeLE_inside cur a n (readLE M a n ||| b) 0 hn
  rw [Nat.add_zero, Nat.pow_zero, Nat.div_one] at h
  obtain ⟨n', rfl⟩ : ∃ n', n = n' + 1 := ⟨n - 1, by omega⟩
  rw [h, byteOf_val]
  have h1 := or_mod_two_pow (readLE M a (n' + 1)) b 8
  have h2 : (2 : Nat) ^ 8 = 256 := rfl
  rw [h2, readLE_succ_mod, Nat.mod_eq_of_lt hb] at h1
  exact h1

/-- The other bytes of such a write-back are the bytes the entry was read from. -/
theorem writeback_byte_succ (cur M : Mem) (a n b k : Nat) (hk : 0 < k) (hkn : k < n)
    (hb : b < 256) :
    writeLE cur a n (readLE M a n ||| b) (a + k) = M (a + k) := by
  rw [writeLE_inside cur a n _ k hkn]
  apply Fin.ext
  have h256 : (256 : Nat) ^ k = 2 ^ (8 * k) := by
    rw [Nat.pow_mul]
  have hb0 : b / 2 ^ (8 * k) = 0 := by
    apply Nat.div_eq_of_lt
    calc b < 2 ^ 8 := hb
      _ ≤ 2 ^ (8 * k) := Nat.pow_le_pow_right (by decide) (by omega)
  rw [byteOf_val, h256, or_div_two_pow, hb0, Nat.or_zero, ← h256, readLE_byte M a n k hkn]

theorem mem_le_refl (m : Mem) : mem_le m m := fun _ _ h => h

/-- Writing an entry back with more of its low eight bits set clears no bit of the
memory it was read from. -/
theorem writeback_mem_le (cur M : Mem) (a n b : Nat) (hb : b < 256) (h : mem_le M cur) :
    mem_le M (writeLE cur a n (readLE M a n ||| b)) := by
  intro x i hx
  by_cases hin : a ≤ x ∧ x < a + n
  · obtain ⟨k, rfl⟩ : ∃ k, x = a + k := ⟨x - a, by omega⟩
    have hkn : k < n := by omega
    by_cases hk : k = 0
    · subst hk
      rw [Nat.add_zero] at hx ⊢
      rw [writeback_byte_zero cur M a n b (by omega) hb, Nat.testBit_or, hx]
      rfl
    · rw [writeback_byte_succ cur M a n b k (by omega) hkn hb]
      exact hx
  · rw [writeLE_outside cur a n _ x (by omega)]
    exact h x i hx

theorem ad_bits_lt (w : Nat) (hw : w = 0 ∨ w = 1) : (0x20 ||| (w <<< 6)) < 256 := by
  rcases hw with hw | hw <;> rw [hw] <;> decide

theorem update_A_mem_le (st : BX_CPU_C) (M : Mem) (a n : Nat) (h : mem_le M st.mem) :
    mem_le M (update_A st a n (readLE M a n)).mem := by
  unfold update_A
  split
  · exact writeback_mem_le st.mem M a n 0x20 (by decide) h
  · exact h

theorem update_AD_mem_le (st : BX_CPU_C) (M : Mem) (a n w : Nat) (hw : w = 0 ∨ w = 1)
    (h : mem_le M st.mem) : mem_le M (update_AD st a n (readLE M a n) w).mem := by
  unfold update_AD
  split
  · exact writeback_mem_le st.mem M a n _ (ad_bits_lt w hw) h
  · exact h

theorem testBit5_of_and (e : Nat) (h : ¬ (e &&& 0x20) = 0) : e.testBit 5 = true :=
  (and_pow_ne_zero_iff e 5).mp h

theorem testBit6_of_and (e : Nat) (h : ¬ (e &&& 0x40) = 0) : e.testBit 6 = true :=
  (and_pow_ne_zero_iff e 6).mp h

/-- After the leaf update the leaf entry in memory has A set, and D as well when
the access is a write. -/
theorem update_AD_sets (st : BX_CPU_C) (M : Mem) (a n w : Nat) (hn : 0 < n)
    (hw : w = 0 ∨ w = 1) (h : mem_le M st.mem) :
    (readLE (update_AD st a n (readLE M a n) w).mem a n).testBit 5 = true ∧
    (w = 1 → (readLE (update_AD st a n (readLE M a n) w).mem a n).testBit 6 = true) := by
  rw [readLE_testBit_low _ a n 5 hn (by decide), readLE_testBit_low _ a n 6 hn (by decide)]
  unfold update_AD
  split
  · show ((writeLE st.mem a n _ a).val.testBit 5 = true) ∧
      (w = 1 → (writeLE st.mem a n _ a).val.testBit 6 = true)
    rw [writeback_byte_zero st.mem M a n _ hn (ad_bits_lt w hw)]
    have hb5 : (0x20 ||| (w <<< 6)).testBit 5 = true := by
      rcases hw with hw | hw <;> rw [hw] <;> decide
    constructor
    · rw [Nat.testBit_or, hb5, Bool.or_true]
    · intro h1
      have hb6 : (0x20 ||| (w <<< 6)).testBit 6 = true := by rw [h1]; decide
      rw [Nat.testBit_or, hb6, Bool.or_true]
  · rename_i hc
    rw [not_or] at hc
    have h5 := testBit5_of_and _ hc.1
    rw [readLE_testBit_low M a n 5 hn (by decide)] at h5
    refine ⟨h a 5 h5, ?_⟩
    intro h1
    have hd : ¬ (readLE M a n &&& 0x40) = 0 := by
      intro h0
      exact hc.2 ⟨by rw [h1]; decide, h0⟩
    have h6 := testBit6_of_and _ hd
    rw [readLE_testBit_low M a n 6 hn (by decide)] at h6
    exact h a 6 h6

/-! ## Alignment of `cr3_masked` -/

theorem cr3_mask_of_aligned (s : BX_CPU_C) (value : Nat) : cr3_mask_of s value % 32 = 0 := by
  unfold cr3_mask_of
  have h := fun m : Nat => and_mod_two_pow value m 5
  have h32 : (2 : Nat) ^ 5 = 32 := rfl
  rw [h32] at h
  split
  · rw [h]
    have : (0xffffffe0 : Nat) % 32 = 0 := by decide
    rw [this, Nat.and_zero]
  · rw [h]
    have : (0x000ffffffffff000 : Nat) % 32 = 0 := by decide
    rw [this, Nat.and_zero]

/-- Every value `CR3_change` stores into `cr3_masked` is a multiple of 32, hence
of the size of a page-table entry. -/
theorem CR3_change_aligned (s : BX_CPU_C) (value : Nat) :
    (CR3_change s value).cr3_masked % 32 = 0 := by
  unfold CR3_change
  exact cr3_mask_of_aligned _ value

/-- A CR4 write that toggles PAE leaves `cr3_masked` a multiple of 32; any other
leaves it as it was. -/
theorem pagingCR4Changed_aligned (s : BX_CPU_C) (oldCR4 newCR4 : Nat)
    (h : s.cr3_masked % 32 = 0) : (pagingCR4Changed s oldCR4 newCR4).cr3_masked % 32 = 0 := by
  unfold pagingCR4Changed
  dsimp only
  split
  · exact cr3_mask_of_aligned _ _
  · split
    · exact h
    · exact h

/-! ## The walk as a whole -/

theorem and_and_zero (x a b : Nat) (h : a &&& b = 0) : (x &&& a) &&& b = 0 := by
  rw [Nat.and_assoc, h, Nat.and_zero]

theorem priv_index_global (s : BX_CPU_C) (pl c e w : Nat) (g : Bool) :
    priv_index s pl (if g = true then c ||| (e &&& TLB_GlobalPage) else c) w =
      priv_index s pl c w := by
  cases g
  · simp
  · unfold priv_index
    simp only [if_true]
    rw [Nat.and_distrib_right, and_and_zero e TLB_GlobalPage 6 (by decide), Nat.or_zero]

theorem sr_PGE {s1 s2 : BX_CPU_C} (h : same_regs s1 s2) : s1.cr4_PGE = s2.cr4_PGE := h.2.2.2.2.1
theorem sr_nxe {s1 s2 : BX_CPU_C} (h : same_regs s1 s2) : s1.efer_nxe = s2.efer_nxe :=
  h.2.2.2.2.2.1
theorem sr_lm {s1 s2 : BX_CPU_C} (h : same_regs s1 s2) : s1.long_mode = s2.long_mode :=
  h.2.2.2.2.2.2.1

/-- The two ways of writing the permission decision. -/
theorem check_ite {α : Type} (a n : Nat) (x y : α) :
    (if a = 0 ∨ n ≠ 0 then x else y) = if a ≠ 0 ∧ n = 0 then y else x := by
  by_cases h1 : a = 0 <;> by_cases h2 : n = 0 <;> simp [h1, h2]

theorem check_ite_legacy {α : Type} (a : Nat) (x y : α) :
    (if a = 0 then x else y) = if a ≠ 0 ∧ (0 : Nat) = 0 then y else x := by
  by_cases h1 : a = 0 <;> simp [h1]

theorem translate_linear_walk (s : BX_CPU_C) (laddr curr_pl rw : Nat) (access_type : AccessType)
    (hmiss : ¬ tlb_hit s laddr curr_pl (isWrite_of rw)) (hv : walk_valid s laddr) :
    translate_linear s laddr curr_pl rw access_type =
      if walk_permitted s laddr curr_pl rw access_type then
        tlb_fill (walk_final_state s laddr (isWrite_of rw)) laddr (walk_ppf s laddr)
          (walk_access s laddr) rw (isWrite_of rw) access_type
      else
        page_fault (walk_check_state s laddr) ERROR_PROTECTION laddr (pl_of curr_pl)
          (isWrite_of rw) access_type := by
  rw [translate_linear_miss s laddr curr_pl rw access_type hmiss]
  unfold walk_valid walk_large at hv
  unfold walk_permitted walk_final_state walk_ppf walk_access walk_check_state walk_nx
    walk_combined walk_leaf
  by_cases hpae : s.cr4_PAE = true
  · rw [if_pos hpae] at hv
    simp only [hpae, if_true]
    obtain ⟨h1, h2, h3, h4⟩ := hv
    rw [pae_walk_eq _ _ _ _ _ _ h1, pae_pdpe_eq _ _ _ _ _ _ _ _ h2, pae_pde_eq _ _ _ _ _ _ _ _ _ h3]
    by_cases hps : (pae_pde_entry s laddr &&& 0x80) ≠ 0
    · rw [if_pos hps]
      unfold pae_2m
      simp only [hps, if_true, priv_index_global, ne_eq, not_false_eq_true]
      rw [priv_index_congr (same_regs_pte_state s laddr), sr_PGE (same_regs_pte_state s laddr),
        sr_lm (same_regs_pte_state s laddr), check_ite]
      unfold nx_pde nx_pdpe pml4_val
      cases hl : s.long_mode <;> simp only [Bool.false_eq_true, if_true, if_false, ne_eq]
    · rw [if_neg hps]
      have hps' : (pae_pde_entry s laddr &&& 0x80) = 0 := by simpa using hps
      rw [pae_4k_eq _ _ _ _ _ _ _ _ _ _ (h4 hps')]
      unfold pae_4k_finish
      simp only [hps', if_true, if_false, priv_index_global, ne_eq, not_true_eq_false]
      rw [priv_index_congr (same_regs_pae_leaf_state s laddr),
        sr_PGE (same_regs_pae_leaf_state s laddr),
        sr_lm (same_regs_pae_leaf_state s laddr), check_ite]
      unfold nx_pte nx_pde nx_pdpe pml4_val
      cases hl : s.long_mode <;> simp only [Bool.false_eq_true, if_true, if_false, ne_eq]
  · have hpae' : s.cr4_PAE = false := by simpa using hpae
    simp only [hpae', if_false, Bool.false_eq_true] at hv
    simp only [hpae', if_false, Bool.false_eq_true]
    obtain ⟨h1, h2⟩ := hv
    by_cases hl : (pde_entry s laddr &&& 0x80) ≠ 0 ∧ s.cr4_PSE = true
    · rw [legacy_walk_4m _ _ _ _ _ _ h1 hl]
      unfold legacy_4m
      simp only [hl, if_true, priv_index_global, ne_eq, not_false_eq_true, and_self]
      rw [priv_index_congr (same_regs_legacy_pte_state s laddr),
        sr_PGE (same_regs_legacy_pte_state s laddr), check_ite_legacy]
      simp only [ne_eq]
    · rw [legacy_walk_4k _ _ _ _ _ _ h1 hl, legacy_4k_eq _ _ _ _ _ _ (h2 hl)]
      unfold legacy_4k_finish
      simp only [priv_index_global]
      rw [if_neg hl, if_neg hl, if_neg hl, if_neg hl, if_neg hl]
      rw [priv_index_congr (same_regs_legacy_leaf_state s laddr),
        sr_PGE (same_regs_legacy_leaf_state s laddr), check_ite_legacy]
      simp only [ne_eq]


theorem translate_linear_not_present (s : BX_CPU_C) (laddr curr_pl rw : Nat)
    (access_type : AccessType) (hmiss : ¬ tlb_hit s laddr curr_pl (isWrite_of rw))
    (h : walk_not_present s laddr) :
    (translate_linear s laddr curr_pl rw access_type).1 =
      Outcome.exception BX_PF_EXCEPTION
        (pf_error_code s ERROR_NOT_PRESENT (pl_of curr_pl) (isWrite_of rw) access_type) := by
  rw [translate_linear_miss s laddr curr_pl rw access_type hmiss]
  unfold walk_not_present walk_large at h
  by_cases hpae : s.cr4_PAE = true
  · simp only [hpae, if_true] at h ⊢
    rcases h with ⟨hl, hp⟩ | ⟨h1, h⟩
    · unfold pae_walk
      rw [if_pos hl, long_pml4_not_present _ _ _ _ _ _ hp]
      exact page_fault_fst (same_regs_read _ _ _) _ _ _ _ _
    · rw [pae_walk_eq _ _ _ _ _ _ h1]
      rcases h with hp | ⟨h2, h⟩
      · rw [pae_pdpe_not_present _ _ _ _ _ _ _ _ hp]
        exact page_fault_fst (same_regs_pde_state _ _) _ _ _ _ _
      · rw [pae_pdpe_eq _ _ _ _ _ _ _ _ h2]
        rcases h with hp | ⟨h3, hps, hp⟩
        · rw [pae_pde_not_present _ _ _ _ _ _ _ _ _ hp]
          exact page_fault_fst (same_regs_pte_state _ _) _ _ _ _ _
        · rw [pae_pde_eq _ _ _ _ _ _ _ _ _ h3, if_neg (not_not.mpr hps),
            pae_4k_not_present _ _ _ _ _ _ _ _ _ _ hp]
          exact page_fault_fst (same_regs_pae_leaf_state _ _) _ _ _ _ _
  · have hpae' : s.cr4_PAE = false := by simpa using hpae
    simp only [hpae', if_false, Bool.false_eq_true] at h ⊢
    rcases h with hp | ⟨h1, hl, hp⟩
    · rw [legacy_walk_not_present _ _ _ _ _ _ hp]
      exact page_fault_fst (same_regs_legacy_pte_state _ _) _ _ _ _ _
    · rw [legacy_walk_4k _ _ _ _ _ _ h1 hl, legacy_4k_not_present _ _ _ _ _ _ hp]
      exact page_fault_fst (same_regs_legacy_leaf_state _ _) _ _ _ _ _

theorem translate_linear_reserved (s : BX_CPU_C) (laddr curr_pl rw : Nat)
    (access_type : AccessType) (hmiss : ¬ tlb_hit s laddr curr_pl (isWrite_of rw))
    (hpae : s.cr4_PAE = true) (h : walk_reserved s laddr) :
    (translate_linear s laddr curr_pl rw access_type).1 =
      Outcome.exception BX_PF_EXCEPTION
        (pf_error_code s (ERROR_RESERVED ||| ERROR_PROTECTION) (pl_of curr_pl) (isWrite_of rw)
          access_type) := by
  rw [translate_linear_miss s laddr curr_pl rw access_type hmiss, if_pos hpae]
  unfold walk_reserved at h
  rcases h with ⟨hl, hp, hr⟩ | ⟨h1, hp, hr⟩
  · unfold pae_walk
    rw [if_pos hl, long_pml4_reserved _ _ _ _ _ _ hp ((reserved_bits_iff _).mpr hr)]
    exact page_fault_fst (same_regs_read _ _ _) _ _ _ _ _
  · rw [pae_walk_eq _ _ _ _ _ _ h1,
      pae_pdpe_reserved _ _ _ _ _ _ _ _ hp ((reserved_bits_iff _).mpr hr)]
    exact page_fault_fst (same_regs_pde_state _ _) _ _ _ _ _

theorem translate_linear_protection (s : BX_CPU_C) (laddr curr_pl rw : Nat)
    (access_type : AccessType) (hmiss : ¬ tlb_hit s laddr curr_pl (isWrite_of rw))
    (hv : walk_valid s laddr) (hp : ¬ walk_permitted s laddr curr_pl rw access_type) :
    (translate_linear s laddr curr_pl rw access_type).1 =
      Outcome.exception BX_PF_EXCEPTION
        (pf_error_code s ERROR_PROTECTION (pl_of curr_pl) (isWrite_of rw) access_type) := by
  rw [translate_linear_walk s laddr curr_pl rw access_type hmiss hv, if_neg hp]
  unfold walk_check_state
  split_ifs
  · exact page_fault_fst (same_regs_pte_state _ _) _ _ _ _ _
  · exact page_fault_fst (same_regs_pae_leaf_state _ _) _ _ _ _ _
  · exact page_fault_fst (same_regs_legacy_pte_state _ _) _ _ _ _ _
  · exact page_fault_fst (same_regs_legacy_leaf_state _ _) _ _ _ _ _

theorem update_A_sets_byte (st : BX_CPU_C) (a n : Nat) (hn : 0 < n) :
    ((update_A st a n (readLE st.mem a n)).mem a).val.testBit 5 = true := by
  unfold update_A
  split
  · show (writeLE st.mem a n _ a).val.testBit 5 = true
    rw [writeback_byte_zero st.mem st.mem a n _ hn (by decide), Nat.testBit_or]
    simp
    right; decide
  · rename_i hc
    have h5 := testBit5_of_and _ hc
    rw [readLE_testBit_low st.mem a n 5 hn (by decide)] at h5
    exact h5

theorem update_AD_keeps_A (st : BX_CPU_C) (M : Mem) (a n w x : Nat) (hn : 0 < n)
    (hw : w = 0 ∨ w = 1) (hx : x = a ∨ x < a ∨ a + n ≤ x)
    (h5 : (st.mem x).val.testBit 5 = true) :
    ((update_AD st a n (readLE M a n) w).mem x).val.testBit 5 = true := by
  unfold update_AD
  split
  · show (writeLE st.mem a n _ x).val.testBit 5 = true
    rcases hx with hx | hx
    · subst hx
      have hb5 : (0x20 ||| (w <<< 6)).testBit 5 = true := by
        rcases hw with hw | hw <;> rw [hw] <;> decide
      rw [writeback_byte_zero st.mem M x n _ hn (ad_bits_lt w hw), Nat.testBit_or, hb5,
        Bool.or_true]
    · rw [writeLE_outside st.mem a n _ x hx]
      exact h5
  · exact h5

theorem or_mod_four (x y : Nat) (hx : x % 4 = 0) (hy : y % 4 = 0) : (x ||| y) % 4 = 0 := by
  have h := or_mod_two_pow x y 2
  have h4 : (2 : Nat) ^ 2 = 4 := rfl
  rw [h4, hx, hy] at h
  exact h

theorem pde_addr_aligned (s : BX_CPU_C) (laddr : Nat) (h : s.cr3_masked % 4 = 0) :
    pde_addr s laddr % 4 = 0 := by
  unfold pde_addr
  apply or_mod_four _ _ h
  rw [pde_index]
  omega

theorem pte_addr_aligned (s : BX_CPU_C) (laddr : Nat) : pte_addr s laddr % 4 = 0 := by
  unfold pte_addr
  apply or_mod_four
  · have h := and_mod_two_pow (pde_entry s laddr) 0xfffff000 2
    have h4 : (2 : Nat) ^ 2 = 4 := rfl
    rw [h4] at h
    rw [h]
    have : (0xfffff000 : Nat) % 4 = 0 := by decide
    rw [this, Nat.and_zero]
  · rw [pte_index]
    omega

theorem nx_upd_data (e n : Nat) : nx_upd e AccessType.DATA_ACCESS n = n := by
  unfold nx_upd
  simp

theorem walk_nx_data (s : BX_CPU_C) (laddr : Nat) :
    walk_nx s laddr AccessType.DATA_ACCESS = 0 := by
  unfold walk_nx nx_pte nx_pde nx_pdpe nx_pml4
  simp only [nx_upd_data]
  split_ifs <;> rfl

theorem tlb_fill_fst (st : BX_CPU_C) (laddr ppf ca rw w : Nat) (access_type : AccessType) :
    (tlb_fill st laddr ppf ca rw w access_type).1 = Outcome.ok (ppf ||| (laddr &&& 0xfff)) := rfl

theorem tlb_fill_mem (st : BX_CPU_C) (laddr ppf ca rw w : Nat) (access_type : AccessType) :
    (tlb_fill st laddr ppf ca rw w access_type).2.mem = st.mem := rfl

theorem tlb_fill_trace (st : BX_CPU_C) (laddr ppf ca rw w : Nat) (access_type : AccessType) :
    (tlb_fill st laddr ppf ca rw w access_type).2.trace = st.trace := rfl

theorem tlb_fill_ppf (st : BX_CPU_C) (laddr ppf ca rw w : Nat) (access_type : AccessType) :
    ((tlb_fill st laddr ppf ca rw w access_type).2.TLB (BX_TLB_INDEX_OF (LPFOf laddr) 0)).ppf
      = ppf ∧
    ((tlb_fill st laddr ppf ca rw w access_type).2.TLB (BX_TLB_INDEX_OF (LPFOf laddr) 0)).lpf
      = LPFOf laddr := by
  simp [tlb_fill]

/-- A walk whose entries are valid and whose permission check passes returns the
physical address and leaves the memory and the trace of the A/D write-backs. -/
theorem translate_linear_ok (s : BX_CPU_C) (laddr curr_pl rw : Nat) (access_type : AccessType)
    (hmiss : ¬ tlb_hit s laddr curr_pl (isWrite_of rw)) (hv : walk_valid s laddr)
    (hp : walk_permitted s laddr curr_pl rw access_type) :
    (translate_linear s laddr curr_pl rw access_type).1 =
      Outcome.ok (walk_ppf s laddr ||| (laddr &&& 0xfff)) ∧
    (translate_linear s laddr curr_pl rw access_type).2.mem =
      (walk_final_state s laddr (isWrite_of rw)).mem ∧
    (translate_linear s laddr curr_pl rw access_type).2.trace =
      (walk_final_state s laddr (isWrite_of rw)).trace ∧
    ((translate_linear s laddr curr_pl rw access_type).2.TLB
      (BX_TLB_INDEX_OF (LPFOf laddr) 0)).ppf = walk_ppf s laddr ∧
    ((translate_linear s laddr curr_pl rw access_type).2.TLB
      (BX_TLB_INDEX_OF (LPFOf laddr) 0)).lpf = LPFOf laddr := by
  rw [translate_linear_walk s laddr curr_pl rw access_type hmiss hv, if_pos hp]
  exact ⟨tlb_fill_fst _ _ _ _ _ _ _, tlb_fill_mem _ _ _ _ _ _ _, tlb_fill_trace _ _ _ _ _ _ _,
    (tlb_fill_ppf _ _ _ _ _ _ _).1, (tlb_fill_ppf _ _ _ _ _ _ _).2⟩

/-- After the write-backs the leaf entry in memory has A set, and D as well when
the access is a write. -/
theorem walk_final_leaf_bits (s : BX_CPU_C) (laddr w : Nat) (hw : w = 0 ∨ w = 1) :
    (readLE (walk_final_state s laddr w).mem (walk_leaf_addr s laddr)
      (walk_entry_len s)).testBit 5 = true ∧
    (w = 1 → (readLE (walk_final_state s laddr w).mem (walk_leaf_addr s laddr)
      (walk_entry_len s)).testBit 6 = true) := by
  unfold walk_final_state walk_leaf_addr walk_entry_len
  by_cases hpae : s.cr4_PAE = true
  · simp only [hpae, if_true]
    by_cases hps : (pae_pde_entry s laddr &&& 0x80) ≠ 0
    · simp only [hps, if_true, ne_eq, not_false_eq_true]
      exact update_AD_sets _ (pdpe_state s laddr).mem _ 8 w (by decide) hw
        (update_A_mem_le _ _ _ _ (mem_le_refl _))
    · simp only [hps, if_false]
      exact update_AD_sets _ (pdpe_state s laddr).mem _ 8 w (by decide) hw
        (update_A_mem_le _ _ _ _ (update_A_mem_le _ _ _ _ (mem_le_refl _)))
  · have hpae' : s.cr4_PAE = false := by simpa using hpae
    simp only [hpae', if_false, Bool.false_eq_true]
    by_cases hl : (pde_entry s laddr &&& 0x80) ≠ 0 ∧ s.cr4_PSE = true
    · rw [if_pos hl, if_pos hl]
      exact update_AD_sets _ s.mem _ 4 w (by decide) hw (mem_le_refl _)
    · rw [if_neg hl, if_neg hl]
      exact update_AD_sets _ s.mem _ 4 w (by decide) hw
        (update_A_mem_le _ _ _ _ (mem_le_refl _))

theorem isWrite_of_write (rw : Nat) (h : rw ≥ BX_WRITE) : isWrite_of rw = 1 := by
  unfold isWrite_of; rw [if_pos h]

theorem pl_of_supervisor (curr_pl : Nat) (h : curr_pl ≤ 2) : pl_of curr_pl = 0 := by
  unfold pl_of; rw [if_neg (by omega)]

theorem reads_of_append (a b : List MemOp) : reads_of (a ++ b) = reads_of a ++ reads_of b := by
  induction a with
  | nil => rfl
  | cons x t ih =>
    cases x with
    | read a n => simp [reads_of, ih]
    | write a n v => simp [reads_of, ih]

theorem reads_of_read (st : BX_CPU_C) (a n : Nat) :
    reads_of (readPhysicalPage st a n).2.trace = reads_of st.trace ++ [(a, n)] := by
  rw [readPhysicalPage_trace, reads_of_append]
  rfl

theorem reads_of_write (st : BX_CPU_C) (a n v : Nat) :
    reads_of (writePhysicalPage st a n v).trace = reads_of st.trace := by
  show reads_of (st.trace ++ [MemOp.write a n v]) = _
  rw [reads_of_append]
  simp [reads_of]

theorem reads_of_update_A (st : BX_CPU_C) (a n e : Nat) :
    reads_of (update_A st a n e).trace = reads_of st.trace := by
  unfold update_A
  split
  · exact reads_of_write _ _ _ _
  · rfl

theorem reads_of_update_AD (st : BX_CPU_C) (a n e w : Nat) :
    reads_of (update_AD st a n e w).trace = reads_of st.trace := by
  unfold update_AD
  split
  · exact reads_of_write _ _ _ _
  · rfl

theorem reads_of_pml4_state (s : BX_CPU_C) (laddr : Nat) :
    reads_of (pml4_state s laddr).trace = reads_of s.trace ++ [(pml4_addr s laddr, 8)] := by
  unfold pml4_state
  dsimp only
  split
  · rw [reads_of_write, reads_of_read]
  · rw [reads_of_read]

theorem reads_of_pdpe_state (s : BX_CPU_C) (laddr : Nat) :
    reads_of (pdpe_state s laddr).trace =
      reads_of s.trace ++ (if s.long_mode then [(pml4_addr s laddr, 8)] else []) := by
  unfold pdpe_state
  cases s.long_mode
  · simp
  · simp only [if_true]
    exact reads_of_pml4_state s laddr

theorem reads_of_pte_state (s : BX_CPU_C) (laddr : Nat) :
    reads_of (pte_state s laddr).trace =
      reads_of s.trace ++ (if s.long_mode then [(pml4_addr s laddr, 8)] else []) ++
        [(pdpe_addr s laddr, 8), (pae_pde_addr s laddr, 8)] := by
  unfold pte_state pde_state
  rw [reads_of_read, reads_of_read, reads_of_pdpe_state]
  simp

theorem reads_of_pae_leaf_state (s : BX_CPU_C) (laddr : Nat) :
    reads_of (pae_leaf_state s laddr).trace =
      reads_of s.trace ++ (if s.long_mode then [(pml4_addr s laddr, 8)] else []) ++
        [(pdpe_addr s laddr, 8), (pae_pde_addr s laddr, 8), (pae_pte_addr s laddr, 8)] := by
  unfold pae_leaf_state
  rw [reads_of_read, reads_of_pte_state]
  simp

theorem reads_of_legacy_pte_state (s : BX_CPU_C) (laddr : Nat) :
    reads_of (legacy_pte_state s laddr).trace = reads_of s.trace ++ [(pde_addr s laddr, 4)] := by
  unfold legacy_pte_state
  rw [reads_of_read]

theorem reads_of_legacy_leaf_state (s : BX_CPU_C) (laddr : Nat) :
    reads_of (legacy_leaf_state s laddr).trace =
      reads_of s.trace ++ [(pde_addr s laddr, 4), (pte_addr s laddr, 4)] := by
  unfold legacy_leaf_state
  rw [reads_of_read, reads_of_legacy_pte_state]
  simp

/-- The reads a walk has made when it returns. -/
theorem reads_of_walk_final_state (s : BX_CPU_C) (laddr w : Nat) :
    reads_of (walk_final_state s laddr w).trace = reads_of (walk_check_state s laddr).trace := by
  unfold walk_final_state walk_check_state
  split_ifs <;> simp only [reads_of_update_AD, reads_of_update_A]

theorem pml4_acc_frame (s : BX_CPU_C) (laddr : Nat) :
    pml4_acc s laddr &&& 0x000ffffffffff000 = pml4_entry s laddr &&& 0x000ffffffffff000 := by
  unfold pml4_acc
  split
  · rw [Nat.and_distrib_right]
    have : (0x20 : Nat) &&& 0x000ffffffffff000 = 0 := by decide
    rw [this, Nat.or_zero]
  · rfl

/-! ## TLB flushes -/

theorem TLB_flush_loop_spec (g : Nat) (n : Nat) (tlb : Nat → bx_TLB_entry) (i : Nat) :
    TLB_flush_loop g n tlb i = if i < n then TLB_flush_entry g (tlb i) else tlb i := by
  induction n with
  | zero => simp [TLB_flush_loop]
  | succ n ih =>
    rw [TLB_flush_loop]
    by_cases h : i = n
    · subst h
      rw [Function.update_same, ih, if_neg (Nat.lt_irrefl i), if_pos (Nat.lt_succ_self i)]
    · rw [Function.update_noteq h, ih]
      by_cases h2 : i < n
      · rw [if_pos h2, if_pos (by omega)]
      · rw [if_neg h2, if_neg (by omega)]


theorem nx_bit_iff (e : Nat) : (e &&& PAGE_DIRECTORY_NX_BIT) ≠ 0 ↔ e.testBit 63 = true :=
  and_pow_ne_zero_iff e 63

/-! ### Bit 63 with EFER.NXE = 0 -/

theorem long_pml4_nx_reserved (s : BX_CPU_C) (laddr pl w rw : Nat) (access_type : AccessType)
    (h : (pml4_entry s laddr &&& 0x01) ≠ 0) (hnx : (pml4_entry s laddr).testBit 63 = true)
    (hnxe : s.efer_nxe = false) :
    long_pml4 s laddr pl w rw access_type =
      page_fault (readPhysicalPage s (pml4_addr s laddr) 8).2 (ERROR_RESERVED ||| ERROR_PROTECTION)
        laddr pl w access_type := by
  by_cases hr : (pml4_entry s laddr &&& 0x180) ≠ 0
  · exact long_pml4_reserved s laddr pl w rw access_type h hr
  · have hn := (nx_bit_iff _).mpr hnx
    have hnxe2 : (readPhysicalPage s (pml4_addr s laddr) 8).2.efer_nxe = false := hnxe
    unfold long_pml4
    unfold pml4_entry at h hr hn
    unfold pml4_addr at *
    simp only [readPhysicalPage_fst, PAGING_PML4_RESERVED_BITS, h, hr, if_false]
    rw [if_pos ⟨hn, hnxe2⟩]

theorem pae_pdpe_nx_reserved (s : BX_CPU_C) (laddr pl w rw : Nat) (access_type : AccessType)
    (p nx : Nat) (h : (pdpe_entry s laddr &&& 0x01) ≠ 0)
    (hnx : (pdpe_entry s laddr).testBit 63 = true) (hnxe : s.efer_nxe = false) :
    pae_pdpe (pdpe_state s laddr) laddr pl w rw access_type p (pdpe_addr s laddr) nx =
      page_fault (pde_state s laddr) (ERROR_RESERVED ||| ERROR_PROTECTION) laddr pl w
        access_type := by
  by_cases hr : (pdpe_entry s laddr &&& 0x180) ≠ 0
  · exact pae_pdpe_reserved s laddr pl w rw access_type p nx h hr
  · have hn := (nx_bit_iff _).mpr hnx
    have hnxe2 : (pde_state s laddr).efer_nxe = false := by
      rw [sr_nxe (same_regs_pde_state s laddr)]; exact hnxe
    unfold pae_pdpe
    unfold pde_state at *
    unfold pdpe_entry at h hr hn
    simp only [readPhysicalPage_fst, PAGING_PDPE_RESERVED_BITS, h, hr, if_false]
    rw [if_pos ⟨hn, hnxe2⟩]

theorem pae_pde_nx_reserved (s : BX_CPU_C) (laddr pl w rw : Nat) (access_type : AccessType)
    (p a nx : Nat) (h : (pae_pde_entry s laddr &&& 0x01) ≠ 0)
    (hnx : (pae_pde_entry s laddr).testBit 63 = true) (hnxe : s.efer_nxe = false) :
    pae_pde (pde_state s laddr) laddr pl w rw access_type p a (pdpe_entry s laddr) nx =
      page_fault (pte_state s laddr) (ERROR_RESERVED ||| ERROR_PROTECTION) laddr pl w
        access_type := by
  have hn := (nx_bit_iff _).mpr hnx
  have hnxe2 : (pte_state s laddr).efer_nxe = false := by
    rw [sr_nxe (same_regs_pte_state s laddr)]; exact hnxe
  unfold pae_pde
  unfold pte_state at *
  unfold pae_pde_entry at h hn
  unfold pae_pde_addr at *
  rw [← pde_state_mem] at h hn
  simp only [readPhysicalPage_fst, h, if_false]
  rw [if_pos ⟨hn, hnxe2⟩]

theorem pae_4k_nx_reserved (s : BX_CPU_C) (laddr pl w rw : Nat) (access_type : AccessType)
    (p a1 e1 nx : Nat) (h : (pae_pte_entry s laddr &&& 0x01) ≠ 0)
    (hnx : (pae_pte_entry s laddr).testBit 63 = true) (hnxe : s.efer_nxe = false) :
    pae_4k (pte_state s laddr) laddr pl w rw access_type p a1 e1 (pae_pde_addr s laddr)
        (pae_pde_entry s laddr) nx =
      page_fault (pae_leaf_state s laddr) (ERROR_RESERVED ||| ERROR_PROTECTION) laddr pl w
        access_type := by
  have hn := (nx_bit_iff _).mpr hnx
  have hnxe2 : (pae_leaf_state s laddr).efer_nxe = false := by
    rw [sr_nxe (same_regs_pae_leaf_state s laddr)]; exact hnxe
  unfold pae_4k
  unfold pae_leaf_state at *
  unfold pae_pte_entry at h hn
  unfold pae_pte_addr at *
  rw [← pte_state_mem] at h hn
  simp only [readPhysicalPage_fst, h, if_false]
  rw [if_pos ⟨hn, hnxe2⟩]

theorem translate_linear_nx_reserved (s : BX_CPU_C) (laddr curr_pl rw : Nat)
    (access_type : AccessType) (hmiss : ¬ tlb_hit s laddr curr_pl (isWrite_of rw))
    (hpae : s.cr4_PAE = true) (hnxe : s.efer_nxe = false) (h : walk_nx_entry s laddr) :
    (translate_linear s laddr curr_pl rw access_type).1 =
      Outcome.exception BX_PF_EXCEPTION
        (pf_error_code s (ERROR_RESERVED ||| ERROR_PROTECTION) (pl_of curr_pl) (isWrite_of rw)
          access_type) := by
  rw [translate_linear_miss s laddr curr_pl rw access_type hmiss, if_pos hpae]
  unfold walk_nx_entry at h
  rcases h with ⟨hl, hp, hn⟩ | ⟨h1, h⟩
  · unfold pae_walk
    rw [if_pos hl, long_pml4_nx_reserved _ _ _ _ _ _ hp hn hnxe]
    exact page_fault_fst (same_regs_read _ _ _) _ _ _ _ _
  · rw [pae_walk_eq _ _ _ _ _ _ h1]
    rcases h with ⟨hp, hn⟩ | ⟨h2, h⟩
    · rw [pae_pdpe_nx_reserved _ _ _ _ _ _ _ _ hp hn hnxe]
      exact page_fault_fst (same_regs_pde_state _ _) _ _ _ _ _
    · rw [pae_pdpe_eq _ _ _ _ _ _ _ _ h2]
      rcases h with ⟨hp, hn⟩ | ⟨h3, hps, hp, hn⟩
      · rw [pae_pde_nx_reserved _ _ _ _ _ _ _ _ _ hp hn hnxe]
        exact page_fault_fst (same_regs_pte_state _ _) _ _ _ _ _
      · rw [pae_pde_eq _ _ _ _ _ _ _ _ _ h3, if_neg (not_not.mpr hps),
          pae_4k_nx_reserved _ _ _ _ _ _ _ _ _ _ hp hn hnxe]
        exact page_fault_fst (same_regs_pae_leaf_state _ _) _ _ _ _ _


theorem nx_upd_code (e n : Nat) :
    nx_upd e AccessType.CODE_ACCESS n = if e.testBit 63 = true then 1 else n := by
  unfold nx_upd
  by_cases h : e.testBit 63 = true
  · rw [if_pos ⟨(nx_bit_iff e).mpr h, rfl⟩, if_pos h]
  · rw [if_neg (fun hc => h ((nx_bit_iff e).mp hc.1)), if_neg h]

/-- For a code fetch the local `nx_fault` is set at the permission check exactly
when a traversed entry has bit 63 set. -/
theorem walk_nx_code (s : BX_CPU_C) (laddr : Nat) (hpae : s.cr4_PAE = true) :
    walk_nx s laddr AccessType.CODE_ACCESS ≠ 0 ↔ walk_has_nx s laddr := by
  unfold walk_nx walk_has_nx nx_pte nx_pde nx_pdpe nx_pml4
  simp only [hpae, if_true, nx_upd_code]
  cases s.long_mode <;>
    by_cases h1 : (pml4_entry s laddr).testBit 63 = true <;>
    by_cases h2 : (pdpe_entry s laddr).testBit 63 = true <;>
    by_cases h3 : (pae_pde_entry s laddr).testBit 63 = true <;>
    by_cases h4 : (pae_pte_entry s laddr).testBit 63 = true <;>
    by_cases h5 : (pae_pde_entry s laddr &&& 0x80) = 0 <;>
    simp [h1, h2, h3, h4, h5]


theorem testBit_six (i : Nat) : Nat.testBit 6 i = decide (i = 1 ∨ i = 2) := by
  by_cases h0 : i = 0
  · subst h0; decide
  · by_cases h1 : i = 1
    · subst h1; decide
    · by_cases h2 : i = 2
      · subst h2; decide
      · have h6 : Nat.testBit 6 i = false := by
          apply Nat.testBit_lt_two_pow
          calc (6 : Nat) < 2 ^ 3 := by decide
            _ ≤ 2 ^ i := Nat.pow_le_pow_right (by decide) (by omega)
        rw [h6]
        simp [h1, h2]

theorem pml4_acc_testBit (s : BX_CPU_C) (laddr i : Nat) (hi : i ≠ 5) :
    (pml4_acc s laddr).testBit i = (pml4_entry s laddr).testBit i := by
  unfold pml4_acc
  split
  · rw [Nat.testBit_or]
    have : Nat.testBit 0x20 i = false := by
      have h := @Nat.testBit_two_pow 5 i
      rw [show (2 : Nat) ^ 5 = 0x20 from rfl] at h
      rw [h]
      simp
      omega
    rw [this, Bool.or_false]
  · rfl

/-- Bit `i` of `combined_access` is, for `i` = 1 (R/W) and `i` = 2 (U/S), the AND
of bit `i` over the combined entries; every other bit is clear. -/
theorem walk_combined_testBit (s : BX_CPU_C) (laddr i : Nat) :
    (walk_combined s laddr).testBit i =
      (decide (i = 1 ∨ i = 2) && (walk_entries s laddr).all (fun e => e.testBit i)) := by
  unfold walk_combined walk_entries
  by_cases hi : i = 1 ∨ i = 2
  · have h5 : i ≠ 5 := by omega
    cases s.cr4_PAE <;> cases s.long_mode <;>
      by_cases h1 : (pae_pde_entry s laddr &&& 0x80) ≠ 0 <;>
      by_cases h2 : (pde_entry s laddr &&& 0x80) ≠ 0 ∧ s.cr4_PSE = true <;>
      simp [h1, h2, hi, Nat.testBit_and, testBit_six, pml4_acc_testBit s laddr i h5,
        Bool.and_assoc, Bool.and_comm, Bool.and_left_comm]
  · cases s.cr4_PAE <;> cases s.long_mode <;>
      by_cases h1 : (pae_pde_entry s laddr &&& 0x80) ≠ 0 <;>
      by_cases h2 : (pde_entry s laddr &&& 0x80) ≠ 0 ∧ s.cr4_PSE = true <;>
      simp [h1, h2, hi, Nat.testBit_and, testBit_six]





/-- A user write passes the privilege check exactly when the combined U/S and R/W
bits are both set, whatever CR0.WP is. -/
theorem priv_check_user_write (s : BX_CPU_C) (ca : Nat) :
    priv_check (priv_index s 1 ca 1) ≠ 0 ↔ (ca.testBit 2 = true ∧ ca.testBit 1 = true) := by
  rw [← and_pow_ne_zero_iff ca 2, ← and_pow_ne_zero_iff ca 1]
  have h4 := and6_and4 ca
  have h2 := and6_and2 ca
  have e4 : (2 : Nat) ^ 2 = 4 := rfl
  have e2 : (2 : Nat) ^ 1 = 2 := rfl
  rw [e4, e2, ← h4, ← h2]
  unfold priv_index
  rcases and6_cases ca with h6 | h6 | h6 | h6 <;> rw [h6] <;> cases s.cr0_WP <;> decide

theorem translate_linear_ok_iff (s : BX_CPU_C) (laddr curr_pl rw : Nat)
    (access_type : AccessType) (hmiss : ¬ tlb_hit s laddr curr_pl (isWrite_of rw))
    (hv : walk_valid s laddr) :
    (translate_linear s laddr curr_pl rw access_type).1 =
        Outcome.ok (walk_ppf s laddr ||| (laddr &&& 0xfff)) ↔
      walk_permitted s laddr curr_pl rw access_type := by
  constructor
  · intro h
    by_contra hp
    rw [translate_linear_protection s laddr curr_pl rw access_type hmiss hv hp] at h
    exact Outcome.noConfusion h
  · intro hp
    exact (translate_linear_ok s laddr curr_pl rw access_type hmiss hv hp).1

/-! ## The global flag of the installed TLB entry -/

theorem tlb_fill_global (st : BX_CPU_C) (laddr ppf ca rw w : Nat) (access_type : AccessType) :
    ((tlb_fill st laddr ppf ca rw w access_type).2.TLB
      (BX_TLB_INDEX_OF (LPFOf laddr) 0)).accessBits.testBit 31 = ca.testBit 31 := by
  have hG : Nat.testBit TLB_GlobalPage 31 = true := by decide
  have hm : Nat.testBit 0xff00 (8 + 31) = false := by decide
  have h1 : Nat.testBit TLB_ReadUserOK 31 = false := by decide
  have h2 : Nat.testBit TLB_ReadSysOK 31 = false := by decide
  have h3 : Nat.testBit TLB_WriteUserOK 31 = false := by decide
  have h4 : Nat.testBit TLB_WriteSysOK 31 = false := by decide
  simp only [tlb_fill, Function.update_same]
  split_ifs <;>
    simp only [Nat.testBit_or, Nat.testBit_and, Nat.testBit_shiftRight, hG, hm, h1, h2, h3, h4,
      Bool.and_true, Bool.and_false, Bool.or_false, Bool.false_or]

theorem walk_access_testBit_31 (s : BX_CPU_C) (laddr : Nat) :
    (walk_access s laddr).testBit 31 = (s.cr4_PGE && (walk_leaf s laddr).testBit 31) := by
  have hG : Nat.testBit TLB_GlobalPage 31 = true := by decide
  have hc : (walk_combined s laddr).testBit 31 = false := by
    rw [walk_combined_testBit]
    simp
  unfold walk_access
  cases s.cr4_PGE
  · simp [hc]
  · simp [hc, Nat.testBit_or, Nat.testBit_and, hG]

/-- What the code does for the global flag: after a successful walk, bit 31 of the
installed `accessBits` is set iff CR4.PGE = 1 and bit 31 of the leaf entry (a
bit of its frame address, line 389 masks with `0x80000000`) is set. -/
theorem installed_global_bit (s : BX_CPU_C) (laddr curr_pl rw : Nat)
    (access_type : AccessType) (hmiss : ¬ tlb_hit s laddr curr_pl (isWrite_of rw))
    (hv : walk_valid s laddr) (hp : walk_permitted s laddr curr_pl rw access_type) :
    ((translate_linear s laddr curr_pl rw access_type).2.TLB
      (BX_TLB_INDEX_OF (LPFOf laddr) 0)).accessBits.testBit 31 =
        (s.cr4_PGE && (walk_leaf s laddr).testBit 31) := by
  rw [translate_linear_walk s laddr curr_pl rw access_type hmiss hv, if_pos hp, tlb_fill_global,
    walk_access_testBit_31]


/-! ## Guest memory when a translation faults -/

theorem KeepsMem_page_fault (m : Mem) (st : BX_CPU_C) (fault laddr user rw : Nat)
    (access_type : AccessType) (h : st.mem = m) :
    KeepsMem m (page_fault st fault laddr user rw access_type) := by
  intro v ec _
  rw [(page_fault_state st fault laddr user rw access_type).2.2.1]
  exact h

theorem KeepsMem_tlb_fill (m : Mem) (st : BX_CPU_C) (laddr ppf ca rw w : Nat)
    (access_type : AccessType) : KeepsMem m (tlb_fill st laddr ppf ca rw w access_type) := by
  intro v ec h
  simp [tlb_fill] at h

theorem KeepsMem_panic (m : Mem) (st : BX_CPU_C) :
    KeepsMem m ((Outcome.panic : Outcome Nat), st) := by
  intro v ec h
  simp at h

theorem KeepsMem_ite (m : Mem) (c : Prop) [Decidable c] (a b : Outcome Nat × BX_CPU_C)
    (ha : KeepsMem m a) (hb : KeepsMem m b) : KeepsMem m (if c then a else b) := by
  split <;> assumption

theorem KeepsMem_legacy_walk (s : BX_CPU_C) (laddr pl w rw : Nat) (access_type : AccessType) :
    KeepsMem s.mem (legacy_walk s laddr pl w rw access_type) := by
  unfold legacy_walk legacy_4m legacy_4k legacy_4k_finish
  dsimp only
  repeat' first
    | with_reducible apply KeepsMem_ite
    | with_reducible exact KeepsMem_tlb_fill _ _ _ _ _ _ _ _
    | ((with_reducible refine KeepsMem_page_fault _ _ _ _ _ _ _ ?_); rfl)

theorem KeepsMem_pae_pdpe (s : BX_CPU_C) (laddr pl w rw : Nat) (access_type : AccessType)
    (pml4 pdpe_addr nx : Nat) :
    KeepsMem s.mem (pae_pdpe s laddr pl w rw access_type pml4 pdpe_addr nx) := by
  unfold pae_pdpe pae_pde pae_2m pae_4k pae_4k_finish
  dsimp only
  repeat' first
    | with_reducible apply KeepsMem_ite
    | with_reducible exact KeepsMem_tlb_fill _ _ _ _ _ _ _ _
    | with_reducible exact KeepsMem_panic _ _
    | ((with_reducible refine KeepsMem_page_fault _ _ _ _ _ _ _ ?_); rfl)

theorem KeepsMem_long_pml4_invalid (s : BX_CPU_C) (laddr pl w rw : Nat)
    (access_type : AccessType) (hok : ¬ upper_ok s (pml4_entry s laddr)) :
    KeepsMem s.mem (long_pml4 s laddr pl w rw access_type) := by
  unfold long_pml4
  unfold upper_ok pml4_entry pml4_addr at hok
  simp only [readPhysicalPage_fst, PAGING_PML4_RESERVED_BITS]
  by_cases h1 : (readLE s.mem (s.cr3_masked ||| (laddr &&& 0x0000ff8000000000) >>> 36) 8
      &&& 0x01) = 0
  · rw [if_pos h1]
    exact KeepsMem_page_fault _ _ _ _ _ _ _ rfl
  · rw [if_neg h1]
    by_cases h2 : (readLE s.mem (s.cr3_masked ||| (laddr &&& 0x0000ff8000000000) >>> 36) 8
        &&& 0x180) ≠ 0
    · rw [if_pos h2]
      exact KeepsMem_page_fault _ _ _ _ _ _ _ rfl
    · rw [if_neg h2]
      by_cases h3 : (readLE s.mem (s.cr3_masked ||| (laddr &&& 0x0000ff8000000000) >>> 36) 8
          &&& PAGE_DIRECTORY_NX_BIT) ≠ 0 ∧
          (readPhysicalPage s (s.cr3_masked ||| (laddr &&& 0x0000ff8000000000) >>> 36)
            8).2.efer_nxe = false
      · rw [if_pos h3]
        exact KeepsMem_page_fault _ _ _ _ _ _ _ rfl
      · rw [if_neg h3]
        by_cases h4 : (readLE s.mem
            (s.cr3_masked ||| (laddr &&& 0x0000ff8000000000) >>> 36) 8
            &&& 0x000fffff00000000) ≠ 0
        · rw [if_pos h4]
          exact KeepsMem_panic _ _
        · exfalso
          apply hok
          refine ⟨h1, not_not.mp h2, ?_, not_not.mp h4⟩
          intro hn
          cases hx : s.efer_nxe
          · exact absurd ⟨hn, hx⟩ h3
          · rfl

/-- Outside long mode a translation that ends in a page fault has written nothing
to guest memory: every A/D write-back follows the permission check. -/
theorem fault_keeps_mem_outside_long_mode (s : BX_CPU_C) (laddr curr_pl rw : Nat)
    (access_type : AccessType) (hlm : s.cr4_PAE = true → s.long_mode = false) (v ec : Nat)
    (h : (translate_linear s laddr curr_pl rw access_type).1 = Outcome.exception v ec) :
    (translate_linear s laddr curr_pl rw access_type).2.mem = s.mem := by
  revert h
  unfold translate_linear
  dsimp only
  by_cases hit : tlb_hit s laddr curr_pl (isWrite_of rw)
  · rw [if_pos hit]
    intro h
    simp at h
  · rw [if_neg hit]
    by_cases hpae : s.cr4_PAE = true
    · rw [if_pos hpae]
      unfold pae_walk
      rw [hlm hpae]
      simp only [Bool.false_eq_true, if_false]
      exact KeepsMem_pae_pdpe s laddr _ _ rw access_type _ _ _ v ec
    · rw [if_neg hpae]
      exact KeepsMem_legacy_walk s laddr _ _ rw access_type v ec

/-- In long mode a translation that ends in a page fault leaves guest memory either
as it was or as the write-back of the accessed PML4 entry (lines 701-704) left
it. -/
theorem fault_mem_long_mode (s : BX_CPU_C) (laddr curr_pl rw : Nat)
    (access_type : AccessType) (v ec : Nat)
    (h : (translate_linear s laddr curr_pl rw access_type).1 = Outcome.exception v ec) :
    (translate_linear s laddr curr_pl rw access_type).2.mem = s.mem ∨
    (translate_linear s laddr curr_pl rw access_type).2.mem = (pml4_state s laddr).mem := by
  by_cases hlm : s.cr4_PAE = true ∧ s.long_mode = true
  · by_cases hit : tlb_hit s laddr curr_pl (isWrite_of rw)
    · unfold translate_linear at h
      dsimp only at h
      rw [if_pos hit] at h
      simp at h
    · rw [translate_linear_miss s laddr curr_pl rw access_type hit, if_pos hlm.1] at h ⊢
      unfold pae_walk at h ⊢
      rw [if_pos hlm.2] at h ⊢
      by_cases hok : upper_ok s (pml4_entry s laddr)
      · rw [long_pml4_step s laddr _ _ rw access_type hok] at h ⊢
        right
        exact KeepsMem_pae_pdpe (pml4_state s laddr) laddr _ _ rw access_type _ _ _ v ec h
      · left
        exact KeepsMem_long_pml4_invalid s laddr _ _ rw access_type hok v ec h
  · left
    apply fault_keeps_mem_outside_long_mode s laddr curr_pl rw access_type _ v ec h
    intro hp
    cases hl : s.long_mode
    · rfl
    · exact absurd ⟨hp, hl⟩ hlm

/-! ## The bytes written by the A and D write-backs -/

theorem aligned_add_ne (a k n : Nat) (ha : a % n = 0) (hk : 0 < k) (hkn : k < n) :
    (a + k) % n ≠ 0 := by
  rw [Nat.add_mod, ha, Nat.zero_add, Nat.mod_mod, Nat.mod_eq_of_lt hkn]
  omega

theorem or_bit5_of_testBit (v : Nat) (h : v.testBit 5 = true) : v ||| 0x20 = v := by
  apply Nat.eq_of_testBit_eq
  intro i
  rw [Nat.testBit_or, show (0x20 : Nat) = 2 ^ 5 from rfl, Nat.testBit_two_pow]
  by_cases hi : 5 = i
  · subst hi
    simp [h]
  · simp [hi]

theorem or_bit6_of_testBit (v : Nat) (h : v.testBit 6 = true) : v ||| 0x40 = v := by
  apply Nat.eq_of_testBit_eq
  intro i
  rw [Nat.testBit_or, show (0x40 : Nat) = 2 ^ 6 from rfl, Nat.testBit_two_pow]
  by_cases hi : 6 = i
  · subst hi
    simp [h]
  · simp [hi]

/-- The memory after "update A bit if needed" of the entry at `a`, byte by byte:
bit 5 of the byte at `a` is added to what the earlier write-backs (at the
addresses in `A`) added to the memory `M` the entries were read from. -/
theorem update_A_bytes (st : BX_CPU_C) (M : Mem) (A : List Nat) (a n : Nat) (hn : 0 < n)
    (hA : ∀ y ∈ A, y % n = 0) (ha : a % n = 0)
    (h : ∀ x, (st.mem x).val = (M x).val ||| (if x ∈ A then 0x20 else 0)) (x : Nat) :
    ((update_A st a n (readLE M a n)).mem x).val =
      (M x).val ||| (if x ∈ a :: A then 0x20 else 0) := by
  unfold update_A
  split
  · show (writeLE st.mem a n (readLE M a n ||| 0x20) x).val = _
    by_cases hin : a ≤ x ∧ x < a + n
    · obtain ⟨k, rfl⟩ : ∃ k, x = a + k := ⟨x - a, by omega⟩
      by_cases hk : k = 0
      · subst hk
        rw [Nat.add_zero, writeback_byte_zero _ _ _ _ _ hn (by decide)]
        simp
      · rw [writeback_byte_succ _ _ _ _ _ _ (by omega) (by omega) (by decide)]
        have hx : ¬ (a + k) ∈ a :: A := by
          intro hm
          rcases List.mem_cons.mp hm with h1 | h1
          · omega
          · exact aligned_add_ne a k n ha (by omega) (by omega) (hA _ h1)
        rw [if_neg hx, Nat.or_zero]
    · rw [writeLE_outside _ _ _ _ _ (by omega), h x]
      have hxa : x ≠ a := by omega
      simp [hxa]
  · rename_i hc
    rw [h x]
    by_cases hxa : x = a
    · subst hxa
      have h5 : (M x).val.testBit 5 = true := by
        rw [← readLE_testBit_low M x n 5 hn (by decide)]
        exact testBit5_of_and _ hc
      simp only [List.mem_cons, true_or, if_true]
      split
      · rfl
      · rw [Nat.or_zero, or_bit5_of_testBit _ h5]
    · simp [hxa]

/-- The memory after "update A/D bits if needed" of the leaf entry at `a`, byte by
byte: bit 5 and, for a write, bit 6 of the byte at `a` are added. -/
theorem update_AD_bytes (st : BX_CPU_C) (M : Mem) (A : List Nat) (a n w : Nat) (hn : 0 < n)
    (hw : w = 0 ∨ w = 1) (hA : ∀ y ∈ A, y % n = 0) (ha : a % n = 0)
    (h : ∀ x, (st.mem x).val = (M x).val ||| (if x ∈ A then 0x20 else 0)) (x : Nat) :
    ((update_AD st a n (readLE M a n) w).mem x).val =
      ((M x).val ||| (if x ∈ a :: A then 0x20 else 0)) |||
        (if w = 1 ∧ x = a then 0x40 else 0) := by
  unfold update_AD
  split
  · show (writeLE st.mem a n (readLE M a n ||| (0x20 ||| (w <<< 6))) x).val = _
    by_cases hin : a ≤ x ∧ x < a + n
    · obtain ⟨k, rfl⟩ : ∃ k, x = a + k := ⟨x - a, by omega⟩
      by_cases hk : k = 0
      · subst hk
        rw [Nat.add_zero, writeback_byte_zero _ _ _ _ _ hn (ad_bits_lt w hw)]
        rcases hw with hw | hw <;> subst hw <;> simp [Nat.or_assoc]
      · rw [writeback_byte_succ _ _ _ _ _ _ (by omega) (by omega) (ad_bits_lt w hw)]
        have hx : ¬ (a + k) ∈ a :: A := by
          intro hm
          rcases List.mem_cons.mp hm with h1 | h1
          · omega
          · exact aligned_add_ne a k n ha (by omega) (by omega) (hA _ h1)
        have hne : ¬ (w = 1 ∧ a + k = a) := by omega
        rw [if_neg hx, if_neg hne, Nat.or_zero, Nat.or_zero]
    · rw [writeLE_outside _ _ _ _ _ (by omega), h x]
      have hxa : x ≠ a := by omega
      simp [hxa]
  · rename_i hc
    rw [h x]
    by_cases hxa : x = a
    · subst hxa
      have hc5 : ¬ (readLE M x n &&& 0x20) = 0 := fun h0 => hc (Or.inl h0)
      have h5 : (M x).val.testBit 5 = true := by
        rw [← readLE_testBit_low M x n 5 hn (by decide)]
        exact testBit5_of_and _ hc5
      have e1 : ((M x).val ||| if x ∈ A then 0x20 else 0) = (M x).val := by
        split
        · exact or_bit5_of_testBit _ h5
        · exact Nat.or_zero _
      have e2 : ((M x).val ||| if x ∈ x :: A then 0x20 else 0) = (M x).val := by
        split
        · exact or_bit5_of_testBit _ h5
        · exact Nat.or_zero _
      rw [e1, e2]
      by_cases hw1 : w = 1
      · have hc6 : ¬ (readLE M x n &&& 0x40) = 0 := fun h0 =>
          hc (Or.inr ⟨by omega, h0⟩)
        have h6 : (M x).val.testBit 6 = true := by
          rw [← readLE_testBit_low M x n 6 hn (by decide)]
          exact testBit6_of_and _ hc6
        rw [if_pos ⟨hw1, rfl⟩, or_bit6_of_testBit _ h6]
      · have hne : ¬ (w = 1 ∧ x = x) := fun h0 => hw1 h0.1
        rw [if_neg hne, Nat.or_zero]
    · simp [hxa]

/-! ## Alignment of the entry addresses of a PAE or long mode walk -/

theorem or_mod_eight (x y : Nat) (hx : x % 8 = 0) (hy : y % 8 = 0) : (x ||| y) % 8 = 0 := by
  have h := or_mod_two_pow x y 3
  have h8 : (2 : Nat) ^ 3 = 8 := rfl
  rw [h8, hx, hy] at h
  exact h

theorem frame_mod_eight (e : Nat) : (e &&& 0x000ffffffffff000) % 8 = 0 := by
  have h := and_mod_two_pow e 0x000ffffffffff000 3
  have h8 : (2 : Nat) ^ 3 = 8 := rfl
  rw [h8] at h
  rw [h]
  have : (0x000ffffffffff000 : Nat) % 8 = 0 := by decide
  rw [this, Nat.and_zero]

theorem pae_pdpe_index (laddr : Nat) :
    (laddr &&& 0xc0000000) >>> 27 = (laddr / 2 ^ 30 % 4) * 8 :=
  bit_field laddr 30 2 27 (by decide)

theorem pml4_addr_aligned (s : BX_CPU_C) (laddr : Nat) (h : s.cr3_masked % 8 = 0) :
    pml4_addr s laddr % 8 = 0 := by
  unfold pml4_addr
  apply or_mod_eight _ _ h
  rw [pml4_index]
  omega

theorem pdpe_addr_aligned (s : BX_CPU_C) (laddr : Nat) (h : s.cr3_masked % 8 = 0) :
    pdpe_addr s laddr % 8 = 0 := by
  unfold pdpe_addr
  split
  · apply or_mod_eight _ _ (frame_mod_eight _)
    rw [pdpe_index]
    omega
  · apply or_mod_eight _ _ h
    rw [pae_pdpe_index]
    omega

theorem pae_pde_addr_aligned (s : BX_CPU_C) (laddr : Nat) : pae_pde_addr s laddr % 8 = 0 := by
  unfold pae_pde_addr
  apply or_mod_eight _ _ (frame_mod_eight _)
  rw [pae_pde_index]
  omega

theorem pae_pte_addr_aligned (s : BX_CPU_C) (laddr : Nat) : pae_pte_addr s laddr % 8 = 0 := by
  unfold pae_pte_addr
  apply or_mod_eight _ _ (frame_mod_eight _)
  rw [pae_pte_index]
  omega

theorem or_if_bit5 (v : Nat) (p q : Prop) [Decidable p] [Decidable q] :
    (v ||| (if p then 0x20 else 0)) ||| (if q then 0x20 else 0) =
      v ||| (if p ∨ q then 0x20 else 0) := by
  by_cases hp : p <;> by_cases hq : q <;> simp [hp, hq, Nat.or_assoc]

/-- The memory a PAE or long mode walk reads its PDPE, PDE and PTE from, byte by
byte: in long mode bit 5 of the first byte of the PML4 entry has been added
(lines 701-704). -/
theorem pdpe_state_bytes (s : BX_CPU_C) (laddr : Nat) (hal : s.cr3_masked % 8 = 0) (x : Nat) :
    ((pdpe_state s laddr).mem x).val =
      (s.mem x).val ||| (if s.long_mode = true ∧ x = pml4_addr s laddr then 0x20 else 0) := by
  unfold pdpe_state
  by_cases hl : s.long_mode = true
  · rw [if_pos hl]
    have h := update_A_bytes (readPhysicalPage s (pml4_addr s laddr) 8).2 s.mem []
      (pml4_addr s laddr) 8 (by decide) (by simp) (pml4_addr_aligned s laddr hal)
      (by simp [readPhysicalPage]) x
    simp only [List.mem_singleton] at h
    simp only [hl, true_and]
    rw [← h]
    unfold pml4_state update_A pml4_acc pml4_entry
    split <;> rfl
  · have hf : ¬ (s.long_mode = true ∧ x = pml4_addr s laddr) := fun h => hl h.1
    rw [if_neg hl, if_neg hf, Nat.or_zero]


theorem pae_2m_final_bytes (s : BX_CPU_C) (laddr w : Nat) (hw : w = 0 ∨ w = 1)
    (hal : s.cr3_masked % 8 = 0) (x : Nat) :
    ((update_AD (update_A (pte_state s laddr) (pdpe_addr s laddr) 8 (pdpe_entry s laddr))
        (pae_pde_addr s laddr) 8 (pae_pde_entry s laddr) w).mem x).val =
      ((pdpe_state s laddr).mem x).val |||
        (if x ∈ [pae_pde_addr s laddr, pdpe_addr s laddr] then 0x20 else 0) |||
        (if w = 1 ∧ x = pae_pde_addr s laddr then 0x40 else 0) := by
  have a1 := pdpe_addr_aligned s laddr hal
  have a2 := pae_pde_addr_aligned s laddr
  have h0 : ∀ x, ((pte_state s laddr).mem x).val =
      ((pdpe_state s laddr).mem x).val ||| (if x ∈ ([] : List Nat) then 0x20 else 0) := by
    intro y
    rw [pte_state_mem, if_neg (List.not_mem_nil y), Nat.or_zero]
  have h1 := update_A_bytes (pte_state s laddr) (pdpe_state s laddr).mem []
    (pdpe_addr s laddr) 8 (by decide) (fun y hy => absurd hy (List.not_mem_nil y)) a1 h0
  have hA : ∀ y ∈ [pdpe_addr s laddr], y % 8 = 0 := by
    intro y hy
    rw [List.mem_singleton.mp hy]
    exact a1
  exact update_AD_bytes _ (pdpe_state s laddr).mem [pdpe_addr s laddr]
    (pae_pde_addr s laddr) 8 w (by decide) hw hA a2 h1 x

theorem pae_4k_final_bytes (s : BX_CPU_C) (laddr w : Nat) (hw : w = 0 ∨ w = 1)
    (hal : s.cr3_masked % 8 = 0) (x : Nat) :
    ((update_AD (update_A (update_A (pae_leaf_state s laddr) (pdpe_addr s laddr) 8
        (pdpe_entry s laddr)) (pae_pde_addr s laddr) 8 (pae_pde_entry s laddr))
        (pae_pte_addr s laddr) 8 (pae_pte_entry s laddr) w).mem x).val =
      ((pdpe_state s laddr).mem x).val |||
        (if x ∈ [pae_pte_addr s laddr, pae_pde_addr s laddr, pdpe_addr s laddr]
          then 0x20 else 0) |||
        (if w = 1 ∧ x = pae_pte_addr s laddr then 0x40 else 0) := by
  have a1 := pdpe_addr_aligned s laddr hal
  have a2 := pae_pde_addr_aligned s laddr
  have a3 := pae_pte_addr_aligned s laddr
  have h0 : ∀ x, ((pae_leaf_state s laddr).mem x).val =
      ((pdpe_state s laddr).mem x).val ||| (if x ∈ ([] : List Nat) then 0x20 else 0) := by
    intro y
    rw [pae_leaf_state_mem, if_neg (List.not_mem_nil y), Nat.or_zero]
  have h1 := update_A_bytes (pae_leaf_state s laddr) (pdpe_state s laddr).mem []
    (pdpe_addr s laddr) 8 (by decide) (fun y hy => absurd hy (List.not_mem_nil y)) a1 h0
  have hA : ∀ y ∈ [pdpe_addr s laddr], y % 8 = 0 := by
    intro y hy
    rw [List.mem_singleton.mp hy]
    exact a1
  have h2 := update_A_bytes _ (pdpe_state s laddr).mem [pdpe_addr s laddr]
    (pae_pde_addr s laddr) 8 (by decide) hA a2 h1
  have hB : ∀ y ∈ [pae_pde_addr s laddr, pdpe_addr s laddr], y % 8 = 0 := by
    intro y hy
    rcases List.mem_cons.mp hy with h | h
    · rw [h]
      exact a2
    · exact hA y h
  exact update_AD_bytes _ (pdpe_state s laddr).mem [pae_pde_addr s laddr, pdpe_addr s laddr]
    (pae_pte_addr s laddr) 8 w (by decide) hw hB a3 h2 x

theorem legacy_4m_final_bytes (s : BX_CPU_C) (laddr w : Nat) (hw : w = 0 ∨ w = 1)
    (hal : s.cr3_masked % 4 = 0) (x : Nat) :
    ((update_AD (legacy_pte_state s laddr) (pde_addr s laddr) 4 (pde_entry s laddr) w).mem
        x).val =
      (s.mem x).val ||| (if x ∈ [pde_addr s laddr] then 0x20 else 0) |||
        (if w = 1 ∧ x = pde_addr s laddr then 0x40 else 0) := by
  have a1 := pde_addr_aligned s laddr hal
  have h0 : ∀ x, ((legacy_pte_state s laddr).mem x).val =
      (s.mem x).val ||| (if x ∈ ([] : List Nat) then 0x20 else 0) := by
    intro y
    rw [legacy_pte_state_mem, if_neg (List.not_mem_nil y), Nat.or_zero]
  exact update_AD_bytes (legacy_pte_state s laddr) s.mem [] (pde_addr s laddr) 4 w
    (by decide) hw (fun y hy => absurd hy (List.not_mem_nil y)) a1 h0 x

theorem legacy_4k_final_bytes (s : BX_CPU_C) (laddr w : Nat) (hw : w = 0 ∨ w = 1)
    (hal : s.cr3_masked % 4 = 0) (x : Nat) :
    ((update_AD (update_A (legacy_leaf_state s laddr) (pde_addr s laddr) 4
        (pde_entry s laddr)) (pte_addr s laddr) 4 (pte_entry s laddr) w).mem x).val =
      (s.mem x).val ||| (if x ∈ [pte_addr s laddr, pde_addr s laddr] then 0x20 else 0) |||
        (if w = 1 ∧ x = pte_addr s laddr then 0x40 else 0) := by
  have a1 := pde_addr_aligned s laddr hal
  have a2 := pte_addr_aligned s laddr
  have h0 : ∀ x, ((legacy_leaf_state s laddr).mem x).val =
      (s.mem x).val ||| (if x ∈ ([] : List Nat) then 0x20 else 0) := by
    intro y
    rw [legacy_leaf_state_mem, if_neg (List.not_mem_nil y), Nat.or_zero]
  have h1 := update_A_bytes (legacy_leaf_state s laddr) s.mem []
    (pde_addr s laddr) 4 (by decide) (fun y hy => absurd hy (List.not_mem_nil y)) a1 h0
  have hA : ∀ y ∈ [pde_addr s laddr], y % 4 = 0 := by
    intro y hy
    rw [List.mem_singleton.mp hy]
    exact a1
  exact update_AD_bytes _ s.mem [pde_addr s laddr] (pte_addr s laddr) 4 w
    (by decide) hw hA a2 h1 x

theorem if_bit5_congr (v : Nat) (p q : Prop) [Decidable p] [Decidable q] (h : p ↔ q) :
    (v ||| (if p then 0x20 else 0)) = v ||| (if q then 0x20 else 0) := by
  by_cases hp : p
  · rw [if_pos hp, if_pos (h.mp hp)]
  · rw [if_neg hp, if_neg (fun hq => hp (h.mpr hq))]

/-- The guest memory after the write-backs of a walk, byte by byte: bit 5 is added
to the first byte of every traversed entry and, for a write, bit 6 to the first
byte of the leaf; nothing else changes. -/
theorem walk_final_bytes (s : BX_CPU_C) (laddr w : Nat) (hw : w = 0 ∨ w = 1)
    (hal : s.cr3_masked % 8 = 0) (x : Nat) :
    ((walk_final_state s laddr w).mem x).val =
      ((s.mem x).val ||| (if x ∈ walk_addrs s laddr then 0x20 else 0)) |||
        (if w = 1 ∧ x = walk_leaf_addr s laddr then 0x40 else 0) := by
  unfold walk_final_state walk_addrs walk_leaf_addr
  by_cases hpae : s.cr4_PAE = true
  · rw [if_pos hpae, if_pos hpae, if_pos hpae]
    have hM := pdpe_state_bytes s laddr hal x
    by_cases hps : (pae_pde_entry s laddr &&& 0x80) ≠ 0
    · rw [if_pos hps, if_pos hps, if_pos hps, pae_2m_final_bytes s laddr w hw hal x, hM,
        or_if_bit5]
      congr 1
      apply if_bit5_congr
      by_cases hl : s.long_mode = true <;> simp [hl] <;> omega
    · rw [if_neg hps, if_neg hps, if_neg hps, pae_4k_final_bytes s laddr w hw hal x, hM,
        or_if_bit5]
      congr 1
      apply if_bit5_congr
      by_cases hl : s.long_mode = true <;> simp [hl] <;> omega
  · rw [if_neg hpae, if_neg hpae, if_neg hpae]
    have hal4 : s.cr3_masked % 4 = 0 := by omega
    by_cases hps : (pde_entry s laddr &&& 0x80) ≠ 0 ∧ s.cr4_PSE = true
    · rw [if_pos hps, if_pos hps, if_pos hps, legacy_4m_final_bytes s laddr w hw hal4 x]
      rfl
    · rw [if_neg hps, if_neg hps, if_neg hps, legacy_4k_final_bytes s laddr w hw hal4 x]
      congr 1
      apply if_bit5_congr
      simp
      omega

/-! ## A walk that returns passed every check -/

theorem NotOk_page_fault (st : BX_CPU_C) (fault laddr user rw : Nat)
    (access_type : AccessType) : NotOk (page_fault st fault laddr user rw access_type) := by
  intro pa h
  rw [page_fault_outcome] at h
  exact Outcome.noConfusion h

theorem NotOk_panic (st : BX_CPU_C) : NotOk ((Outcome.panic : Outcome Nat), st) := by
  intro pa h
  exact Outcome.noConfusion h

/-- The checks of lines 679-699 and 717-739: unless the entry `e` passes them, one
of the first four branches is taken. -/
theorem NotOk_upper (st : BX_CPU_C) (e : Nat) (r1 r2 r3 r4 X : Outcome Nat × BX_CPU_C)
    (h1 : NotOk r1) (h2 : NotOk r2) (h3 : NotOk r3) (h4 : NotOk r4) (h : ¬ upper_ok st e) :
    NotOk (if (e &&& 0x01) = 0 then r1
      else if (e &&& 0x180) ≠ 0 then r2
      else if (e &&& PAGE_DIRECTORY_NX_BIT) ≠ 0 ∧ st.efer_nxe = false then r3
      else if (e &&& 0x000fffff00000000) ≠ 0 then r4 else X) := by
  by_cases c1 : (e &&& 0x01) = 0
  · rw [if_pos c1]
    exact h1
  · rw [if_neg c1]
    by_cases c2 : (e &&& 0x180) ≠ 0
    · rw [if_pos c2]
      exact h2
    · rw [if_neg c2]
      by_cases c3 : (e &&& PAGE_DIRECTORY_NX_BIT) ≠ 0 ∧ st.efer_nxe = false
      · rw [if_pos c3]
        exact h3
      · rw [if_neg c3]
        by_cases c4 : (e &&& 0x000fffff00000000) ≠ 0
        · rw [if_pos c4]
          exact h4
        · exfalso
          apply h
          refine ⟨c1, not_not.mp c2, ?_, not_not.mp c4⟩
          intro hn
          cases hx : st.efer_nxe
          · exact absurd ⟨hn, hx⟩ c3
          · rfl

/-- The checks of lines 746-764 and 814-832: unless the entry `e` passes them, one
of the first three branches is taken. -/
theorem NotOk_lower (st : BX_CPU_C) (e : Nat) (r1 r3 r4 X : Outcome Nat × BX_CPU_C)
    (h1 : NotOk r1) (h3 : NotOk r3) (h4 : NotOk r4) (h : ¬ lower_ok st e) :
    NotOk (if (e &&& 0x01) = 0 then r1
      else if (e &&& PAGE_DIRECTORY_NX_BIT) ≠ 0 ∧ st.efer_nxe = false then r3
      else if (e &&& 0x000fffff00000000) ≠ 0 then r4 else X) := by
  by_cases c1 : (e &&& 0x01) = 0
  · rw [if_pos c1]
    exact h1
  · rw [if_neg c1]
    by_cases c3 : (e &&& PAGE_DIRECTORY_NX_BIT) ≠ 0 ∧ st.efer_nxe = false
    · rw [if_pos c3]
      exact h3
    · rw [if_neg c3]
      by_cases c4 : (e &&& 0x000fffff00000000) ≠ 0
      · rw [if_pos c4]
        exact h4
      · exfalso
        apply h
        refine ⟨c1, ?_, not_not.mp c4⟩
        intro hn
        cases hx : st.efer_nxe
        · exact absurd ⟨hn, hx⟩ c3
        · rfl

theorem upper_ok_congr {s1 s2 : BX_CPU_C} (h : same_regs s1 s2) (e : Nat) :
    upper_ok s1 e ↔ upper_ok s2 e := by
  unfold upper_ok
  rw [sr_nxe h]

theorem lower_ok_congr {s1 s2 : BX_CPU_C} (h : same_regs s1 s2) (e : Nat) :
    lower_ok s1 e ↔ lower_ok s2 e := by
  unfold lower_ok
  rw [sr_nxe h]

theorem long_pml4_invalid (s : BX_CPU_C) (laddr pl w rw : Nat) (access_type : AccessType)
    (h : ¬ upper_ok s (pml4_entry s laddr)) :
    NotOk (long_pml4 s laddr pl w rw access_type) := by
  unfold long_pml4
  exact NotOk_upper s (pml4_entry s laddr) _ _ _ _ _ (NotOk_page_fault _ _ _ _ _ _)
    (NotOk_page_fault _ _ _ _ _ _) (NotOk_page_fault _ _ _ _ _ _) (NotOk_panic _) h

theorem pae_pdpe_invalid (s : BX_CPU_C) (laddr pl w rw : Nat) (access_type : AccessType)
    (p nx : Nat) (h : ¬ upper_ok s (pdpe_entry s laddr)) :
    NotOk (pae_pdpe (pdpe_state s laddr) laddr pl w rw access_type p (pdpe_addr s laddr) nx) := by
  rw [← upper_ok_congr (same_regs_pdpe_state s laddr)] at h
  unfold pae_pdpe
  exact NotOk_upper (pdpe_state s laddr) (pdpe_entry s laddr) _ _ _ _ _
    (NotOk_page_fault _ _ _ _ _ _) (NotOk_page_fault _ _ _ _ _ _)
    (NotOk_page_fault _ _ _ _ _ _) (NotOk_panic _) h

theorem pae_pde_invalid (s : BX_CPU_C) (laddr pl w rw : Nat) (access_type : AccessType)
    (p a nx : Nat) (h : ¬ lower_ok s (pae_pde_entry s laddr)) :
    NotOk (pae_pde (pde_state s laddr) laddr pl w rw access_type p a (pdpe_entry s laddr)
      nx) := by
  rw [← lower_ok_congr (same_regs_pde_state s laddr)] at h
  unfold pae_pde
  exact NotOk_lower (pde_state s laddr) (pae_pde_entry s laddr) _ _ _ _
    (NotOk_page_fault _ _ _ _ _ _) (NotOk_page_fault _ _ _ _ _ _) (NotOk_panic _) h

theorem pae_4k_invalid (s : BX_CPU_C) (laddr pl w rw : Nat) (access_type : AccessType)
    (p a1 e1 nx : Nat) (h : ¬ lower_ok s (pae_pte_entry s laddr)) :
    NotOk (pae_4k (pte_state s laddr) laddr pl w rw access_type p a1 e1 (pae_pde_addr s laddr)
      (pae_pde_entry s laddr) nx) := by
  rw [← lower_ok_congr (same_regs_pte_state s laddr)] at h
  unfold pae_4k
  exact NotOk_lower (pte_state s laddr) (pae_pte_entry s laddr) _ _ _ _
    (NotOk_page_fault _ _ _ _ _ _) (NotOk_page_fault _ _ _ _ _ _) (NotOk_panic _) h


/-- A translation that misses the TLB and returns has walked entries that all
passed their checks, and its permission check let the access pass. -/
theorem translate_linear_ok_valid (s : BX_CPU_C) (laddr curr_pl rw : Nat)
    (access_type : AccessType) (hmiss : ¬ tlb_hit s laddr curr_pl (isWrite_of rw)) (pa : Nat)
    (hret : (translate_linear s laddr curr_pl rw access_type).1 = Outcome.ok pa) :
    walk_valid s laddr ∧ walk_permitted s laddr curr_pl rw access_type := by
  have hv : walk_valid s laddr := by
    by_contra hv
    revert hret
    rw [translate_linear_miss s laddr curr_pl rw access_type hmiss]
    unfold walk_valid at hv
    by_cases hpae : s.cr4_PAE = true
    · rw [if_pos hpae] at hv ⊢
      by_cases h1 : s.long_mode = true → upper_ok s (pml4_entry s laddr)
      · rw [pae_walk_eq s laddr _ _ rw access_type h1]
        by_cases h2 : upper_ok s (pdpe_entry s laddr)
        · rw [pae_pdpe_eq s laddr _ _ rw access_type _ _ h2]
          by_cases h3 : lower_ok s (pae_pde_entry s laddr)
          · rw [pae_pde_eq s laddr _ _ rw access_type _ _ _ h3]
            by_cases hps : (pae_pde_entry s laddr &&& 0x80) ≠ 0
            · exact absurd ⟨h1, h2, h3, fun h => absurd h hps⟩ hv
            · rw [if_neg hps]
              exact pae_4k_invalid s laddr _ _ rw access_type _ _ _ _
                (fun h4 => hv ⟨h1, h2, h3, fun _ => h4⟩) pa
          · exact pae_pde_invalid s laddr _ _ rw access_type _ _ _ h3 pa
        · exact pae_pdpe_invalid s laddr _ _ rw access_type _ _ h2 pa
      · have hl : s.long_mode = true := by
          by_contra hl
          exact h1 (fun h => absurd h hl)
        unfold pae_walk
        rw [if_pos hl]
        exact long_pml4_invalid s laddr _ _ rw access_type (fun h => h1 (fun _ => h)) pa
    · rw [if_neg hpae] at hv ⊢
      by_cases h1 : (pde_entry s laddr &&& 0x01) = 0
      · rw [legacy_walk_not_present s laddr _ _ rw access_type h1]
        exact NotOk_page_fault _ _ _ _ _ _ pa
      · by_cases hl : walk_large s laddr
        · exact absurd ⟨h1, fun h => absurd hl h⟩ hv
        · have hl' : ¬ ((pde_entry s laddr &&& 0x80) ≠ 0 ∧ s.cr4_PSE = true) := by
            unfold walk_large at hl
            rw [if_neg hpae] at hl
            exact hl
          rw [legacy_walk_4k s laddr _ _ rw access_type h1 hl']
          by_cases h2 : (pte_entry s laddr &&& 0x01) = 0
          · rw [legacy_4k_not_present s laddr _ _ rw access_type h2]
            exact NotOk_page_fault _ _ _ _ _ _ pa
          · exact absurd ⟨h1, fun _ => h2⟩ hv
  refine ⟨hv, ?_⟩
  by_contra hp
  rw [translate_linear_protection s laddr curr_pl rw access_type hmiss hv hp] at hret
  exact Outcome.noConfusion hret

theorem walk_entry_len_pos (s : BX_CPU_C) : 0 < walk_entry_len s := by
  unfold walk_entry_len
  split <;> decide

theorem walk_leaf_addr_mem (s : BX_CPU_C) (laddr : Nat) :
    walk_leaf_addr s laddr ∈ walk_addrs s laddr := by
  unfold walk_leaf_addr walk_addrs
  by_cases hpae : s.cr4_PAE = true
  · rw [if_pos hpae, if_pos hpae]
    by_cases hps : (pae_pde_entry s laddr &&& 0x80) ≠ 0
    · rw [if_pos hps, if_pos hps]
      simp
    · rw [if_neg hps, if_neg hps]
      simp
  · rw [if_neg hpae, if_neg hpae]
    by_cases hps : (pde_entry s laddr &&& 0x80) ≠ 0 ∧ s.cr4_PSE = true
    · rw [if_pos hps, if_pos hps]
      simp
    · rw [if_neg hps, if_neg hps]
      simp

theorem walk_addrs_aligned (s : BX_CPU_C) (laddr : Nat) (hal : s.cr3_masked % 8 = 0)
    (a : Nat) (ha : a ∈ walk_addrs s laddr) : a % walk_entry_len s = 0 := by
  unfold walk_addrs at ha
  unfold walk_entry_len
  by_cases hpae : s.cr4_PAE = true
  · rw [if_pos hpae] at ha ⊢
    have a0 := pml4_addr_aligned s laddr hal
    have a1 := pdpe_addr_aligned s laddr hal
    have a2 := pae_pde_addr_aligned s laddr
    have a3 := pae_pte_addr_aligned s laddr
    simp only [List.mem_append, List.mem_cons, List.mem_singleton, List.not_mem_nil,
      or_false] at ha
    rcases ha with (ha | ha | ha) | ha
    · split at ha
      · rw [List.mem_singleton.mp ha]
        exact a0
      · exact absurd ha (List.not_mem_nil a)
    · rw [ha]
      exact a1
    · rw [ha]
      exact a2
    · split at ha
      · exact absurd ha (List.not_mem_nil a)
      · rw [List.mem_singleton.mp ha]
        exact a3
  · rw [if_neg hpae] at ha ⊢
    have a1 : pde_addr s laddr % 4 = 0 := pde_addr_aligned s laddr (by omega)
    have a2 := pte_addr_aligned s laddr
    simp only [List.mem_append, List.mem_singleton] at ha
    rcases ha with ha | ha
    · rw [ha]
      exact a1
    · split at ha
      · exact absurd ha (List.not_mem_nil a)
      · rw [List.mem_singleton.mp ha]
        exact a2

theorem bytes_testBit (v : Nat) (p q : Prop) [Decidable p] [Decidable q] (i : Nat) :
    ((v ||| (if p then 0x20 else 0)) ||| (if q then 0x40 else 0)).testBit i =
      (v.testBit i || (decide p && decide (5 = i)) || (decide q && decide (6 = i))) := by
  have h5 : Nat.testBit 0x20 i = decide (5 = i) := by
    rw [show (0x20 : Nat) = 2 ^ 5 from rfl, Nat.testBit_two_pow]
  have h6 : Nat.testBit 0x40 i = decide (6 = i) := by
    rw [show (0x40 : Nat) = 2 ^ 6 from rfl, Nat.testBit_two_pow]
  by_cases hp : p <;> by_cases hq : q <;>
    simp only [hp, hq, if_true, if_false, Nat.testBit_or, h5, h6, Nat.zero_testBit,
      decide_True, decide_False, Bool.true_and, Bool.false_and, Bool.or_false]

/-! ## Control-register hooks and `INVLPG` -/

theorem TLB_index_wrap (x : Nat) :
    BX_TLB_INDEX_OF (x % 2 ^ 64) 0 = BX_TLB_INDEX_OF x 0 := by
  unfold BX_TLB_INDEX_OF BX_TLB_SIZE
  omega

/-- Two values agree under a mask iff they agree on every bit of the mask. -/
theorem and_mask_eq_iff (a b m : Nat) :
    (a &&& m) = (b &&& m) ↔ ∀ i, m.testBit i = true → a.testBit i = b.testBit i := by
  constructor
  · intro h i hi
    have h1 := congrArg (fun x => x.testBit i) h
    simp only [Nat.testBit_and, hi, Bool.and_true] at h1
    exact h1
  · intro h
    apply Nat.eq_of_testBit_eq
    intro i
    rw [Nat.testBit_and, Nat.testBit_and]
    cases hm : m.testBit i
    · simp
    · rw [h i hm]

theorem testBit_three_pow (i j k n : Nat) :
    (2 ^ i ||| 2 ^ j ||| 2 ^ k).testBit n = decide (i = n ∨ j = n ∨ k = n) := by
  rw [Nat.testBit_or, Nat.testBit_or, Nat.testBit_two_pow, Nat.testBit_two_pow,
    Nat.testBit_two_pow]
  by_cases h1 : i = n <;> by_cases h2 : j = n <;> by_cases h3 : k = n <;> simp [h1, h2, h3]

theorem and_three_bits_eq_iff (a b i j k : Nat) :
    (a &&& (2 ^ i ||| 2 ^ j ||| 2 ^ k)) = (b &&& (2 ^ i ||| 2 ^ j ||| 2 ^ k)) ↔
      (a.testBit i = b.testBit i ∧ a.testBit j = b.testBit j ∧ a.testBit k = b.testBit k) := by
  rw [and_mask_eq_iff]
  constructor
  · intro h
    refine ⟨h i ?_, h j ?_, h k ?_⟩ <;> rw [testBit_three_pow] <;> simp
  · rintro ⟨h1, h2, h3⟩ n hn
    rw [testBit_three_pow, decide_eq_true_eq] at hn
    rcases hn with hn | hn | hn <;> subst hn <;> assumption

theorem cr0_mask_eq_iff (a b : Nat) :
    (a &&& 0x80010001) = (b &&& 0x80010001) ↔
      (a.testBit 31 = b.testBit 31 ∧ a.testBit 16 = b.testBit 16 ∧
        a.testBit 0 = b.testBit 0) :=
  and_three_bits_eq_iff a b 31 16 0

theorem cr4_mask_eq_iff (a b : Nat) :
    (a &&& 0x000000b0) = (b &&& 0x000000b0) ↔
      (a.testBit 7 = b.testBit 7 ∧ a.testBit 5 = b.testBit 5 ∧
        a.testBit 4 = b.testBit 4) :=
  and_three_bits_eq_iff a b 7 5 4

theorem cr4_pae_eq_iff (a b : Nat) :
    (a &&& 0x00000020) = (b &&& 0x00000020) ↔ a.testBit 5 = b.testBit 5 := by
  have h := and_three_bits_eq_iff a b 5 5 5
  have e : (2 ^ 5 ||| 2 ^ 5 ||| 2 ^ 5 : Nat) = 0x00000020 := by decide
  rw [e] at h
  rw [h]
  constructor
  · exact fun h => h.1
  · exact fun h => ⟨h, h, h⟩

theorem TLB_flush_all (s : BX_CPU_C) (i : Nat) (hi : i < BX_TLB_SIZE) :
    ((TLB_flush s 1).TLB i).lpf = BX_INVALID_TLB_ENTRY := by
  show (TLB_flush_loop 1 BX_TLB_SIZE s.TLB i).lpf = _
  rw [TLB_flush_loop_spec, if_pos hi]
  unfold TLB_flush_entry
  by_cases hv : (s.TLB i).lpf ≠ BX_INVALID_TLB_ENTRY
  · rw [if_pos hv, if_pos (Or.inl (by decide))]
  · rw [if_neg hv]
    exact not_not.mp hv

/-! ## The TLB entry installed by a walk -/

theorem tlb_fill_TLB (st : BX_CPU_C) (laddr ppf ca rw w : Nat) (access_type : AccessType) :
    (tlb_fill st laddr ppf ca rw w access_type).2.TLB =
      Function.update st.TLB (BX_TLB_INDEX_OF (LPFOf laddr) 0)
        ⟨LPFOf laddr, ppf, st.getHostMemAddr (A20ADDR st ppf) rw access_type,
          fill_accessBits ca w (st.getHostMemAddr (A20ADDR st ppf) rw access_type)⟩ := rfl

theorem fill_perm_bits_cases (ca w : Nat) :
    fill_perm_bits ca w = 0xff00 ∨ fill_perm_bits ca w = 0x7f00 ∨ fill_perm_bits ca w = 0x0f00 ∨
      fill_perm_bits ca w = 0x7700 ∨ fill_perm_bits ca w = 0x0700 := by
  unfold fill_perm_bits
  split_ifs
  · left; decide
  · right; left; decide
  · right; right; left; decide
  · right; right; right; left; decide
  · right; right; right; right; decide

theorem testBit_ff00 (i : Nat) : Nat.testBit 0xff00 i = decide (8 ≤ i ∧ i < 16) := by
  have e : (0xff00 : Nat) = (2 ^ 8 - 1) <<< 8 := by decide
  rw [e, Nat.testBit_shiftLeft, Nat.testBit_two_pow_sub_one]
  by_cases h1 : 8 ≤ i <;> by_cases h2 : i < 16 <;> simp [h1, h2] <;> omega

theorem and_ff00_of_le (x : Nat) (h : x &&& 0xff00 = x) (i : Nat) (hx : x.testBit i = true) :
    8 ≤ i ∧ i < 16 := by
  rw [← h, Nat.testBit_and, testBit_ff00, Bool.and_eq_true, decide_eq_true_eq] at hx
  exact hx.2

theorem fill_perm_bits_range (ca w i : Nat) (h : (fill_perm_bits ca w).testBit i = true) :
    8 ≤ i ∧ i < 16 := by
  apply and_ff00_of_le (fill_perm_bits ca w) _ i h
  rcases fill_perm_bits_cases ca w with e | e | e | e | e <;> rw [e] <;> decide

theorem testBit_GlobalPage (i : Nat) : Nat.testBit TLB_GlobalPage i = decide (31 = i) := by
  rw [show TLB_GlobalPage = 2 ^ 31 from rfl, Nat.testBit_two_pow]

/-- The bits of the installed `accessBits`: the permission bits, bit 31 of
`combined_access`, and with a host pointer the copy of bits 8..15 in bits 0..7. -/
theorem fill_accessBits_testBit (ca w h i : Nat) :
    (fill_accessBits ca w h).testBit i =
      ((fill_perm_bits ca w).testBit i || (ca.testBit i && decide (31 = i)) ||
        (decide (h ≠ 0) && decide (i < 8) && (fill_perm_bits ca w).testBit (i + 8))) := by
  have hr : ∀ j, ¬ (8 ≤ j ∧ j < 16) → (fill_perm_bits ca w).testBit j = false := by
    intro j hj
    cases hb : (fill_perm_bits ca w).testBit j
    · rfl
    · exact absurd (fill_perm_bits_range ca w j hb) hj
  unfold fill_accessBits
  dsimp only
  by_cases hh : h ≠ 0
  · rw [if_pos hh]
    simp only [Nat.testBit_or, Nat.testBit_and, Nat.testBit_shiftRight, testBit_GlobalPage,
      testBit_ff00, hh, not_false_eq_true, decide_True, Bool.true_and]
    by_cases h8 : i < 8
    · have e1 : ¬ (31 = 8 + i) := by omega
      have e2 : 8 ≤ 8 + i ∧ 8 + i < 16 := by omega
      simp only [h8, e1, e2, decide_True, decide_False, Bool.and_false, Bool.or_false,
        Bool.and_true, Bool.true_and, Nat.add_comm i 8, and_self]
      simp [hh]
    · have e2 : ¬ (8 ≤ 8 + i ∧ 8 + i < 16) := by omega
      simp only [h8, e2, decide_False, Bool.and_false, Bool.or_false, Bool.false_and]
  · rw [if_neg hh]
    simp only [Nat.testBit_or, Nat.testBit_and, testBit_GlobalPage, hh, decide_False,
      Bool.false_and, Bool.or_false]

theorem fill_accessBits_ok (ca w h : Nat) : accessBits_ok (fill_accessBits ca w h) := by
  intro n hn hb
  rw [fill_accessBits_testBit] at hb ⊢
  have h1 : (fill_perm_bits ca w).testBit n = false := by
    cases hx : (fill_perm_bits ca w).testBit n
    · rfl
    · have := fill_perm_bits_range ca w n hx
      omega
  have h2 : ¬ (31 = n) := by omega
  simp only [h1, h2, decide_False, Bool.and_false, Bool.or_false, Bool.false_or, hn,
    decide_True, Bool.and_true, Bool.and_eq_true, decide_eq_true_eq] at hb
  rw [hb.2]
  rfl

theorem shift_0x100 (k : Nat) : (0x0100 : Nat) <<< k = 2 ^ (8 + k) := by
  rw [Nat.shiftLeft_eq, Nat.pow_add]

/-- The fast test of line 647 on `accessBits`, as a bit test. -/
theorem fast_test_iff (b w cpl : Nat) :
    (b &&& (0x0100 <<< ((w <<< 2) ||| cpl))) ≠ 0 ↔ b.testBit (8 + ((w <<< 2) ||| cpl)) = true := by
  rw [shift_0x100, and_pow_ne_zero_iff]

/-- The permission bits installed after a permitted walk grant the access that
was walked for. -/
theorem fill_perm_bits_hit (s : BX_CPU_C) (ca w cpl : Nat) (hw : w = 0 ∨ w = 1) (hc : cpl ≤ 3)
    (hp : priv_check (priv_index s (pl_of cpl) ca w) ≠ 0) :
    (fill_perm_bits ca w).testBit (8 + ((w <<< 2) ||| cpl)) = true := by
  unfold fill_perm_bits
  unfold priv_index at hp
  rw [← and6_and4 ca, ← and6_and2 ca]
  rcases and6_cases ca with h6 | h6 | h6 | h6 <;> rw [h6] at hp ⊢ <;>
    rcases hw with hw | hw <;> subst hw <;> interval_cases cpl <;>
    revert hp <;> cases s.cr0_WP <;> decide

theorem fill_accessBits_hit (s : BX_CPU_C) (ca w cpl h : Nat) (hw : w = 0 ∨ w = 1)
    (hc : cpl ≤ 3) (hp : priv_check (priv_index s (pl_of cpl) ca w) ≠ 0) :
    (fill_accessBits ca w h &&& (0x0100 <<< ((w <<< 2) ||| cpl))) ≠ 0 := by
  rw [fast_test_iff, fill_accessBits_testBit, fill_perm_bits_hit s ca w cpl hw hc hp]
  rfl

theorem and_mask_mod_4096 (e m : Nat) (h : m % 4096 = 0) : (e &&& m) % 4096 = 0 := by
  have h1 := and_mod_two_pow e m 12
  have h2 : (2 : Nat) ^ 12 = 4096 := rfl
  rw [h2, h, Nat.and_zero] at h1
  exact h1

theorem or_mod_4096 (x y : Nat) (hx : x % 4096 = 0) (hy : y % 4096 = 0) :
    (x ||| y) % 4096 = 0 := by
  have h := or_mod_two_pow x y 12
  have h2 : (2 : Nat) ^ 12 = 4096 := rfl
  rw [h2, hx, hy] at h
  exact h

/-- The frame a walk computes is page aligned. -/
theorem walk_ppf_aligned (s : BX_CPU_C) (laddr : Nat) : walk_ppf s laddr % 4096 = 0 := by
  unfold walk_ppf
  split_ifs
  · exact or_mod_4096 _ _ (and_mask_mod_4096 _ _ (by decide)) (and_mask_mod_4096 _ _ (by decide))
  · exact and_mask_mod_4096 _ _ (by decide)
  · exact or_mod_4096 _ _ (and_mask_mod_4096 _ _ (by decide)) (and_mask_mod_4096 _ _ (by decide))
  · exact and_mask_mod_4096 _ _ (by decide)

theorem and_fff_lt (x : Nat) : x &&& 0xfff < 4096 :=
  Nat.lt_of_le_of_lt Nat.and_le_right (by decide)

/-- Clearing the low 12 bits of `ppf | offset` gives back an aligned `ppf`. -/
theorem frame_of_paddress (ppf x : Nat) (h : ppf % 4096 = 0) :
    (ppf ||| (x &&& 0xfff)) - (ppf ||| (x &&& 0xfff)) % 4096 = ppf := by
  have hy := and_fff_lt x
  have h1 := or_mod_two_pow ppf (x &&& 0xfff) 12
  have h2 := or_div_two_pow ppf (x &&& 0xfff) 12
  have e : (2 : Nat) ^ 12 = 4096 := rfl
  rw [e] at h1 h2
  rw [h, Nat.zero_or, Nat.mod_eq_of_lt hy] at h1
  rw [Nat.div_eq_of_lt hy, Nat.or_zero] at h2
  omega

theorem tlb_hit_same_page (s : BX_CPU_C) (laddr laddr2 cpl w : Nat)
    (h : LPFOf laddr2 = LPFOf laddr) : tlb_hit s laddr2 cpl w ↔ tlb_hit s laddr cpl w := by
  unfold tlb_hit
  rw [h]

theorem translate_linear_hit (s : BX_CPU_C) (laddr curr_pl rw : Nat) (access_type : AccessType)
    (h : tlb_hit s laddr curr_pl (isWrite_of rw)) :
    translate_linear s laddr curr_pl rw access_type =
      (Outcome.ok ((s.TLB (BX_TLB_INDEX_OF (LPFOf laddr) 0)).ppf ||| (laddr &&& 0xfff)), s) := by
  unfold translate_linear
  simp only [h, if_true]

/-- After a translation that returned, the slot of the page passes the fast test
for the same CPL and the same kind of access. -/
theorem translate_linear_then_hit (s : BX_CPU_C) (laddr curr_pl rw : Nat)
    (access_type : AccessType) (hc : curr_pl ≤ 3) (p : Nat)
    (hret : (translate_linear s laddr curr_pl rw access_type).1 = Outcome.ok p) :
    tlb_hit (translate_linear s laddr curr_pl rw access_type).2 laddr curr_pl (isWrite_of rw) := by
  by_cases hit : tlb_hit s laddr curr_pl (isWrite_of rw)
  · rw [translate_linear_hit s laddr curr_pl rw access_type hit]
    exact hit
  · obtain ⟨hv, hp⟩ := translate_linear_ok_valid s laddr curr_pl rw access_type hit p hret
    rw [translate_linear_walk s laddr curr_pl rw access_type hit hv, if_pos hp]
    unfold tlb_hit
    dsimp only
    rw [tlb_fill_TLB, Function.update_same]
    refine ⟨rfl, ?_⟩
    apply fill_accessBits_hit s _ _ _ _ (isWrite_of_le rw) hc
    unfold walk_access
    rw [priv_index_global]
    exact hp.1

theorem TLB_index_lt (x y : Nat) : BX_TLB_INDEX_OF x y < BX_TLB_SIZE := by
  unfold BX_TLB_INDEX_OF
  exact Nat.mod_lt _ (by decide)

/-! ## What the functions of `paging.cc` do to the TLB -/

theorem TLB_step_refl (T : Nat → bx_TLB_entry) : TLB_step T T := fun _ => Or.inl rfl

theorem TLB_step_trans {T T2 T3 : Nat → bx_TLB_entry} (h1 : TLB_step T T2)
    (h2 : TLB_step T2 T3) : TLB_step T T3 := by
  intro i
  rcases h2 i with h | h | h
  · rw [h]
    exact h1 i
  · exact Or.inr (Or.inl h)
  · exact Or.inr (Or.inr h)

theorem TLB_ok_step {s s2 : BX_CPU_C} (h : TLB_ok s) (hs : TLB_step s.TLB s2.TLB) :
    TLB_ok s2 := by
  intro i hi hv
  rcases hs i with e | e | e
  · rw [e] at hv ⊢
    exact h i hi hv
  · exact absurd e hv
  · exact e

theorem TLB_step_invalidate (T : Nat → bx_TLB_entry) (k : Nat) :
    TLB_step T (Function.update T k { (T k) with lpf := BX_INVALID_TLB_ENTRY }) := by
  intro i
  by_cases h : i = k
  · subst h
    rw [Function.update_same]
    exact Or.inr (Or.inl rfl)
  · rw [Function.update_noteq h]
    exact Or.inl rfl

theorem TLB_step_install (T : Nat → bx_TLB_entry) (k : Nat) (e : bx_TLB_entry)
    (he : TLB_entry_ok e) : TLB_step T (Function.update T k e) := by
  intro i
  by_cases h : i = k
  · subst h
    rw [Function.update_same]
    exact Or.inr (Or.inr he)
  · rw [Function.update_noteq h]
    exact Or.inl rfl

theorem update_A_TLB (s : BX_CPU_C) (a n e : Nat) : (update_A s a n e).TLB = s.TLB := by
  unfold update_A
  split <;> rfl

theorem update_AD_TLB (s : BX_CPU_C) (a n e w : Nat) : (update_AD s a n e w).TLB = s.TLB := by
  unfold update_AD
  split <;> rfl

theorem StepOK_page_fault (T : Nat → bx_TLB_entry) (st : BX_CPU_C) (fault laddr user rw : Nat)
    (access_type : AccessType) (h : st.TLB = T) :
    StepOK T (page_fault st fault laddr user rw access_type) := by
  subst h
  exact TLB_step_invalidate st.TLB _

theorem StepOK_tlb_fill (T : Nat → bx_TLB_entry) (st : BX_CPU_C) (laddr ppf ca rw w : Nat)
    (access_type : AccessType) (h : st.TLB = T) (hp : ppf % 4096 = 0) :
    StepOK T (tlb_fill st laddr ppf ca rw w access_type) := by
  subst h
  unfold StepOK
  rw [tlb_fill_TLB]
  exact TLB_step_install st.TLB _ _ ⟨fill_accessBits_ok _ _ _, hp⟩

theorem StepOK_panic (T : Nat → bx_TLB_entry) (st : BX_CPU_C) (h : st.TLB = T) :
    StepOK T ((Outcome.panic : Outcome Nat), st) := by
  subst h
  exact TLB_step_refl st.TLB

theorem StepOK_ite (T : Nat → bx_TLB_entry) (c : Prop) [Decidable c]
    (a b : Outcome Nat × BX_CPU_C) (ha : StepOK T a) (hb : StepOK T b) :
    StepOK T (if c then a else b) := by
  split <;> assumption

theorem StepOK_legacy_4m (T : Nat → bx_TLB_entry) (s : BX_CPU_C) (laddr pl w rw : Nat)
    (access_type : AccessType) (a1 e1 : Nat) (hT : s.TLB = T) :
    StepOK T (legacy_4m s laddr pl w rw access_type a1 e1) := by
  unfold legacy_4m
  dsimp only
  apply StepOK_ite
  · exact StepOK_page_fault _ _ _ _ _ _ _ hT
  · exact StepOK_tlb_fill _ _ _ _ _ _ _ _ ((update_AD_TLB _ _ _ _ _).trans hT)
      (or_mod_4096 _ _ (and_mask_mod_4096 _ _ (by decide)) (and_mask_mod_4096 _ _ (by decide)))

theorem StepOK_legacy_4k_finish (T : Nat → bx_TLB_entry) (s : BX_CPU_C) (laddr pl w rw : Nat)
    (access_type : AccessType) (a1 e1 a2 e2 : Nat) (hT : s.TLB = T) :
    StepOK T (legacy_4k_finish s laddr pl w rw access_type a1 e1 a2 e2) := by
  unfold legacy_4k_finish
  dsimp only
  apply StepOK_ite
  · exact StepOK_page_fault _ _ _ _ _ _ _ hT
  · exact StepOK_tlb_fill _ _ _ _ _ _ _ _
      ((update_AD_TLB _ _ _ _ _).trans ((update_A_TLB _ _ _ _).trans hT))
      (and_mask_mod_4096 _ _ (by decide))

theorem StepOK_legacy_4k (T : Nat → bx_TLB_entry) (s : BX_CPU_C) (laddr pl w rw : Nat)
    (access_type : AccessType) (a1 e1 : Nat) (hT : s.TLB = T) :
    StepOK T (legacy_4k s laddr pl w rw access_type a1 e1) := by
  unfold legacy_4k
  dsimp only
  apply StepOK_ite
  · exact StepOK_page_fault _ _ _ _ _ _ _ hT
  · exact StepOK_legacy_4k_finish T _ _ _ _ _ _ _ _ _ _ hT

theorem StepOK_legacy_walk (T : Nat → bx_TLB_entry) (s : BX_CPU_C) (laddr pl w rw : Nat)
    (access_type : AccessType) (hT : s.TLB = T) :
    StepOK T (legacy_walk s laddr pl w rw access_type) := by
  unfold legacy_walk
  dsimp only
  apply StepOK_ite
  · exact StepOK_page_fault _ _ _ _ _ _ _ hT
  · apply StepOK_ite
    · exact StepOK_legacy_4m T _ _ _ _ _ _ _ _ hT
    · exact StepOK_legacy_4k T _ _ _ _ _ _ _ _ hT

theorem StepOK_pae_2m (T : Nat → bx_TLB_entry) (s : BX_CPU_C) (laddr pl w rw : Nat)
    (access_type : AccessType) (p a1 e1 a2 e2 nx : Nat) (hT : s.TLB = T) :
    StepOK T (pae_2m s laddr pl w rw access_type p a1 e1 a2 e2 nx) := by
  unfold pae_2m
  dsimp only
  apply StepOK_ite
  · exact StepOK_page_fault _ _ _ _ _ _ _ hT
  · exact StepOK_tlb_fill _ _ _ _ _ _ _ _
      ((update_AD_TLB _ _ _ _ _).trans ((update_A_TLB _ _ _ _).trans hT))
      (or_mod_4096 _ _ (and_mask_mod_4096 _ _ (by decide)) (and_mask_mod_4096 _ _ (by decide)))

theorem StepOK_pae_4k_finish (T : Nat → bx_TLB_entry) (s : BX_CPU_C) (laddr pl w rw : Nat)
    (access_type : AccessType) (p a1 e1 a2 e2 a3 e3 nx : Nat) (hT : s.TLB = T) :
    StepOK T (pae_4k_finish s laddr pl w rw access_type p a1 e1 a2 e2 a3 e3 nx) := by
  unfold pae_4k_finish
  dsimp only
  apply StepOK_ite
  · exact StepOK_page_fault _ _ _ _ _ _ _ hT
  · exact StepOK_tlb_fill _ _ _ _ _ _ _ _
      ((update_AD_TLB _ _ _ _ _).trans
        ((update_A_TLB _ _ _ _).trans ((update_A_TLB _ _ _ _).trans hT)))
      (and_mask_mod_4096 _ _ (by decide))

theorem StepOK_pae_4k (T : Nat → bx_TLB_entry) (s : BX_CPU_C) (laddr pl w rw : Nat)
    (access_type : AccessType) (p a1 e1 a2 e2 nx : Nat) (hT : s.TLB = T) :
    StepOK T (pae_4k s laddr pl w rw access_type p a1 e1 a2 e2 nx) := by
  unfold pae_4k
  dsimp only
  apply StepOK_ite
  · exact StepOK_page_fault _ _ _ _ _ _ _ hT
  · apply StepOK_ite
    · exact StepOK_page_fault _ _ _ _ _ _ _ hT
    · apply StepOK_ite
      · exact StepOK_panic _ _ hT
      · exact StepOK_pae_4k_finish T _ _ _ _ _ _ _ _ _ _ _ _ _ _ hT

theorem StepOK_pae_pde (T : Nat → bx_TLB_entry) (s : BX_CPU_C) (laddr pl w rw : Nat)
    (access_type : AccessType) (p a1 e1 nx : Nat) (hT : s.TLB = T) :
    StepOK T (pae_pde s laddr pl w rw access_type p a1 e1 nx) := by
  unfold pae_pde
  dsimp only
  apply StepOK_ite
  · exact StepOK_page_fault _ _ _ _ _ _ _ hT
  · apply StepOK_ite
    · exact StepOK_page_fault _ _ _ _ _ _ _ hT
    · apply StepOK_ite
      · exact StepOK_panic _ _ hT
      · apply StepOK_ite
        · exact StepOK_pae_2m T _ _ _ _ _ _ _ _ _ _ _ _ hT
        · exact StepOK_pae_4k T _ _ _ _ _ _ _ _ _ _ _ _ hT

theorem StepOK_pae_pdpe (T : Nat → bx_TLB_entry) (s : BX_CPU_C) (laddr pl w rw : Nat)
    (access_type : AccessType) (p a nx : Nat) (hT : s.TLB = T) :
    StepOK T (pae_pdpe s laddr pl w rw access_type p a nx) := by
  unfold pae_pdpe
  dsimp only
  apply StepOK_ite
  · exact StepOK_page_fault _ _ _ _ _ _ _ hT
  · apply StepOK_ite
    · exact StepOK_page_fault _ _ _ _ _ _ _ hT
    · apply StepOK_ite
      · exact StepOK_page_fault _ _ _ _ _ _ _ hT
      · apply StepOK_ite
        · exact StepOK_panic _ _ hT
        · exact StepOK_pae_pde T _ _ _ _ _ _ _ _ _ _ hT

theorem StepOK_long_pml4 (T : Nat → bx_TLB_entry) (s : BX_CPU_C) (laddr pl w rw : Nat)
    (access_type : AccessType) (hT : s.TLB = T) :
    StepOK T (long_pml4 s laddr pl w rw access_type) := by
  unfold long_pml4
  dsimp only
  apply StepOK_ite
  · exact StepOK_page_fault _ _ _ _ _ _ _ hT
  · apply StepOK_ite
    · exact StepOK_page_fault _ _ _ _ _ _ _ hT
    · apply StepOK_ite
      · exact StepOK_page_fault _ _ _ _ _ _ _ hT
      · apply StepOK_ite
        · exact StepOK_panic _ _ hT
        · split
          · exact StepOK_pae_pdpe T _ _ _ _ _ _ _ _ _ hT
          · exact StepOK_pae_pdpe T _ _ _ _ _ _ _ _ _ hT

/-- Whatever its outcome, `translate_linear` keeps every TLB slot, or leaves it
invalid, or installs in it an entry whose `accessBits` satisfy the invariant and
whose `ppf` is page aligned. -/
theorem StepOK_translate_linear (s : BX_CPU_C) (laddr curr_pl rw : Nat)
    (access_type : AccessType) :
    StepOK s.TLB (translate_linear s laddr curr_pl rw access_type) := by
  unfold translate_linear
  dsimp only
  apply StepOK_ite
  · exact TLB_step_refl s.TLB
  · apply StepOK_ite
    · unfold pae_walk
      apply StepOK_ite
      · exact StepOK_long_pml4 _ _ _ _ _ _ _ rfl
      · exact StepOK_pae_pdpe _ _ _ _ _ _ _ _ _ _ rfl
    · exact StepOK_legacy_walk _ _ _ _ _ _ _ rfl

/-! ## The TLB invariant in every reachable state -/

theorem bx_phy_address_of_aligned (x : Nat) (h : x % 4096 = 0) :
    bx_phy_address_of x % 4096 = 0 := by
  unfold bx_phy_address_of
  omega

theorem accessBits_ok_read_ptr :
    accessBits_ok (TLB_ReadSysOK ||| TLB_ReadUserOK ||| TLB_ReadSysPtrOK ||| TLB_ReadUserPtrOK) := by
  unfold accessBits_ok
  decide

theorem accessBits_ok_all_ptr :
    accessBits_ok (TLB_ReadSysOK ||| TLB_ReadUserOK ||| TLB_WriteSysOK ||| TLB_WriteUserOK |||
      TLB_ReadSysPtrOK ||| TLB_ReadUserPtrOK ||| TLB_WriteSysPtrOK ||| TLB_WriteUserPtrOK) := by
  unfold accessBits_ok
  decide

theorem accessBits_ok_zero : accessBits_ok 0 := by
  unfold accessBits_ok
  decide

theorem flat_entry_read_ok (s : BX_CPU_C) (laddr : Nat) :
    TLB_entry_ok (flat_entry_read s laddr) := by
  have hp := bx_phy_address_of_aligned (LPFOf laddr) (LPFOf_mod laddr)
  unfold flat_entry_read
  dsimp only
  split_ifs
  · exact ⟨accessBits_ok_read_ptr, hp⟩
  · exact ⟨accessBits_ok_zero, hp⟩
  · exact ⟨accessBits_ok_all_ptr, hp⟩

theorem flat_entry_write_ok (s : BX_CPU_C) (laddr : Nat) :
    TLB_entry_ok (flat_entry_write s laddr) := by
  have hp := bx_phy_address_of_aligned (LPFOf laddr) (LPFOf_mod laddr)
  unfold flat_entry_write
  dsimp only
  split_ifs
  · exact ⟨accessBits_ok_all_ptr, hp⟩
  · exact ⟨accessBits_ok_zero, hp⟩

theorem read_to_buffer_TLB (a : access_state) (addr len off : Nat) :
    (read_to_buffer a addr len off).cpu.TLB = a.cpu.TLB := rfl

theorem write_from_buffer_TLB (a : access_state) (addr len off : Nat) :
    (write_from_buffer a addr len off).cpu.TLB = a.cpu.TLB := rfl

theorem dtranslate_linear_step (a : access_state) (laddr curr_pl rw : Nat) :
    TLB_step a.cpu.TLB (dtranslate_linear a laddr curr_pl rw).2.cpu.TLB :=
  StepOK_translate_linear a.cpu laddr curr_pl rw AccessType.DATA_ACCESS

theorem access_paged_single_step (a : access_state) (laddr len curr_pl rw xlate_rw : Nat) :
    TLB_step a.cpu.TLB (access_paged_single a laddr len curr_pl rw xlate_rw).2.cpu.TLB := by
  have h := dtranslate_linear_step a laddr curr_pl xlate_rw
  unfold access_paged_single
  dsimp only
  split
  · split <;> exact h
  · exact h
  · exact h

theorem access_paged_cross_step (a : access_state) (laddr len curr_pl rw xlate_rw off : Nat) :
    TLB_step a.cpu.TLB (access_paged_cross a laddr len curr_pl rw xlate_rw off).2.cpu.TLB := by
  have h := dtranslate_linear_step a laddr curr_pl xlate_rw
  unfold access_paged_cross
  dsimp only
  split
  · rename_i p1 _
    have h2 := fun b : access_state => dtranslate_linear_step b ((laddr + (4096 - off)) % 2 ^ 64)
      curr_pl xlate_rw
    split
    · split <;> exact TLB_step_trans h (h2 _)
    · exact TLB_step_trans h (h2 _)
    · exact TLB_step_trans h (h2 _)
  · exact h
  · exact h

theorem access_flat_single_step (a : access_state) (laddr len rw : Nat) :
    TLB_step a.cpu.TLB (access_flat_single a laddr len rw).2.cpu.TLB := by
  unfold access_flat_single
  dsimp only
  split_ifs
  · exact TLB_step_refl _
  · exact TLB_step_install _ _ _ (flat_entry_read_ok _ _)
  · exact TLB_step_refl _
  · exact TLB_step_install _ _ _ (flat_entry_write_ok _ _)

theorem access_flat_cross_step (a : access_state) (laddr len rw off : Nat) :
    TLB_step a.cpu.TLB (access_flat_cross a laddr len rw off).2.cpu.TLB := by
  unfold access_flat_cross
  dsimp only
  split_ifs <;> exact TLB_step_refl _

theorem access_linear_step (a : access_state) (laddr len curr_pl rw : Nat) :
    TLB_step a.cpu.TLB (access_linear a laddr len curr_pl rw).2.cpu.TLB := by
  unfold access_linear
  dsimp only
  by_cases hpg : a.cpu.cr0_PG = true
  · rw [if_pos hpg]
    by_cases hl : (PAGE_OFFSET laddr + len) % 2 ^ 32 ≤ 4096
    · rw [if_pos hl]
      exact access_paged_single_step _ _ _ _ _ _
    · rw [if_neg hl]
      exact access_paged_cross_step _ _ _ _ _ _ _
  · rw [if_neg hpg]
    by_cases hl : (PAGE_OFFSET laddr + len) % 2 ^ 32 ≤ 4096
    · rw [if_pos hl]
      exact access_flat_single_step _ _ _ _
    · rw [if_neg hl]
      exact access_flat_cross_step _ _ _ _ _

theorem TLB_flush_step (s : BX_CPU_C) (g : Nat) : TLB_step s.TLB (TLB_flush s g).TLB := by
  intro i
  show TLB_flush_loop g BX_TLB_SIZE s.TLB i = _ ∨ (TLB_flush_loop g BX_TLB_SIZE s.TLB i).lpf = _ ∨ _
  rw [TLB_flush_loop_spec]
  split
  · unfold TLB_flush_entry
    split_ifs
    · exact Or.inr (Or.inl rfl)
    · exact Or.inl rfl
    · exact Or.inl rfl
  · exact Or.inl rfl

theorem TLB_invlpg_step (s : BX_CPU_C) (laddr : Nat) :
    TLB_step s.TLB (TLB_invlpg s laddr).TLB :=
  TLB_step_invalidate s.TLB _

theorem INVLPG_step (s : BX_CPU_C) (seg_base rm_addr : Nat) :
    TLB_step s.TLB (INVLPG s seg_base rm_addr).2.TLB := by
  unfold INVLPG
  split
  · exact TLB_step_refl _
  · exact TLB_invlpg_step s _

theorem pagingCR0Changed_step (s : BX_CPU_C) (o n : Nat) :
    TLB_step s.TLB (pagingCR0Changed s o n).TLB := by
  unfold pagingCR0Changed
  split
  · exact TLB_flush_step s 1
  · exact TLB_step_refl _

theorem pagingCR4Changed_step (s : BX_CPU_C) (o n : Nat) :
    TLB_step s.TLB (pagingCR4Changed s o n).TLB := by
  have h : TLB_step s.TLB
      (if (o &&& 0x000000b0) ≠ (n &&& 0x000000b0) then TLB_flush s 1 else s).TLB := by
    split
    · exact TLB_flush_step s 1
    · exact TLB_step_refl _
  unfold pagingCR4Changed
  dsimp only
  by_cases h5 : (o &&& 0x00000020) ≠ (n &&& 0x00000020)
  · rw [if_pos h5]
    exact h
  · rw [if_neg h5]
    exact h

theorem CR3_change_step (s : BX_CPU_C) (value : Nat) :
    TLB_step s.TLB (CR3_change s value).TLB :=
  TLB_flush_step s 0

theorem TLB_init_ok (s : BX_CPU_C) : TLB_ok (TLB_init s) := by
  intro i hi hv
  exfalso
  apply hv
  unfold TLB_init
  dsimp only
  rw [if_pos hi]

/-- In every reachable state every valid TLB slot holds an entry as a fill leaves
it. -/
theorem Reachable_TLB_ok (s : BX_CPU_C) (h : Reachable s) : TLB_ok s := by
  induction h with
  | init s => exact TLB_init_ok s
  | translate s laddr curr_pl rw access_type _ ih =>
    exact TLB_ok_step ih (StepOK_translate_linear s laddr curr_pl rw access_type)
  | access a laddr len curr_pl rw _ ih =>
    exact TLB_ok_step ih (access_linear_step a laddr len curr_pl rw)
  | invlpg_insn s seg_base rm_addr _ ih => exact TLB_ok_step ih (INVLPG_step s seg_base rm_addr)
  | invlpg s laddr _ ih => exact TLB_ok_step ih (TLB_invlpg_step s laddr)
  | flush s g _ ih => exact TLB_ok_step ih (TLB_flush_step s g)
  | cr0 s o n _ ih => exact TLB_ok_step ih (pagingCR0Changed_step s o n)
  | cr4 s o n _ ih => exact TLB_ok_step ih (pagingCR4Changed_step s o n)
  | cr3 s value _ ih => exact TLB_ok_step ih (CR3_change_step s value)
  | other s s2 _ hT ih =>
    intro i hi hv
    rw [hT] at hv ⊢
    exact ih i hi hv

/-- In every reachable state the valid TLB slots hold page-aligned frames. -/
theorem Reachable_ppf_aligned (s : BX_CPU_C) (h : Reachable s) : TLB_ppf_aligned s :=
  fun i hi hv => (Reachable_TLB_ok s h i hi hv).2

theorem PAGE_OFFSET_eq (laddr : Nat) : PAGE_OFFSET laddr = laddr % 4096 := by
  unfold PAGE_OFFSET
  exact Nat.and_pow_two_sub_one_eq_mod laddr 12

theorem second_page_eq (laddr : Nat) :
    laddr + (4096 - PAGE_OFFSET laddr) = LPFOf laddr + 4096 := by
  rw [PAGE_OFFSET_eq]
  unfold LPFOf
  omega

theorem second_page_aligned (laddr : Nat) :
    ((laddr + (4096 - PAGE_OFFSET laddr)) % 2 ^ 64) % 4096 = 0 := by
  rw [second_page_eq]
  have := LPFOf_mod laddr
  omega

/-- A byte of the buffer after `len` bytes of memory were copied into it. -/
theorem copy_byte (m data : Mem) (addr off len k : Nat) (hk : k < len) :
    writeLE data off len (readLE m addr len) (off + k) = m (addr + k) := by
  rw [writeLE_inside data off len _ k hk]
  apply Fin.ext
  rw [byteOf_val, readLE_byte m addr len k hk]

theorem access_paged_cross_fault (a : access_state) (laddr len curr_pl rw xlate_rw off : Nat)
    (p1 v ec : Nat)
    (h1 : (translate_linear a.cpu laddr curr_pl xlate_rw AccessType.DATA_ACCESS).1 =
      Outcome.ok p1)
    (h2 : (translate_linear
        (translate_linear a.cpu laddr curr_pl xlate_rw AccessType.DATA_ACCESS).2
        ((laddr + (4096 - off)) % 2 ^ 64) curr_pl xlate_rw AccessType.DATA_ACCESS).1 =
      Outcome.exception v ec) :
    access_paged_cross a laddr len curr_pl rw xlate_rw off =
      (Outcome.exception v ec,
        { cpu := (translate_linear
            (translate_linear a.cpu laddr curr_pl xlate_rw AccessType.DATA_ACCESS).2
            ((laddr + (4096 - off)) % 2 ^ 64) curr_pl xlate_rw AccessType.DATA_ACCESS).2,
          address_xlation :=
            ⟨p1, a.address_xlation.paddress2, 4096 - off, len - (4096 - off), 2⟩,
          data := a.data,
          xlations := a.xlations ++ [(laddr, curr_pl, xlate_rw)] ++
            [((laddr + (4096 - off)) % 2 ^ 64, curr_pl, xlate_rw)] }) := by
  unfold access_paged_cross dtranslate_linear
  simp only [h1, h2]

theorem access_paged_cross_ok (a : access_state) (laddr len curr_pl rw xlate_rw off : Nat)
    (p1 p2 : Nat)
    (h1 : (translate_linear a.cpu laddr curr_pl xlate_rw AccessType.DATA_ACCESS).1 =
      Outcome.ok p1)
    (h2 : (translate_linear
        (translate_linear a.cpu laddr curr_pl xlate_rw AccessType.DATA_ACCESS).2
        ((laddr + (4096 - off)) % 2 ^ 64) curr_pl xlate_rw AccessType.DATA_ACCESS).1 =
      Outcome.ok p2) :
    access_paged_cross a laddr len curr_pl rw xlate_rw off =
      (Outcome.ok (),
        if rw = BX_READ then
          read_to_buffer (read_to_buffer
            { cpu := (translate_linear
                (translate_linear a.cpu laddr curr_pl xlate_rw AccessType.DATA_ACCESS).2
                ((laddr + (4096 - off)) % 2 ^ 64) curr_pl xlate_rw AccessType.DATA_ACCESS).2,
              address_xlation := ⟨p1, p2, 4096 - off, len - (4096 - off), 2⟩,
              data := a.data,
              xlations := a.xlations ++ [(laddr, curr_pl, xlate_rw)] ++
                [((laddr + (4096 - off)) % 2 ^ 64, curr_pl, xlate_rw)] }
            p1 (4096 - off) 0) p2 (len - (4096 - off)) (4096 - off)
        else
          write_from_buffer (write_from_buffer
            { cpu := (translate_linear
                (translate_linear a.cpu laddr curr_pl xlate_rw AccessType.DATA_ACCESS).2
                ((laddr + (4096 - off)) % 2 ^ 64) curr_pl xlate_rw AccessType.DATA_ACCESS).2,
              address_xlation := ⟨p1, p2, 4096 - off, len - (4096 - off), 2⟩,
              data := a.data,
              xlations := a.xlations ++ [(laddr, curr_pl, xlate_rw)] ++
                [((laddr + (4096 - off)) % 2 ^ 64, curr_pl, xlate_rw)] }
            p1 (4096 - off) 0) p2 (len - (4096 - off)) (4096 - off)) := by
  unfold access_paged_cross dtranslate_linear
  simp only [h1, h2]
  split <;> rfl

theorem access_linear_cross (a : access_state) (laddr len curr_pl rw : Nat)
    (hpg : a.cpu.cr0_PG = true) (hov : PAGE_OFFSET laddr + len < 2 ^ 32)
    (hcross : PAGE_OFFSET laddr + len > 4096) :
    access_linear a laddr len curr_pl rw =
      access_paged_cross a laddr len curr_pl (if rw = BX_RW then BX_READ else rw) rw
        (PAGE_OFFSET laddr) := by
  unfold access_linear
  dsimp only
  rw [if_pos hpg, Nat.mod_eq_of_lt hov, if_neg (by omega)]

/-- The buffer after two reads, of `len1` bytes at `p1` and of `len2` bytes at
`p2`, into consecutive parts of it. -/
theorem read2_bytes (m data : Mem) (p1 p2 len1 len2 : Nat) :
    (∀ k, k < len1 →
      writeLE (writeLE data 0 len1 (readLE m p1 len1)) len1 len2 (readLE m p2 len2) k =
        m (p1 + k)) ∧
    (∀ k, k < len2 →
      writeLE (writeLE data 0 len1 (readLE m p1 len1)) len1 len2 (readLE m p2 len2) (len1 + k) =
        m (p2 + k)) ∧
    (∀ k, len1 + len2 ≤ k →
      writeLE (writeLE data 0 len1 (readLE m p1 len1)) len1 len2 (readLE m p2 len2) k =
        data k) := by
  refine ⟨?_, ?_, ?_⟩
  · intro k hk
    rw [writeLE_outside _ _ _ _ _ (Or.inl hk)]
    have := copy_byte m data p1 0 len1 k hk
    rw [Nat.zero_add] at this
    exact this
  · intro k hk
    exact copy_byte m _ p2 len1 len2 k hk
  · intro k hk
    rw [writeLE_outside _ _ _ _ _ (Or.inr (by omega)),
      writeLE_outside _ _ _ _ _ (Or.inr (by omega))]

/-- Guest memory after two writes, of the buffer bytes `[0, len1)` at `p1` and of
the buffer bytes `[len1, len1 + len2)` at `p2`. -/
theorem write2_bytes (m data : Mem) (p1 p2 len1 len2 : Nat) :
    (∀ k, k < len2 →
      writeLE (writeLE m p1 len1 (readLE data 0 len1)) p2 len2 (readLE data len1 len2) (p2 + k) =
        data (len1 + k)) ∧
    (∀ k, k < len1 → (p1 + k < p2 ∨ p2 + len2 ≤ p1 + k) →
      writeLE (writeLE m p1 len1 (readLE data 0 len1)) p2 len2 (readLE data len1 len2) (p1 + k) =
        data k) ∧
    (∀ x, (x < p1 ∨ p1 + len1 ≤ x) → (x < p2 ∨ p2 + len2 ≤ x) →
      writeLE (writeLE m p1 len1 (readLE data 0 len1)) p2 len2 (readLE data len1 len2) x =
        m x) := by
  refine ⟨?_, ?_, ?_⟩
  · intro k hk
    exact copy_byte data _ len1 p2 len2 k hk
  · intro k hk hd
    rw [writeLE_outside _ _ _ _ _ hd]
    have := copy_byte data m 0 p1 len1 k hk
    rw [Nat.zero_add] at this
    exact this
  · intro x h1 h2
    rw [writeLE_outside _ _ _ _ _ h2, writeLE_outside _ _ _ _ _ h1]

theorem bx_phy_address_of_id (x : Nat) (h : x < 2 ^ 32) : bx_phy_address_of x = x :=
  Nat.mod_eq_of_lt h

theorem LPFOf_le (laddr : Nat) : LPFOf laddr ≤ laddr := Nat.sub_le _ _

theorem access_flat_single_facts (a : access_state) (laddr len rw : Nat) :
    (access_flat_single a laddr len rw).1 = Outcome.ok () ∧
    (access_flat_single a laddr len rw).2.xlations = a.xlations ∧
    (access_flat_single a laddr len rw).2.cpu.cr2 = a.cpu.cr2 ∧
    (∀ i, i ≠ BX_TLB_INDEX_OF laddr 0 →
      (access_flat_single a laddr len rw).2.cpu.TLB i = a.cpu.TLB i) ∧
    ((access_flat_single a laddr len rw).2.cpu.TLB (BX_TLB_INDEX_OF laddr 0) =
        a.cpu.TLB (BX_TLB_INDEX_OF laddr 0) ∨
      (((access_flat_single a laddr len rw).2.cpu.TLB (BX_TLB_INDEX_OF laddr 0)).lpf =
          LPFOf laddr ∧
        ((access_flat_single a laddr len rw).2.cpu.TLB (BX_TLB_INDEX_OF laddr 0)).ppf =
          bx_phy_address_of (LPFOf laddr))) ∧
    (rw = BX_READ →
      (access_flat_single a laddr len rw).2.cpu.trace =
        a.cpu.trace ++ [MemOp.read (bx_phy_address_of laddr) len] ∧
      (access_flat_single a laddr len rw).2.cpu.mem = a.cpu.mem ∧
      (access_flat_single a laddr len rw).2.data =
        writeLE a.data 0 len (readLE a.cpu.mem (bx_phy_address_of laddr) len)) ∧
    (rw ≠ BX_READ →
      (access_flat_single a laddr len rw).2.cpu.trace =
        a.cpu.trace ++ [MemOp.write (bx_phy_address_of laddr) len (readLE a.data 0 len)] ∧
      (access_flat_single a laddr len rw).2.cpu.mem =
        writeLE a.cpu.mem (bx_phy_address_of laddr) len (readLE a.data 0 len) ∧
      (access_flat_single a laddr len rw).2.data = a.data) := by
  unfold access_flat_single
  dsimp only
  by_cases hr : rw = BX_READ
  · rw [if_pos hr]
    by_cases hl : (a.cpu.TLB (BX_TLB_INDEX_OF laddr 0)).lpf = LPFOf laddr
    · rw [if_pos hl]
      exact ⟨rfl, rfl, rfl, fun _ _ => rfl, Or.inl rfl, fun _ => ⟨rfl, rfl, rfl⟩,
        fun h => absurd hr h⟩
    · rw [if_neg hl]
      refine ⟨rfl, rfl, rfl, fun i hi => ?_, Or.inr ?_, fun _ => ⟨rfl, rfl, rfl⟩,
        fun h => absurd hr h⟩
      · show Function.update a.cpu.TLB _ _ i = _
        rw [Function.update_noteq hi]
      · show (Function.update a.cpu.TLB _ (flat_entry_read a.cpu laddr) _).lpf = _ ∧
          (Function.update a.cpu.TLB _ (flat_entry_read a.cpu laddr) _).ppf = _
        rw [Function.update_same]
        unfold flat_entry_read
        dsimp only
        split_ifs <;> exact ⟨rfl, rfl⟩
  · rw [if_neg hr]
    by_cases hl : (a.cpu.TLB (BX_TLB_INDEX_OF laddr 0)).lpf = LPFOf laddr
    · rw [if_pos hl]
      exact ⟨rfl, rfl, rfl, fun _ _ => rfl, Or.inl rfl, fun h => absurd h hr,
        fun _ => ⟨rfl, rfl, rfl⟩⟩
    · rw [if_neg hl]
      refine ⟨rfl, rfl, rfl, fun i hi => ?_, Or.inr ?_, fun h => absurd h hr,
        fun _ => ⟨rfl, rfl, rfl⟩⟩
      · show Function.update a.cpu.TLB _ _ i = _
        rw [Function.update_noteq hi]
      · show (Function.update a.cpu.TLB _ (flat_entry_write a.cpu laddr) _).lpf = _ ∧
          (Function.update a.cpu.TLB _ (flat_entry_write a.cpu laddr) _).ppf = _
        rw [Function.update_same]
        unfold flat_entry_write
        dsimp only
        split_ifs <;> exact ⟨rfl, rfl⟩

theorem access_flat_cross_facts (a : access_state) (laddr len rw off : Nat) :
    (access_flat_cross a laddr len rw off).1 = Outcome.ok () ∧
    (access_flat_cross a laddr len rw off).2.xlations = a.xlations ∧
    (access_flat_cross a laddr len rw off).2.cpu.cr2 = a.cpu.cr2 ∧
    (access_flat_cross a laddr len rw off).2.cpu.TLB = a.cpu.TLB ∧
    (rw = BX_READ →
      (access_flat_cross a laddr len rw off).2.cpu.trace =
        a.cpu.trace ++ [MemOp.read (bx_phy_address_of laddr) (4096 - off),
          MemOp.read (bx_phy_address_of ((laddr + (4096 - off)) % 2 ^ 64))
            (len - (4096 - off))] ∧
      (access_flat_cross a laddr len rw off).2.cpu.mem = a.cpu.mem ∧
      (access_flat_cross a laddr len rw off).2.data =
        writeLE (writeLE a.data 0 (4096 - off)
            (readLE a.cpu.mem (bx_phy_address_of laddr) (4096 - off)))
          (4096 - off) (len - (4096 - off))
          (readLE a.cpu.mem (bx_phy_address_of ((laddr + (4096 - off)) % 2 ^ 64))
            (len - (4096 - off)))) ∧
    (rw ≠ BX_READ →
      (access_flat_cross a laddr len rw off).2.cpu.trace =
        a.cpu.trace ++ [MemOp.write (bx_phy_address_of laddr) (4096 - off)
            (readLE a.data 0 (4096 - off)),
          MemOp.write (bx_phy_address_of ((laddr + (4096 - off)) % 2 ^ 64))
            (len - (4096 - off)) (readLE a.data (4096 - off) (len - (4096 - off)))] ∧
      (access_flat_cross a laddr len rw off).2.cpu.mem =
        writeLE (writeLE a.cpu.mem (bx_phy_address_of laddr) (4096 - off)
            (readLE a.data 0 (4096 - off)))
          (bx_phy_address_of ((laddr + (4096 - off)) % 2 ^ 64)) (len - (4096 - off))
          (readLE a.data (4096 - off) (len - (4096 - off))) ∧
      (access_flat_cross a laddr len rw off).2.data = a.data) := by
  unfold access_flat_cross
  dsimp only
  by_cases hr : rw = BX_READ
  · rw [if_pos hr]
    refine ⟨rfl, rfl, rfl, rfl, fun _ => ⟨?_, rfl, rfl⟩, fun h => absurd hr h⟩
    simp [read_to_buffer, readPhysicalPage]
  · rw [if_neg hr]
    refine ⟨rfl, rfl, rfl, rfl, fun h => absurd h hr, fun _ => ⟨?_, rfl, rfl⟩⟩
    simp [write_from_buffer, writePhysicalPage]

theorem access_linear_flat (a : access_state) (laddr len curr_pl rw : Nat)
    (hpg : a.cpu.cr0_PG = false) :
    access_linear a laddr len curr_pl rw =
      if (PAGE_OFFSET laddr + len) % 2 ^ 32 ≤ 4096 then
        access_flat_single a laddr len (if rw = BX_RW then BX_READ else rw)
      else
        access_flat_cross a laddr len (if rw = BX_RW then BX_READ else rw) (PAGE_OFFSET laddr) := by
  unfold access_linear
  dsimp only
  rw [hpg]
  simp only [Bool.false_eq_true, if_false]

theorem local_rw_read (rw : Nat) (h : rw = BX_READ ∨ rw = BX_RW) :
    (if rw = BX_RW then BX_READ else rw) = BX_READ := by
  rcases h with h | h
  · rw [h]
    rfl
  · rw [if_pos h]

theorem local_rw_write (rw : Nat) (h : rw ≠ BX_READ ∧ rw ≠ BX_RW) :
    (if rw = BX_RW then BX_READ else rw) ≠ BX_READ := by
  rw [if_neg h.2]
  exact h.1

/-! ## Read-modify-write accesses -/

theorem fill_perm_bits_global (c e w : Nat) (g : Bool) :
    fill_perm_bits (if g = true then c ||| (e &&& TLB_GlobalPage) else c) w =
      fill_perm_bits c w := by
  cases g
  · simp
  · simp only [if_true]
    unfold fill_perm_bits
    rw [Nat.and_distrib_right, and_and_zero e TLB_GlobalPage 4 (by decide), Nat.or_zero,
      Nat.and_distrib_right, and_and_zero e TLB_GlobalPage 2 (by decide), Nat.or_zero]

/-- The `accessBits` of the entry a successful walk installs. -/
theorem installed_accessBits (s : BX_CPU_C) (laddr curr_pl rw : Nat)
    (access_type : AccessType) (hmiss : ¬ tlb_hit s laddr curr_pl (isWrite_of rw))
    (hv : walk_valid s laddr) (hp : walk_permitted s laddr curr_pl rw access_type) :
    ∃ h, ((translate_linear s laddr curr_pl rw access_type).2.TLB
      (BX_TLB_INDEX_OF (LPFOf laddr) 0)).accessBits =
        fill_accessBits (walk_access s laddr) (isWrite_of rw) h := by
  rw [translate_linear_walk s laddr curr_pl rw access_type hmiss hv, if_pos hp, tlb_fill_TLB,
    Function.update_same]
  exact ⟨_, rfl⟩

theorem walk_access_perm_bits (s : BX_CPU_C) (laddr w : Nat) :
    fill_perm_bits (walk_access s laddr) w = fill_perm_bits (walk_combined s laddr) w := by
  unfold walk_access
  exact fill_perm_bits_global _ _ _ _

/-- A permission bit set by the fill after a permitted walk is one `priv_check`
grants. -/
theorem fill_perm_bits_sound (s : BX_CPU_C) (ca w0 cpl0 W cpl : Nat) (hw0 : w0 = 0 ∨ w0 = 1)
    (hW : W ≤ 1) (hc : cpl ≤ 3)
    (hp : priv_check (priv_index s (pl_of cpl0) ca w0) ≠ 0)
    (hb : (fill_perm_bits ca w0).testBit (8 + ((W <<< 2) ||| cpl)) = true) :
    priv_check (priv_index s (pl_of cpl) ca W) = 1 := by
  unfold fill_perm_bits at hb
  unfold priv_index at hp ⊢
  rw [← and6_and4 ca, ← and6_and2 ca] at hb
  rcases pl_of_le cpl0 with h0 | h0 <;> rw [h0] at hp <;>
    rcases and6_cases ca with h6 | h6 | h6 | h6 <;> rw [h6] at hp hb ⊢ <;>
    rcases hw0 with hw | hw <;> subst hw <;> interval_cases W <;> interval_cases cpl <;>
    revert hp hb <;> cases s.cr0_WP <;> decide

theorem fill_perm_bits_read (ca : Nat) :
    fill_perm_bits ca 0 = 0x0f00 ∨ fill_perm_bits ca 0 = 0x0700 := by
  unfold fill_perm_bits
  by_cases h : ca &&& 4 ≠ 0
  · rw [if_pos h, if_neg (by decide)]
    left; decide
  · rw [if_neg h, if_neg (by decide)]
    right; decide

theorem and6_bits (ca : Nat) :
    ca &&& 0x06 =
      ((if ca &&& 4 ≠ 0 then 1 else 0) <<< 2) ||| ((if ca &&& 2 ≠ 0 then 1 else 0) <<< 1) := by
  rw [← and6_and4 ca, ← and6_and2 ca]
  rcases and6_cases ca with h | h | h | h <;> rw [h] <;> decide

/-! ## The debugger walk only reads -/

theorem ReadsOnly_refl (s : BX_CPU_C) : ReadsOnly s s :=
  ⟨[], by simp⟩

theorem ReadsOnly_read (s s2 : BX_CPU_C) (a n : Nat) (h : ReadsOnly s s2) :
    ReadsOnly s (readPhysicalPage s2 a n).2 := by
  obtain ⟨l, hl⟩ := h
  refine ⟨l ++ [(a, n)], ?_⟩
  rw [hl]
  simp [readPhysicalPage]

theorem ReadsOnly_trans (s s2 s3 : BX_CPU_C) (h : ReadsOnly s s2) (h2 : ReadsOnly s2 s3) :
    ReadsOnly s s3 := by
  obtain ⟨l, hl⟩ := h
  obtain ⟨l2, hl2⟩ := h2
  refine ⟨l ++ l2, ?_⟩
  rw [hl2, hl]
  simp

theorem dbg_pae_loop_reads (laddr : Nat) (n : Nat) :
    ∀ (s : BX_CPU_C) (pt m : Nat), ReadsOnly s (dbg_pae_loop laddr n s pt m).2 := by
  induction n with
  | zero =>
    intro s pt m
    exact ReadsOnly_refl s
  | succ k ih =>
    intro s pt m
    unfold dbg_pae_loop
    dsimp only
    have hr := ReadsOnly_read s s
      (bx_phy_address_of (pt + 8 * ((laddr >>> (12 + 9 * k)) &&& 511))) 8 (ReadsOnly_refl s)
    split
    · exact hr
    · split
      · exact hr
      · exact ReadsOnly_trans _ _ _ hr (ih _ _ _)

theorem dbg_legacy_loop_reads (laddr : Nat) (n : Nat) :
    ∀ (s : BX_CPU_C) (pt m : Nat), ReadsOnly s (dbg_legacy_loop laddr n s pt m).2 := by
  induction n with
  | zero =>
    intro s pt m
    exact ReadsOnly_refl s
  | succ k ih =>
    intro s pt m
    unfold dbg_legacy_loop
    dsimp only
    have hr := ReadsOnly_read s s
      (bx_phy_address_of (pt + 4 * ((laddr >>> (12 + 10 * k)) &&& 1023))) 4 (ReadsOnly_refl s)
    split
    · exact hr
    · split
      · exact hr
      · exact ReadsOnly_trans _ _ _ hr (ih _ _ _)

theorem dbg_xlate_linear2phy_reads (s : BX_CPU_C) (laddr : Nat) :
    ReadsOnly s (dbg_xlate_linear2phy s laddr).2 := by
  unfold dbg_xlate_linear2phy
  dsimp only
  split
  · exact ReadsOnly_refl s
  · split
    · exact ReadsOnly_refl s
    · split
      · split
        · exact dbg_pae_loop_reads _ _ _ _ _
        · exact dbg_pae_loop_reads _ _ _ _ _
      · split
        · exact dbg_legacy_loop_reads _ _ _ _ _
        · exact dbg_legacy_loop_reads _ _ _ _ _

theorem dbg_xlate_linear2phy_result (s : BX_CPU_C) (laddr : Nat) :
    (dbg_xlate_linear2phy s laddr).1.1 = 1 ∨ (dbg_xlate_linear2phy s laddr).1 = (0, 0) := by
  unfold dbg_xlate_linear2phy
  dsimp only
  split
  · exact Or.inl rfl
  · split
    · exact Or.inl rfl
    · split
      · split
        · exact Or.inl rfl
        · exact Or.inr rfl
      · split
        · exact Or.inl rfl
        · exact Or.inr rfl

/-! ## Where the debugger walk and the main walk agree -/

theorem add_eq_or_of_aligned (x y k : Nat) (hx : x % 2 ^ k = 0) (hy : y < 2 ^ k) :
    x + y = x ||| y := by
  have h1 := or_mod_two_pow x y k
  have h2 := or_div_two_pow x y k
  rw [hx, Nat.zero_or, Nat.mod_eq_of_lt hy] at h1
  rw [Nat.div_eq_of_lt hy, Nat.or_zero] at h2
  have h3 := Nat.div_add_mod (x ||| y) (2 ^ k)
  have h4 := Nat.div_add_mod x (2 ^ k)
  rw [h1, h2] at h3
  rw [hx] at h4
  omega

theorem dbg_index_4 (laddr k : Nat) :
    4 * ((laddr >>> k) &&& 1023) = laddr / 2 ^ k % 1024 * 4 := by
  rw [Nat.shiftRight_eq_div_pow, show (1023 : Nat) = 2 ^ 10 - 1 from rfl,
    Nat.and_pow_two_sub_one_eq_mod, Nat.mul_comm]

/-- On a non-PAE walk whose PDE has PS clear, made in a state whose TLB slot does
not hold the page, `dbg_xlate_linear2phy` returns the address that
`translate_linear` returns. -/
theorem dbg_agrees_legacy_4k (s : BX_CPU_C) (laddr curr_pl rw : Nat) (t : AccessType) (p : Nat)
    (hpg : s.cr0_PG = true) (hpae : s.cr4_PAE = false)
    (hslot : (s.TLB (BX_TLB_INDEX_OF (LPFOf laddr) 0)).lpf ≠ LPFOf laddr)
    (hcr3 : s.cr3_masked % 4096 = 0) (hlt : s.cr3_masked < 2 ^ 32)
    (hps : (pde_entry s laddr &&& 0x80) = 0)
    (hret : (translate_linear s laddr curr_pl rw t).1 = Outcome.ok p) :
    (dbg_xlate_linear2phy s laddr).1 = (1, p) := by
  have hmiss : ¬ tlb_hit s laddr curr_pl (isWrite_of rw) := fun h => hslot h.1
  obtain ⟨hv, hp⟩ := translate_linear_ok_valid s laddr curr_pl rw t hmiss p hret
  have h1 := (translate_linear_ok s laddr curr_pl rw t hmiss hv hp).1
  rw [hret] at h1
  injection h1 with h1
  have hl : ¬ ((pde_entry s laddr &&& 0x80) ≠ 0 ∧ s.cr4_PSE = true) := fun hc => hc.1 hps
  have hnl : ¬ walk_large s laddr := by
    unfold walk_large
    simp only [hpae, if_false, Bool.false_eq_true]
    exact hl
  have hppf : walk_ppf s laddr = pte_entry s laddr &&& 0xfffff000 := by
    unfold walk_ppf
    simp only [hpae, if_false, Bool.false_eq_true]
    rw [if_neg hl]
  unfold walk_valid at hv
  simp only [hpae, if_false, Bool.false_eq_true] at hv
  have hpde := hv.1
  have hpte := hv.2 hnl
  have hx1 : laddr / 2 ^ 22 % 1024 * 4 < 2 ^ 12 := by
    have := Nat.mod_lt (laddr / 2 ^ 22) (show 0 < 1024 by decide)
    omega
  have hx2 : laddr / 2 ^ 12 % 1024 * 4 < 2 ^ 12 := by
    have := Nat.mod_lt (laddr / 2 ^ 12) (show 0 < 1024 by decide)
    omega
  have ha1 : bx_phy_address_of (s.cr3_masked + 4 * ((laddr >>> (12 + 10 * 1)) &&& 1023)) =
      pde_addr s laddr := by
    unfold pde_addr bx_phy_address_of
    rw [pde_index, dbg_index_4, ← add_eq_or_of_aligned _ _ 12 hcr3 hx1]
    apply Nat.mod_eq_of_lt
    have e : (2 : Nat) ^ 12 = 4096 := rfl
    rw [e] at hx1
    omega
  have hfr : (pde_entry s laddr &&& 0xfffff000) % 2 ^ 12 = 0 :=
    and_mask_mod_4096 _ _ (by decide)
  have hfl : pde_entry s laddr &&& 0xfffff000 ≤ 0xfffff000 := Nat.and_le_right
  have ha2 : bx_phy_address_of ((pde_entry s laddr &&& 0xfffff000) +
      4 * ((laddr >>> (12 + 10 * 0)) &&& 1023)) = pte_addr s laddr := by
    unfold pte_addr bx_phy_address_of
    rw [pte_index, dbg_index_4, ← add_eq_or_of_aligned _ _ 12 hfr hx2]
    apply Nat.mod_eq_of_lt
    have e : (2 : Nat) ^ 12 = 4096 := rfl
    rw [e] at hx2
    omega
  have hpf : (pte_entry s laddr &&& 0xfffff000) % 2 ^ 12 = 0 :=
    and_mask_mod_4096 _ _ (by decide)
  have hpl : pte_entry s laddr &&& 0xfffff000 ≤ 0xfffff000 := Nat.and_le_right
  have hoff : laddr &&& 0xfff < 2 ^ 12 := and_fff_lt laddr
  have ha3 : bx_phy_address_of ((pte_entry s laddr &&& 0xfffff000) +
      bx_phy_address_of (laddr &&& 0xfff)) =
      (pte_entry s laddr &&& 0xfffff000) ||| (laddr &&& 0xfff) := by
    have e : (2 : Nat) ^ 12 = 4096 := rfl
    rw [e] at hoff
    rw [bx_phy_address_of_id (laddr &&& 0xfff) (by omega),
      ← add_eq_or_of_aligned _ _ 12 hpf (by rw [e]; exact hoff)]
    apply bx_phy_address_of_id
    omega
  have hpg2 : ¬ s.cr0_PG = false := by rw [hpg]; exact Bool.noConfusion
  unfold dbg_xlate_linear2phy
  rw [if_neg hpg2]
  dsimp only
  rw [if_neg hslot, hpae]
  simp only [Bool.false_eq_true, if_false]
  unfold dbg_legacy_loop
  dsimp only
  rw [ha1]
  have e1 : (readPhysicalPage s (pde_addr s laddr) 4).1 = pde_entry s laddr := rfl
  rw [e1, if_neg hpde, if_neg (fun hc => hc.2 hps)]
  unfold dbg_legacy_loop
  dsimp only
  rw [ha2]
  have e2 : (readPhysicalPage (readPhysicalPage s (pde_addr s laddr) 4).2
      (pte_addr s laddr) 4).1 = pte_entry s laddr := rfl
  rw [e2, if_neg hpte, if_neg (fun hc => absurd hc.1 (by decide))]
  unfold dbg_legacy_loop
  dsimp only
  rw [ha3, h1, hppf]

/-! ## Guest memory after a faulting translation, byte by byte -/

/-- Guest memory after the PML4 level of a long mode walk, byte by byte: bit 5 of
the first byte of the PML4 entry has been added (lines 701-704). -/
theorem pml4_state_mem_byte (s : BX_CPU_C) (laddr x : Nat) :
    ((pml4_state s laddr).mem x).val =
      (s.mem x).val ||| (if x = pml4_addr s laddr then 0x20 else 0) := by
  unfold pml4_state
  dsimp only
  by_cases hA : (pml4_entry s laddr &&& 0x20) = 0
  · rw [if_pos hA]
    show (writeLE s.mem (pml4_addr s laddr) 8 (pml4_acc s laddr) x).val = _
    unfold pml4_acc
    rw [if_pos hA]
    unfold pml4_entry
    by_cases hx : x = pml4_addr s laddr
    · rw [if_pos hx, hx]
      exact writeback_byte_zero s.mem s.mem _ 8 0x20 (by decide) (by decide)
    · rw [if_neg hx, Nat.or_zero]
      by_cases hin : pml4_addr s laddr < x ∧ x < pml4_addr s laddr + 8
      · obtain ⟨k, hk⟩ : ∃ k, x = pml4_addr s laddr + k := ⟨x - pml4_addr s laddr, by omega⟩
        rw [hk, writeback_byte_succ s.mem s.mem _ 8 0x20 k (by omega) (by omega) (by decide)]
      · rw [writeLE_outside _ _ _ _ _ (by omega)]
  · rw [if_neg hA]
    show (s.mem x).val = _
    by_cases hx : x = pml4_addr s laddr
    · rw [if_pos hx, hx]
      have hb := testBit5_of_and _ hA
      unfold pml4_entry at hb
      rw [readLE_testBit_low _ _ 8 5 (by decide) (by decide)] at hb
      exact (or_bit5_of_testBit _ hb).symm
    · rw [if_neg hx, Nat.or_zero]

/-- Guest memory after a translation that ends in an exception: what it was in
every case but one, a long mode walk whose PML4 entry passed its checks, which
leaves the memory of `pml4_state`. -/
theorem fault_mem_exact (s : BX_CPU_C) (laddr curr_pl rw : Nat)
    (access_type : AccessType) (v ec : Nat)
    (h : (translate_linear s laddr curr_pl rw access_type).1 = Outcome.exception v ec) :
    (translate_linear s laddr curr_pl rw access_type).2.mem =
      if s.cr4_PAE = true ∧ s.long_mode = true ∧ upper_ok s (pml4_entry s laddr) then
        (pml4_state s laddr).mem
      else s.mem := by
  by_cases hlm : s.cr4_PAE = true ∧ s.long_mode = true
  · by_cases hit : tlb_hit s laddr curr_pl (isWrite_of rw)
    · unfold translate_linear at h
      dsimp only at h
      rw [if_pos hit] at h
      simp at h
    · rw [translate_linear_miss s laddr curr_pl rw access_type hit, if_pos hlm.1] at h ⊢
      unfold pae_walk at h ⊢
      rw [if_pos hlm.2] at h ⊢
      by_cases hok : upper_ok s (pml4_entry s laddr)
      · rw [if_pos ⟨hlm.1, hlm.2, hok⟩]
        rw [long_pml4_step s laddr _ _ rw access_type hok] at h ⊢
        exact KeepsMem_pae_pdpe (pml4_state s laddr) laddr _ _ rw access_type _ _ _ v ec h
      · rw [if_neg (fun hc => hok hc.2.2)]
        exact KeepsMem_long_pml4_invalid s laddr _ _ rw access_type hok v ec h
  · rw [if_neg (fun hc => hlm ⟨hc.1, hc.2.1⟩)]
    apply fault_keeps_mem_outside_long_mode s laddr curr_pl rw access_type _ v ec h
    intro hp
    cases hl : s.long_mode
    · rfl
    · exact absurd ⟨hp, hl⟩ hlm

/-! ## Claims -/

/-- C1: for every index `i` in 0..31, with WP = bit 4, user = bit 3, U = bit 2,
RW = bit 1 and W = bit 0 of `i`, the table built by `TLB_init` has
`priv_check[i] = 1` iff (user = 0 or U = 1) and (W = 0 or RW = 1 or (WP = 0 and
user = 0)), and `priv_check[i] = 0` otherwise. -/
theorem C1_priv_check_table :
    ∀ i, i < 32 →
      (priv_check i = 1 ↔
        ((i.testBit 3 = false ∨ i.testBit 2 = true) ∧
          (i.testBit 0 = false ∨ i.testBit 1 = true ∨
            (i.testBit 4 = false ∧ i.testBit 3 = false)))) ∧
      (priv_check i = 1 ∨ priv_check i = 0) := by
  decide

/-- C1, at index 13 (WP = 0, user = 1, U = 1, RW = 0, W = 1): a user write to a
read-only user page is refused. -/
theorem C1_priv_check_table_witness :
    13 < 32 ∧ ¬ (priv_check 13 = 1) ∧ priv_check 13 = 0 :=
  ⟨by decide,
    fun h => absurd ((C1_priv_check_table 13 (by decide)).1.mp h) (by decide),
    by decide⟩

/-- C2: a walk made at `curr_pl = 3` whose entries all pass their checks and whose
combined U/S bit is clear ends in `#PF`, whatever CR0.WP is and for reads and
writes alike; the error code has bits 0 and 2 set (0x05 for a data read, 0x07
for a data write) and CR2 holds `laddr`. -/
theorem C2_user_access_to_supervisor_page (s : BX_CPU_C) (laddr rw : Nat)
    (access_type : AccessType) (hmiss : ¬ tlb_hit s laddr 3 (isWrite_of rw))
    (hv : walk_valid s laddr) (hus : walk_combined s laddr &&& 4 = 0) :
    ∃ ec, (translate_linear s laddr 3 rw access_type).1 =
        Outcome.exception BX_PF_EXCEPTION ec ∧
      ec.testBit 0 = true ∧ ec.testBit 2 = true ∧ ec.testBit 3 = false ∧
      (access_type = AccessType.DATA_ACCESS → rw = BX_READ → ec = 0x05) ∧
      (access_type = AccessType.DATA_ACCESS → rw ≥ BX_WRITE → ec = 0x07) ∧
      (translate_linear s laddr 3 rw access_type).2.cr2 = laddr := by
  have hp : ¬ walk_permitted s laddr 3 rw access_type := by
    intro hp
    have h3 : pl_of 3 = 1 := rfl
    rw [walk_permitted, h3] at hp
    exact hp.1 (priv_check_user_supervisor s _ _ (isWrite_of_le rw) hus)
  have h1 := translate_linear_protection s laddr 3 rw access_type hmiss hv hp
  have hb := pf_error_code_bits s ERROR_PROTECTION (pl_of 3) (isWrite_of rw) access_type
    (pl_of_le 3) (isWrite_of_le rw) (Or.inr (Or.inl rfl))
  refine ⟨_, h1, ?_, ?_, ?_, ?_, ?_, ?_⟩
  · rw [hb.1]; decide
  · rw [hb.2.2.1]; decide
  · rw [hb.2.2.2.1]; decide
  · intro ha hr
    subst ha; subst hr
    rw [pf_error_code_data]
    rfl
  · intro ha hr
    subst ha
    have hw : isWrite_of rw = 1 := by unfold isWrite_of; rw [if_pos hr]
    rw [hw, pf_error_code_data]
    rfl
  · exact (FaultOK_translate_linear s laddr 3 rw access_type _ _ h1).2.1

/-- C2 on scenario 3 of the spec: a CPL 3 read of linear address 0 through a
supervisor page directory entry. -/
theorem C2_user_access_to_supervisor_page_witness :
    ∃ ec, (translate_linear demo_legacy 0 3 BX_READ AccessType.DATA_ACCESS).1 =
        Outcome.exception BX_PF_EXCEPTION ec ∧
      ec.testBit 0 = true ∧ ec.testBit 2 = true ∧ ec.testBit 3 = false ∧
      (AccessType.DATA_ACCESS = AccessType.DATA_ACCESS → BX_READ = BX_READ → ec = 0x05) ∧
      (AccessType.DATA_ACCESS = AccessType.DATA_ACCESS → BX_READ ≥ BX_WRITE → ec = 0x07) ∧
      (translate_linear demo_legacy 0 3 BX_READ AccessType.DATA_ACCESS).2.cr2 = 0 :=
  C2_user_access_to_supervisor_page demo_legacy 0 BX_READ AccessType.DATA_ACCESS
    (by decide) (by decide) (by decide)

/-- C3: a supervisor (`curr_pl` 0..2) data write whose walk passes its checks and
whose combined R/W bit is clear: with CR0.WP = 1 it ends in `#PF` with error code
0x03; with CR0.WP = 0 it returns the physical address and leaves the leaf entry
in guest memory with A (bit 5) and D (bit 6) set. -/
theorem C3_supervisor_write_read_only_page (s : BX_CPU_C) (laddr curr_pl rw : Nat)
    (hcpl : curr_pl ≤ 2) (hrw : rw ≥ BX_WRITE)
    (hmiss : ¬ tlb_hit s laddr curr_pl (isWrite_of rw))
    (hv : walk_valid s laddr) (hro : walk_combined s laddr &&& 2 = 0) :
    (s.cr0_WP = true →
      (translate_linear s laddr curr_pl rw AccessType.DATA_ACCESS).1 =
        Outcome.exception BX_PF_EXCEPTION 0x03) ∧
    (s.cr0_WP = false →
      (translate_linear s laddr curr_pl rw AccessType.DATA_ACCESS).1 =
        Outcome.ok (walk_ppf s laddr ||| (laddr &&& 0xfff)) ∧
      (readLE (translate_linear s laddr curr_pl rw AccessType.DATA_ACCESS).2.mem
        (walk_leaf_addr s laddr) (walk_entry_len s)).testBit 5 = true ∧
      (readLE (translate_linear s laddr curr_pl rw AccessType.DATA_ACCESS).2.mem
        (walk_leaf_addr s laddr) (walk_entry_len s)).testBit 6 = true) := by
  have hw := isWrite_of_write rw hrw
  have hpl := pl_of_supervisor curr_pl hcpl
  have hpc := priv_check_supervisor_write s (walk_combined s laddr)
  constructor
  · intro hwp
    have hp : ¬ walk_permitted s laddr curr_pl rw AccessType.DATA_ACCESS := by
      intro hp
      rw [walk_permitted, hpl, hw] at hp
      exact hp.1 (hpc.2 hwp hro)
    rw [translate_linear_protection s laddr curr_pl rw _ hmiss hv hp, hpl, hw,
      pf_error_code_data]
    rfl
  · intro hwp
    have hp : walk_permitted s laddr curr_pl rw AccessType.DATA_ACCESS := by
      rw [walk_permitted, hpl, hw, hpc.1 hwp]
      exact ⟨by decide, walk_nx_data s laddr⟩
    obtain ⟨h1, h2, _, _, _⟩ := translate_linear_ok s laddr curr_pl rw _ hmiss hv hp
    have hb := walk_final_leaf_bits s laddr (isWrite_of rw) (isWrite_of_le rw)
    rw [h2]
    exact ⟨h1, hb.1, hb.2 hw⟩

/-- C3 on scenario 4 of the spec: a CPL 0 write to a read-only user page faults
with 0x03 under CR0.WP = 1 and, under CR0.WP = 0, succeeds and sets A and D in
the page table entry at 0x2000. -/
theorem C3_supervisor_write_read_only_page_witness :
    (translate_linear (demo_legacy_with true false 0x2007 0x34005) 0x10 0 BX_WRITE
        AccessType.DATA_ACCESS).1 = Outcome.exception BX_PF_EXCEPTION 0x03 ∧
    (translate_linear (demo_legacy_with false false 0x2007 0x34005) 0x10 0 BX_WRITE
        AccessType.DATA_ACCESS).1 = Outcome.ok 0x34010 ∧
    (readLE (translate_linear (demo_legacy_with false false 0x2007 0x34005) 0x10 0 BX_WRITE
        AccessType.DATA_ACCESS).2.mem 0x2000 4).testBit 6 = true :=
  ⟨(C3_supervisor_write_read_only_page (demo_legacy_with true false 0x2007 0x34005) 0x10 0
      BX_WRITE (by decide) (by decide) (by decide) (by decide) (by decide)).1 rfl,
    ((C3_supervisor_write_read_only_page (demo_legacy_with false false 0x2007 0x34005) 0x10 0
      BX_WRITE (by decide) (by decide) (by decide) (by decide) (by decide)).2 rfl).1,
    ((C3_supervisor_write_read_only_page (demo_legacy_with false false 0x2007 0x34005) 0x10 0
      BX_WRITE (by decide) (by decide) (by decide) (by decide) (by decide)).2 rfl).2.2⟩

/-- C4: in non-PAE mode (with `cr3_masked` a multiple of 4, as `CR3_change`
leaves it), a walk that the TLB does not short-cut, whose PDE at
`cr3_masked | (laddr[31:22] * 4)` is present and not a 4M page, whose PTE at
`(PDE & 0xFFFFF000) | (laddr[21:12] * 4)` is present and whose permission check
passes, returns `(PTE & 0xFFFFF000) | (laddr & 0xFFF)`; afterwards the PDE and
the PTE in guest memory both have A (bit 5) set. -/
theorem C4_two_level_walk (s : BX_CPU_C) (laddr curr_pl rw : Nat) (access_type : AccessType)
    (hpae : s.cr4_PAE = false) (hcr3 : s.cr3_masked % 4 = 0)
    (hmiss : ¬ tlb_hit s laddr curr_pl (isWrite_of rw))
    (hv : walk_valid s laddr) (h4k : ¬ walk_large s laddr)
    (hperm : walk_permitted s laddr curr_pl rw access_type) :
    pde_addr s laddr = s.cr3_masked ||| (laddr / 2 ^ 22 % 1024 * 4) ∧
    pde_entry s laddr = readLE s.mem (pde_addr s laddr) 4 ∧
    pte_addr s laddr = (pde_entry s laddr &&& 0xFFFFF000) ||| (laddr / 2 ^ 12 % 1024 * 4) ∧
    pte_entry s laddr = readLE s.mem (pte_addr s laddr) 4 ∧
    (translate_linear s laddr curr_pl rw access_type).1 =
      Outcome.ok ((pte_entry s laddr &&& 0xFFFFF000) ||| (laddr &&& 0xFFF)) ∧
    (readLE (translate_linear s laddr curr_pl rw access_type).2.mem
      (pde_addr s laddr) 4).testBit 5 = true ∧
    (readLE (translate_linear s laddr curr_pl rw access_type).2.mem
      (pte_addr s laddr) 4).testBit 5 = true := by
  obtain ⟨h1, h2, _, _, _⟩ := translate_linear_ok s laddr curr_pl rw _ hmiss hv hperm
  have hl : ¬ ((pde_entry s laddr &&& 0x80) ≠ 0 ∧ s.cr4_PSE = true) := by
    intro hc
    apply h4k
    unfold walk_large
    simp only [hpae, if_false, Bool.false_eq_true]
    exact hc
  have hppf : walk_ppf s laddr = pte_entry s laddr &&& 0xfffff000 := by
    unfold walk_ppf
    simp only [hpae, if_false, Bool.false_eq_true]
    rw [if_neg hl]
  have hfin : walk_final_state s laddr (isWrite_of rw) =
      update_AD (update_A (legacy_leaf_state s laddr) (pde_addr s laddr) 4 (pde_entry s laddr))
        (pte_addr s laddr) 4 (pte_entry s laddr) (isWrite_of rw) := by
    unfold walk_final_state
    simp only [hpae, if_false, Bool.false_eq_true]
    rw [if_neg hl]
  refine ⟨?_, rfl, ?_, rfl, ?_, ?_, ?_⟩
  · unfold pde_addr; rw [pde_index]
  · unfold pte_addr; rw [pte_index]
  · rw [h1, hppf]
  · rw [h2, hfin, readLE_testBit_low _ _ 4 5 (by decide) (by decide)]
    have ha1 := pde_addr_aligned s laddr hcr3
    have ha2 := pte_addr_aligned s laddr
    apply update_AD_keeps_A _ s.mem _ 4 _ _ (by decide) (isWrite_of_le rw) (by omega)
    exact update_A_sets_byte (legacy_leaf_state s laddr) (pde_addr s laddr) 4 (by decide)
  · rw [h2, hfin]
    have h0 : mem_le s.mem (legacy_leaf_state s laddr).mem := mem_le_refl _
    have hle : mem_le s.mem
        (update_A (legacy_leaf_state s laddr) (pde_addr s laddr) 4 (pde_entry s laddr)).mem :=
      update_A_mem_le (legacy_leaf_state s laddr) s.mem (pde_addr s laddr) 4 h0
    exact (update_AD_sets
      (update_A (legacy_leaf_state s laddr) (pde_addr s laddr) 4 (pde_entry s laddr)) s.mem
      (pte_addr s laddr) 4 (isWrite_of rw) (by decide) (isWrite_of_le rw) hle).1

/-- C4 on scenario 2 of the spec with the A bits initially clear: a CPL 0 read of
linear address 0 returns 0x34000 and sets A in the PDE at 0x1000 and in the PTE
at 0x2000. -/
theorem C4_two_level_walk_witness :
    (translate_linear (demo_legacy_with false false 0x2003 0x34003) 0 0 BX_READ
        AccessType.DATA_ACCESS).1 = Outcome.ok 0x34000 ∧
    (readLE (translate_linear (demo_legacy_with false false 0x2003 0x34003) 0 0 BX_READ
        AccessType.DATA_ACCESS).2.mem 0x1000 4).testBit 5 = true ∧
    (readLE (translate_linear (demo_legacy_with false false 0x2003 0x34003) 0 0 BX_READ
        AccessType.DATA_ACCESS).2.mem 0x2000 4).testBit 5 = true :=
  ⟨(C4_two_level_walk (demo_legacy_with false false 0x2003 0x34003) 0 0 BX_READ
      AccessType.DATA_ACCESS rfl (by decide) (by decide) (by decide) (by decide)
      (by decide)).2.2.2.2.1,
    (C4_two_level_walk (demo_legacy_with false false 0x2003 0x34003) 0 0 BX_READ
      AccessType.DATA_ACCESS rfl (by decide) (by decide) (by decide) (by decide)
      (by decide)).2.2.2.2.2.1,
    (C4_two_level_walk (demo_legacy_with false false 0x2003 0x34003) 0 0 BX_READ
      AccessType.DATA_ACCESS rfl (by decide) (by decide) (by decide) (by decide)
      (by decide)).2.2.2.2.2.2⟩

/-- C5: in long mode, a walk that the TLB does not short-cut, whose four entries
pass their checks, whose PDE has PS = 0 and whose permission check passes, reads
the PML4E at `cr3_masked | (laddr[47:39]*8)`, the PDPTE at
`(PML4E & 0x000FFFFFFFFFF000) | (laddr[38:30]*8)`, the PDE at
`(PDPTE & 0x000FFFFFFFFFF000) | (laddr[29:21]*8)` and the PTE at
`(PDE & 0x000FFFFFFFFFF000) | (laddr[20:12]*8)`, in this order and nothing else,
and returns `(PTE & 0x000FFFFFFFFFF000) | (laddr & 0xFFF)`. -/
theorem C5_long_mode_walk (s : BX_CPU_C) (laddr curr_pl rw : Nat) (access_type : AccessType)
    (hpae : s.cr4_PAE = true) (hlm : s.long_mode = true)
    (hmiss : ¬ tlb_hit s laddr curr_pl (isWrite_of rw))
    (hv : walk_valid s laddr) (h4k : ¬ walk_large s laddr)
    (hperm : walk_permitted s laddr curr_pl rw access_type) :
    pml4_addr s laddr = s.cr3_masked ||| (laddr / 2 ^ 39 % 512 * 8) ∧
    pdpe_addr s laddr =
      (pml4_entry s laddr &&& 0x000FFFFFFFFFF000) ||| (laddr / 2 ^ 30 % 512 * 8) ∧
    pae_pde_addr s laddr =
      (pdpe_entry s laddr &&& 0x000FFFFFFFFFF000) ||| (laddr / 2 ^ 21 % 512 * 8) ∧
    pae_pte_addr s laddr =
      (pae_pde_entry s laddr &&& 0x000FFFFFFFFFF000) ||| (laddr / 2 ^ 12 % 512 * 8) ∧
    reads_of (translate_linear s laddr curr_pl rw access_type).2.trace =
      reads_of s.trace ++ [(pml4_addr s laddr, 8), (pdpe_addr s laddr, 8),
        (pae_pde_addr s laddr, 8), (pae_pte_addr s laddr, 8)] ∧
    (translate_linear s laddr curr_pl rw access_type).1 =
      Outcome.ok ((pae_pte_entry s laddr &&& 0x000FFFFFFFFFF000) ||| (laddr &&& 0xFFF)) := by
  obtain ⟨h1, _, h3, _, _⟩ := translate_linear_ok s laddr curr_pl rw _ hmiss hv hperm
  have hps : ¬ (pae_pde_entry s laddr &&& 0x80) ≠ 0 := by
    intro hc
    apply h4k
    unfold walk_large
    rw [if_pos hpae]
    exact hc
  refine ⟨?_, ?_, ?_, ?_, ?_, ?_⟩
  · unfold pml4_addr; rw [pml4_index]
  · unfold pdpe_addr
    rw [if_pos hlm, pml4_acc_frame, pdpe_index]
  · unfold pae_pde_addr; rw [pae_pde_index]
  · unfold pae_pte_addr; rw [pae_pte_index]
  · rw [h3, reads_of_walk_final_state]
    unfold walk_check_state
    rw [if_pos hpae, if_neg hps, reads_of_pae_leaf_state, if_pos hlm]
    simp
  · rw [h1]
    unfold walk_ppf
    rw [if_pos hpae, if_neg hps]

/-- C5 on a long mode walk of linear address 0x201234 (PML4 index 0, PDPT index
0, PD index 1, PT index 1): the four reads are at 0x1000, 0x2000, 0x3008 and
0x4008 and the result is 0x56234. -/
theorem C5_long_mode_walk_witness :
    reads_of (translate_linear
        (demo_long_at 0x2003 0x3003 0x3008 0x4003 0x4008 0x56003) 0x201234 0 BX_READ
        AccessType.DATA_ACCESS).2.trace = [(0x1000, 8), (0x2000, 8), (0x3008, 8), (0x4008, 8)] ∧
    (translate_linear
        (demo_long_at 0x2003 0x3003 0x3008 0x4003 0x4008 0x56003) 0x201234 0 BX_READ
        AccessType.DATA_ACCESS).1 = Outcome.ok 0x56234 := by
  have h := C5_long_mode_walk (demo_long_at 0x2003 0x3003 0x3008 0x4003 0x4008 0x56003)
    0x201234 0 BX_READ AccessType.DATA_ACCESS rfl rfl (by decide) (by decide) (by decide)
    (by decide)
  exact ⟨h.2.2.2.2.1.trans (by decide), h.2.2.2.2.2.trans (by decide)⟩

/-- C6: a successful walk whose leaf is a PDE with PS = 1 installs in the TLB slot
of `laddr` the frame `(PDE & 0xFFC00000) | (laddr & 0x003FF000)` in non-PAE mode
with CR4.PSE = 1 and `(PDE & 0x000FFFFFFFE00000) | (laddr & 0x001FF000)` in PAE or
long mode, reads no PTE (its reads are the PDE, preceded in PAE mode by the PDPE
and in long mode by the PML4E), and returns that frame OR `laddr & 0xFFF`. -/
theorem C6_large_page_frame (s : BX_CPU_C) (laddr curr_pl rw : Nat) (access_type : AccessType)
    (hmiss : ¬ tlb_hit s laddr curr_pl (isWrite_of rw))
    (hv : walk_valid s laddr) (hlarge : walk_large s laddr)
    (hperm : walk_permitted s laddr curr_pl rw access_type) :
    (s.cr4_PAE = false →
      s.cr4_PSE = true ∧
      ((translate_linear s laddr curr_pl rw access_type).2.TLB
        (BX_TLB_INDEX_OF (LPFOf laddr) 0)).ppf =
          (pde_entry s laddr &&& 0xFFC00000) ||| (laddr &&& 0x003FF000) ∧
      reads_of (translate_linear s laddr curr_pl rw access_type).2.trace =
        reads_of s.trace ++ [(pde_addr s laddr, 4)]) ∧
    (s.cr4_PAE = true →
      ((translate_linear s laddr curr_pl rw access_type).2.TLB
        (BX_TLB_INDEX_OF (LPFOf laddr) 0)).ppf =
          (pae_pde_entry s laddr &&& 0x000FFFFFFFE00000) ||| (laddr &&& 0x001FF000) ∧
      reads_of (translate_linear s laddr curr_pl rw access_type).2.trace =
        reads_of s.trace ++ (if s.long_mode then [(pml4_addr s laddr, 8)] else []) ++
          [(pdpe_addr s laddr, 8), (pae_pde_addr s laddr, 8)]) ∧
    ((translate_linear s laddr curr_pl rw access_type).2.TLB
      (BX_TLB_INDEX_OF (LPFOf laddr) 0)).lpf = LPFOf laddr ∧
    (translate_linear s laddr curr_pl rw access_type).1 =
      Outcome.ok (((translate_linear s laddr curr_pl rw access_type).2.TLB
        (BX_TLB_INDEX_OF (LPFOf laddr) 0)).ppf ||| (laddr &&& 0xFFF)) := by
  obtain ⟨h1, _, h3, h4, h5⟩ := translate_linear_ok s laddr curr_pl rw _ hmiss hv hperm
  refine ⟨?_, ?_, h5, ?_⟩
  · intro hpae
    unfold walk_large at hlarge
    simp only [hpae, if_false, Bool.false_eq_true] at hlarge
    refine ⟨hlarge.2, ?_, ?_⟩
    · rw [h4]
      unfold walk_ppf
      simp only [hpae, if_false, Bool.false_eq_true]
      rw [if_pos hlarge]
    · rw [h3, reads_of_walk_final_state]
      unfold walk_check_state
      simp only [hpae, if_false, Bool.false_eq_true]
      rw [if_pos hlarge, reads_of_legacy_pte_state]
  · intro hpae
    unfold walk_large at hlarge
    rw [if_pos hpae] at hlarge
    constructor
    · rw [h4]
      unfold walk_ppf
      rw [if_pos hpae, if_pos hlarge]
    · rw [h3, reads_of_walk_final_state]
      unfold walk_check_state
      rw [if_pos hpae, if_pos hlarge, reads_of_pte_state]
  · rw [h1, h4]

/-- C6 on a non-PAE 4M page (PDE 0x00C00087 with CR4.PSE = 1) and on a PAE 2M
page (PDE 0x00A00087): the frames installed for linear address 0x123456 are
0x00D23000 and 0x00B23000, and the only page-table reads are those above the
PTE level. -/
theorem C6_large_page_frame_witness :
    ((translate_linear (demo_legacy_with false true 0x00C00087 0) 0x123456 3 BX_WRITE
        AccessType.DATA_ACCESS).2.TLB (BX_TLB_INDEX_OF (LPFOf 0x123456) 0)).ppf = 0x00D23000 ∧
    reads_of (translate_linear (demo_legacy_with false true 0x00C00087 0) 0x123456 3 BX_WRITE
        AccessType.DATA_ACCESS).2.trace = [(0x1000, 4)] ∧
    ((translate_linear (demo_pae 0x2001 0x00A00087 0) 0x123456 3 BX_WRITE
        AccessType.DATA_ACCESS).2.TLB (BX_TLB_INDEX_OF (LPFOf 0x123456) 0)).ppf = 0x00B23000 ∧
    reads_of (translate_linear (demo_pae 0x2001 0x00A00087 0) 0x123456 3 BX_WRITE
        AccessType.DATA_ACCESS).2.trace = [(0x1000, 8), (0x2000, 8)] := by
  have h := C6_large_page_frame (demo_legacy_with false true 0x00C00087 0) 0x123456 3 BX_WRITE
    AccessType.DATA_ACCESS (by decide) (by decide) (by decide) (by decide)
  have g := C6_large_page_frame (demo_pae 0x2001 0x00A00087 0) 0x123456 3 BX_WRITE
    AccessType.DATA_ACCESS (by decide) (by decide) (by decide) (by decide)
  exact ⟨((h.1 rfl).2.1).trans (by decide), ((h.1 rfl).2.2).trans (by decide),
    ((g.2.1 rfl).1).trans (by decide), ((g.2.1 rfl).2).trans (by decide)⟩

/-- C7: in every translation mode, a walk that reaches an entry with P = 0 (at the
PML4, PDPT, PD or PT level) ends in `#PF` with the error code
`((curr_pl == 3) << 2) | (isWrite << 1)`, plus bit 4 exactly for a code fetch
with EFER.NXE = 1; bits 0 and 3 are clear, and a CPL 3 data read gives 0x04. -/
theorem C7_not_present_fault (s : BX_CPU_C) (laddr curr_pl rw : Nat)
    (access_type : AccessType) (hmiss : ¬ tlb_hit s laddr curr_pl (isWrite_of rw))
    (h : walk_not_present s laddr) :
    ∃ ec, (translate_linear s laddr curr_pl rw access_type).1 =
        Outcome.exception BX_PF_EXCEPTION ec ∧
      ec = (((pl_of curr_pl) <<< 2) ||| ((isWrite_of rw) <<< 1)) |||
        (if s.efer_nxe = true ∧ access_type = AccessType.CODE_ACCESS then 0x10 else 0) ∧
      ec.testBit 0 = false ∧ ec.testBit 3 = false ∧
      (ec.testBit 4 = true ↔ (s.efer_nxe = true ∧ access_type = AccessType.CODE_ACCESS)) ∧
      (curr_pl = 3 → rw = BX_READ → access_type = AccessType.DATA_ACCESS → ec = 0x04) := by
  have h1 := translate_linear_not_present s laddr curr_pl rw access_type hmiss h
  have hb := pf_error_code_bits s ERROR_NOT_PRESENT (pl_of curr_pl) (isWrite_of rw) access_type
    (pl_of_le curr_pl) (isWrite_of_le rw) (Or.inl rfl)
  refine ⟨_, h1, ?_, ?_, ?_, ?_, ?_⟩
  · unfold pf_error_code ERROR_NOT_PRESENT ERROR_CODE_ACCESS
    rw [Nat.zero_or]
  · rw [hb.1]; decide
  · rw [hb.2.2.2.1]; decide
  · rw [hb.2.2.2.2, decide_eq_true_eq]
  · intro hc hr ha
    subst hc; subst hr; subst ha
    rw [pf_error_code_data]
    rfl

/-- C7 on scenario 5 of the spec: PAE, the PDPE present and valid, the PDE zero;
a CPL 3 read of linear address 0 faults with error code 0x04. -/
theorem C7_not_present_fault_witness :
    (translate_linear (demo_pae 0x2001 0 0) 0 3 BX_READ AccessType.DATA_ACCESS).1 =
      Outcome.exception BX_PF_EXCEPTION 0x04 := by
  obtain ⟨ec, h1, _, _, _, _, h6⟩ :=
    C7_not_present_fault (demo_pae 0x2001 0 0) 0 3 BX_READ AccessType.DATA_ACCESS
      (by decide) (by decide)
  rw [h1, h6 rfl rfl rfl]

/-- C8: the call `page_fault(fault, laddr, user, rw, access_type)` delivers `#PF`
with the error code `fault | (user << 2) | (rw << 1)`, to which bit 4 (0x10) is
added exactly when EFER.NXE = 1 and the access is a code fetch; nothing else is
set.  For `user`, `rw` in {0, 1} and a `fault` without bit 4, bit 4 of the
delivered code is set iff EFER.NXE = 1 and the access is a code fetch. -/
theorem C8_page_fault_error_code (s : BX_CPU_C) (fault laddr user rw : Nat)
    (access_type : AccessType) :
    (page_fault s fault laddr user rw access_type).1 =
      Outcome.exception BX_PF_EXCEPTION
        ((fault ||| (user <<< 2) ||| (rw <<< 1)) |||
          (if s.efer_nxe = true ∧ access_type = AccessType.CODE_ACCESS then 0x10 else 0)) ∧
    (fault.testBit 4 = false → (user = 0 ∨ user = 1) → (rw = 0 ∨ rw = 1) →
      ((fault ||| (user <<< 2) ||| (rw <<< 1)).testBit 4 = false ∧
        (((fault ||| (user <<< 2) ||| (rw <<< 1)) |||
          (if s.efer_nxe = true ∧ access_type = AccessType.CODE_ACCESS then 0x10 else 0)).testBit 4
            = true ↔ (s.efer_nxe = true ∧ access_type = AccessType.CODE_ACCESS)))) := by
  constructor
  · rw [page_fault_outcome, pf_error_code, ERROR_CODE_ACCESS]
    simp only [Nat.or_assoc]
  · intro hf hu hw
    have hbase : (fault ||| (user <<< 2) ||| (rw <<< 1)).testBit 4 = false := by
      rw [Nat.testBit_or, Nat.testBit_or, hf]
      rcases hu with hu | hu <;> rcases hw with hw | hw <;> rw [hu, hw] <;> decide
    refine ⟨hbase, ?_⟩
    rw [Nat.testBit_or, hbase, Bool.false_or]
    by_cases hc : s.efer_nxe = true ∧ access_type = AccessType.CODE_ACCESS
    · rw [if_pos hc]
      exact ⟨fun _ => hc, fun _ => by decide⟩
    · rw [if_neg hc]
      exact ⟨fun h => absurd h (by decide), fun h => absurd h hc⟩

/-- C8 on a protection fault of a user write: the error code is 0x07, and bit 4
is not set for a data access. -/
theorem C8_page_fault_error_code_witness :
    (page_fault demo_legacy 1 0x5000 1 1 AccessType.DATA_ACCESS).1 =
      Outcome.exception BX_PF_EXCEPTION 0x07 ∧
    (((1 ||| (1 <<< 2) ||| (1 <<< 1)) |||
      (if demo_legacy.efer_nxe = true ∧ AccessType.DATA_ACCESS = AccessType.CODE_ACCESS
        then 0x10 else 0)).testBit 4 = true ↔
      (demo_legacy.efer_nxe = true ∧ AccessType.DATA_ACCESS = AccessType.CODE_ACCESS)) :=
  ⟨(C8_page_fault_error_code demo_legacy 1 0x5000 1 1 AccessType.DATA_ACCESS).1,
    ((C8_page_fault_error_code demo_legacy 1 0x5000 1 1 AccessType.DATA_ACCESS).2
      (by decide) (Or.inr rfl) (Or.inr rfl)).2⟩

/-- C9: whenever `translate_linear(laddr, ...)` ends in an exception, it is `#PF`,
CR2 holds `laddr` and the TLB slot indexed by the page frame of `laddr` is
invalid, so that no access to that page passes the TLB fast test. -/
theorem C9_fault_sets_cr2_and_invalidates (s : BX_CPU_C) (laddr curr_pl rw : Nat)
    (access_type : AccessType) (v ec : Nat)
    (h : (translate_linear s laddr curr_pl rw access_type).1 = Outcome.exception v ec) :
    v = BX_PF_EXCEPTION ∧
    (translate_linear s laddr curr_pl rw access_type).2.cr2 = laddr ∧
    ((translate_linear s laddr curr_pl rw access_type).2.TLB
      (BX_TLB_INDEX_OF (LPFOf laddr) 0)).lpf = BX_INVALID_TLB_ENTRY ∧
    (∀ laddr2 cpl2 w2, LPFOf laddr2 = LPFOf laddr →
      ¬ tlb_hit (translate_linear s laddr curr_pl rw access_type).2 laddr2 cpl2 w2) := by
  obtain ⟨h1, h2, h3⟩ := FaultOK_translate_linear s laddr curr_pl rw access_type v ec h
  rw [← TLB_index_LPFOf] at h3
  refine ⟨h1, h2, h3, ?_⟩
  intro laddr2 cpl2 w2 hl hit
  unfold tlb_hit at hit
  rw [hl] at hit
  have hit1 := hit.1
  rw [h3] at hit1
  exact LPFOf_ne_invalid laddr hit1

/-- C9 on scenario 3 of the spec: after the faulting CPL 3 read of linear address
0x123, CR2 is 0x123 and slot 0 of the TLB is invalid. -/
theorem C9_fault_sets_cr2_and_invalidates_witness :
    (translate_linear demo_legacy 0x123 3 BX_READ AccessType.DATA_ACCESS).1 =
      Outcome.exception 14 5 ∧
    (translate_linear demo_legacy 0x123 3 BX_READ AccessType.DATA_ACCESS).2.cr2 = 0x123 ∧
    ((translate_linear demo_legacy 0x123 3 BX_READ AccessType.DATA_ACCESS).2.TLB
      (BX_TLB_INDEX_OF (LPFOf 0x123) 0)).lpf = BX_INVALID_TLB_ENTRY :=
  ⟨by decide,
    (C9_fault_sets_cr2_and_invalidates demo_legacy 0x123 3 BX_READ AccessType.DATA_ACCESS 14 5
      (by decide)).2.1,
    (C9_fault_sets_cr2_and_invalidates demo_legacy 0x123 3 BX_READ AccessType.DATA_ACCESS 14 5
      (by decide)).2.2.1⟩

/-- C10: in a PAE or long mode walk, a present PML4 entry (long mode) or a present
PDPE that has bit 7 or bit 8 set, reached with every earlier entry valid, ends
the translation in `#PF` with error-code bits 3 and 0 set. -/
theorem C10_reserved_bit_fault (s : BX_CPU_C) (laddr curr_pl rw : Nat)
    (access_type : AccessType) (hmiss : ¬ tlb_hit s laddr curr_pl (isWrite_of rw))
    (hpae : s.cr4_PAE = true) (h : walk_reserved s laddr) :
    ∃ ec, (translate_linear s laddr curr_pl rw access_type).1 =
        Outcome.exception BX_PF_EXCEPTION ec ∧
      ec.testBit 3 = true ∧ ec.testBit 0 = true := by
  have h1 := translate_linear_reserved s laddr curr_pl rw access_type hmiss hpae h
  have hb := pf_error_code_bits s (ERROR_RESERVED ||| ERROR_PROTECTION) (pl_of curr_pl)
    (isWrite_of rw) access_type (pl_of_le curr_pl) (isWrite_of_le rw) (Or.inr (Or.inr rfl))
  refine ⟨_, h1, ?_, ?_⟩
  · rw [hb.2.2.2.1]; decide
  · rw [hb.1]; decide

/-- C10 on a long mode walk whose PML4 entry is valid and whose PDPE has bit 7
set: a CPL 0 write faults with error code 0x0b. -/
theorem C10_reserved_bit_fault_witness :
    ∃ ec, (translate_linear (demo_long 0x2003 0x3083 0 0) 0 0 BX_WRITE
        AccessType.DATA_ACCESS).1 = Outcome.exception BX_PF_EXCEPTION ec ∧
      ec.testBit 3 = true ∧ ec.testBit 0 = true :=
  C10_reserved_bit_fault (demo_long 0x2003 0x3083 0 0) 0 0 BX_WRITE AccessType.DATA_ACCESS
    (by decide) (by decide) (by decide)

/-- C11: in a PAE or long mode walk with EFER.NXE = 0, a present entry at any level
(PML4E, PDPTE, PDE, PTE) that has bit 63 set, reached with every earlier entry
valid, ends the translation in `#PF` with error-code bits 3 and 0 set and bit 4
clear, for data accesses and code fetches alike. -/
theorem C11_nx_bit_reserved_without_nxe (s : BX_CPU_C) (laddr curr_pl rw : Nat)
    (access_type : AccessType) (hmiss : ¬ tlb_hit s laddr curr_pl (isWrite_of rw))
    (hpae : s.cr4_PAE = true) (hnxe : s.efer_nxe = false) (h : walk_nx_entry s laddr) :
    ∃ ec, (translate_linear s laddr curr_pl rw access_type).1 =
        Outcome.exception BX_PF_EXCEPTION ec ∧
      ec.testBit 3 = true ∧ ec.testBit 0 = true ∧ ec.testBit 4 = false ∧
      ec = 0x09 ||| ((pl_of curr_pl <<< 2) ||| (isWrite_of rw <<< 1)) := by
  have h1 := translate_linear_nx_reserved s laddr curr_pl rw access_type hmiss hpae hnxe h
  have hb := pf_error_code_bits s (ERROR_RESERVED ||| ERROR_PROTECTION) (pl_of curr_pl)
    (isWrite_of rw) access_type (pl_of_le curr_pl) (isWrite_of_le rw) (Or.inr (Or.inr rfl))
  refine ⟨_, h1, ?_, ?_, ?_, ?_⟩
  · rw [hb.2.2.2.1]; decide
  · rw [hb.1]; decide
  · rw [hb.2.2.2.2, hnxe]; simp
  · unfold pf_error_code
    rw [hnxe]
    simp only [Bool.false_eq_true, false_and, if_false, Nat.or_zero]
    rfl

/-- C11 on a PAE walk whose PDPE is valid and whose PDE is present with bit 63
set: a CPL 3 code fetch and a CPL 3 data read both fault with error code 0x0d. -/
theorem C11_nx_bit_reserved_without_nxe_witness :
    (translate_linear (demo_pae 0x2001 0x8000000000003007 0) 0 3 BX_READ
        AccessType.CODE_ACCESS).1 = Outcome.exception BX_PF_EXCEPTION 0x0d ∧
    (translate_linear (demo_pae 0x2001 0x8000000000003007 0) 0 3 BX_READ
        AccessType.DATA_ACCESS).1 = Outcome.exception BX_PF_EXCEPTION 0x0d := by
  obtain ⟨e1, h1, _, _, _, h5⟩ := C11_nx_bit_reserved_without_nxe
    (demo_pae 0x2001 0x8000000000003007 0) 0 3 BX_READ AccessType.CODE_ACCESS
    (by decide) rfl rfl (by decide)
  obtain ⟨e2, g1, _, _, _, g5⟩ := C11_nx_bit_reserved_without_nxe
    (demo_pae 0x2001 0x8000000000003007 0) 0 3 BX_READ AccessType.DATA_ACCESS
    (by decide) rfl rfl (by decide)
  rw [h1, g1, h5, g5]
  exact ⟨rfl, rfl⟩

/-- C12: in a PAE or long mode walk with EFER.NXE = 1 whose entries all pass their
checks and one of which has bit 63 (NX) set, a code fetch ends in `#PF` with
error-code bits 0 and 4 set and bit 3 clear, whatever the U/S and R/W check says;
a data access over the same entries succeeds whenever the U/S and R/W check
permits it. -/
theorem C12_nx_violation_on_code_fetch (s : BX_CPU_C) (laddr curr_pl rw : Nat)
    (hmiss : ¬ tlb_hit s laddr curr_pl (isWrite_of rw))
    (hpae : s.cr4_PAE = true) (hnxe : s.efer_nxe = true)
    (hv : walk_valid s laddr) (hnx : walk_has_nx s laddr) :
    (∃ ec, (translate_linear s laddr curr_pl rw AccessType.CODE_ACCESS).1 =
        Outcome.exception BX_PF_EXCEPTION ec ∧
      ec.testBit 0 = true ∧ ec.testBit 4 = true ∧ ec.testBit 3 = false ∧
      ec = 0x11 ||| ((pl_of curr_pl <<< 2) ||| (isWrite_of rw <<< 1))) ∧
    (priv_check (priv_index s (pl_of curr_pl) (walk_combined s laddr) (isWrite_of rw)) ≠ 0 →
      (translate_linear s laddr curr_pl rw AccessType.DATA_ACCESS).1 =
        Outcome.ok (walk_ppf s laddr ||| (laddr &&& 0xfff))) := by
  constructor
  · have hp : ¬ walk_permitted s laddr curr_pl rw AccessType.CODE_ACCESS := by
      intro hp
      exact (walk_nx_code s laddr hpae).mpr hnx hp.2
    have h1 := translate_linear_protection s laddr curr_pl rw _ hmiss hv hp
    have hb := pf_error_code_bits s ERROR_PROTECTION (pl_of curr_pl) (isWrite_of rw)
      AccessType.CODE_ACCESS (pl_of_le curr_pl) (isWrite_of_le rw) (Or.inr (Or.inl rfl))
    refine ⟨_, h1, ?_, ?_, ?_, ?_⟩
    · rw [hb.1]; decide
    · rw [hb.2.2.2.2, hnxe]; simp
    · rw [hb.2.2.2.1]; decide
    · unfold pf_error_code ERROR_PROTECTION ERROR_CODE_ACCESS
      rw [hnxe]
      simp only [and_self, if_true]
      rcases pl_of_le curr_pl with h | h <;> rcases isWrite_of_le rw with g | g <;>
        rw [h, g] <;> rfl
  · intro hpc
    have hp : walk_permitted s laddr curr_pl rw AccessType.DATA_ACCESS :=
      ⟨hpc, walk_nx_data s laddr⟩
    exact (translate_linear_ok s laddr curr_pl rw _ hmiss hv hp).1

/-- C12 on a PAE walk with EFER.NXE = 1 whose PTE is a writable user page with NX
set: a CPL 3 code fetch faults with error code 0x15, a CPL 3 data read of the
same address returns 0x34010. -/
theorem C12_nx_violation_on_code_fetch_witness :
    (translate_linear (demo_pae_nxe true 0x2001 0x3007 0x8000000000034007) 0x10 3 BX_READ
        AccessType.CODE_ACCESS).1 = Outcome.exception BX_PF_EXCEPTION 0x15 ∧
    (translate_linear (demo_pae_nxe true 0x2001 0x3007 0x8000000000034007) 0x10 3 BX_READ
        AccessType.DATA_ACCESS).1 = Outcome.ok 0x34010 := by
  have h := C12_nx_violation_on_code_fetch
    (demo_pae_nxe true 0x2001 0x3007 0x8000000000034007) 0x10 3 BX_READ
    (by decide) rfl rfl (by decide) (by decide)
  obtain ⟨⟨ec, h1, _, _, _, h5⟩, h2⟩ := h
  rw [h1, h5]
  exact ⟨rfl, (h2 (by decide)).trans (by decide)⟩

/-- C13, evaluated: in non-PAE mode with CR4.PSE = 1, a present PDE 0x00C02087
(PS = 1, bit 13 set) is used as a 4M page: the read of linear address 0x123456
returns 0x00D23456 and no fault is raised. -/
theorem C13_4m_reserved_bits_not_checked :
    (demo_legacy_with false true 0x00C02087 0).cr4_PAE = false ∧
    (demo_legacy_with false true 0x00C02087 0).cr4_PSE = true ∧
    pde_entry (demo_legacy_with false true 0x00C02087 0) 0x123456 = 0x00C02087 ∧
    Nat.testBit 0x00C02087 0 = true ∧ Nat.testBit 0x00C02087 7 = true ∧
    Nat.testBit 0x00C02087 13 = true ∧
    (translate_linear (demo_legacy_with false true 0x00C02087 0) 0x123456 0 BX_READ
      AccessType.DATA_ACCESS).1 = Outcome.ok 0x00D23456 := by
  decide

/-- C14: presence is checked first at every level: a walk that reaches an entry
with P = 0 ends in the not-present `#PF` (error-code bits 0 and 3 clear), with no
condition on that entry's bits 7, 8, 63 and 51..32, and it does not end in an
emulator panic. -/
theorem C14_presence_checked_first (s : BX_CPU_C) (laddr curr_pl rw : Nat)
    (access_type : AccessType) (hmiss : ¬ tlb_hit s laddr curr_pl (isWrite_of rw))
    (h : walk_not_present s laddr) :
    (translate_linear s laddr curr_pl rw access_type).1 ≠ Outcome.panic ∧
    ∃ ec, (translate_linear s laddr curr_pl rw access_type).1 =
        Outcome.exception BX_PF_EXCEPTION ec ∧
      ec.testBit 0 = false ∧ ec.testBit 3 = false := by
  have h1 := translate_linear_not_present s laddr curr_pl rw access_type hmiss h
  have hb := pf_error_code_bits s ERROR_NOT_PRESENT (pl_of curr_pl) (isWrite_of rw) access_type
    (pl_of_le curr_pl) (isWrite_of_le rw) (Or.inl rfl)
  refine ⟨?_, _, h1, ?_, ?_⟩
  · rw [h1]
    intro hc
    exact Outcome.noConfusion hc
  · rw [hb.1]; decide
  · rw [hb.2.2.2.1]; decide

/-- C14 on long mode walks whose PML4 entry, and whose PDPE below a valid PML4
entry, is 0x800FFFFF00000180: P = 0 with bits 7, 8, 63 and 51..32 all set.  Both
CPL 0 reads end in `#PF` with error code 0. -/
theorem C14_presence_checked_first_witness :
    (translate_linear (demo_long 0x800FFFFF00000180 0 0 0) 0 0 BX_READ
        AccessType.DATA_ACCESS).1 = Outcome.exception BX_PF_EXCEPTION 0 ∧
    (translate_linear (demo_long 0x2003 0x800FFFFF00000180 0 0) 0 0 BX_READ
        AccessType.DATA_ACCESS).1 ≠ Outcome.panic :=
  ⟨by decide,
    (C14_presence_checked_first (demo_long 0x2003 0x800FFFFF00000180 0 0) 0 0 BX_READ
      AccessType.DATA_ACCESS (by decide) (by decide)).1⟩

/-- C15: the U/S and R/W bits fed to the permission check are the bitwise AND of
those bits over the PDE and PTE in 2-level and legacy-PAE 4K walks and over the
PML4E, PDPTE, PDE (and PTE for 4K pages) in long mode; a CPL 3 write walk is
accepted iff every one of those entries has U/S = 1 and R/W = 1 and no NX
violation applies. -/
theorem C15_combined_access_is_and (s : BX_CPU_C) (laddr curr_pl rw : Nat)
    (access_type : AccessType) (hmiss : ¬ tlb_hit s laddr curr_pl (isWrite_of rw))
    (hv : walk_valid s laddr) :
    (∀ i, (walk_combined s laddr).testBit i =
      (decide (i = 1 ∨ i = 2) && (walk_entries s laddr).all (fun e => e.testBit i))) ∧
    (s.cr4_PAE = false → ¬ walk_large s laddr →
      walk_entries s laddr = [pde_entry s laddr, pte_entry s laddr]) ∧
    (s.cr4_PAE = true → s.long_mode = false → ¬ walk_large s laddr →
      walk_entries s laddr = [pae_pde_entry s laddr, pae_pte_entry s laddr]) ∧
    (s.cr4_PAE = true → s.long_mode = true → ¬ walk_large s laddr →
      walk_entries s laddr = [pml4_entry s laddr, pdpe_entry s laddr, pae_pde_entry s laddr,
        pae_pte_entry s laddr]) ∧
    (s.cr4_PAE = true → s.long_mode = true → walk_large s laddr →
      walk_entries s laddr = [pml4_entry s laddr, pdpe_entry s laddr, pae_pde_entry s laddr]) ∧
    ((translate_linear s laddr curr_pl rw access_type).1 =
        Outcome.ok (walk_ppf s laddr ||| (laddr &&& 0xfff)) ↔
      (priv_check (priv_index s (pl_of curr_pl) (walk_combined s laddr) (isWrite_of rw)) ≠ 0 ∧
        walk_nx s laddr access_type = 0)) ∧
    (curr_pl = 3 → rw ≥ BX_WRITE →
      ((translate_linear s laddr curr_pl rw access_type).1 =
          Outcome.ok (walk_ppf s laddr ||| (laddr &&& 0xfff)) ↔
        ((∀ e ∈ walk_entries s laddr, e.testBit 2 = true ∧ e.testBit 1 = true) ∧
          walk_nx s laddr access_type = 0))) := by
  have hiff := translate_linear_ok_iff s laddr curr_pl rw access_type hmiss hv
  refine ⟨walk_combined_testBit s laddr, ?_, ?_, ?_, ?_, hiff, ?_⟩
  · intro hpae hl
    unfold walk_large at hl
    unfold walk_entries
    simp only [hpae, if_false, Bool.false_eq_true] at hl ⊢
    rw [if_neg hl]
    rfl
  · intro hpae hlm hl
    unfold walk_large at hl
    unfold walk_entries
    simp only [hpae, hlm, if_true, if_false, Bool.false_eq_true] at hl ⊢
    rw [if_neg hl]
    rfl
  · intro hpae hlm hl
    unfold walk_large at hl
    unfold walk_entries
    simp only [hpae, hlm, if_true] at hl ⊢
    rw [if_neg hl]
    rfl
  · intro hpae hlm hl
    unfold walk_large at hl
    unfold walk_entries
    simp only [hpae, hlm, if_true] at hl ⊢
    rw [if_pos hl]
    rfl
  · intro hc hrw
    rw [hiff]
    unfold walk_permitted
    have hpl : pl_of curr_pl = 1 := by rw [hc]; rfl
    rw [hpl, isWrite_of_write rw hrw, priv_check_user_write, walk_combined_testBit,
      walk_combined_testBit]
    simp only [List.all_eq_true, Bool.and_eq_true, decide_eq_true_eq]
    constructor
    · rintro ⟨⟨⟨_, h2⟩, ⟨_, h1⟩⟩, hn⟩
      exact ⟨fun e he => ⟨h2 e he, h1 e he⟩, hn⟩
    · rintro ⟨h, hn⟩
      exact ⟨⟨⟨by simp, fun e he => (h e he).1⟩, ⟨by simp, fun e he => (h e he).2⟩⟩, hn⟩

/-- C15 on two non-PAE 4K walks: with a user, writable PDE and PTE a CPL 3 write
is accepted; with the same PTE under a supervisor PDE it is not. -/
theorem C15_combined_access_is_and_witness :
    (translate_linear (demo_legacy_with true false 0x2007 0x34007) 0x10 3 BX_WRITE
        AccessType.DATA_ACCESS).1 = Outcome.ok 0x34010 ∧
    ¬ ((translate_linear (demo_legacy_with true false 0x2003 0x34007) 0x10 3 BX_WRITE
        AccessType.DATA_ACCESS).1 =
      Outcome.ok (walk_ppf (demo_legacy_with true false 0x2003 0x34007) 0x10 |||
        (0x10 &&& 0xfff))) := by
  have h := (C15_combined_access_is_and (demo_legacy_with true false 0x2007 0x34007) 0x10 3
    BX_WRITE AccessType.DATA_ACCESS (by decide) (by decide)).2.2.2.2.2.2 rfl (by decide)
  have g := (C15_combined_access_is_and (demo_legacy_with true false 0x2003 0x34007) 0x10 3
    BX_WRITE AccessType.DATA_ACCESS (by decide) (by decide)).2.2.2.2.2.2 rfl (by decide)
  constructor
  · exact (h.mpr (by decide)).trans (by decide)
  · intro hc
    exact absurd (g.mp hc) (by decide)

/-- C16, evaluated: with CR4.PGE = 1, a leaf PTE 0x34107 whose G bit (bit 8) is set
is installed with bit 31 of `accessBits` clear, and a leaf PTE 0x80034007 whose G
bit is clear is installed with bit 31 of `accessBits` set. -/
theorem C16_global_flag_read_from_bit_31 :
    (demo_legacy_pge 0x2007 0x34107).cr4_PGE = true ∧
    Nat.testBit 0x34107 8 = true ∧
    (translate_linear (demo_legacy_pge 0x2007 0x34107) 0 0 BX_READ AccessType.DATA_ACCESS).1 =
      Outcome.ok 0x34000 ∧
    ((translate_linear (demo_legacy_pge 0x2007 0x34107) 0 0 BX_READ
      AccessType.DATA_ACCESS).2.TLB 0).accessBits.testBit 31 = false ∧
    Nat.testBit 0x80034007 8 = false ∧
    (translate_linear (demo_legacy_pge 0x2007 0x80034007) 0 0 BX_READ
      AccessType.DATA_ACCESS).1 = Outcome.ok 0x80034000 ∧
    ((translate_linear (demo_legacy_pge 0x2007 0x80034007) 0 0 BX_READ
      AccessType.DATA_ACCESS).2.TLB 0).accessBits.testBit 31 = true := by
  decide

/-- C17: a translation that misses the TLB and returns (with `cr3_masked` 8-byte
aligned, as `CR3_change` leaves it) changes guest memory only by setting bits in
the first byte of the walked entries.  Byte by byte, the memory afterwards is the
memory before with bit 5 (A) added at the address of every traversed entry (the
PML4E, PDPE, PDE and PTE that the mode and the page size involve) and bit 6 (D)
added at the address of the leaf exactly when the access is a write or
read-modify-write.  Hence every traversed entry has A = 1; the leaf has D = 1
afterwards iff the access writes or D was set before; a read walk changes no D
bit; every bit other than 5 and 6, every other byte of the walked entries and
all other memory are unchanged; and no bit is cleared. -/
theorem C17_walk_sets_only_A_and_D (s : BX_CPU_C) (laddr curr_pl rw : Nat)
    (access_type : AccessType) (hmiss : ¬ tlb_hit s laddr curr_pl (isWrite_of rw))
    (hal : s.cr3_masked % 8 = 0) (pa : Nat)
    (hret : (translate_linear s laddr curr_pl rw access_type).1 = Outcome.ok pa) :
    (∀ x, ((translate_linear s laddr curr_pl rw access_type).2.mem x).val =
      ((s.mem x).val ||| (if x ∈ walk_addrs s laddr then 0x20 else 0)) |||
        (if isWrite_of rw = 1 ∧ x = walk_leaf_addr s laddr then 0x40 else 0)) ∧
    ((rw = BX_WRITE ∨ rw = BX_RW → isWrite_of rw = 1) ∧ (rw = BX_READ → isWrite_of rw = 0)) ∧
    (∀ a ∈ walk_addrs s laddr,
      (readLE (translate_linear s laddr curr_pl rw access_type).2.mem a
        (walk_entry_len s)).testBit 5 = true) ∧
    walk_leaf_addr s laddr ∈ walk_addrs s laddr ∧
    ((readLE (translate_linear s laddr curr_pl rw access_type).2.mem (walk_leaf_addr s laddr)
        (walk_entry_len s)).testBit 6 = true ↔
      (isWrite_of rw = 1 ∨
        (readLE s.mem (walk_leaf_addr s laddr) (walk_entry_len s)).testBit 6 = true)) ∧
    (isWrite_of rw = 0 → ∀ x,
      ((translate_linear s laddr curr_pl rw access_type).2.mem x).val.testBit 6 =
        (s.mem x).val.testBit 6) ∧
    (∀ x i, i ≠ 5 → i ≠ 6 →
      ((translate_linear s laddr curr_pl rw access_type).2.mem x).val.testBit i =
        (s.mem x).val.testBit i) ∧
    (∀ a ∈ walk_addrs s laddr, ∀ k, 0 < k → k < walk_entry_len s →
      (translate_linear s laddr curr_pl rw access_type).2.mem (a + k) = s.mem (a + k)) ∧
    (∀ x, x ∉ walk_addrs s laddr →
      (translate_linear s laddr curr_pl rw access_type).2.mem x = s.mem x) ∧
    mem_le s.mem (translate_linear s laddr curr_pl rw access_type).2.mem := by
  obtain ⟨hv, hp⟩ := translate_linear_ok_valid s laddr curr_pl rw access_type hmiss pa hret
  have hmem := (translate_linear_ok s laddr curr_pl rw access_type hmiss hv hp).2.1
  have hB : ∀ x, ((translate_linear s laddr curr_pl rw access_type).2.mem x).val =
      ((s.mem x).val ||| (if x ∈ walk_addrs s laddr then 0x20 else 0)) |||
        (if isWrite_of rw = 1 ∧ x = walk_leaf_addr s laddr then 0x40 else 0) := by
    intro x
    rw [hmem]
    exact walk_final_bytes s laddr (isWrite_of rw) (isWrite_of_le rw) hal x
  have hleaf := walk_leaf_addr_mem s laddr
  have hlen := walk_entry_len_pos s
  have hout : ∀ x, x ∉ walk_addrs s laddr →
      (translate_linear s laddr curr_pl rw access_type).2.mem x = s.mem x := by
    intro x hx
    apply Fin.ext
    have hne : ¬ (isWrite_of rw = 1 ∧ x = walk_leaf_addr s laddr) := by
      rintro ⟨_, h⟩
      rw [h] at hx
      exact hx hleaf
    rw [hB x, if_neg hx, if_neg hne, Nat.or_zero, Nat.or_zero]
  refine ⟨hB, ⟨?_, ?_⟩, ?_, hleaf, ?_, ?_, ?_, ?_, hout, ?_⟩
  · intro h
    apply isWrite_of_write
    rcases h with h | h
    · exact h ▸ (by decide : BX_WRITE ≥ BX_WRITE)
    · exact h ▸ (by decide : BX_RW ≥ BX_WRITE)
  · intro h
    rw [h]
    rfl
  · intro a ha
    rw [readLE_testBit_low _ a _ 5 hlen (by decide), hB a, bytes_testBit]
    simp [ha]
  · rw [readLE_testBit_low _ _ _ 6 hlen (by decide), readLE_testBit_low _ _ _ 6 hlen (by decide),
      hB (walk_leaf_addr s laddr), bytes_testBit]
    simp
    tauto
  · intro hw x
    rw [hB x, bytes_testBit]
    simp [hw]
  · intro x i h5 h6
    rw [hB x, bytes_testBit]
    have e5 : ¬ (5 = i) := fun h => h5 h.symm
    have e6 : ¬ (6 = i) := fun h => h6 h.symm
    simp [e5, e6]
  · intro a ha k hk hkn
    apply hout
    intro hm
    exact aligned_add_ne a k (walk_entry_len s) (walk_addrs_aligned s laddr hal a ha) hk hkn
      (walk_addrs_aligned s laddr hal (a + k) hm)
  · intro x i h
    rw [hB x, bytes_testBit, h]
    rfl

/-- C17 on a long mode write walk of linear address 0x201234 through entries at
0x1000, 0x2000, 0x3008 and 0x4008, all with A and D clear: the call returns
0x56234, the PML4 entry has A set afterwards, the PTE has D set, the second byte
of the PTE and the byte at 0x5000 are as before. -/
theorem C17_walk_sets_only_A_and_D_witness :
    (translate_linear (demo_long_at 0x2003 0x3003 0x3008 0x4003 0x4008 0x56003) 0x201234 0
      BX_WRITE AccessType.DATA_ACCESS).1 = Outcome.ok 0x56234 ∧
    (readLE (translate_linear (demo_long_at 0x2003 0x3003 0x3008 0x4003 0x4008 0x56003)
      0x201234 0 BX_WRITE AccessType.DATA_ACCESS).2.mem 0x1000 8).testBit 5 = true ∧
    (readLE (translate_linear (demo_long_at 0x2003 0x3003 0x3008 0x4003 0x4008 0x56003)
      0x201234 0 BX_WRITE AccessType.DATA_ACCESS).2.mem 0x4008 8).testBit 6 = true ∧
    (translate_linear (demo_long_at 0x2003 0x3003 0x3008 0x4003 0x4008 0x56003)
      0x201234 0 BX_WRITE AccessType.DATA_ACCESS).2.mem (0x4008 + 1) =
      (demo_long_at 0x2003 0x3003 0x3008 0x4003 0x4008 0x56003).mem (0x4008 + 1) ∧
    (translate_linear (demo_long_at 0x2003 0x3003 0x3008 0x4003 0x4008 0x56003)
      0x201234 0 BX_WRITE AccessType.DATA_ACCESS).2.mem 0x5000 =
      (demo_long_at 0x2003 0x3003 0x3008 0x4003 0x4008 0x56003).mem 0x5000 := by
  have h := C17_walk_sets_only_A_and_D
    (demo_long_at 0x2003 0x3003 0x3008 0x4003 0x4008 0x56003) 0x201234 0 BX_WRITE
    AccessType.DATA_ACCESS (by decide) (by decide) 0x56234 (by decide)
  obtain ⟨_, _, hA, _, hD, _, _, hK, hO, _⟩ := h
  exact ⟨by decide, hA 0x1000 (by decide), hD.mpr (Or.inl (by decide)),
    hK 0x4008 (by decide) 1 (by decide) (by decide), hO 0x5000 (by decide)⟩

/-- C18, counterexample to guest memory being identical after every `#PF`: in
long mode a read through a present PML4 entry 0x2003 whose A bit is clear and a
PDPE that is not present raises the not-present `#PF` (vector 14, error code 0),
yet the PML4 entry in guest memory has changed from 0x2003 to 0x2023: its A bit
was written back (lines 701-704) before the PDPE check failed. -/
theorem C18_long_mode_fault_after_pml4_write :
    (demo_long 0x2003 0 0 0).long_mode = true ∧
    (demo_long 0x2003 0 0 0).cr4_PAE = true ∧
    pml4_addr (demo_long 0x2003 0 0 0) 0 = 0x1000 ∧
    readLE (demo_long 0x2003 0 0 0).mem 0x1000 8 = 0x2003 ∧
    pdpe_entry (demo_long 0x2003 0 0 0) 0 = 0 ∧
    (translate_linear (demo_long 0x2003 0 0 0) 0 0 BX_READ AccessType.DATA_ACCESS).1 =
      Outcome.exception BX_PF_EXCEPTION 0 ∧
    readLE (translate_linear (demo_long 0x2003 0 0 0) 0 0 BX_READ
      AccessType.DATA_ACCESS).2.mem 0x1000 8 = 0x2023 ∧
    (translate_linear (demo_long 0x2003 0 0 0) 0 0 BX_READ
      AccessType.DATA_ACCESS).2.mem ≠ (demo_long 0x2003 0 0 0).mem := by
  refine ⟨by decide, by decide, by decide, by decide, by decide, by decide, by decide, ?_⟩
  intro h
  have h2 := congrArg (fun m => readLE m 0x1000 8) h
  revert h2
  decide

/-- C18, amended: whenever `translate_linear` raises an exception, outside long
mode (2-level and PAE) guest memory is identical to what it was before the call,
every A/D write-back following the last check of the walk.  In long mode the
write-backs of the PDPE, the PDE and the PTE are deferred in the same way, but
the A bit of the PML4 entry is written as soon as that entry has passed its own
checks (lines 701-704), before the lower levels are read: after the exception
every byte of guest memory is what it was, except that bit 5 of the first byte
of the PML4 entry is set when the walk was a long mode walk whose PML4 entry is
present with bits 7, 8 and 51..32 clear and NX legal.  So memory is unchanged,
or it is the memory before the call with the PML4 entry, whose A bit was clear,
written back with A set. -/
theorem C18_fault_leaves_memory (s : BX_CPU_C) (laddr curr_pl rw : Nat)
    (access_type : AccessType) (v ec : Nat)
    (h : (translate_linear s laddr curr_pl rw access_type).1 = Outcome.exception v ec) :
    ((s.cr4_PAE = true → s.long_mode = false) →
      (translate_linear s laddr curr_pl rw access_type).2.mem = s.mem) ∧
    (∀ x, ((translate_linear s laddr curr_pl rw access_type).2.mem x).val =
      (s.mem x).val |||
        (if (s.cr4_PAE = true ∧ s.long_mode = true ∧ upper_ok s (pml4_entry s laddr)) ∧
            x = pml4_addr s laddr then 0x20 else 0)) ∧
    ((translate_linear s laddr curr_pl rw access_type).2.mem = s.mem ∨
      ((s.cr4_PAE = true ∧ s.long_mode = true ∧ upper_ok s (pml4_entry s laddr) ∧
          (pml4_entry s laddr &&& 0x20) = 0) ∧
        (translate_linear s laddr curr_pl rw access_type).2.mem =
          writeLE s.mem (pml4_addr s laddr) 8 (pml4_entry s laddr ||| 0x20))) := by
  have he := fault_mem_exact s laddr curr_pl rw access_type v ec h
  refine ⟨fun hlm => fault_keeps_mem_outside_long_mode s laddr curr_pl rw access_type hlm v ec h,
    ?_, ?_⟩
  · intro x
    rw [he]
    by_cases hc : s.cr4_PAE = true ∧ s.long_mode = true ∧ upper_ok s (pml4_entry s laddr)
    · rw [if_pos hc, pml4_state_mem_byte]
      simp only [hc, and_self, true_and]
    · rw [if_neg hc, if_neg (fun hx => hc hx.1), Nat.or_zero]
  · rw [he]
    by_cases hc : s.cr4_PAE = true ∧ s.long_mode = true ∧ upper_ok s (pml4_entry s laddr)
    · rw [if_pos hc]
      by_cases hA : (pml4_entry s laddr &&& 0x20) = 0
      · right
        refine ⟨⟨hc.1, hc.2.1, hc.2.2, hA⟩, ?_⟩
        unfold pml4_state
        dsimp only
        rw [if_pos hA]
        unfold pml4_acc
        rw [if_pos hA]
        rfl
      · left
        unfold pml4_state
        dsimp only
        rw [if_neg hA]
        rfl
    · rw [if_neg hc]
      exact Or.inl rfl

/-- C18 (amended) on two faulting reads of linear address 0 at CPL 0.  In PAE mode
outside long mode, with a present PDPE and PDE whose A bits are clear and a PTE
that is not present, guest memory is unchanged.  In long mode, with the PML4
entry 0x2003 and a PDPE that is not present, the first byte of the PML4 entry at
0x1000 goes from 0x03 to 0x23 and the byte at 0x2000 is unchanged. -/
theorem C18_fault_leaves_memory_witness :
    (translate_linear (demo_pae 0x2001 0x3003 0) 0 0 BX_READ AccessType.DATA_ACCESS).1 =
      Outcome.exception BX_PF_EXCEPTION 0 ∧
    (translate_linear (demo_pae 0x2001 0x3003 0) 0 0 BX_READ AccessType.DATA_ACCESS).2.mem =
      (demo_pae 0x2001 0x3003 0).mem ∧
    ((translate_linear (demo_long 0x2003 0 0 0) 0 0 BX_READ
      AccessType.DATA_ACCESS).2.mem 0x1000).val = 0x23 ∧
    ((translate_linear (demo_long 0x2003 0 0 0) 0 0 BX_READ
      AccessType.DATA_ACCESS).2.mem 0x2000).val =
      ((demo_long 0x2003 0 0 0).mem 0x2000).val := by
  have h := C18_fault_leaves_memory (demo_pae 0x2001 0x3003 0) 0 0 BX_READ
    AccessType.DATA_ACCESS BX_PF_EXCEPTION 0 (by decide)
  have g := C18_fault_leaves_memory (demo_long 0x2003 0 0 0) 0 0 BX_READ
    AccessType.DATA_ACCESS BX_PF_EXCEPTION 0 (by decide)
  refine ⟨by decide, h.1 (fun _ => rfl), (g.2.1 0x1000).trans (by decide), ?_⟩
  rw [g.2.1 0x2000]
  decide

/-- C19: after `TLB_flush(g)` a slot is valid iff it was valid before, `g = 0` and
bit 31 of its `accessBits` is set; after `TLB_flush(1)` no slot is valid, after
`TLB_flush(0)` every surviving entry is global, and `TLB_flush` changes no field
of a slot other than the `lpf` of the slots it invalidates. -/
theorem C19_TLB_flush (s : BX_CPU_C) (g i : Nat) (hi : i < BX_TLB_SIZE) :
    (((TLB_flush s g).TLB i).lpf ≠ BX_INVALID_TLB_ENTRY ↔
      ((s.TLB i).lpf ≠ BX_INVALID_TLB_ENTRY ∧ g = 0 ∧ (s.TLB i).accessBits.testBit 31 = true)) ∧
    (g = 1 → ((TLB_flush s g).TLB i).lpf = BX_INVALID_TLB_ENTRY) ∧
    (g = 0 → ((TLB_flush s g).TLB i).lpf ≠ BX_INVALID_TLB_ENTRY →
      ((TLB_flush s g).TLB i).accessBits.testBit 31 = true) ∧
    (((TLB_flush s g).TLB i).lpf ≠ BX_INVALID_TLB_ENTRY → (TLB_flush s g).TLB i = s.TLB i) ∧
    ((TLB_flush s g).TLB i).ppf = (s.TLB i).ppf ∧
    ((TLB_flush s g).TLB i).accessBits = (s.TLB i).accessBits ∧
    ((TLB_flush s g).TLB i).hostPageAddr = (s.TLB i).hostPageAddr := by
  have hE : (TLB_flush s g).TLB i = TLB_flush_entry g (s.TLB i) := by
    show TLB_flush_loop g BX_TLB_SIZE s.TLB i = _
    rw [TLB_flush_loop_spec, if_pos hi]
  have hG : ((s.TLB i).accessBits &&& TLB_GlobalPage) = 0 ↔
      (s.TLB i).accessBits.testBit 31 = false := and_pow_eq_zero_iff _ 31
  rw [hE]
  unfold TLB_flush_entry
  by_cases hv : (s.TLB i).lpf ≠ BX_INVALID_TLB_ENTRY
  · rw [if_pos hv]
    by_cases hc : g ≠ 0 ∨ ((s.TLB i).accessBits &&& TLB_GlobalPage) = 0
    · rw [if_pos hc]
      refine ⟨?_, fun _ => rfl, fun _ h => absurd rfl h, fun h => absurd rfl h, rfl, rfl, rfl⟩
      constructor
      · intro h; exact absurd rfl h
      · rintro ⟨_, h0, h31⟩
        rcases hc with hc | hc
        · exact absurd h0 hc
        · rw [hG.mp hc] at h31
          exact Bool.noConfusion h31
    · rw [if_neg hc]
      rw [not_or, not_not] at hc
      have h31 : (s.TLB i).accessBits.testBit 31 = true := by
        cases hb : (s.TLB i).accessBits.testBit 31
        · exact absurd (hG.mpr hb) hc.2
        · rfl
      refine ⟨⟨fun _ => ⟨hv, hc.1, h31⟩, fun _ => hv⟩, ?_, fun _ _ => h31, fun _ => rfl, rfl, rfl,
        rfl⟩
      intro h1
      rw [hc.1] at h1
      exact absurd h1 (by decide)
  · rw [if_neg hv]
    rw [not_not] at hv
    refine ⟨⟨fun h => absurd hv h, fun h => absurd hv h.1⟩, fun _ => hv, fun _ h => absurd hv h,
      fun _ => rfl, rfl, rfl, rfl⟩

/-- C19 on a TLB with a non-global entry in slot 5 and a global entry in slot 7:
`TLB_flush(0)` invalidates slot 5 and keeps slot 7, `TLB_flush(1)` invalidates
slot 7 as well. -/
theorem C19_TLB_flush_witness :
    ((TLB_flush demo_tlb 0).TLB 5).lpf = BX_INVALID_TLB_ENTRY ∧
    (TLB_flush demo_tlb 0).TLB 7 = demo_tlb.TLB 7 ∧
    ((TLB_flush demo_tlb 1).TLB 7).lpf = BX_INVALID_TLB_ENTRY :=
  ⟨by
      have h := (C19_TLB_flush demo_tlb 0 5 (by decide)).1
      by_contra hc
      exact absurd (h.mp hc).2.2 (by decide),
    (C19_TLB_flush demo_tlb 0 7 (by decide)).2.2.2.1
      ((C19_TLB_flush demo_tlb 0 7 (by decide)).1.mpr ⟨by decide, rfl, by decide⟩),
    (C19_TLB_flush demo_tlb 1 7 (by decide)).2.1 rfl⟩

/-- C20: after `TLB_invlpg(L)` the slot indexed by the page frame of `L` is invalid
whatever it held before, every other slot is unchanged, and nothing else of the
state changes (the invalidated slot keeps its other fields). -/
theorem C20_TLB_invlpg (s : BX_CPU_C) (L : Nat) :
    ((TLB_invlpg s L).TLB (BX_TLB_INDEX_OF (LPFOf L) 0)).lpf = BX_INVALID_TLB_ENTRY ∧
    (∀ j, j ≠ BX_TLB_INDEX_OF (LPFOf L) 0 → (TLB_invlpg s L).TLB j = s.TLB j) ∧
    BX_TLB_INDEX_OF (LPFOf L) 0 < BX_TLB_SIZE ∧
    ((TLB_invlpg s L).TLB (BX_TLB_INDEX_OF (LPFOf L) 0)).ppf =
      (s.TLB (BX_TLB_INDEX_OF (LPFOf L) 0)).ppf ∧
    ((TLB_invlpg s L).TLB (BX_TLB_INDEX_OF (LPFOf L) 0)).accessBits =
      (s.TLB (BX_TLB_INDEX_OF (LPFOf L) 0)).accessBits ∧
    (TLB_invlpg s L).mem = s.mem ∧ (TLB_invlpg s L).cr2 = s.cr2 ∧
    (TLB_invlpg s L).cr3_masked = s.cr3_masked := by
  rw [TLB_index_LPFOf]
  refine ⟨?_, ?_, ?_, ?_, ?_, rfl, rfl, rfl⟩
  · simp [TLB_invlpg]
  · intro j hj
    simp [TLB_invlpg, Function.update_noteq hj]
  · unfold BX_TLB_INDEX_OF
    exact Nat.mod_lt _ (by decide)
  · simp [TLB_invlpg]
  · simp [TLB_invlpg]

/-- C20 on the global entry for page 0x7000 in slot 7: `TLB_invlpg(0x407123)`, an
address of another page that maps to slot 7, invalidates it and leaves slot 5
alone. -/
theorem C20_TLB_invlpg_witness :
    ((TLB_invlpg demo_tlb 0x407123).TLB 7).lpf = BX_INVALID_TLB_ENTRY ∧
    (5 ≠ BX_TLB_INDEX_OF (LPFOf 0x407123) 0 →
      (TLB_invlpg demo_tlb 0x407123).TLB 5 = demo_tlb.TLB 5) :=
  ⟨(C20_TLB_invlpg demo_tlb 0x407123).1, (C20_TLB_invlpg demo_tlb 0x407123).2.1 5⟩


/-- C21: `INVLPG` delivers `#GP` with error code 0 iff the CPU is not in real mode
and CPL is not 0, and then leaves the state, so every TLB slot, as it was;
otherwise it returns, invalidates the slot indexed by `seg_base + rm_addr` and
changes nothing else: the other fields of that slot and all other slots are as
before. -/
theorem C21_INVLPG (s : BX_CPU_C) (seg_base rm_addr : Nat) :
    ((INVLPG s seg_base rm_addr).1 = Outcome.exception BX_GP_EXCEPTION 0 ↔
      (s.real_mode = false ∧ s.CPL ≠ 0)) ∧
    ((∃ v ec, (INVLPG s seg_base rm_addr).1 = Outcome.exception v ec) ↔
      (s.real_mode = false ∧ s.CPL ≠ 0)) ∧
    ((s.real_mode = false ∧ s.CPL ≠ 0) → (INVLPG s seg_base rm_addr).2 = s) ∧
    (¬ (s.real_mode = false ∧ s.CPL ≠ 0) →
      (INVLPG s seg_base rm_addr).1 = Outcome.ok () ∧
      ((INVLPG s seg_base rm_addr).2.TLB (BX_TLB_INDEX_OF (seg_base + rm_addr) 0)).lpf =
        BX_INVALID_TLB_ENTRY ∧
      ((INVLPG s seg_base rm_addr).2.TLB (BX_TLB_INDEX_OF (seg_base + rm_addr) 0)).ppf =
        (s.TLB (BX_TLB_INDEX_OF (seg_base + rm_addr) 0)).ppf ∧
      ((INVLPG s seg_base rm_addr).2.TLB (BX_TLB_INDEX_OF (seg_base + rm_addr) 0)).accessBits =
        (s.TLB (BX_TLB_INDEX_OF (seg_base + rm_addr) 0)).accessBits ∧
      (∀ i, i ≠ BX_TLB_INDEX_OF (seg_base + rm_addr) 0 →
        (INVLPG s seg_base rm_addr).2.TLB i = s.TLB i) ∧
      (INVLPG s seg_base rm_addr).2.mem = s.mem ∧
      (INVLPG s seg_base rm_addr).2.cr2 = s.cr2) := by
  unfold INVLPG
  by_cases h : s.real_mode = false ∧ s.CPL ≠ 0
  · rw [if_pos h]
    refine ⟨⟨fun _ => h, fun _ => rfl⟩, ⟨fun _ => h, fun _ => ⟨_, _, rfl⟩⟩, fun _ => rfl,
      fun hn => absurd h hn⟩
  · rw [if_neg h]
    refine ⟨⟨fun hc => Outcome.noConfusion hc, fun hc => absurd hc h⟩,
      ⟨fun hc => ?_, fun hc => absurd hc h⟩, fun hc => absurd hc h, fun _ => ?_⟩
    · obtain ⟨v, ec, hc⟩ := hc
      exact Outcome.noConfusion hc
    · dsimp only
      unfold TLB_invlpg
      dsimp only
      rw [TLB_index_wrap]
      refine ⟨rfl, ?_, ?_, ?_, ?_, rfl, rfl⟩
      · rw [Function.update_same]
      · rw [Function.update_same]
      · rw [Function.update_same]
      · intro i hi
        rw [Function.update_noteq hi]

/-- C21 on a TLB with entries in slots 5 and 7: at CPL 3 in protected mode
`INVLPG` of 0x7123 delivers `#GP(0)` and slot 7 keeps its entry; at CPL 0 it
returns, slot 7 is invalid and slot 5 is as before. -/
theorem C21_INVLPG_witness :
    (INVLPG demo_tlb_user 0x7000 0x123).1 = Outcome.exception BX_GP_EXCEPTION 0 ∧
    (INVLPG demo_tlb_user 0x7000 0x123).2 = demo_tlb_user ∧
    (INVLPG demo_tlb 0x7000 0x123).1 = Outcome.ok () ∧
    ((INVLPG demo_tlb 0x7000 0x123).2.TLB 7).lpf = BX_INVALID_TLB_ENTRY ∧
    (INVLPG demo_tlb 0x7000 0x123).2.TLB 5 = demo_tlb.TLB 5 :=
  ⟨(C21_INVLPG demo_tlb_user 0x7000 0x123).1.mpr (by decide),
    (C21_INVLPG demo_tlb_user 0x7000 0x123).2.2.1 (by decide),
    ((C21_INVLPG demo_tlb 0x7000 0x123).2.2.2 (by decide)).1,
    ((C21_INVLPG demo_tlb 0x7000 0x123).2.2.2 (by decide)).2.1,
    ((C21_INVLPG demo_tlb 0x7000 0x123).2.2.2 (by decide)).2.2.2.2.1 5 (by decide)⟩

/-- C22: if `oldCR0` and `newCR0` differ in PG (bit 31), WP (bit 16) or PE
(bit 0), then after `pagingCR0Changed` every TLB slot is invalid, whatever it
held (global entries included); if they agree on the three bits the state, so
the TLB, is left as it was. -/
theorem C22_pagingCR0Changed (s : BX_CPU_C) (oldCR0 newCR0 : Nat) :
    ((oldCR0.testBit 31 ≠ newCR0.testBit 31 ∨ oldCR0.testBit 16 ≠ newCR0.testBit 16 ∨
        oldCR0.testBit 0 ≠ newCR0.testBit 0) →
      ∀ i, i < BX_TLB_SIZE →
        ((pagingCR0Changed s oldCR0 newCR0).TLB i).lpf = BX_INVALID_TLB_ENTRY) ∧
    ((oldCR0.testBit 31 = newCR0.testBit 31 ∧ oldCR0.testBit 16 = newCR0.testBit 16 ∧
        oldCR0.testBit 0 = newCR0.testBit 0) →
      pagingCR0Changed s oldCR0 newCR0 = s) := by
  unfold pagingCR0Changed
  constructor
  · intro h i hi
    have hne : (oldCR0 &&& 0x80010001) ≠ (newCR0 &&& 0x80010001) := by
      intro he
      obtain ⟨h1, h2, h3⟩ := (cr0_mask_eq_iff oldCR0 newCR0).mp he
      rcases h with h | h | h
      · exact h h1
      · exact h h2
      · exact h h3
    rw [if_pos hne]
    exact TLB_flush_all s i hi
  · intro h
    rw [if_neg (not_not.mpr ((cr0_mask_eq_iff oldCR0 newCR0).mpr h))]

/-- C22 on a TLB whose slot 7 holds a global entry: a CR0 write that sets WP
invalidates slot 7; a CR0 write that changes only bit 1 leaves the state. -/
theorem C22_pagingCR0Changed_witness :
    ((pagingCR0Changed demo_tlb 0x80000001 0x80010001).TLB 7).lpf = BX_INVALID_TLB_ENTRY ∧
    pagingCR0Changed demo_tlb 0x80000001 0x80000003 = demo_tlb :=
  ⟨(C22_pagingCR0Changed demo_tlb 0x80000001 0x80010001).1 (by decide) 7 (by decide),
    (C22_pagingCR0Changed demo_tlb 0x80000001 0x80000003).2 (by decide)⟩

/-- C23: if `oldCR4` and `newCR4` differ in PSE (bit 4), PAE (bit 5) or PGE
(bit 7), then after `pagingCR4Changed` every TLB slot is invalid, whatever it
held (global entries included); if they agree on the three bits the state, so
the TLB and `cr3_masked`, is left as it was. -/
theorem C23_pagingCR4Changed (s : BX_CPU_C) (oldCR4 newCR4 : Nat) :
    ((oldCR4.testBit 4 ≠ newCR4.testBit 4 ∨ oldCR4.testBit 5 ≠ newCR4.testBit 5 ∨
        oldCR4.testBit 7 ≠ newCR4.testBit 7) →
      ∀ i, i < BX_TLB_SIZE →
        ((pagingCR4Changed s oldCR4 newCR4).TLB i).lpf = BX_INVALID_TLB_ENTRY) ∧
    ((oldCR4.testBit 4 = newCR4.testBit 4 ∧ oldCR4.testBit 5 = newCR4.testBit 5 ∧
        oldCR4.testBit 7 = newCR4.testBit 7) →
      pagingCR4Changed s oldCR4 newCR4 = s) := by
  unfold pagingCR4Changed
  constructor
  · intro h i hi
    have hne : (oldCR4 &&& 0x000000b0) ≠ (newCR4 &&& 0x000000b0) := by
      intro he
      obtain ⟨h1, h2, h3⟩ := (cr4_mask_eq_iff oldCR4 newCR4).mp he
      rcases h with h | h | h
      · exact h h3
      · exact h h2
      · exact h h1
    rw [if_pos hne]
    have hf := TLB_flush_all s i hi
    dsimp only
    split
    · exact hf
    · exact hf
  · rintro ⟨h4, h5, h7⟩
    rw [if_neg (not_not.mpr ((cr4_mask_eq_iff oldCR4 newCR4).mpr ⟨h7, h5, h4⟩))]
    dsimp only
    rw [if_neg (not_not.mpr ((cr4_pae_eq_iff oldCR4 newCR4).mpr h5))]

/-- C23 on a TLB whose slot 7 holds a global entry: a CR4 write that clears PGE
invalidates slot 7; a CR4 write that changes only bit 6 leaves the state. -/
theorem C23_pagingCR4Changed_witness :
    ((pagingCR4Changed demo_tlb 0x80 0x00).TLB 7).lpf = BX_INVALID_TLB_ENTRY ∧
    pagingCR4Changed demo_tlb 0x80 0xc0 = demo_tlb :=
  ⟨(C23_pagingCR4Changed demo_tlb 0x80 0x00).1 (by decide) 7 (by decide),
    (C23_pagingCR4Changed demo_tlb 0x80 0xc0).2 (by decide)⟩

/-- C24: for every `value`, equal to the current CR3 or not, `CR3_change(value)`
leaves the TLB that `TLB_flush(0)` leaves: a slot is valid afterwards iff it was
valid and global (bit 31 of `accessBits`) before, every slot that stays valid is
unchanged, and no `ppf`, `accessBits` or `hostPageAddr` changes. -/
theorem C24_CR3_change_flushes_non_global (s : BX_CPU_C) (value : Nat) :
    (CR3_change s value).TLB = (TLB_flush s 0).TLB ∧
    (CR3_change s s.cr3).TLB = (TLB_flush s 0).TLB ∧
    (∀ i, i < BX_TLB_SIZE →
      ((((CR3_change s value).TLB i).lpf ≠ BX_INVALID_TLB_ENTRY ↔
        ((s.TLB i).lpf ≠ BX_INVALID_TLB_ENTRY ∧ (s.TLB i).accessBits.testBit 31 = true)) ∧
      ((s.TLB i).lpf ≠ BX_INVALID_TLB_ENTRY → (s.TLB i).accessBits.testBit 31 = false →
        ((CR3_change s value).TLB i).lpf = BX_INVALID_TLB_ENTRY) ∧
      ((s.TLB i).lpf ≠ BX_INVALID_TLB_ENTRY → (s.TLB i).accessBits.testBit 31 = true →
        (CR3_change s value).TLB i = s.TLB i) ∧
      ((CR3_change s value).TLB i).ppf = (s.TLB i).ppf ∧
      ((CR3_change s value).TLB i).accessBits = (s.TLB i).accessBits ∧
      ((CR3_change s value).TLB i).hostPageAddr = (s.TLB i).hostPageAddr)) := by
  have hT : ∀ v, (CR3_change s v).TLB = (TLB_flush s 0).TLB := fun _ => rfl
  refine ⟨hT value, hT s.cr3, ?_⟩
  intro i hi
  rw [hT value]
  have hE : (TLB_flush s 0).TLB i = TLB_flush_entry 0 (s.TLB i) := by
    show TLB_flush_loop 0 BX_TLB_SIZE s.TLB i = _
    rw [TLB_flush_loop_spec, if_pos hi]
  have hG : ((s.TLB i).accessBits &&& TLB_GlobalPage) = 0 ↔
      (s.TLB i).accessBits.testBit 31 = false := and_pow_eq_zero_iff _ 31
  rw [hE]
  unfold TLB_flush_entry
  by_cases hv : (s.TLB i).lpf ≠ BX_INVALID_TLB_ENTRY
  · rw [if_pos hv]
    by_cases hc : (0 : Nat) ≠ 0 ∨ ((s.TLB i).accessBits &&& TLB_GlobalPage) = 0
    · rw [if_pos hc]
      have h31 : (s.TLB i).accessBits.testBit 31 = false := by
        rcases hc with hc | hc
        · exact absurd rfl hc
        · exact hG.mp hc
      refine ⟨⟨fun h => absurd rfl h, fun h => ?_⟩, fun _ _ => rfl, fun _ h => ?_, rfl, rfl, rfl⟩
      · rw [h31] at h
        exact Bool.noConfusion h.2
      · rw [h31] at h
        exact Bool.noConfusion h
    · rw [if_neg hc]
      rw [not_or] at hc
      have h31 : (s.TLB i).accessBits.testBit 31 = true := by
        cases hb : (s.TLB i).accessBits.testBit 31
        · exact absurd (hG.mpr hb) hc.2
        · rfl
      refine ⟨⟨fun _ => ⟨hv, h31⟩, fun _ => hv⟩, fun _ h => ?_, fun _ _ => rfl, rfl, rfl, rfl⟩
      rw [h31] at h
      exact Bool.noConfusion h
  · rw [if_neg hv]
    refine ⟨⟨fun h => absurd h hv, fun h => absurd h.1 hv⟩, fun h => absurd h hv,
      fun h => absurd h hv, rfl, rfl, rfl⟩

/-- C24 on a TLB with a non-global entry in slot 5 and a global entry in slot 7:
writing CR3 with the value it already holds invalidates slot 5 and keeps slot 7. -/
theorem C24_CR3_change_flushes_non_global_witness :
    ((CR3_change demo_tlb demo_tlb.cr3).TLB 5).lpf = BX_INVALID_TLB_ENTRY ∧
    (CR3_change demo_tlb demo_tlb.cr3).TLB 7 = demo_tlb.TLB 7 :=
  ⟨((C24_CR3_change_flushes_non_global demo_tlb demo_tlb.cr3).2.2 5 (by decide)).2.1
      (by decide) (by decide),
    ((C24_CR3_change_flushes_non_global demo_tlb demo_tlb.cr3).2.2 7 (by decide)).2.2.1
      (by decide) (by decide)⟩

/-- C25: after `CR3_change(value)`, `cr3` is `value`; after a `pagingCR4Changed`
call in which the PAE bit toggled, `cr3` is what it was; in both cases
`cr3_masked` is `cr3 & 0xFFFFFFE0` when CR4.PAE = 1 outside long mode and
`cr3 & 0x000FFFFFFFFFF000` otherwise, and the mode flags are as before. -/
theorem C25_cr3_masked (s : BX_CPU_C) (value oldCR4 newCR4 : Nat) :
    ((CR3_change s value).cr3 = value ∧
      (CR3_change s value).cr3_masked =
        (if (CR3_change s value).cr4_PAE = true ∧ (CR3_change s value).long_mode = false then
          (CR3_change s value).cr3 &&& 0xffffffe0
        else (CR3_change s value).cr3 &&& 0x000ffffffffff000) ∧
      (CR3_change s value).cr4_PAE = s.cr4_PAE ∧
      (CR3_change s value).long_mode = s.long_mode) ∧
    (oldCR4.testBit 5 ≠ newCR4.testBit 5 →
      ((pagingCR4Changed s oldCR4 newCR4).cr3 = s.cr3 ∧
        (pagingCR4Changed s oldCR4 newCR4).cr3_masked =
          (if (pagingCR4Changed s oldCR4 newCR4).cr4_PAE = true ∧
              (pagingCR4Changed s oldCR4 newCR4).long_mode = false then
            (pagingCR4Changed s oldCR4 newCR4).cr3 &&& 0xffffffe0
          else (pagingCR4Changed s oldCR4 newCR4).cr3 &&& 0x000ffffffffff000) ∧
        (pagingCR4Changed s oldCR4 newCR4).cr4_PAE = s.cr4_PAE ∧
        (pagingCR4Changed s oldCR4 newCR4).long_mode = s.long_mode)) := by
  constructor
  · exact ⟨rfl, rfl, rfl, rfl⟩
  · intro h
    have h5 : (oldCR4 &&& 0x00000020) ≠ (newCR4 &&& 0x00000020) :=
      fun he => h ((cr4_pae_eq_iff oldCR4 newCR4).mp he)
    have hb : (oldCR4 &&& 0x000000b0) ≠ (newCR4 &&& 0x000000b0) :=
      fun he => h ((cr4_mask_eq_iff oldCR4 newCR4).mp he).2.1
    unfold pagingCR4Changed
    rw [if_pos hb]
    dsimp only
    rw [if_pos h5]
    exact ⟨rfl, rfl, rfl, rfl⟩

/-- C25 on a state with CR4.PAE = 1 outside long mode and CR3 = 0x12345678: after
`CR3_change(0x12345678)` and after a CR4 write that toggled PAE, `cr3_masked` is
0x12345660. -/
theorem C25_cr3_masked_witness :
    (CR3_change demo_tlb_pae 0x12345678).cr3_masked = 0x12345660 ∧
    (pagingCR4Changed demo_tlb_pae 0x00 0x20).cr3_masked = 0x12345660 :=
  ⟨((C25_cr3_masked demo_tlb_pae 0x12345678 0x00 0x20).1.2.1).trans (by decide),
    (((C25_cr3_masked demo_tlb_pae 0x12345678 0x00 0x20).2 (by decide)).2.1).trans (by decide)⟩

/-- C26: in a state whose valid TLB slots hold page-aligned frames (as every fill
leaves them), if `translate_linear(laddr, cpl, rw, t)` with `cpl` in 0..3 returns
`p`, then the same call for any `laddr2` in the same 4K page, made in the state
the first call left, passes the TLB fast test and returns
`(p & ~0xFFF) | (laddr2 & 0xFFF)` in that very state: no memory is read or
written and the TLB is as it was. -/
theorem C26_repeated_translation_hits (s : BX_CPU_C) (laddr laddr2 curr_pl rw : Nat)
    (access_type : AccessType) (p : Nat) (hc : curr_pl ≤ 3)
    (hpage : LPFOf laddr2 = LPFOf laddr) (hinv : TLB_ppf_aligned s)
    (hret : (translate_linear s laddr curr_pl rw access_type).1 = Outcome.ok p) :
    tlb_hit (translate_linear s laddr curr_pl rw access_type).2 laddr2 curr_pl (isWrite_of rw) ∧
    translate_linear (translate_linear s laddr curr_pl rw access_type).2 laddr2 curr_pl rw
        access_type =
      (Outcome.ok ((p - p % 4096) ||| (laddr2 &&& 0xfff)),
        (translate_linear s laddr curr_pl rw access_type).2) ∧
    (translate_linear (translate_linear s laddr curr_pl rw access_type).2 laddr2 curr_pl rw
        access_type).2.mem = (translate_linear s laddr curr_pl rw access_type).2.mem ∧
    (translate_linear (translate_linear s laddr curr_pl rw access_type).2 laddr2 curr_pl rw
        access_type).2.trace = (translate_linear s laddr curr_pl rw access_type).2.trace ∧
    (translate_linear (translate_linear s laddr curr_pl rw access_type).2 laddr2 curr_pl rw
        access_type).2.TLB = (translate_linear s laddr curr_pl rw access_type).2.TLB := by
  have hit2 : tlb_hit (translate_linear s laddr curr_pl rw access_type).2 laddr2 curr_pl
      (isWrite_of rw) :=
    (tlb_hit_same_page _ laddr laddr2 curr_pl _ hpage).mpr
      (translate_linear_then_hit s laddr curr_pl rw access_type hc p hret)
  have hppf : ((translate_linear s laddr curr_pl rw access_type).2.TLB
      (BX_TLB_INDEX_OF (LPFOf laddr) 0)).ppf = p - p % 4096 := by
    by_cases hit : tlb_hit s laddr curr_pl (isWrite_of rw)
    · rw [translate_linear_hit s laddr curr_pl rw access_type hit] at hret ⊢
      injection hret with hp
      have hval : (s.TLB (BX_TLB_INDEX_OF (LPFOf laddr) 0)).lpf ≠ BX_INVALID_TLB_ENTRY := by
        rw [hit.1]
        exact (LPFOf_ne_invalid laddr).symm
      rw [← hp, frame_of_paddress _ _ (hinv _ (TLB_index_lt _ _) hval)]
    · obtain ⟨hv, hp⟩ := translate_linear_ok_valid s laddr curr_pl rw access_type hit p hret
      have hok := translate_linear_ok s laddr curr_pl rw access_type hit hv hp
      rw [hok.1] at hret
      injection hret with hpe
      rw [hok.2.2.2.1, ← hpe, frame_of_paddress _ _ (walk_ppf_aligned s laddr)]
  have heq := translate_linear_hit _ laddr2 curr_pl rw access_type hit2
  rw [hpage, hppf] at heq
  rw [heq]
  exact ⟨hit2, rfl, rfl, rfl, rfl⟩

/-- C26 on the two-level tables of `demo_legacy`: the CPL 0 read of 0x123 walks and
returns 0x34123; the read of 0x456 that follows returns 0x34456 and leaves the
state, so the trace of memory accesses, as the first call left it. -/
theorem C26_repeated_translation_hits_witness :
    (translate_linear demo_legacy 0x123 0 BX_READ AccessType.DATA_ACCESS).1 =
      Outcome.ok 0x34123 ∧
    translate_linear (translate_linear demo_legacy 0x123 0 BX_READ AccessType.DATA_ACCESS).2
        0x456 0 BX_READ AccessType.DATA_ACCESS =
      (Outcome.ok 0x34456,
        (translate_linear demo_legacy 0x123 0 BX_READ AccessType.DATA_ACCESS).2) :=
  ⟨by decide,
    (C26_repeated_translation_hits demo_legacy 0x123 0x456 0 BX_READ AccessType.DATA_ACCESS
      0x34123 (by decide) (by decide) (fun _ _ h => absurd rfl h) (by decide)).2.1⟩

/-- C27: the `accessBits` that the fill of `translate_linear` stores, whatever the
walk computed, and the `accessBits` of the flat entries that `access_linear`
installs with paging off, have bit `n + 8` set whenever bit `n` is set, for `n`
in 0..7; hence so does every valid TLB entry in every state reached from
`TLB_init` through the functions of `paging.cc`. -/
theorem C27_accessBits_invariant :
    (∀ (st : BX_CPU_C) (laddr ppf ca rw w : Nat) (t : AccessType) (n : Nat), n < 8 →
      ((tlb_fill st laddr ppf ca rw w t).2.TLB
        (BX_TLB_INDEX_OF (LPFOf laddr) 0)).accessBits.testBit n = true →
      ((tlb_fill st laddr ppf ca rw w t).2.TLB
        (BX_TLB_INDEX_OF (LPFOf laddr) 0)).accessBits.testBit (n + 8) = true) ∧
    (∀ (s : BX_CPU_C) (laddr n : Nat), n < 8 →
      ((flat_entry_read s laddr).accessBits.testBit n = true →
        (flat_entry_read s laddr).accessBits.testBit (n + 8) = true) ∧
      ((flat_entry_write s laddr).accessBits.testBit n = true →
        (flat_entry_write s laddr).accessBits.testBit (n + 8) = true)) ∧
    (∀ (s : BX_CPU_C), Reachable s → ∀ (i : Nat), i < BX_TLB_SIZE →
      (s.TLB i).lpf ≠ BX_INVALID_TLB_ENTRY → ∀ (n : Nat), n < 8 →
        (s.TLB i).accessBits.testBit n = true → (s.TLB i).accessBits.testBit (n + 8) = true) := by
  refine ⟨?_, ?_, ?_⟩
  · intro st laddr ppf ca rw w t n hn
    rw [tlb_fill_TLB, Function.update_same]
    exact fill_accessBits_ok _ _ _ n hn
  · intro s laddr n hn
    exact ⟨(flat_entry_read_ok s laddr).1 n hn, (flat_entry_write_ok s laddr).1 n hn⟩
  · intro s hs i hi hv
    exact (Reachable_TLB_ok s hs i hi hv).1

/-- C27 on the entry that the CPL 0 read of 0x123 installs after `TLB_init`, the
memory collaborator granting a host pointer: its `accessBits` are 0x0707, bit 1
and bit 9 are both set. -/
theorem C27_accessBits_invariant_witness :
    ((translate_linear (TLB_init demo_legacy_host) 0x123 0 BX_READ
      AccessType.DATA_ACCESS).2.TLB 0).accessBits = 0x0707 ∧
    ((translate_linear (TLB_init demo_legacy_host) 0x123 0 BX_READ
      AccessType.DATA_ACCESS).2.TLB 0).accessBits.testBit (1 + 8) = true :=
  ⟨by decide,
    C27_accessBits_invariant.2.2 _
      (Reachable.translate (TLB_init demo_legacy_host) 0x123 0 BX_READ AccessType.DATA_ACCESS
        (Reachable.init demo_legacy_host)) 0 (by decide) (by decide) 1 (by decide) (by decide)⟩

/-- C28: with paging on, in an access that crosses a page boundary
(`(laddr & 0xFFF) + len > 4096`, the sum fitting 32 bits) whose first translation
returns and whose second translation, of `laddr + 4096 - (laddr & 0xFFF)`, raises
an exception: `access_linear` ends in that exception, which is `#PF`; the
caller's buffer is unchanged; the CPU state, so guest memory and the trace of
the memory collaborator, is the one the two translations left, no data byte
having been read or written; and CR2 is the address of the second page, a
multiple of 4096. -/
theorem C28_fault_on_second_page (a : access_state) (laddr len curr_pl rw p1 v ec : Nat)
    (hpg : a.cpu.cr0_PG = true) (hov : PAGE_OFFSET laddr + len < 2 ^ 32)
    (hcross : PAGE_OFFSET laddr + len > 4096)
    (h1 : (translate_linear a.cpu laddr curr_pl rw AccessType.DATA_ACCESS).1 = Outcome.ok p1)
    (h2 : (translate_linear (translate_linear a.cpu laddr curr_pl rw AccessType.DATA_ACCESS).2
        ((laddr + (4096 - PAGE_OFFSET laddr)) % 2 ^ 64) curr_pl rw AccessType.DATA_ACCESS).1 =
      Outcome.exception v ec) :
    (access_linear a laddr len curr_pl rw).1 = Outcome.exception v ec ∧
    v = BX_PF_EXCEPTION ∧
    (access_linear a laddr len curr_pl rw).2.data = a.data ∧
    (access_linear a laddr len curr_pl rw).2.cpu =
      (translate_linear (translate_linear a.cpu laddr curr_pl rw AccessType.DATA_ACCESS).2
        ((laddr + (4096 - PAGE_OFFSET laddr)) % 2 ^ 64) curr_pl rw AccessType.DATA_ACCESS).2 ∧
    (access_linear a laddr len curr_pl rw).2.xlations =
      a.xlations ++ [(laddr, curr_pl, rw),
        ((laddr + (4096 - PAGE_OFFSET laddr)) % 2 ^ 64, curr_pl, rw)] ∧
    (access_linear a laddr len curr_pl rw).2.cpu.cr2 =
      (laddr + (4096 - PAGE_OFFSET laddr)) % 2 ^ 64 ∧
    (access_linear a laddr len curr_pl rw).2.cpu.cr2 % 4096 = 0 ∧
    (LPFOf laddr + 4096 < 2 ^ 64 →
      (access_linear a laddr len curr_pl rw).2.cpu.cr2 = LPFOf laddr + 4096) := by
  have hF := FaultOK_translate_linear
    (translate_linear a.cpu laddr curr_pl rw AccessType.DATA_ACCESS).2
    ((laddr + (4096 - PAGE_OFFSET laddr)) % 2 ^ 64) curr_pl rw AccessType.DATA_ACCESS v ec h2
  rw [access_linear_cross a laddr len curr_pl rw hpg hov hcross,
    access_paged_cross_fault a laddr len curr_pl _ rw _ p1 v ec h1 h2]
  refine ⟨rfl, hF.1, rfl, rfl, ?_, hF.2.1, ?_, ?_⟩
  · simp
  · show (translate_linear _ _ _ _ _).2.cr2 % 4096 = 0
    rw [hF.2.1]
    exact second_page_aligned laddr
  · intro hlt
    show (translate_linear _ _ _ _ _).2.cr2 = _
    rw [hF.2.1, second_page_eq, Nat.mod_eq_of_lt hlt]

/-- C28 on scenario 6 of the spec (here the PTE of the second page has P = 0): an
8-byte read at linear 0x0FFC ends in `#PF`, the buffer is as the caller left it
and CR2 is 0x1000. -/
theorem C28_fault_on_second_page_witness :
    (access_linear (demo_access (demo_two_pages 0)) 0xffc 8 0 BX_READ).1 =
      Outcome.exception BX_PF_EXCEPTION 0 ∧
    (access_linear (demo_access (demo_two_pages 0)) 0xffc 8 0 BX_READ).2.data = demo_buffer ∧
    (access_linear (demo_access (demo_two_pages 0)) 0xffc 8 0 BX_READ).2.cpu.cr2 = 0x1000 := by
  have h := C28_fault_on_second_page (demo_access (demo_two_pages 0)) 0xffc 8 0 BX_READ
    0x34ffc BX_PF_EXCEPTION 0 (by decide) (by decide) (by decide) (by decide) (by decide)
  exact ⟨h.1, h.2.2.1, h.2.2.2.2.2.1.trans (by decide)⟩

/-- C29: with paging on, in an access that crosses a page boundary (`off + len >
4096` for `off = laddr & 0xFFF`, the sum fitting 32 bits) whose two translations
return `p1` and `p2`: exactly two translations are made, of `laddr` and then of
`laddr + len1`, with `len1 = 4096 - off` and `len2 = len - len1` both positive
and of sum `len`; for a read (or read-modify-write) the memory collaborator is
asked for `len1` bytes at `p1` and then `len2` bytes at `p2`, and buffer byte `k`
is the byte at `p1 + k` for `k < len1` and buffer byte `len1 + k` the byte at
`p2 + k` for `k < len2`; for a write the buffer bytes `[0, len1)` are stored at
`p1` and then the bytes `[len1, len)` at `p2`. -/
theorem C29_cross_page_split (a : access_state) (laddr len curr_pl rw p1 p2 : Nat)
    (hpg : a.cpu.cr0_PG = true) (hov : PAGE_OFFSET laddr + len < 2 ^ 32)
    (hcross : PAGE_OFFSET laddr + len > 4096)
    (h1 : (translate_linear a.cpu laddr curr_pl rw AccessType.DATA_ACCESS).1 = Outcome.ok p1)
    (h2 : (translate_linear (translate_linear a.cpu laddr curr_pl rw AccessType.DATA_ACCESS).2
        ((laddr + (4096 - PAGE_OFFSET laddr)) % 2 ^ 64) curr_pl rw AccessType.DATA_ACCESS).1 =
      Outcome.ok p2) :
    (access_linear a laddr len curr_pl rw).1 = Outcome.ok () ∧
    (access_linear a laddr len curr_pl rw).2.xlations =
      a.xlations ++ [(laddr, curr_pl, rw),
        ((laddr + (4096 - PAGE_OFFSET laddr)) % 2 ^ 64, curr_pl, rw)] ∧
    (access_linear a laddr len curr_pl rw).2.address_xlation =
      ⟨p1, p2, 4096 - PAGE_OFFSET laddr, len - (4096 - PAGE_OFFSET laddr), 2⟩ ∧
    (4096 - PAGE_OFFSET laddr) + (len - (4096 - PAGE_OFFSET laddr)) = len ∧
    0 < 4096 - PAGE_OFFSET laddr ∧ 0 < len - (4096 - PAGE_OFFSET laddr) ∧
    ((rw = BX_READ ∨ rw = BX_RW) →
      (access_linear a laddr len curr_pl rw).2.cpu.trace =
        (translate_linear (translate_linear a.cpu laddr curr_pl rw AccessType.DATA_ACCESS).2
          ((laddr + (4096 - PAGE_OFFSET laddr)) % 2 ^ 64) curr_pl rw
          AccessType.DATA_ACCESS).2.trace ++
          [MemOp.read p1 (4096 - PAGE_OFFSET laddr),
            MemOp.read p2 (len - (4096 - PAGE_OFFSET laddr))] ∧
      (access_linear a laddr len curr_pl rw).2.cpu.mem =
        (translate_linear (translate_linear a.cpu laddr curr_pl rw AccessType.DATA_ACCESS).2
          ((laddr + (4096 - PAGE_OFFSET laddr)) % 2 ^ 64) curr_pl rw
          AccessType.DATA_ACCESS).2.mem ∧
      (∀ k, k < 4096 - PAGE_OFFSET laddr →
        (access_linear a laddr len curr_pl rw).2.data k =
          (access_linear a laddr len curr_pl rw).2.cpu.mem (p1 + k)) ∧
      (∀ k, k < len - (4096 - PAGE_OFFSET laddr) →
        (access_linear a laddr len curr_pl rw).2.data (4096 - PAGE_OFFSET laddr + k) =
          (access_linear a laddr len curr_pl rw).2.cpu.mem (p2 + k)) ∧
      (∀ k, len ≤ k → (access_linear a laddr len curr_pl rw).2.data k = a.data k)) ∧
    ((rw ≠ BX_READ ∧ rw ≠ BX_RW) →
      (access_linear a laddr len curr_pl rw).2.data = a.data ∧
      (access_linear a laddr len curr_pl rw).2.cpu.trace =
        (translate_linear (translate_linear a.cpu laddr curr_pl rw AccessType.DATA_ACCESS).2
          ((laddr + (4096 - PAGE_OFFSET laddr)) % 2 ^ 64) curr_pl rw
          AccessType.DATA_ACCESS).2.trace ++
          [MemOp.write p1 (4096 - PAGE_OFFSET laddr)
              (readLE a.data 0 (4096 - PAGE_OFFSET laddr)),
            MemOp.write p2 (len - (4096 - PAGE_OFFSET laddr))
              (readLE a.data (4096 - PAGE_OFFSET laddr) (len - (4096 - PAGE_OFFSET laddr)))] ∧
      (∀ k, k < len - (4096 - PAGE_OFFSET laddr) →
        (access_linear a laddr len curr_pl rw).2.cpu.mem (p2 + k) =
          a.data (4096 - PAGE_OFFSET laddr + k)) ∧
      (∀ k, k < 4096 - PAGE_OFFSET laddr →
        (p1 + k < p2 ∨ p2 + (len - (4096 - PAGE_OFFSET laddr)) ≤ p1 + k) →
        (access_linear a laddr len curr_pl rw).2.cpu.mem (p1 + k) = a.data k)) := by
  have hoff : PAGE_OFFSET laddr < 4096 := by
    rw [PAGE_OFFSET_eq]
    exact Nat.mod_lt _ (by decide)
  rw [access_linear_cross a laddr len curr_pl rw hpg hov hcross,
    access_paged_cross_ok a laddr len curr_pl _ rw _ p1 p2 h1 h2]
  have hrd : (rw = BX_READ ∨ rw = BX_RW) → (if rw = BX_RW then BX_READ else rw) = BX_READ := by
    intro hr
    rcases hr with hr | hr
    · rw [hr]
      rfl
    · rw [if_pos hr]
  have hwr : (rw ≠ BX_READ ∧ rw ≠ BX_RW) → ¬ (if rw = BX_RW then BX_READ else rw) = BX_READ := by
    rintro ⟨hr1, hr2⟩
    rw [if_neg hr2]
    exact hr1
  by_cases hc : (if rw = BX_RW then BX_READ else rw) = BX_READ
  · rw [if_pos hc]
    refine ⟨rfl, ?_, rfl, by omega, by omega, by omega, ?_, ?_⟩
    · simp [read_to_buffer]
    · intro _
      refine ⟨?_, rfl, ?_, ?_, ?_⟩
      · simp [read_to_buffer, readPhysicalPage]
      · intro k hk
        show writeLE (writeLE a.data 0 _ _) _ _ _ k = _
        rw [writeLE_outside _ _ _ _ _ (Or.inl hk)]
        have := copy_byte (translate_linear (translate_linear a.cpu laddr curr_pl rw
          AccessType.DATA_ACCESS).2 ((laddr + (4096 - PAGE_OFFSET laddr)) % 2 ^ 64) curr_pl rw
          AccessType.DATA_ACCESS).2.mem a.data p1 0 (4096 - PAGE_OFFSET laddr) k hk
        rw [Nat.zero_add] at this
        exact this
      · intro k hk
        exact copy_byte _ _ p2 (4096 - PAGE_OFFSET laddr) _ k hk
      · intro k hk
        show writeLE (writeLE a.data 0 _ _) _ _ _ k = _
        rw [writeLE_outside _ _ _ _ _ (Or.inr (by omega)),
          writeLE_outside _ _ _ _ _ (Or.inr (by omega))]
    · intro hw
      exact absurd hc (hwr hw)
  · rw [if_neg hc]
    refine ⟨rfl, ?_, rfl, by omega, by omega, by omega, ?_, ?_⟩
    · simp [write_from_buffer]
    · intro hr
      exact absurd (hrd hr) hc
    · intro _
      refine ⟨rfl, ?_, ?_, ?_⟩
      · simp [write_from_buffer, writePhysicalPage]
      · intro k hk
        exact copy_byte a.data _ (4096 - PAGE_OFFSET laddr) p2 _ k hk
      · intro k hk hd
        show writeLE (writeLE _ p1 _ _) p2 _ _ (p1 + k) = _
        rw [writeLE_outside _ _ _ _ _ hd]
        have := copy_byte a.data (translate_linear (translate_linear a.cpu laddr curr_pl rw
          AccessType.DATA_ACCESS).2 ((laddr + (4096 - PAGE_OFFSET laddr)) % 2 ^ 64) curr_pl rw
          AccessType.DATA_ACCESS).2.mem 0 p1 (4096 - PAGE_OFFSET laddr) k hk
        rw [Nat.zero_add] at this
        exact this

/-- C29 on an 8-byte CPL 0 read at linear 0x0FFC over two mapped pages: the
translations are of 0xFFC and of 0x1000, four bytes come from 0x34FFC and four
from 0x56000, and they fill the buffer in that order. -/
theorem C29_cross_page_split_witness :
    (access_linear (demo_access (demo_two_pages 0x56003)) 0xffc 8 0 BX_READ).1 = Outcome.ok () ∧
    (access_linear (demo_access (demo_two_pages 0x56003)) 0xffc 8 0 BX_READ).2.xlations =
      [(0xffc, 0, BX_READ), (0x1000, 0, BX_READ)] ∧
    (access_linear (demo_access (demo_two_pages 0x56003)) 0xffc 8 0 BX_READ).2.address_xlation =
      ⟨0x34ffc, 0x56000, 4, 4, 2⟩ ∧
    (access_linear (demo_access (demo_two_pages 0x56003)) 0xffc 8 0 BX_READ).2.data 0 = 0x11 ∧
    (access_linear (demo_access (demo_two_pages 0x56003)) 0xffc 8 0 BX_READ).2.data 3 = 0x44 ∧
    (access_linear (demo_access (demo_two_pages 0x56003)) 0xffc 8 0 BX_READ).2.data 4 = 0x55 := by
  have h := C29_cross_page_split (demo_access (demo_two_pages 0x56003)) 0xffc 8 0 BX_READ
    0x34ffc 0x56000 (by decide) (by decide) (by decide) (by decide) (by decide)
  obtain ⟨h1, h2, h3, _, _, _, hr, _⟩ := h
  obtain ⟨_, _, hb1, hb2, _⟩ := hr (Or.inl rfl)
  exact ⟨h1, h2.trans (by decide), h3.trans (by decide), (hb1 0 (by decide)).trans (by decide),
    (hb1 3 (by decide)).trans (by decide), (hb2 0 (by decide)).trans (by decide)⟩

/-- C30: with CR0.PG = 0, `access_linear` always returns: no translation is made
(so no page-table entry is read), CR2 is untouched, and the memory collaborator
receives the data transfers only: one of `len` bytes at `laddr` when
`(laddr & 0xFFF) + len <= 4096`, otherwise one of `4096 - (laddr & 0xFFF)` bytes at
`laddr` followed by one of the remaining bytes at `laddr` plus that length, to
the buffer for a read or read-modify-write and from it for a write.  The
addresses are the linear ones cast to `bx_phy_address`, the identity below 2^32.
No TLB slot changes except that of `laddr`, which is kept or receives a flat
entry whose `ppf` is its `lpf`. -/
theorem C30_paging_off_identity (a : access_state) (laddr len curr_pl rw : Nat)
    (hpg : a.cpu.cr0_PG = false) :
    (access_linear a laddr len curr_pl rw).1 = Outcome.ok () ∧
    (access_linear a laddr len curr_pl rw).2.xlations = a.xlations ∧
    (access_linear a laddr len curr_pl rw).2.cpu.cr2 = a.cpu.cr2 ∧
    (∀ i, i ≠ BX_TLB_INDEX_OF laddr 0 →
      (access_linear a laddr len curr_pl rw).2.cpu.TLB i = a.cpu.TLB i) ∧
    ((access_linear a laddr len curr_pl rw).2.cpu.TLB (BX_TLB_INDEX_OF laddr 0) =
        a.cpu.TLB (BX_TLB_INDEX_OF laddr 0) ∨
      (((access_linear a laddr len curr_pl rw).2.cpu.TLB (BX_TLB_INDEX_OF laddr 0)).lpf =
          LPFOf laddr ∧
        ((access_linear a laddr len curr_pl rw).2.cpu.TLB (BX_TLB_INDEX_OF laddr 0)).ppf =
          bx_phy_address_of (LPFOf laddr))) ∧
    (laddr < 2 ^ 32 →
      bx_phy_address_of laddr = laddr ∧ bx_phy_address_of (LPFOf laddr) = LPFOf laddr) ∧
    (laddr + (4096 - PAGE_OFFSET laddr) < 2 ^ 32 →
      bx_phy_address_of ((laddr + (4096 - PAGE_OFFSET laddr)) % 2 ^ 64) =
        laddr + (4096 - PAGE_OFFSET laddr)) ∧
    ((PAGE_OFFSET laddr + len) % 2 ^ 32 ≤ 4096 →
      ((rw = BX_READ ∨ rw = BX_RW) →
        (access_linear a laddr len curr_pl rw).2.cpu.trace =
          a.cpu.trace ++ [MemOp.read (bx_phy_address_of laddr) len] ∧
        (access_linear a laddr len curr_pl rw).2.cpu.mem = a.cpu.mem ∧
        (∀ k, k < len → (access_linear a laddr len curr_pl rw).2.data k =
          a.cpu.mem (bx_phy_address_of laddr + k)) ∧
        (∀ k, len ≤ k → (access_linear a laddr len curr_pl rw).2.data k = a.data k)) ∧
      ((rw ≠ BX_READ ∧ rw ≠ BX_RW) →
        (access_linear a laddr len curr_pl rw).2.cpu.trace =
          a.cpu.trace ++ [MemOp.write (bx_phy_address_of laddr) len (readLE a.data 0 len)] ∧
        (access_linear a laddr len curr_pl rw).2.data = a.data ∧
        (∀ k, k < len → (access_linear a laddr len curr_pl rw).2.cpu.mem
          (bx_phy_address_of laddr + k) = a.data k) ∧
        (∀ x, (x < bx_phy_address_of laddr ∨ bx_phy_address_of laddr + len ≤ x) →
          (access_linear a laddr len curr_pl rw).2.cpu.mem x = a.cpu.mem x))) ∧
    (¬ (PAGE_OFFSET laddr + len) % 2 ^ 32 ≤ 4096 →
      ((rw = BX_READ ∨ rw = BX_RW) →
        (access_linear a laddr len curr_pl rw).2.cpu.trace =
          a.cpu.trace ++ [MemOp.read (bx_phy_address_of laddr) (4096 - PAGE_OFFSET laddr),
            MemOp.read (bx_phy_address_of ((laddr + (4096 - PAGE_OFFSET laddr)) % 2 ^ 64))
              (len - (4096 - PAGE_OFFSET laddr))] ∧
        (access_linear a laddr len curr_pl rw).2.cpu.mem = a.cpu.mem ∧
        (∀ k, k < 4096 - PAGE_OFFSET laddr →
          (access_linear a laddr len curr_pl rw).2.data k =
            a.cpu.mem (bx_phy_address_of laddr + k)) ∧
        (∀ k, k < len - (4096 - PAGE_OFFSET laddr) →
          (access_linear a laddr len curr_pl rw).2.data (4096 - PAGE_OFFSET laddr + k) =
            a.cpu.mem (bx_phy_address_of ((laddr + (4096 - PAGE_OFFSET laddr)) % 2 ^ 64) + k))) ∧
      ((rw ≠ BX_READ ∧ rw ≠ BX_RW) →
        (access_linear a laddr len curr_pl rw).2.cpu.trace =
          a.cpu.trace ++ [MemOp.write (bx_phy_address_of laddr) (4096 - PAGE_OFFSET laddr)
              (readLE a.data 0 (4096 - PAGE_OFFSET laddr)),
            MemOp.write (bx_phy_address_of ((laddr + (4096 - PAGE_OFFSET laddr)) % 2 ^ 64))
              (len - (4096 - PAGE_OFFSET laddr))
              (readLE a.data (4096 - PAGE_OFFSET laddr) (len - (4096 - PAGE_OFFSET laddr)))] ∧
        (access_linear a laddr len curr_pl rw).2.data = a.data ∧
        (∀ k, k < len - (4096 - PAGE_OFFSET laddr) →
          (access_linear a laddr len curr_pl rw).2.cpu.mem
            (bx_phy_address_of ((laddr + (4096 - PAGE_OFFSET laddr)) % 2 ^ 64) + k) =
              a.data (4096 - PAGE_OFFSET laddr + k)))) := by
  have hid : laddr < 2 ^ 32 →
      bx_phy_address_of laddr = laddr ∧ bx_phy_address_of (LPFOf laddr) = LPFOf laddr :=
    fun h => ⟨bx_phy_address_of_id _ h,
      bx_phy_address_of_id _ (Nat.lt_of_le_of_lt (LPFOf_le laddr) h)⟩
  have hid2 : laddr + (4096 - PAGE_OFFSET laddr) < 2 ^ 32 →
      bx_phy_address_of ((laddr + (4096 - PAGE_OFFSET laddr)) % 2 ^ 64) =
        laddr + (4096 - PAGE_OFFSET laddr) := by
    intro h
    rw [Nat.mod_eq_of_lt (Nat.lt_trans h (by decide)), bx_phy_address_of_id _ h]
  rw [access_linear_flat a laddr len curr_pl rw hpg]
  by_cases hl : (PAGE_OFFSET laddr + len) % 2 ^ 32 ≤ 4096
  · rw [if_pos hl]
    obtain ⟨f1, f2, f3, f4, f5, fr, fw⟩ :=
      access_flat_single_facts a laddr len (if rw = BX_RW then BX_READ else rw)
    refine ⟨f1, f2, f3, f4, f5, hid, hid2, fun _ => ⟨fun hr => ?_, fun hw => ?_⟩,
      fun h => absurd hl h⟩
    · obtain ⟨g1, g2, g3⟩ := fr (local_rw_read rw hr)
      refine ⟨g1, g2, ?_, ?_⟩
      · intro k hk
        rw [g3]
        have := copy_byte a.cpu.mem a.data (bx_phy_address_of laddr) 0 len k hk
        rw [Nat.zero_add] at this
        exact this
      · intro k hk
        rw [g3, writeLE_outside _ _ _ _ _ (Or.inr (by omega))]
    · obtain ⟨g1, g2, g3⟩ := fw (local_rw_write rw hw)
      refine ⟨g1, g3, ?_, ?_⟩
      · intro k hk
        rw [g2]
        have := copy_byte a.data a.cpu.mem 0 (bx_phy_address_of laddr) len k hk
        rw [Nat.zero_add] at this
        exact this
      · intro x hx
        rw [g2, writeLE_outside _ _ _ _ _ hx]
  · rw [if_neg hl]
    obtain ⟨f1, f2, f3, f4, fr, fw⟩ :=
      access_flat_cross_facts a laddr len (if rw = BX_RW then BX_READ else rw)
        (PAGE_OFFSET laddr)
    refine ⟨f1, f2, f3, fun i _ => by rw [f4], Or.inl (by rw [f4]), hid, hid2,
      fun h => absurd h hl, fun _ => ⟨fun hr => ?_, fun hw => ?_⟩⟩
    · obtain ⟨g1, g2, g3⟩ := fr (local_rw_read rw hr)
      have hb := read2_bytes a.cpu.mem a.data (bx_phy_address_of laddr)
        (bx_phy_address_of ((laddr + (4096 - PAGE_OFFSET laddr)) % 2 ^ 64))
        (4096 - PAGE_OFFSET laddr) (len - (4096 - PAGE_OFFSET laddr))
      rw [← g3] at hb
      exact ⟨g1, g2, hb.1, hb.2.1⟩
    · obtain ⟨g1, g2, g3⟩ := fw (local_rw_write rw hw)
      have hb := write2_bytes a.cpu.mem a.data (bx_phy_address_of laddr)
        (bx_phy_address_of ((laddr + (4096 - PAGE_OFFSET laddr)) % 2 ^ 64))
        (4096 - PAGE_OFFSET laddr) (len - (4096 - PAGE_OFFSET laddr))
      rw [← g2] at hb
      exact ⟨g1, g3, hb.1⟩

/-- C30 on scenario 1 of the spec: with paging off a 4-byte read at linear 0x1234
is one read of 4 bytes at physical 0x1234, no translation is made, buffer byte 0
is the byte at 0x1234, and the flat entry installed in slot 1 has `ppf = lpf =
0x1000`. -/
theorem C30_paging_off_identity_witness :
    (access_linear (demo_access demo_flat) 0x1234 4 3 BX_READ).1 = Outcome.ok () ∧
    (access_linear (demo_access demo_flat) 0x1234 4 3 BX_READ).2.xlations = [] ∧
    (access_linear (demo_access demo_flat) 0x1234 4 3 BX_READ).2.cpu.trace =
      [MemOp.read 0x1234 4] ∧
    (access_linear (demo_access demo_flat) 0x1234 4 3 BX_READ).2.data 0 =
      demo_flat.mem 0x1234 ∧
    ((access_linear (demo_access demo_flat) 0x1234 4 3 BX_READ).2.cpu.TLB 1).lpf = 0x1000 ∧
    ((access_linear (demo_access demo_flat) 0x1234 4 3 BX_READ).2.cpu.TLB 1).ppf = 0x1000 := by
  have h := C30_paging_off_identity (demo_access demo_flat) 0x1234 4 3 BX_READ (by decide)
  obtain ⟨h1, h2, _, _, _, _, _, hs, _⟩ := h
  obtain ⟨g1, _, g3, _⟩ := (hs (by decide)).1 (Or.inl rfl)
  exact ⟨h1, h2, g1.trans (by decide), (g3 0 (by decide)).trans (by decide), by decide,
    by decide⟩

/-- C32: for every state and every `laddr`, `dbg_xlate_linear2phy` (whose body
calls neither `exception` nor `page_fault`, and which returns in every case)
leaves a state that differs from the one it started in by reads appended to the
trace of the memory collaborator only: CR2, every TLB slot and all of guest
memory, so every A and D bit, are unchanged.  It returns 1, or it returns 0 with
`*phy = 0`.  With CR0.PG = 0 it returns 1 with `*phy = (bx_phy_address) laddr`,
which is `laddr` below 2^32, and asks the memory collaborator for nothing. -/
theorem C32_dbg_xlate_linear2phy_frame (s : BX_CPU_C) (laddr : Nat) :
    (dbg_xlate_linear2phy s laddr).2.cr2 = s.cr2 ∧
    (dbg_xlate_linear2phy s laddr).2.TLB = s.TLB ∧
    (dbg_xlate_linear2phy s laddr).2.mem = s.mem ∧
    (∃ l : List (Nat × Nat),
      (dbg_xlate_linear2phy s laddr).2 =
        { s with trace := s.trace ++ l.map (fun p => MemOp.read p.1 p.2) }) ∧
    ((dbg_xlate_linear2phy s laddr).1.1 = 1 ∨ (dbg_xlate_linear2phy s laddr).1 = (0, 0)) ∧
    (s.cr0_PG = false → dbg_xlate_linear2phy s laddr = ((1, laddr % 2 ^ 32), s)) ∧
    (s.cr0_PG = false → laddr < 2 ^ 32 → (dbg_xlate_linear2phy s laddr).1 = (1, laddr)) := by
  have h := dbg_xlate_linear2phy_reads s laddr
  have hpg : s.cr0_PG = false → dbg_xlate_linear2phy s laddr = ((1, laddr % 2 ^ 32), s) := by
    intro hp
    unfold dbg_xlate_linear2phy
    rw [if_pos hp]
    rfl
  refine ⟨?_, ?_, ?_, h, dbg_xlate_linear2phy_result s laddr, hpg, ?_⟩
  · obtain ⟨l, hl⟩ := h
    rw [hl]
  · obtain ⟨l, hl⟩ := h
    rw [hl]
  · obtain ⟨l, hl⟩ := h
    rw [hl]
  · intro hp hlt
    rw [hpg hp, Nat.mod_eq_of_lt hlt]

/-- C32 on three states.  With paging off (`demo_flat`) the result for 0x1234 is
`(1, 0x1234)`.  On `demo_legacy_with false false 0x2003 0x34003`, whose PDE and
PTE have A clear, the result for 0x123 is `(1, 0x34123)` after reads of the PDE
and of the PTE, and the PTE in guest memory still has A clear.  With a PDE that
is not present the result is `(0, 0)`. -/
theorem C32_dbg_xlate_linear2phy_frame_witness :
    (dbg_xlate_linear2phy demo_flat 0x1234).1 = (1, 0x1234) ∧
    (dbg_xlate_linear2phy (demo_legacy_with false false 0x2003 0x34003) 0x123).1 =
      (1, 0x34123) ∧
    (dbg_xlate_linear2phy (demo_legacy_with false false 0x2003 0x34003) 0x123).2.trace =
      [MemOp.read 0x1000 4, MemOp.read 0x2000 4] ∧
    (readLE (dbg_xlate_linear2phy (demo_legacy_with false false 0x2003 0x34003) 0x123).2.mem
      0x2000 4).testBit 5 = false ∧
    (dbg_xlate_linear2phy (demo_legacy_with false false 0x2003 0x34003) 0x123).2.cr2 = 0x77 ∧
    (dbg_xlate_linear2phy (demo_legacy_with false false 0x2002 0) 0x123).1 = (0, 0) := by
  have h := C32_dbg_xlate_linear2phy_frame demo_flat 0x1234
  have g := C32_dbg_xlate_linear2phy_frame (demo_legacy_with false false 0x2003 0x34003) 0x123
  refine ⟨h.2.2.2.2.2.2 rfl (by decide), by decide, by decide, ?_, g.1.trans rfl, by decide⟩
  rw [g.2.2.1]
  decide

/-- C33, evaluated: non-PAE with CR0.PG = 1 and CR4.PSE = 0, an empty TLB, the PDE
of linear address 0x123456 being 0x2087 (present, PS = 1) and the PTE at 0x248C
being 0x34007.  `translate_linear` reads the PTE and returns 0x34456;
`dbg_xlate_linear2phy` on the same state takes the PDE for a 4M page, makes one
read only, and returns 1 with `*phy = 0x2000 + 0x123456 = 0x125456`.  With
CR4.PSE = 1 and the 4M PDE 0x00C02087 (bit 13 set) `translate_linear` returns
0x00D23456 and `dbg_xlate_linear2phy` 0x00D25456.  On the 4K mapping of
`demo_legacy` the two agree on 0x34123. -/
theorem C33_dbg_walker_ignores_CR4_PSE :
    ({ demo_legacy_with false false 0x2087 0 with
        mem := writeLE (demo_legacy_with false false 0x2087 0).mem 0x248c 4 0x34007 } :
      BX_CPU_C).cr0_PG = true ∧
    (translate_linear
      { demo_legacy_with false false 0x2087 0 with
        mem := writeLE (demo_legacy_with false false 0x2087 0).mem 0x248c 4 0x34007 }
      0x123456 3 BX_READ AccessType.DATA_ACCESS).1 = Outcome.ok 0x34456 ∧
    (dbg_xlate_linear2phy
      { demo_legacy_with false false 0x2087 0 with
        mem := writeLE (demo_legacy_with false false 0x2087 0).mem 0x248c 4 0x34007 }
      0x123456).1 = (1, 0x125456) ∧
    (dbg_xlate_linear2phy
      { demo_legacy_with false false 0x2087 0 with
        mem := writeLE (demo_legacy_with false false 0x2087 0).mem 0x248c 4 0x34007 }
      0x123456).2.trace = [MemOp.read 0x1000 4] ∧
    (translate_linear (demo_legacy_with false true 0x00C02087 0) 0x123456 3 BX_READ
      AccessType.DATA_ACCESS).1 = Outcome.ok 0x00D23456 ∧
    (dbg_xlate_linear2phy (demo_legacy_with false true 0x00C02087 0) 0x123456).1 =
      (1, 0x00D25456) ∧
    (translate_linear demo_legacy 0x123 0 BX_READ AccessType.DATA_ACCESS).1 =
      Outcome.ok 0x34123 ∧
    (dbg_xlate_linear2phy demo_legacy 0x123).1 = (1, 0x34123) := by
  decide

/-- C34: for the TLB entry that a successful walk of `translate_linear` installs
in a state with CR0.WP = `wp`, the walk having combined the U/S and R/W bits to
`U` and `RW`: for every `W` in 0..1 and `cpl` in 0..3, if bit
`8 + ((W << 2) | cpl)` of the installed `accessBits` is set, then
`priv_check[(wp << 4) | ((cpl == 3) << 3) | (U << 2) | (RW << 1) | W]` is 1. -/
theorem C34_cached_bits_within_priv_check (s : BX_CPU_C) (laddr curr_pl rw : Nat)
    (access_type : AccessType) (p W cpl : Nat)
    (hmiss : ¬ tlb_hit s laddr curr_pl (isWrite_of rw))
    (hret : (translate_linear s laddr curr_pl rw access_type).1 = Outcome.ok p)
    (hW : W ≤ 1) (hc : cpl ≤ 3)
    (hbit : ((translate_linear s laddr curr_pl rw access_type).2.TLB
      (BX_TLB_INDEX_OF (LPFOf laddr) 0)).accessBits.testBit (8 + ((W <<< 2) ||| cpl)) = true) :
    priv_check
      ((s.cr0_WP.toNat <<< 4) ||| ((if cpl = 3 then 1 else 0) <<< 3) |||
        ((if walk_combined s laddr &&& 4 ≠ 0 then 1 else 0) <<< 2) |||
        ((if walk_combined s laddr &&& 2 ≠ 0 then 1 else 0) <<< 1) ||| W) = 1 := by
  obtain ⟨hv, hp⟩ := translate_linear_ok_valid s laddr curr_pl rw access_type hmiss p hret
  obtain ⟨h, hacc⟩ := installed_accessBits s laddr curr_pl rw access_type hmiss hv hp
  rw [hacc, fill_accessBits_testBit, walk_access_perm_bits] at hbit
  have hk : (W <<< 2) ||| cpl < 8 := by
    interval_cases W <;> interval_cases cpl <;> decide
  have h31 : ¬ (31 = 8 + ((W <<< 2) ||| cpl)) := by omega
  have h8 : ¬ (8 + ((W <<< 2) ||| cpl) < 8) := by omega
  simp only [h31, h8, decide_False, Bool.and_false, Bool.or_false, Bool.false_and] at hbit
  have hs := fill_perm_bits_sound s (walk_combined s laddr) (isWrite_of rw) curr_pl W cpl
    (isWrite_of_le rw) hW hc hp.1 hbit
  unfold priv_index pl_of at hs
  rw [and6_bits, ← Nat.or_assoc] at hs
  exact hs

/-- C34 on scenario 3 of the spec: the CPL 0 write under CR0.WP = 0 to the
read-only user page installs `accessBits` 0x7f00; bit 14 (write at CPL 2) is set
and `priv_check[(0 << 4) | (0 << 3) | (1 << 2) | (0 << 1) | 1]` is 1. -/
theorem C34_cached_bits_within_priv_check_witness :
    ((translate_linear (demo_legacy_with false false 0x2007 0x34005) 0 0 BX_WRITE
      AccessType.DATA_ACCESS).2.TLB 0).accessBits = 0x7f00 ∧
    priv_check 5 = 1 :=
  ⟨by decide,
    C34_cached_bits_within_priv_check (demo_legacy_with false false 0x2007 0x34005) 0 0 BX_WRITE
      AccessType.DATA_ACCESS 0x34000 1 2 (by decide) (by decide) (by decide) (by decide)
      (by decide)⟩

/-- C35, evaluated: PAE mode with EFER.NXE = 1, the PTE of linear page 0 being a
present writable user page with bit 63 (NX) set, the TLB as `TLB_init` leaves it.
A CPL 3 code fetch of 0x10 in that state raises `#PF` with error code 0x15 (bits
0 and 4 set).  A CPL 3 data read of 0x10 returns 0x34010, writes nothing to guest
memory (every entry already has A set) and leaves a reachable state in which the
PTE still has bit 63 set; the CPL 3 code fetch of 0x10 made in that state passes
the TLB fast test and returns 0x34010 instead of raising `#PF`. -/
theorem C35_code_fetch_after_data_read_not_faulted :
    (pae_pte_entry (TLB_init (demo_pae_nxe true 0x2021 0x3027 0x8000000000034027))
      0x10).testBit 63 = true ∧
    (translate_linear (TLB_init (demo_pae_nxe true 0x2021 0x3027 0x8000000000034027)) 0x10 3
      BX_READ AccessType.CODE_ACCESS).1 = Outcome.exception BX_PF_EXCEPTION 0x15 ∧
    (translate_linear (TLB_init (demo_pae_nxe true 0x2021 0x3027 0x8000000000034027)) 0x10 3
      BX_READ AccessType.DATA_ACCESS).1 = Outcome.ok 0x34010 ∧
    (translate_linear (TLB_init (demo_pae_nxe true 0x2021 0x3027 0x8000000000034027)) 0x10 3
      BX_READ AccessType.DATA_ACCESS).2.trace =
        [MemOp.read 0x1000 8, MemOp.read 0x2000 8, MemOp.read 0x3000 8] ∧
    Reachable (translate_linear (TLB_init (demo_pae_nxe true 0x2021 0x3027 0x8000000000034027))
      0x10 3 BX_READ AccessType.DATA_ACCESS).2 ∧
    (pae_pte_entry (translate_linear
      (TLB_init (demo_pae_nxe true 0x2021 0x3027 0x8000000000034027)) 0x10 3
      BX_READ AccessType.DATA_ACCESS).2 0x10).testBit 63 = true ∧
    tlb_hit (translate_linear (TLB_init (demo_pae_nxe true 0x2021 0x3027 0x8000000000034027))
      0x10 3 BX_READ AccessType.DATA_ACCESS).2 0x10 3 (isWrite_of BX_READ) ∧
    (translate_linear
      (translate_linear (TLB_init (demo_pae_nxe true 0x2021 0x3027 0x8000000000034027)) 0x10 3
        BX_READ AccessType.DATA_ACCESS).2
      0x10 3 BX_READ AccessType.CODE_ACCESS).1 = Outcome.ok 0x34010 :=
  ⟨by decide, by decide, by decide, by decide,
    Reachable.translate _ 0x10 3 BX_READ AccessType.DATA_ACCESS (Reachable.init _),
    by decide, by decide, by decide⟩

/-- C36: a walk that the TLB does not short-cut and that returns.  If it was made
for a read (`rw = BX_READ`), the installed `accessBits` have bits 12..15 and
bits 4..7 clear, so a later write to the page at any CPL fails the fast test and
walks the tables again.  Conversely, if a write at some CPL passes the fast test
on the installed entry, the walk was made for a write, and the leaf entry in
guest memory has D (bit 6) set when the walk returns. -/
theorem C36_read_walk_grants_no_write (s : BX_CPU_C) (laddr curr_pl rw : Nat)
    (access_type : AccessType) (p : Nat)
    (hmiss : ¬ tlb_hit s laddr curr_pl (isWrite_of rw))
    (hret : (translate_linear s laddr curr_pl rw access_type).1 = Outcome.ok p) :
    (rw = BX_READ →
      (∀ n, (12 ≤ n ∧ n < 16) ∨ (4 ≤ n ∧ n < 8) →
        ((translate_linear s laddr curr_pl rw access_type).2.TLB
          (BX_TLB_INDEX_OF (LPFOf laddr) 0)).accessBits.testBit n = false) ∧
      (∀ cpl rw2 : Nat, cpl ≤ 3 → rw2 ≥ BX_WRITE → ∀ t2 : AccessType,
        ¬ tlb_hit (translate_linear s laddr curr_pl rw access_type).2 laddr cpl
          (isWrite_of rw2) ∧
        translate_linear (translate_linear s laddr curr_pl rw access_type).2 laddr cpl rw2 t2 =
          if (translate_linear s laddr curr_pl rw access_type).2.cr4_PAE then
            pae_walk (translate_linear s laddr curr_pl rw access_type).2 laddr (pl_of cpl)
              (isWrite_of rw2) rw2 t2
          else
            legacy_walk (translate_linear s laddr curr_pl rw access_type).2 laddr (pl_of cpl)
              (isWrite_of rw2) rw2 t2)) ∧
    (∀ cpl rw2 : Nat, cpl ≤ 3 → rw2 ≥ BX_WRITE →
      tlb_hit (translate_linear s laddr curr_pl rw access_type).2 laddr cpl (isWrite_of rw2) →
      rw ≥ BX_WRITE ∧
      (readLE (translate_linear s laddr curr_pl rw access_type).2.mem (walk_leaf_addr s laddr)
        (walk_entry_len s)).testBit 6 = true) := by
  obtain ⟨hv, hp⟩ := translate_linear_ok_valid s laddr curr_pl rw access_type hmiss p hret
  obtain ⟨h, hacc⟩ := installed_accessBits s laddr curr_pl rw access_type hmiss hv hp
  have hmem := (translate_linear_ok s laddr curr_pl rw access_type hmiss hv hp).2.1
  have hread : rw = BX_READ → ∀ n, (12 ≤ n ∧ n < 16) ∨ (4 ≤ n ∧ n < 8) →
      ((translate_linear s laddr curr_pl rw access_type).2.TLB
        (BX_TLB_INDEX_OF (LPFOf laddr) 0)).accessBits.testBit n = false := by
    intro hr n hn
    have hw : isWrite_of rw = 0 := by rw [hr]; rfl
    have hclear : ∀ m, 12 ≤ m → (fill_perm_bits (walk_access s laddr) 0).testBit m = false := by
      intro m hm
      cases hb : (fill_perm_bits (walk_access s laddr) 0).testBit m
      · rfl
      · exfalso
        have hrange := fill_perm_bits_range _ _ _ hb
        have hm2 : m = 12 ∨ m = 13 ∨ m = 14 ∨ m = 15 := by omega
        revert hb
        rcases fill_perm_bits_read (walk_access s laddr) with e0 | e0 <;> rw [e0] <;>
          rcases hm2 with e | e | e | e <;> subst e <;> decide
    rw [hacc, hw, fill_accessBits_testBit]
    have h31 : ¬ (31 = n) := by omega
    rcases hn with hn | hn
    · have h8 : ¬ (n < 8) := by omega
      simp only [hclear n hn.1, h31, h8, decide_False, Bool.and_false, Bool.or_false,
        Bool.false_and]
    · have hlow : (fill_perm_bits (walk_access s laddr) 0).testBit n = false := by
        cases hb : (fill_perm_bits (walk_access s laddr) 0).testBit n
        · rfl
        · have := fill_perm_bits_range _ _ _ hb
          omega
      simp only [hlow, hclear (n + 8) (by omega), h31, decide_False, Bool.and_false,
        Bool.or_false]
  have hfast : ∀ cpl rw2 : Nat, cpl ≤ 3 → rw2 ≥ BX_WRITE →
      tlb_hit (translate_linear s laddr curr_pl rw access_type).2 laddr cpl (isWrite_of rw2) →
      ((translate_linear s laddr curr_pl rw access_type).2.TLB
        (BX_TLB_INDEX_OF (LPFOf laddr) 0)).accessBits.testBit (12 + cpl) = true := by
    intro cpl rw2 hc hw2 hit
    have h2 := (fast_test_iff _ _ _).mp hit.2
    rw [isWrite_of_write rw2 hw2] at h2
    have e : 8 + (((1 : Nat) <<< 2) ||| cpl) = 12 + cpl := by
      interval_cases cpl <;> decide
    rw [e] at h2
    exact h2
  refine ⟨fun hr => ⟨hread hr, ?_⟩, ?_⟩
  · intro cpl rw2 hc hw2 t2
    have hno : ¬ tlb_hit (translate_linear s laddr curr_pl rw access_type).2 laddr cpl
        (isWrite_of rw2) := by
      intro hit
      have h1 := hfast cpl rw2 hc hw2 hit
      rw [hread hr (12 + cpl) (Or.inl (by omega))] at h1
      exact Bool.false_ne_true h1
    exact ⟨hno, translate_linear_miss _ laddr cpl rw2 t2 hno⟩
  · intro cpl rw2 hc hw2 hit
    have h1 := hfast cpl rw2 hc hw2 hit
    have hw : rw ≥ BX_WRITE := by
      by_contra hlt
      have hr : rw = BX_READ := by
        unfold BX_WRITE at hlt
        unfold BX_READ
        omega
      rw [hread hr (12 + cpl) (Or.inl (by omega))] at h1
      exact Bool.false_ne_true h1
    refine ⟨hw, ?_⟩
    rw [hmem]
    exact (walk_final_leaf_bits s laddr (isWrite_of rw) (isWrite_of_le rw)).2
      (isWrite_of_write rw hw)

/-- C36 on scenario 2 of the spec: the CPL 0 read of linear address 0 installs
`accessBits` 0x0700, a CPL 0 write that follows misses the fast test, and the
entry that this write installs passes it with D set in the PTE at 0x2000. -/
theorem C36_read_walk_grants_no_write_witness :
    ((translate_linear (demo_legacy_with false false 0x2003 0x34003) 0 0 BX_READ
      AccessType.DATA_ACCESS).2.TLB 0).accessBits = 0x0700 ∧
    ¬ tlb_hit (translate_linear (demo_legacy_with false false 0x2003 0x34003) 0 0 BX_READ
      AccessType.DATA_ACCESS).2 0 0 (isWrite_of BX_WRITE) ∧
    (readLE (translate_linear (demo_legacy_with false false 0x2003 0x34003) 0 0 BX_WRITE
      AccessType.DATA_ACCESS).2.mem 0x2000 4).testBit 6 = true := by
  have h := C36_read_walk_grants_no_write (demo_legacy_with false false 0x2003 0x34003) 0 0
    BX_READ AccessType.DATA_ACCESS 0x34000 (by decide) (by decide)
  have g := C36_read_walk_grants_no_write (demo_legacy_with false false 0x2003 0x34003) 0 0
    BX_WRITE AccessType.DATA_ACCESS 0x34000 (by decide) (by decide)
  exact ⟨by decide, ((h.1 rfl).2 0 BX_WRITE (by decide) (by decide) AccessType.DATA_ACCESS).1,
    (g.2 0 BX_WRITE (by decide) (by decide) (by decide)).2⟩

/-- C37: a walk that the TLB does not short-cut and whose PDE has PS = 1.  In
non-PAE mode with CR4.PSE = 0 and the PDE present, the PDE is not a leaf: the PTE
at `(PDE & 0xFFFFF000) | (laddr[21:12] * 4)` is read after the PDE, a PTE with
P = 0 gives a not-present `#PF`, and a present PTE that passes the permission
check supplies the frame, `(PTE & 0xFFFFF000) | (laddr & 0xFFF)` being returned.
In PAE or long mode, for either value of CR4.PSE, a walk whose entries pass their
checks takes the PDE as a 2M leaf: it reads no PTE and returns
`(PDE & 0x000FFFFFFFE00000) | (laddr & 0x001FF000) | (laddr & 0xFFF)`. -/
theorem C37_large_page_selection (s : BX_CPU_C) (laddr curr_pl rw : Nat)
    (access_type : AccessType)
    (hmiss : ¬ tlb_hit s laddr curr_pl (isWrite_of rw))
    (hps : ((if s.cr4_PAE then pae_pde_entry s laddr else pde_entry s laddr) &&& 0x80) ≠ 0) :
    (s.cr4_PAE = false → s.cr4_PSE = false → (pde_entry s laddr &&& 0x01) ≠ 0 →
      ¬ walk_large s laddr ∧
      pte_addr s laddr = (pde_entry s laddr &&& 0xFFFFF000) ||| (laddr / 2 ^ 12 % 1024 * 4) ∧
      pte_entry s laddr = readLE s.mem (pte_addr s laddr) 4 ∧
      ((pte_entry s laddr &&& 0x01) = 0 →
        (translate_linear s laddr curr_pl rw access_type).1 =
          Outcome.exception BX_PF_EXCEPTION
            (pf_error_code s ERROR_NOT_PRESENT (pl_of curr_pl) (isWrite_of rw) access_type)) ∧
      ((pte_entry s laddr &&& 0x01) ≠ 0 → walk_permitted s laddr curr_pl rw access_type →
        (translate_linear s laddr curr_pl rw access_type).1 =
          Outcome.ok ((pte_entry s laddr &&& 0xFFFFF000) ||| (laddr &&& 0xFFF)) ∧
        ((translate_linear s laddr curr_pl rw access_type).2.TLB
          (BX_TLB_INDEX_OF (LPFOf laddr) 0)).ppf = pte_entry s laddr &&& 0xFFFFF000 ∧
        reads_of (translate_linear s laddr curr_pl rw access_type).2.trace =
          reads_of s.trace ++ [(pde_addr s laddr, 4), (pte_addr s laddr, 4)])) ∧
    (s.cr4_PAE = true → walk_valid s laddr → walk_permitted s laddr curr_pl rw access_type →
      ∀ pse : Bool, s.cr4_PSE = pse →
        walk_large s laddr ∧
        (translate_linear s laddr curr_pl rw access_type).1 =
          Outcome.ok (((pae_pde_entry s laddr &&& 0x000FFFFFFFE00000) |||
            (laddr &&& 0x001FF000)) ||| (laddr &&& 0xFFF)) ∧
        ((translate_linear s laddr curr_pl rw access_type).2.TLB
          (BX_TLB_INDEX_OF (LPFOf laddr) 0)).ppf =
            (pae_pde_entry s laddr &&& 0x000FFFFFFFE00000) ||| (laddr &&& 0x001FF000) ∧
        reads_of (translate_linear s laddr curr_pl rw access_type).2.trace =
          reads_of s.trace ++ (if s.long_mode then [(pml4_addr s laddr, 8)] else []) ++
            [(pdpe_addr s laddr, 8), (pae_pde_addr s laddr, 8)]) := by
  constructor
  · intro hpae hpse hp
    have hl : ¬ ((pde_entry s laddr &&& 0x80) ≠ 0 ∧ s.cr4_PSE = true) := by
      rw [hpse]
      exact fun hc => Bool.false_ne_true hc.2
    have hnl : ¬ walk_large s laddr := by
      unfold walk_large
      simp only [hpae, if_false, Bool.false_eq_true]
      exact hl
    refine ⟨hnl, ?_, rfl, ?_, ?_⟩
    · unfold pte_addr; rw [pte_index]
    · intro hnp
      apply translate_linear_not_present s laddr curr_pl rw access_type hmiss
      unfold walk_not_present
      simp only [hpae, if_false, Bool.false_eq_true]
      exact Or.inr ⟨hp, hnl, hnp⟩
    · intro hpte hperm
      have hv : walk_valid s laddr := by
        unfold walk_valid
        simp only [hpae, if_false, Bool.false_eq_true]
        exact ⟨hp, fun _ => hpte⟩
      obtain ⟨h1, _, h3, h4, _⟩ := translate_linear_ok s laddr curr_pl rw _ hmiss hv hperm
      have hppf : walk_ppf s laddr = pte_entry s laddr &&& 0xfffff000 := by
        unfold walk_ppf
        simp only [hpae, if_false, Bool.false_eq_true]
        rw [if_neg hl]
      refine ⟨?_, ?_, ?_⟩
      · rw [h1, hppf]
      · rw [h4, hppf]
      · rw [h3, reads_of_walk_final_state]
        unfold walk_check_state
        simp only [hpae, if_false, Bool.false_eq_true]
        rw [if_neg hl, reads_of_legacy_leaf_state]
  · intro hpae hv hperm pse _
    rw [if_pos hpae] at hps
    obtain ⟨h1, _, h3, h4, _⟩ := translate_linear_ok s laddr curr_pl rw _ hmiss hv hperm
    have hppf : walk_ppf s laddr =
        (pae_pde_entry s laddr &&& 0x000fffffffe00000) ||| (laddr &&& 0x001ff000) := by
      unfold walk_ppf
      rw [if_pos hpae, if_pos hps]
    refine ⟨?_, ?_, ?_, ?_⟩
    · unfold walk_large
      rw [if_pos hpae]
      exact hps
    · rw [h1, hppf]
    · rw [h4, hppf]
    · rw [h3, reads_of_walk_final_state]
      unfold walk_check_state
      rw [if_pos hpae, if_pos hps, reads_of_pte_state]

/-- C37 on linear address 0x123456 with a PDE that has PS = 1.  Non-PAE with
CR4.PSE = 0 and PDE 0x2087: the PTE 0x34007 at 0x2000 + 0x123 * 4 is read and the
result is 0x34456.  PAE with PDE 0x00A00087, CR4.PSE = 0 and CR4.PSE = 1 alike:
no PTE is read and the result is 0x00B23456. -/
theorem C37_large_page_selection_witness :
    (translate_linear
      { demo_legacy_with false false 0x2087 0 with
        mem := writeLE (demo_legacy_with false false 0x2087 0).mem 0x248c 4 0x34007 }
      0x123456 3 BX_WRITE AccessType.DATA_ACCESS).1 = Outcome.ok 0x34456 ∧
    reads_of (translate_linear
      { demo_legacy_with false false 0x2087 0 with
        mem := writeLE (demo_legacy_with false false 0x2087 0).mem 0x248c 4 0x34007 }
      0x123456 3 BX_WRITE AccessType.DATA_ACCESS).2.trace = [(0x1000, 4), (0x248c, 4)] ∧
    (translate_linear (demo_pae 0x2001 0x00A00087 0) 0x123456 3 BX_WRITE
      AccessType.DATA_ACCESS).1 = Outcome.ok 0x00B23456 ∧
    (translate_linear { demo_pae 0x2001 0x00A00087 0 with cr4_PSE := true } 0x123456 3 BX_WRITE
      AccessType.DATA_ACCESS).1 = Outcome.ok 0x00B23456 ∧
    reads_of (translate_linear { demo_pae 0x2001 0x00A00087 0 with cr4_PSE := true } 0x123456 3
      BX_WRITE AccessType.DATA_ACCESS).2.trace = [(0x1000, 8), (0x2000, 8)] := by
  have h := C37_large_page_selection
    { demo_legacy_with false false 0x2087 0 with
      mem := writeLE (demo_legacy_with false false 0x2087 0).mem 0x248c 4 0x34007 }
    0x123456 3 BX_WRITE AccessType.DATA_ACCESS (by decide) (by decide)
  have g := C37_large_page_selection (demo_pae 0x2001 0x00A00087 0) 0x123456 3 BX_WRITE
    AccessType.DATA_ACCESS (by decide) (by decide)
  have k := C37_large_page_selection { demo_pae 0x2001 0x00A00087 0 with cr4_PSE := true }
    0x123456 3 BX_WRITE AccessType.DATA_ACCESS (by decide) (by decide)
  have h4 := (h.1 rfl rfl (by decide)).2.2.2.2 (by decide) (by decide)
  have g2 := g.2 rfl (by decide) (by decide) false rfl
  have k2 := k.2 rfl (by decide) (by decide) true rfl
  exact ⟨h4.1.trans (by decide), h4.2.2.trans (by decide), g2.2.1.trans (by decide),
    k2.2.1.trans (by decide), k2.2.2.2.trans (by decide)⟩

end Bochs
